import Mathlib

/-!
Snapshot core of the snapshot-clone server: precondition operations.

A shallow embedding of `SnapshotCoreImpl::CreateSnapshotPre` and
`SnapshotCoreImpl::DeleteSnapshotPre`
(`src/snapshotcloneserver/snapshot/snapshot_core.cpp`).

The two operations run under a name lock (`NameLockGuard`), so each call is
embedded as one sequential step on the metadata store.  The collaborators the
core calls through pointers (`metaStore_`, `client_`, `snapshotRef_`,
`UUIDGenerator`) are not part of the embedded file: their answers are explicit
arguments of the step, and the metadata store is a list of records.
-/

namespace curve
namespace snapshotcloneserver

/-! ## Data model -/

/-- Modelled from the spec: the `Status` enumeration of a snapshot, declared in a
header that is not under src/. The six values are the ones of the data model
(section 3). With this type the `default:` branch of the `switch` in
`DeleteSnapshotPre` has no value left to handle. -/
inductive Status
  | pending
  | done
  | error
  | canceling
  | deleting
  | errorDeleting
  deriving DecidableEq

/-- The `UUID` of the source is a `std::string`. -/
abbrev UUID := String

/-- Modelled from the spec: the constant `kUnInitializeSeqNum` ("UnInitialized"),
declared in a header that is not under src/. The spec names it without a value;
no statement below depends on the number chosen here. -/
def kUnInitializeSeqNum : Nat := 0

/-- The record `SnapshotInfo`: the attributes listed in the data model, read and
written by the core through getters and setters. -/
structure SnapshotInfo where
  uuid : UUID
  user : String
  fileName : String
  snapshotName : String
  seqNum : Nat
  chunkSize : Nat
  segmentSize : Nat
  fileLength : Nat
  time : Nat
  status : Status
  deriving DecidableEq

/-- Modelled from the spec: the four-argument constructor
`SnapshotInfo(uuid, user, file, snapshotName)`, declared in a header that is not
under src/. Per section 4.4 the fresh record has `seqNum = UnInitialized`; the
sizes, the length and the time are not fixed by the spec and start at 0. -/
def SnapshotInfo.create (uuid : UUID) (user fileName snapshotName : String) :
    SnapshotInfo :=
  { uuid := uuid, user := user, fileName := fileName, snapshotName := snapshotName,
    seqNum := kUnInitializeSeqNum, chunkSize := 0, segmentSize := 0, fileLength := 0,
    time := 0, status := Status.pending }

/-- The setter `SnapshotInfo::SetStatus`. -/
def SnapshotInfo.SetStatus (info : SnapshotInfo) (s : Status) : SnapshotInfo :=
  { info with status := s }

/-- Modelled from the spec: the error kinds of section 7, the `kErrCode...`
constants of `common/define.h` (not under src/). `passThrough ret` is a negative
return value of a collaborator that the core hands back unchanged
(`return ret;`). The functions of the core return an `int`: a handed-back integer
may be the integer of one of the constants, which the constructors keep apart;
`ErrCode.toInt` gives the integer returned. -/
inductive ErrCode
  | Success
  | InternalError
  | TaskExist
  | InvalidUser
  | FileNotExist
  | FileStatusInvalid
  | ChunkSizeNotAligned
  | FileNameNotMatch
  | SnapshotCannotDeleteUnfinished
  | SnapshotCannotCreateWhenError
  | SnapshotCannotDeleteCloning
  | SnapshotCountReachLimit
  | passThrough (ret : Int)
  deriving DecidableEq

abbrev kErrCodeSuccess : ErrCode := ErrCode.Success
abbrev kErrCodeInternalError : ErrCode := ErrCode.InternalError
abbrev kErrCodeTaskExist : ErrCode := ErrCode.TaskExist
abbrev kErrCodeInvalidUser : ErrCode := ErrCode.InvalidUser
abbrev kErrCodeFileNotExist : ErrCode := ErrCode.FileNotExist
abbrev kErrCodeFileStatusInvalid : ErrCode := ErrCode.FileStatusInvalid
abbrev kErrCodeFileNameNotMatch : ErrCode := ErrCode.FileNameNotMatch
abbrev kErrCodeSnapshotCannotDeleteUnfinished : ErrCode :=
  ErrCode.SnapshotCannotDeleteUnfinished
abbrev kErrCodeSnapshotCannotCreateWhenError : ErrCode :=
  ErrCode.SnapshotCannotCreateWhenError
abbrev kErrCodeSnapshotCannotDeleteCloning : ErrCode :=
  ErrCode.SnapshotCannotDeleteCloning
abbrev kErrCodeSnapshotCountReachLimit : ErrCode := ErrCode.SnapshotCountReachLimit

/-- Modelled from the spec: the return value of a volume-client call
(`LIBCURVE_ERROR`, declared in the client library, not under src/). The
constructor `OK` is the value `LIBCURVE_ERROR::OK`; a constructor `X` other than
`OK` is the value `-LIBCURVE_ERROR::X` the core compares the return value with;
`other ret` is any return value the core has no case for. -/
inductive LibcurveRet
  | OK
  | NOTEXIST
  | AUTHFAIL
  | UNDER_SNAPSHOT
  | DELETING
  | NOT_ALLOCATE
  | other (ret : Int)
  deriving DecidableEq

/-- Modelled from the spec: the `FileStatus` of a volume, declared in the client
library (not under src/). The spec names `Created`, `Cloned` and `Deleting`;
`other raw` is any further value of the enumeration. -/
inductive FileStatus
  | Created
  | Cloned
  | Deleting
  | other (raw : Nat)
  deriving DecidableEq

/-- The fields of the client's `FInfo` that the core reads. -/
structure FInfo where
  filestatus : FileStatus
  chunksize : Nat
  segmentsize : Nat
  length : Nat
  ctime : Nat
  deriving DecidableEq

/-! ## Metadata store -/

/-- Modelled from the spec: the metadata store `MetaStore` (an external
collaborator, its code is not under src/). It owns the persistent record of all
`SnapshotInfo`; the records are kept in the order they were added. -/
structure MetaStore where
  records : List SnapshotInfo
  deriving DecidableEq

/-- Modelled from the spec: `MetaStore.GetSnapshotList(file)`, the records whose
volume is `file`. (The core ignores the integer this call returns.) -/
def MetaStore.GetSnapshotList (m : MetaStore) (file : String) : List SnapshotInfo :=
  m.records.filter (fun s => s.fileName == file)

/-- Modelled from the spec: `MetaStore.GetSnapshotInfo(uuid)`. `none` is the
negative return of a missing uuid, `some s` the return 0 with `s` written to the
out parameter. -/
def MetaStore.GetSnapshotInfo (m : MetaStore) (uuid : UUID) : Option SnapshotInfo :=
  m.records.find? (fun s => s.uuid == uuid)

/-- Modelled from the spec: `MetaStore.AddSnapshot(info)`. `ret` is the integer the
store answers; the operation is atomic, so a negative answer leaves the store as
it was and any other answer has added the record. -/
def MetaStore.AddSnapshot (m : MetaStore) (info : SnapshotInfo) (ret : Int) : MetaStore :=
  if ret < 0 then m else { records := m.records ++ [info] }

/-- Modelled from the spec: `MetaStore.UpdateSnapshot(info)`. `ret` is the integer
the store answers; a negative answer leaves the store as it was, any other answer
has replaced the record stored under the uuid of `info`. -/
def MetaStore.UpdateSnapshot (m : MetaStore) (info : SnapshotInfo) (ret : Int) : MetaStore :=
  if ret < 0 then m
  else { records := m.records.map (fun s => if s.uuid == info.uuid then info else s) }

/-- Modelled from the spec: `MetaStore.DeleteSnapshot(uuid)`. A negative answer
leaves the store as it was; otherwise the record of `uuid` is gone (deleting a
missing uuid is a success that changes nothing). -/
def MetaStore.DeleteSnapshot (m : MetaStore) (uuid : UUID) (ret : Int) : MetaStore :=
  if ret < 0 then m else { records := m.records.filter (fun s => !(s.uuid == uuid)) }

/-- A mutating call issued to the metadata store. -/
inductive MetaCall
  | AddSnapshot (info : SnapshotInfo)
  | UpdateSnapshot (info : SnapshotInfo)
  | DeleteSnapshot (uuid : UUID)
  deriving DecidableEq

/-! ## The core -/

/-- The configuration members of `SnapshotCoreImpl` read in `snapshot_core.cpp`. -/
structure SnapshotCoreImpl where
  maxSnapshotLimit_ : Nat
  snapshotCoreThreadNum_ : Nat
  chunkSplitSize_ : Nat
  checkSnapshotStatusIntervalMs_ : Nat
  mdsSessionTimeUs_ : Nat
  deriving DecidableEq

/-- What a precondition operation leaves behind: the returned code, the content of
the out parameter `snapInfo`, the metadata store, and the mutating calls issued to
the metadata store, in order. -/
structure PreResult where
  ret : ErrCode
  snapInfo : SnapshotInfo
  metaStore : MetaStore
  metaCalls : List MetaCall
  deriving DecidableEq

/-- The answers of the collaborators during one `CreateSnapshotPre`:
`client_->GetFileInfo` (return value and `FInfo`), the uuid produced by
`UUIDGenerator().GenerateUUID()`, and the return value of
`metaStore_->AddSnapshot`. -/
structure CreateAnswers where
  getFileInfoRet : LibcurveRet
  fInfo : FInfo
  uuid : UUID
  addSnapshotRet : Int
  deriving DecidableEq

/-- `SnapshotCoreImpl::CreateSnapshotPre` (snapshot_core.cpp, lines 35-100).
`snapInfo` is the content of the out parameter before the call. -/
def CreateSnapshotPre (core : SnapshotCoreImpl) (metaStore : MetaStore)
    (ans : CreateAnswers) (file user snapshotName : String)
    (snapInfo : SnapshotInfo) : PreResult :=
  let fileInfo := metaStore.GetSnapshotList file
  if fileInfo.any (fun snap => Status.error == snap.status) then
    ⟨kErrCodeSnapshotCannotCreateWhenError, snapInfo, metaStore, []⟩
  else if fileInfo.length ≥ core.maxSnapshotLimit_ then
    ⟨kErrCodeSnapshotCountReachLimit, snapInfo, metaStore, []⟩
  else
    match ans.getFileInfoRet with
    | LibcurveRet.NOTEXIST => ⟨kErrCodeFileNotExist, snapInfo, metaStore, []⟩
    | LibcurveRet.AUTHFAIL => ⟨kErrCodeInvalidUser, snapInfo, metaStore, []⟩
    | LibcurveRet.OK =>
      if ans.fInfo.filestatus ≠ FileStatus.Created ∧
          ans.fInfo.filestatus ≠ FileStatus.Cloned then
        ⟨kErrCodeFileStatusInvalid, snapInfo, metaStore, []⟩
      else
        let info := (SnapshotInfo.create ans.uuid user file snapshotName).SetStatus
          Status.pending
        let ret := ans.addSnapshotRet
        let metaStore1 := metaStore.AddSnapshot info ret
        if ret < 0 then
          ⟨ErrCode.passThrough ret, snapInfo, metaStore1, [MetaCall.AddSnapshot info]⟩
        else
          ⟨kErrCodeSuccess, info, metaStore1, [MetaCall.AddSnapshot info]⟩
    | _ => ⟨kErrCodeInternalError, snapInfo, metaStore, []⟩

/-- The answers of the collaborators during one `DeleteSnapshotPre`:
`snapshotRef_->GetSnapshotRef(uuid)` and the return value of
`metaStore_->UpdateSnapshot`. -/
structure DeleteAnswers where
  snapshotRef : Nat
  updateSnapshotRet : Int
  deriving DecidableEq

/-- `SnapshotCoreImpl::DeleteSnapshotPre` (snapshot_core.cpp, lines 679-729).
`snapInfo` is the content of the out parameter before the call. -/
def DeleteSnapshotPre (metaStore : MetaStore) (ans : DeleteAnswers)
    (uuid : UUID) (user fileName : String) (snapInfo : SnapshotInfo) : PreResult :=
  match metaStore.GetSnapshotInfo uuid with
  | none => ⟨kErrCodeSuccess, snapInfo, metaStore, []⟩
  | some snapInfo1 =>
    if snapInfo1.user ≠ user then
      ⟨kErrCodeInvalidUser, snapInfo1, metaStore, []⟩
    else if fileName ≠ snapInfo1.fileName then
      ⟨kErrCodeFileNameNotMatch, snapInfo1, metaStore, []⟩
    else
      let afterSwitch : ErrCode ⊕ SnapshotInfo :=
        match snapInfo1.status with
        | Status.done => Sum.inr (snapInfo1.SetStatus Status.deleting)
        | Status.error => Sum.inr (snapInfo1.SetStatus Status.errorDeleting)
        | Status.canceling => Sum.inl kErrCodeTaskExist
        | Status.deleting => Sum.inl kErrCodeTaskExist
        | Status.errorDeleting => Sum.inl kErrCodeTaskExist
        | Status.pending => Sum.inl kErrCodeSnapshotCannotDeleteUnfinished
      match afterSwitch with
      | Sum.inl code => ⟨code, snapInfo1, metaStore, []⟩
      | Sum.inr snapInfo2 =>
        if ans.snapshotRef > 0 then
          ⟨kErrCodeSnapshotCannotDeleteCloning, snapInfo2, metaStore, []⟩
        else
          let ret := ans.updateSnapshotRet
          let metaStore1 := metaStore.UpdateSnapshot snapInfo2 ret
          if ret < 0 then
            ⟨ErrCode.passThrough ret, snapInfo2, metaStore1, [MetaCall.UpdateSnapshot snapInfo2]⟩
          else
            ⟨kErrCodeSuccess, snapInfo2, metaStore1, [MetaCall.UpdateSnapshot snapInfo2]⟩

/-- One call of `CreateSnapshotPre` together with everything the environment
answers during it. -/
structure CreateCall where
  file : String
  user : String
  snapshotName : String
  snapInfo : SnapshotInfo
  ans : CreateAnswers
  deriving DecidableEq

/-- The metadata store after a finite sequence of `CreateSnapshotPre` calls, run
one after the other. -/
def runCreateSnapshotPre (core : SnapshotCoreImpl) :
    MetaStore → List CreateCall → MetaStore
  | m, [] => m
  | m, c :: cs =>
    runCreateSnapshotPre core
      (CreateSnapshotPre core m c.ans c.file c.user c.snapshotName c.snapInfo).metaStore cs

/-- Every volume has at most `maxSnapshotLimit_` snapshot records. -/
def SnapshotCap (core : SnapshotCoreImpl) (m : MetaStore) : Prop :=
  ∀ file : String, (m.GetSnapshotList file).length ≤ core.maxSnapshotLimit_

/-! ## Pipelines: data held by the collaborators -/

/-- The identity of a chunk on the chunk servers (`ChunkIDInfo` of the client
library): the fields the core logs and hands on. -/
structure ChunkIDInfo where
  cid_ : Nat
  cpid_ : Nat
  lpid_ : Nat
  deriving DecidableEq

/-- The field of the client's `SegmentInfo` that the core reads. -/
structure SegmentInfo where
  chunkvec : List ChunkIDInfo
  deriving DecidableEq

/-- The field of the client's `ChunkInfoDetail` that the core reads. -/
structure ChunkInfoDetail where
  chunkSn : List Nat
  deriving DecidableEq

/-- Modelled from the spec: the key `ChunkDataName(v, seq, chunkIndex)` of a chunk
blob in the object store (declared in the data store's header, not under src/). -/
structure ChunkDataName where
  fileName_ : String
  chunkSeqNum_ : Nat
  chunkIndex_ : Nat
  deriving DecidableEq

/-- Modelled from the spec: the key `ChunkIndexDataName(v, n)` of a chunk index in
the object store. -/
structure ChunkIndexDataName where
  fileName_ : String
  fileSeqNum_ : Nat
  deriving DecidableEq

/-- Modelled from the spec: chunk index data, a mapping from chunk index to the
sequence number of the chunk, for one volume. The entries are kept in the order of
the chunk indices. -/
structure ChunkIndexData where
  fileName_ : String
  chunkMap : List (Nat × Nat)
  deriving DecidableEq

/-- The entries of a chunk map with one more entry, placed in the order of the chunk
indices; an index that is already mapped keeps its entry. -/
def insertChunkEntry (index seq : Nat) : List (Nat × Nat) → List (Nat × Nat)
  | [] => [(index, seq)]
  | e :: rest =>
    if index < e.1 then (index, seq) :: e :: rest
    else if index = e.1 then e :: rest
    else e :: insertChunkEntry index seq rest

/-- Modelled from the spec: `ChunkIndexData::PutChunkDataName`. -/
def ChunkIndexData.PutChunkDataName (d : ChunkIndexData) (name : ChunkDataName) :
    ChunkIndexData :=
  { d with chunkMap := insertChunkEntry name.chunkIndex_ name.chunkSeqNum_ d.chunkMap }

/-- Modelled from the spec: `ChunkIndexData::GetAllChunkIndex`, the chunk indices
in order. -/
def ChunkIndexData.GetAllChunkIndex (d : ChunkIndexData) : List Nat :=
  d.chunkMap.map Prod.fst

/-- Modelled from the spec: `ChunkIndexData::GetChunkDataName`; `none` when the
chunk index is not mapped. -/
def ChunkIndexData.GetChunkDataName (d : ChunkIndexData) (index : Nat) :
    Option ChunkDataName :=
  match d.chunkMap.find? (fun e => e.1 == index) with
  | some e => some ⟨d.fileName_, e.2, index⟩
  | none => none

/-- Modelled from the spec: `ChunkIndexData::IsExistChunkDataName`, whether the
index names this chunk. -/
def ChunkIndexData.IsExistChunkDataName (d : ChunkIndexData) (name : ChunkDataName) :
    Bool :=
  d.GetChunkDataName name.chunkIndex_ == some name

/-- The value a default-constructed `ChunkDataName` holds. -/
def ChunkDataName.default : ChunkDataName := ⟨"", 0, 0⟩

/-- The name the loops of the core obtain for a chunk index: the out parameter of
`GetChunkDataName`, which stays default-constructed when the index is not mapped. -/
def ChunkIndexData.nameAt (d : ChunkIndexData) (index : Nat) : ChunkDataName :=
  (d.GetChunkDataName index).getD ChunkDataName.default

/-- Modelled from the spec: the file-snapshot map, the chunk index data of the other
snapshots of a volume. -/
structure FileSnapMap where
  maps : List ChunkIndexData
  deriving DecidableEq

/-- Modelled from the spec: `FileSnapMap::IsExistChunk`, whether some index of the
map names this chunk. -/
def FileSnapMap.IsExistChunk (m : FileSnapMap) (name : ChunkDataName) : Bool :=
  m.maps.any (fun d => d.IsExistChunkDataName name)

/-- Modelled from the spec: the object store `DataStore` (an external collaborator,
its code is not under src/): the chunk index data by key and the keys of the chunk
blobs it holds (the bytes of a blob are opaque to the core). -/
structure DataStore where
  indexData : List (ChunkIndexDataName × ChunkIndexData)
  chunkData : List ChunkDataName
  deriving DecidableEq

/-- Modelled from the spec: `DataStore.ChunkIndexDataExist(name)`. -/
def DataStore.ChunkIndexDataExist (d : DataStore) (name : ChunkIndexDataName) : Bool :=
  d.indexData.any (fun e => e.1 == name)

/-- Modelled from the spec: `DataStore.GetChunkIndexData(name)`. `ret` is the integer
the store answers; `none` is a negative return: the store reports a failure or holds
no index under the key. -/
def DataStore.GetChunkIndexData (d : DataStore) (name : ChunkIndexDataName) (ret : Int) :
    Option ChunkIndexData :=
  if ret < 0 then none
  else (d.indexData.find? (fun e => e.1 == name)).map Prod.snd

/-- Modelled from the spec: `DataStore.PutChunkIndexData(name, data)`. A negative
answer leaves the store as it was; otherwise the key holds `data`. -/
def DataStore.PutChunkIndexData (d : DataStore) (name : ChunkIndexDataName)
    (data : ChunkIndexData) (ret : Int) : DataStore :=
  if ret < 0 then d
  else { d with indexData := d.indexData.filter (fun e => !(e.1 == name)) ++ [(name, data)] }

/-- Modelled from the spec: `DataStore.DeleteChunkIndexData(name)`. A negative answer
leaves the store as it was; otherwise the key is gone. -/
def DataStore.DeleteChunkIndexData (d : DataStore) (name : ChunkIndexDataName)
    (ret : Int) : DataStore :=
  if ret < 0 then d else { d with indexData := d.indexData.filter (fun e => !(e.1 == name)) }

/-- Modelled from the spec: `DataStore.ChunkDataExist(name)`. -/
def DataStore.ChunkDataExist (d : DataStore) (name : ChunkDataName) : Bool :=
  d.chunkData.contains name

/-- Modelled from the spec: `DataStore.DeleteChunkData(name)`. A negative answer
leaves the store as it was; otherwise the blob is gone. -/
def DataStore.DeleteChunkData (d : DataStore) (name : ChunkDataName) (ret : Int) :
    DataStore :=
  if ret < 0 then d else { d with chunkData := d.chunkData.filter (fun c => !(c == name)) }

/-- Modelled from the spec: the effect of a chunk-transfer subtask (section 4.7, its
code is not under src/). It is failure-atomic: with a negative result nothing is
stored, otherwise the full chunk is in the store under its name. -/
def DataStore.TransferChunk (d : DataStore) (name : ChunkDataName) (ret : Int) : DataStore :=
  if ret < 0 then d
  else if d.chunkData.contains name then d
  else { d with chunkData := d.chunkData ++ [name] }

/-! ## Pipelines: environment, world and task -/

/-- The answers of the environment during a pipeline run. The answers of the two
read-only client calls that carry data are given per argument; every other answer is
given per consultation, numbered by the clock of the world; the value `IsCanceled()`
returns is given per sample, numbered by the sample counter of the task. -/
structure Env where
  /-- The call `client_->CreateSnapshot`: return value and sequence number. -/
  createSnapshot : Nat → LibcurveRet × Nat
  /-- The call `client_->GetSnapshot`: return value and `FInfo`. -/
  getSnapshot : Nat → LibcurveRet × FInfo
  /-- The call `client_->GetSnapshotSegmentInfo`, by offset: return value and
  `SegmentInfo`. -/
  getSnapshotSegmentInfo : Nat → LibcurveRet × SegmentInfo
  /-- The call `client_->GetChunkInfo`, by chunk: return value and
  `ChunkInfoDetail`. -/
  getChunkInfo : ChunkIDInfo → LibcurveRet × ChunkInfoDetail
  /-- The call `client_->DeleteSnapshot`: return value. -/
  deleteSnapshot : Nat → LibcurveRet
  /-- The call `client_->CheckSnapShotStatus`: return value and file status. -/
  checkSnapShotStatus : Nat → LibcurveRet × FileStatus
  /-- The integer a call to the metadata store returns. -/
  metaRet : Nat → Int
  /-- The integer a call to the data store returns. -/
  dataRet : Nat → Int
  /-- The result of a chunk-transfer subtask, asked when it completes. -/
  transferRet : Nat → Int
  /-- How many running chunk transfers complete on their own before the core looks
  at them again. -/
  spontaneous : Nat → Nat
  /-- The value of the cancel flag at a sample. -/
  isCanceled : Nat → Bool

/-- A mutating call the core issues to a collaborator, with the integer answered
where the core reads one. -/
inductive Call
  | metaStore (call : MetaCall) (ret : Int)
  | PutChunkIndexData (name : ChunkIndexDataName) (data : ChunkIndexData) (ret : Int)
  | DeleteChunkIndexData (name : ChunkIndexDataName) (ret : Int)
  | DeleteChunkData (name : ChunkDataName) (ret : Int)
  | ClientCreateSnapshot (fileName user : String)
  | ClientDeleteSnapshot (fileName user : String) (seqNum : Nat)
  | PushTask (name : ChunkDataName) (cidInfo : ChunkIDInfo)
  deriving DecidableEq

/-- The state outside the task: both stores, the chunk transfers that were handed
to the worker pool and are still running although nobody waits for them, the clock
(number of consultations of the environment so far) and the log of mutating calls. -/
structure World where
  metaStore : MetaStore
  dataStore : DataStore
  inflight : List ChunkDataName
  clock : Nat
  calls : List Call
  deriving DecidableEq

/-- The task record `SnapshotTaskInfo`: snapshot info, uuid, file name, progress and
the finished signal. `progressLog` (the values passed to `SetProgress`, in order),
`finishCalls` (the number of calls of `Finish`) and `cancelSamples` (the number of
samples of `IsCanceled()`) are kept for the statements. -/
structure SnapshotTaskInfo where
  snapshotInfo : SnapshotInfo
  uuid_ : UUID
  fileName_ : String
  progress_ : Nat
  isFinished_ : Bool
  progressLog : List Nat
  finishCalls : Nat
  cancelSamples : Nat
  deriving DecidableEq

/-- Why a run does not return: an integer division or remainder by zero, or a
status poll that has not left `Deleting` when the fuel of the model is used up. -/
inductive Abort
  | divisionByZero
  | pollOutOfFuel
  deriving DecidableEq

/-- The return statement a pipeline leaves through: the success path, the end of a
rollback chain after a cancellation point saw the flag, or the error handler. -/
inductive PipelineExit
  | done
  | canceled
  | error
  deriving DecidableEq

/-- Modelled from the spec: `SnapshotTaskInfo::SetProgress`. -/
def SnapshotTaskInfo.SetProgress (task : SnapshotTaskInfo) (p : Nat) : SnapshotTaskInfo :=
  { task with progress_ := p, progressLog := task.progressLog ++ [p] }

/-- Modelled from the spec: `SnapshotTaskInfo::Finish`. -/
def SnapshotTaskInfo.Finish (task : SnapshotTaskInfo) : SnapshotTaskInfo :=
  { task with isFinished_ := true, finishCalls := task.finishCalls + 1 }

/-- Modelled from the spec: `SnapshotTaskInfo::IsCanceled`, one sample of the flag. -/
def SnapshotTaskInfo.IsCanceled (env : Env) (task : SnapshotTaskInfo) :
    Bool × SnapshotTaskInfo :=
  (env.isCanceled task.cancelSamples, { task with cancelSamples := task.cancelSamples + 1 })

/-- The call `metaStore_->UpdateSnapshot(info)`: returned integer and world. -/
def World.UpdateSnapshot (env : Env) (w : World) (info : SnapshotInfo) : Int × World :=
  (env.metaRet w.clock,
   { w with metaStore := w.metaStore.UpdateSnapshot info (env.metaRet w.clock),
            clock := w.clock + 1,
            calls := w.calls ++
              [Call.metaStore (MetaCall.UpdateSnapshot info) (env.metaRet w.clock)] })

/-- The call `metaStore_->DeleteSnapshot(uuid)`: returned integer and world. -/
def World.DeleteSnapshot (env : Env) (w : World) (uuid : UUID) : Int × World :=
  (env.metaRet w.clock,
   { w with metaStore := w.metaStore.DeleteSnapshot uuid (env.metaRet w.clock),
            clock := w.clock + 1,
            calls := w.calls ++
              [Call.metaStore (MetaCall.DeleteSnapshot uuid) (env.metaRet w.clock)] })

/-- The call `dataStore_->GetChunkIndexData(name, &indexData)`: `none` for a negative
return. -/
def World.GetChunkIndexData (env : Env) (w : World) (name : ChunkIndexDataName) :
    Option ChunkIndexData × World :=
  (w.dataStore.GetChunkIndexData name (env.dataRet w.clock), { w with clock := w.clock + 1 })

/-- The call `dataStore_->PutChunkIndexData(name, indexData)`. -/
def World.PutChunkIndexData (env : Env) (w : World) (name : ChunkIndexDataName)
    (data : ChunkIndexData) : Int × World :=
  (env.dataRet w.clock,
   { w with dataStore := w.dataStore.PutChunkIndexData name data (env.dataRet w.clock),
            clock := w.clock + 1,
            calls := w.calls ++ [Call.PutChunkIndexData name data (env.dataRet w.clock)] })

/-- The call `dataStore_->DeleteChunkIndexData(name)`. -/
def World.DeleteChunkIndexData (env : Env) (w : World) (name : ChunkIndexDataName) :
    Int × World :=
  (env.dataRet w.clock,
   { w with dataStore := w.dataStore.DeleteChunkIndexData name (env.dataRet w.clock),
            clock := w.clock + 1,
            calls := w.calls ++ [Call.DeleteChunkIndexData name (env.dataRet w.clock)] })

/-- The call `dataStore_->DeleteChunkData(name)`. -/
def World.DeleteChunkData (env : Env) (w : World) (name : ChunkDataName) : Int × World :=
  (env.dataRet w.clock,
   { w with dataStore := w.dataStore.DeleteChunkData name (env.dataRet w.clock),
            clock := w.clock + 1,
            calls := w.calls ++ [Call.DeleteChunkData name (env.dataRet w.clock)] })

/-! ## Pipelines: stages of the create pipeline -/

/-- The function `SnapshotCoreImpl::HandleCreateSnapshotError` (lines 341-349): set
the status to `error`, update the record (the return value is not looked at),
`Finish`. -/
def HandleCreateSnapshotError (env : Env) (task : SnapshotTaskInfo) (w : World) :
    SnapshotTaskInfo × World :=
  let info := task.snapshotInfo.SetStatus Status.error
  let task1 := { task with snapshotInfo := info }
  let w1 := (w.UpdateSnapshot env info).2
  (task1.Finish, w1)

/-- The polling loop of `DeleteSnapshotOnCurvefs` (lines 415-435). One unit of fuel
is one pass through the body of the `do ... while`. -/
def pollSnapShotStatus (env : Env) : Nat → World → Except Abort (ErrCode × World)
  | 0, _ => Except.error Abort.pollOutOfFuel
  | fuel + 1, w =>
    let w1 : World := { w with clock := w.clock + 1 }
    match (env.checkSnapShotStatus w.clock).1 with
    | LibcurveRet.NOTEXIST => Except.ok (kErrCodeSuccess, w1)
    | LibcurveRet.OK =>
      if (env.checkSnapShotStatus w.clock).2 ≠ FileStatus.Deleting then
        Except.ok (kErrCodeSuccess, w1)
      else pollSnapShotStatus env fuel w1
    | _ => Except.ok (kErrCodeInternalError, w1)

/-- The function `SnapshotCoreImpl::DeleteSnapshotOnCurvefs` (lines 398-437). -/
def DeleteSnapshotOnCurvefs (env : Env) (fuel : Nat) (info : SnapshotInfo) (w : World) :
    Except Abort (ErrCode × World) :=
  let ret := env.deleteSnapshot w.clock
  let w1 : World :=
    { w with clock := w.clock + 1,
             calls := w.calls ++
               [Call.ClientDeleteSnapshot info.fileName info.user info.seqNum] }
  if ret ≠ LibcurveRet.OK ∧ ret ≠ LibcurveRet.NOTEXIST ∧ ret ≠ LibcurveRet.DELETING then
    Except.ok (kErrCodeInternalError, w1)
  else pollSnapShotStatus env fuel w1

/-- The function `SnapshotCoreImpl::CreateSnapshotOnCurvefs` (lines 351-396). The
`info` of the source points into the task record. -/
def CreateSnapshotOnCurvefs (env : Env) (fileName : String) (task : SnapshotTaskInfo)
    (w : World) : ErrCode × SnapshotTaskInfo × World :=
  let ret := (env.createSnapshot w.clock).1
  let seqNum := (env.createSnapshot w.clock).2
  let w1 : World :=
    { w with clock := w.clock + 1,
             calls := w.calls ++ [Call.ClientCreateSnapshot fileName task.snapshotInfo.user] }
  if ret ≠ LibcurveRet.OK ∧ ret ≠ LibcurveRet.UNDER_SNAPSHOT then
    (kErrCodeInternalError, task, w1)
  else
    let ret2 := (env.getSnapshot w1.clock).1
    let snapInfo := (env.getSnapshot w1.clock).2
    let w2 : World := { w1 with clock := w1.clock + 1 }
    if ret2 ≠ LibcurveRet.OK then (kErrCodeInternalError, task, w2)
    else
      let info : SnapshotInfo :=
        { task.snapshotInfo with
            seqNum := seqNum, chunkSize := snapInfo.chunksize,
            segmentSize := snapInfo.segmentsize, fileLength := snapInfo.length,
            time := snapInfo.ctime }
      let task1 := { task with snapshotInfo := info }
      let r := w2.UpdateSnapshot env info
      if r.1 < 0 then (ErrCode.passThrough r.1, task1, r.2)
      else (kErrCodeSuccess, task1, r.2)

/-- How a loop body ends: go on with the next element, or leave the function with a
return value. -/
inductive Flow
  | next
  | ret (code : ErrCode)
  deriving DecidableEq

/-- The quotient `a / b` of unsigned integers; a division by zero does not return. -/
def checkedDiv (a b : Nat) : Except Abort Nat :=
  if b = 0 then Except.error Abort.divisionByZero else Except.ok (a / b)

/-- The remainder `a % b` of unsigned integers; a remainder by zero does not return. -/
def checkedMod (a b : Nat) : Except Abort Nat :=
  if b = 0 then Except.error Abort.divisionByZero else Except.ok (a % b)

/-- The classification of the sequence numbers of one chunk in
`BuildChunkIndexData` (lines 487-509): the index after the chunk, or the return of
`kErrCodeInternalError` for more than two sequence numbers. `i` is the segment,
`j` the slot. -/
def recordChunk (info : SnapshotInfo) (i j : Nat) (chunkSn : List Nat)
    (indexData : ChunkIndexData) : Except Abort (Flow × ChunkIndexData) :=
  match chunkSn with
  | [a, b] =>
    match checkedDiv info.segmentSize info.chunkSize with
    | Except.error e => Except.error e
    | Except.ok q =>
      Except.ok (Flow.next,
        indexData.PutChunkDataName ⟨info.fileName, min a b, i * q + j⟩)
  | [a] =>
    if a ≤ info.seqNum then
      match checkedDiv info.segmentSize info.chunkSize with
      | Except.error e => Except.error e
      | Except.ok q =>
        Except.ok (Flow.next, indexData.PutChunkDataName ⟨info.fileName, a, i * q + j⟩)
    else Except.ok (Flow.next, indexData)
  | [] => Except.ok (Flow.next, indexData)
  | _ => Except.ok (Flow.ret kErrCodeInternalError, indexData)

/-- The inner loop of `BuildChunkIndexData` (lines 466-513) over the chunks of
segment `i`, from slot `j` on. -/
def buildChunkLoop (env : Env) (info : SnapshotInfo) (i : Nat) :
    Nat → List ChunkIDInfo → ChunkIndexData → SnapshotTaskInfo →
      Except Abort (Flow × ChunkIndexData × SnapshotTaskInfo)
  | _, [], indexData, task => Except.ok (Flow.next, indexData, task)
  | j, cidInfo :: rest, indexData, task =>
    if (env.getChunkInfo cidInfo).1 ≠ LibcurveRet.OK then
      Except.ok (Flow.ret kErrCodeInternalError, indexData, task)
    else
      match recordChunk info i j (env.getChunkInfo cidInfo).2.chunkSn indexData with
      | Except.error e => Except.error e
      | Except.ok (Flow.ret code, indexData1) => Except.ok (Flow.ret code, indexData1, task)
      | Except.ok (Flow.next, indexData1) =>
        if (task.IsCanceled env).1 then
          Except.ok (Flow.ret kErrCodeSuccess, indexData1, (task.IsCanceled env).2)
        else buildChunkLoop env info i (j + 1) rest indexData1 (task.IsCanceled env).2

/-- The outer loop of `BuildChunkIndexData` (lines 454-525) over the segment numbers
still to visit. -/
def buildSegmentLoop (env : Env) (info : SnapshotInfo) :
    List Nat → ChunkIndexData → List (Nat × SegmentInfo) → SnapshotTaskInfo →
      Except Abort (ErrCode × ChunkIndexData × List (Nat × SegmentInfo) × SnapshotTaskInfo)
  | [], indexData, segInfos, task => Except.ok (kErrCodeSuccess, indexData, segInfos, task)
  | i :: rest, indexData, segInfos, task =>
    match (env.getSnapshotSegmentInfo (i * info.segmentSize)).1 with
    | LibcurveRet.OK =>
      let segInfo := (env.getSnapshotSegmentInfo (i * info.segmentSize)).2
      let segInfos1 := segInfos ++ [(i, segInfo)]
      match buildChunkLoop env info i 0 segInfo.chunkvec indexData task with
      | Except.error e => Except.error e
      | Except.ok (Flow.ret code, indexData1, task1) =>
        Except.ok (code, indexData1, segInfos1, task1)
      | Except.ok (Flow.next, indexData1, task1) =>
        buildSegmentLoop env info rest indexData1 segInfos1 task1
    | LibcurveRet.NOT_ALLOCATE => buildSegmentLoop env info rest indexData segInfos task
    | _ => Except.ok (kErrCodeInternalError, indexData, segInfos, task)

/-- The function `SnapshotCoreImpl::BuildChunkIndexData` (lines 439-528). The index
and the segment map of the caller are empty when it is called. -/
def BuildChunkIndexData (env : Env) (info : SnapshotInfo) (task : SnapshotTaskInfo) :
    Except Abort (ErrCode × ChunkIndexData × List (Nat × SegmentInfo) × SnapshotTaskInfo) :=
  match checkedDiv info.fileLength info.segmentSize with
  | Except.error e => Except.error e
  | Except.ok n =>
    buildSegmentLoop env info (List.range n) ⟨info.fileName, []⟩ [] task

/-- The loop of `BuildSegmentInfo` (lines 539-564). -/
def buildSegmentInfoLoop (env : Env) (info : SnapshotInfo) :
    List Nat → List (Nat × SegmentInfo) → ErrCode × List (Nat × SegmentInfo)
  | [], segInfos => (kErrCodeSuccess, segInfos)
  | i :: rest, segInfos =>
    match (env.getSnapshotSegmentInfo (i * info.segmentSize)).1 with
    | LibcurveRet.OK =>
      buildSegmentInfoLoop env info rest
        (segInfos ++ [(i, (env.getSnapshotSegmentInfo (i * info.segmentSize)).2)])
    | LibcurveRet.NOT_ALLOCATE => buildSegmentInfoLoop env info rest segInfos
    | _ => (kErrCodeInternalError, segInfos)

/-- The function `SnapshotCoreImpl::BuildSegmentInfo` (lines 530-566). -/
def BuildSegmentInfo (env : Env) (info : SnapshotInfo) :
    Except Abort (ErrCode × List (Nat × SegmentInfo)) :=
  match checkedDiv info.fileLength info.segmentSize with
  | Except.error e => Except.error e
  | Except.ok n => Except.ok (buildSegmentInfoLoop env info (List.range n) [])

/-- The loop of `BuildSnapshotMap` (lines 872-888). -/
def buildSnapshotMapLoop (env : Env) (seqNum : Nat) :
    List SnapshotInfo → FileSnapMap → World → FileSnapMap × World
  | [], fileSnapshotMap, w => (fileSnapshotMap, w)
  | snap :: rest, fileSnapshotMap, w =>
    if snap.seqNum ≠ seqNum then
      match (w.GetChunkIndexData env ⟨snap.fileName, snap.seqNum⟩).1 with
      | none =>
        buildSnapshotMapLoop env seqNum rest fileSnapshotMap
          (w.GetChunkIndexData env ⟨snap.fileName, snap.seqNum⟩).2
      | some indexData =>
        buildSnapshotMapLoop env seqNum rest ⟨fileSnapshotMap.maps ++ [indexData]⟩
          (w.GetChunkIndexData env ⟨snap.fileName, snap.seqNum⟩).2
    else buildSnapshotMapLoop env seqNum rest fileSnapshotMap w

/-- The function `SnapshotCoreImpl::BuildSnapshotMap` (lines 867-890). -/
def BuildSnapshotMap (env : Env) (fileName : String) (seqNum : Nat) (w : World) :
    ErrCode × FileSnapMap × World :=
  let r := buildSnapshotMapLoop env seqNum (w.metaStore.GetSnapshotList fileName) ⟨[]⟩ w
  (kErrCodeSuccess, r.1, r.2)

/-! ## Pipelines: chunk transfer -/

/-- Modelled from the spec: the error codes are negative integers and
`kErrCodeSuccess` is not (the tests `ret < 0` of the core on its own return
values). -/
def ErrCode.isNegative : ErrCode → Bool
  | ErrCode.Success => false
  | ErrCode.passThrough ret => decide (ret < 0)
  | _ => true

def kProgressCreateSnapshotOnCurvefsComplete : Nat := 5
def kProgressBuildChunkIndexDataComplete : Nat := 6
def kProgressBuildSnapshotMapComplete : Nat := 10
def kProgressTransferSnapshotDataStart : Nat := kProgressBuildSnapshotMapComplete
def kProgressTransferSnapshotDataComplete : Nat := 99
def kProgressComplete : Nat := 100

/-- Modelled from the spec: the `TaskTracker` of one `TransferSnapshotData` call
(section 4.3): the transfers handed to the worker pool that have not completed, oldest
first, and the first non-success result observed (0 while there is none). -/
structure TaskTracker where
  outstanding : List ChunkDataName
  result : Int
  deriving DecidableEq

/-- Modelled from the spec: the oldest outstanding transfer completes. Its result is
asked from the environment; the tracker keeps the first negative result. -/
def settleOne (env : Env) (tr : TaskTracker) (w : World) : TaskTracker × World :=
  match tr.outstanding with
  | [] => (tr, w)
  | name :: rest =>
    ({ outstanding := rest,
       result := if tr.result < 0 then tr.result
                 else if env.transferRet w.clock < 0 then env.transferRet w.clock
                 else tr.result },
     { w with dataStore := w.dataStore.TransferChunk name (env.transferRet w.clock),
              clock := w.clock + 1 })

/-- Modelled from the spec: the `n` oldest outstanding transfers complete. -/
def settleN (env : Env) : Nat → TaskTracker → World → TaskTracker × World
  | 0, tr, w => (tr, w)
  | n + 1, tr, w => settleN env n (settleOne env tr w).1 (settleOne env tr w).2

/-- Modelled from the spec: `TaskTracker::WaitSome(k)` blocks until at most `k`
transfers are outstanding. -/
def TaskTracker.WaitSome (env : Env) (k : Nat) (tr : TaskTracker) (w : World) :
    TaskTracker × World :=
  settleN env (tr.outstanding.length - k) tr w

/-- Modelled from the spec: `TaskTracker::Wait()` blocks until all transfers have
completed. -/
def TaskTracker.Wait (env : Env) (tr : TaskTracker) (w : World) : TaskTracker × World :=
  settleN env tr.outstanding.length tr w

/-- Modelled from the spec: transfers complete on their own while the core does
something else; the environment says how many. -/
def TaskTracker.progressAlone (env : Env) (tr : TaskTracker) (w : World) :
    TaskTracker × World :=
  settleN env (env.spontaneous w.clock) tr { w with clock := w.clock + 1 }

/-- The first loop of `TransferSnapshotData` (lines 593-616): every chunk index must
map to a segment of `segInfos` and to a slot of its `chunkvec`. -/
def validateLoop (segInfos : List (Nat × SegmentInfo)) (chunkPerSegment : Nat) :
    List Nat → Except Abort Flow
  | [] => Except.ok Flow.next
  | chunkIndex :: rest =>
    match checkedDiv chunkIndex chunkPerSegment with
    | Except.error e => Except.error e
    | Except.ok segNum =>
      match segInfos.find? (fun e => e.1 == segNum) with
      | none => Except.ok (Flow.ret kErrCodeInternalError)
      | some it =>
        match checkedMod chunkIndex chunkPerSegment with
        | Except.error e => Except.error e
        | Except.ok chunkIndexInSegment =>
          if chunkIndexInSegment ≥ it.2.chunkvec.length then
            Except.ok (Flow.ret kErrCodeInternalError)
          else validateLoop segInfos chunkPerSegment rest

/-- The part of the body of the second loop of `TransferSnapshotData` that hands a
transfer to the worker pool (lines 620-642). The divisions are the ones the first loop
has already performed on the same chunk indices. -/
def submitTransfer (indexData : ChunkIndexData) (segInfos : List (Nat × SegmentInfo))
    (filter : ChunkDataName → Bool) (chunkPerSegment chunkIndex : Nat)
    (tr : TaskTracker) (w : World) : TaskTracker × World :=
  let chunkDataName := indexData.nameAt chunkIndex
  match segInfos.find? (fun e => e.1 == chunkIndex / chunkPerSegment) with
  | some it =>
    if !filter chunkDataName then
      ({ tr with outstanding := tr.outstanding ++ [chunkDataName] },
       { w with calls := w.calls ++
           [Call.PushTask chunkDataName
             (it.2.chunkvec.getD (chunkIndex % chunkPerSegment) ⟨0, 0, 0⟩)] })
    else (tr, w)
  | none => (tr, w)

/-- The part of the body of the second loop of `TransferSnapshotData` that looks at
the tracker (lines 643-646): `WaitSome(1)` when the number of outstanding transfers
has reached `snapshotCoreThreadNum_`, then `GetResult()`. -/
def observeTracker (core : SnapshotCoreImpl) (env : Env) (tr : TaskTracker) (w : World) :
    TaskTracker × World :=
  if tr.outstanding.length ≥ core.snapshotCoreThreadNum_ then
    TaskTracker.progressAlone env (TaskTracker.WaitSome env 1 tr w).1
      (TaskTracker.WaitSome env 1 tr w).2
  else TaskTracker.progressAlone env tr w

/-- The progress `TransferSnapshotData` reports after chunk number `index` of `total`
(line 653), with the arithmetic taken as exact. -/
def transferProgress (index total : Nat) : Nat :=
  kProgressTransferSnapshotDataStart +
    index * (kProgressTransferSnapshotDataComplete - kProgressTransferSnapshotDataStart) / total

/-- The second loop of `TransferSnapshotData` (lines 619-660). -/
def transferLoop (core : SnapshotCoreImpl) (env : Env) (indexData : ChunkIndexData)
    (segInfos : List (Nat × SegmentInfo)) (filter : ChunkDataName → Bool)
    (chunkPerSegment total : Nat) :
    List Nat → Nat → TaskTracker → SnapshotTaskInfo → World →
      Flow × TaskTracker × SnapshotTaskInfo × World
  | [], _, tr, task, w => (Flow.next, tr, task, w)
  | chunkIndex :: rest, index, tr, task, w =>
    let s := submitTransfer indexData segInfos filter chunkPerSegment chunkIndex tr w
    let o := observeTracker core env s.1 s.2
    if o.1.result < 0 then (Flow.ret (ErrCode.passThrough o.1.result), o.1, task, o.2)
    else
      let task1 := task.SetProgress (transferProgress index total)
      if (task1.IsCanceled env).1 then
        (Flow.ret kErrCodeSuccess, o.1, (task1.IsCanceled env).2, o.2)
      else
        transferLoop core env indexData segInfos filter chunkPerSegment total
          rest (index + 1) o.1 (task1.IsCanceled env).2 o.2

/-- The transfers of a tracker nobody waits for any more keep running. -/
def World.abandon (w : World) (tr : TaskTracker) : World :=
  { w with inflight := w.inflight ++ tr.outstanding }

/-- The function `SnapshotCoreImpl::TransferSnapshotData` (lines 568-676). -/
def TransferSnapshotData (core : SnapshotCoreImpl) (env : Env) (fuel : Nat)
    (indexData : ChunkIndexData) (info : SnapshotInfo)
    (segInfos : List (Nat × SegmentInfo)) (filter : ChunkDataName → Bool)
    (task : SnapshotTaskInfo) (w : World) :
    Except Abort (ErrCode × SnapshotTaskInfo × World) :=
  match checkedDiv info.segmentSize info.chunkSize with
  | Except.error e => Except.error e
  | Except.ok chunkPerSegment =>
    if core.chunkSplitSize_ = 0 ∨ info.chunkSize % core.chunkSplitSize_ ≠ 0 then
      Except.ok (ErrCode.ChunkSizeNotAligned, task, w)
    else
      match validateLoop segInfos chunkPerSegment indexData.GetAllChunkIndex with
      | Except.error e => Except.error e
      | Except.ok (Flow.ret code) => Except.ok (code, task, w)
      | Except.ok Flow.next =>
        match transferLoop core env indexData segInfos filter chunkPerSegment
            indexData.GetAllChunkIndex.length indexData.GetAllChunkIndex 0 ⟨[], 0⟩ task w with
        | (Flow.ret code, tr, task1, w1) => Except.ok (code, task1, w1.abandon tr)
        | (Flow.next, tr, task1, w1) =>
          if (TaskTracker.Wait env tr w1).1.result < 0 then
            Except.ok (ErrCode.passThrough (TaskTracker.Wait env tr w1).1.result, task1,
              (TaskTracker.Wait env tr w1).2.abandon (TaskTracker.Wait env tr w1).1)
          else
            match DeleteSnapshotOnCurvefs env fuel info
                ((TaskTracker.Wait env tr w1).2.abandon (TaskTracker.Wait env tr w1).1) with
            | Except.error e => Except.error e
            | Except.ok (ret, w2) => Except.ok (ret, task1, w2)

/-! ## Pipelines: rollback chains and the create pipeline -/

/-- The function `SnapshotCoreImpl::HandleClearSnapshotOnMateStore` (lines 326-339).
After a failed `DeleteSnapshot` the error handler runs and the function goes on to
its own `Finish`. -/
def HandleClearSnapshotOnMateStore (env : Env) (task : SnapshotTaskInfo) (w : World) :
    PipelineExit × SnapshotTaskInfo × World :=
  let r := w.DeleteSnapshot env task.uuid_
  if r.1 < 0 then
    let h := HandleCreateSnapshotError env task r.2
    (PipelineExit.error, h.1.Finish, h.2)
  else (PipelineExit.canceled, task.Finish, r.2)

/-- The function `SnapshotCoreImpl::CancelAfterCreateSnapshotOnCurvefs`
(lines 311-324), rollback-1. -/
def CancelAfterCreateSnapshotOnCurvefs (env : Env) (fuel : Nat) (task : SnapshotTaskInfo)
    (w : World) : Except Abort (PipelineExit × SnapshotTaskInfo × World) :=
  match DeleteSnapshotOnCurvefs env fuel task.snapshotInfo w with
  | Except.error e => Except.error e
  | Except.ok (ret, w1) =>
    if ret.isNegative then
      Except.ok (PipelineExit.error, HandleCreateSnapshotError env task w1)
    else Except.ok (HandleClearSnapshotOnMateStore env task w1)

/-- The function `SnapshotCoreImpl::CancelAfterCreateChunkIndexData` (lines 290-309),
rollback-2. -/
def CancelAfterCreateChunkIndexData (env : Env) (fuel : Nat) (task : SnapshotTaskInfo)
    (w : World) : Except Abort (PipelineExit × SnapshotTaskInfo × World) :=
  let r := w.DeleteChunkIndexData env ⟨task.fileName_, task.snapshotInfo.seqNum⟩
  if r.1 < 0 then Except.ok (PipelineExit.error, HandleCreateSnapshotError env task r.2)
  else CancelAfterCreateSnapshotOnCurvefs env fuel task r.2

/-- Modelled from the spec: the `n` oldest chunk transfers that nobody waits for
complete. -/
def World.land (env : Env) : Nat → World → World
  | 0, w => w
  | n + 1, w =>
    match w.inflight with
    | [] => w
    | name :: rest =>
      World.land env n
        { w with dataStore := w.dataStore.TransferChunk name (env.transferRet w.clock),
                 inflight := rest, clock := w.clock + 1 }

/-- Modelled from the spec: chunk transfers nobody waits for complete on their own;
the environment says how many. -/
def World.landAlone (env : Env) (w : World) : World :=
  World.land env (env.spontaneous w.clock) { w with clock := w.clock + 1 }

/-- The loop of `CancelAfterTransferSnapshotData` (lines 269-286). Transfers that
are still running may complete before the store is asked about a chunk. -/
def cancelTransferLoop (env : Env) (indexData : ChunkIndexData)
    (fileSnapshotMap : FileSnapMap) :
    List Nat → SnapshotTaskInfo → World → Flow × SnapshotTaskInfo × World
  | [], task, w => (Flow.next, task, w)
  | chunkIndex :: rest, task, w =>
    let chunkDataName := indexData.nameAt chunkIndex
    let w0 := w.landAlone env
    if !fileSnapshotMap.IsExistChunk chunkDataName ∧
        w0.dataStore.ChunkDataExist chunkDataName then
      let r := w0.DeleteChunkData env chunkDataName
      if r.1 < 0 then
        (Flow.ret kErrCodeInternalError, HandleCreateSnapshotError env task r.2)
      else cancelTransferLoop env indexData fileSnapshotMap rest task r.2
    else cancelTransferLoop env indexData fileSnapshotMap rest task w0

/-- The function `SnapshotCoreImpl::CancelAfterTransferSnapshotData` (lines 263-288),
rollback-3. -/
def CancelAfterTransferSnapshotData (env : Env) (fuel : Nat) (task : SnapshotTaskInfo)
    (indexData : ChunkIndexData) (fileSnapshotMap : FileSnapMap) (w : World) :
    Except Abort (PipelineExit × SnapshotTaskInfo × World) :=
  match cancelTransferLoop env indexData fileSnapshotMap indexData.GetAllChunkIndex task w with
  | (Flow.ret _, task1, w1) => Except.ok (PipelineExit.error, task1, w1)
  | (Flow.next, task1, w1) => CancelAfterCreateChunkIndexData env fuel task1 w1

/-- Stage 5 of `HandleCreateSnapshotTask` (lines 248-260). -/
def createFinalize (env : Env) (task : SnapshotTaskInfo) (w : World) :
    PipelineExit × SnapshotTaskInfo × World :=
  let task1 := { task with snapshotInfo := task.snapshotInfo.SetStatus Status.done }
  let r := w.UpdateSnapshot env task1.snapshotInfo
  if r.1 < 0 then (PipelineExit.error, HandleCreateSnapshotError env task1 r.2)
  else (PipelineExit.done, (task1.SetProgress kProgressComplete).Finish, r.2)

/-- Stages 3 and 4 and cancellation point 3 of `HandleCreateSnapshotTask`
(lines 212-246), followed by stage 5. -/
def createTransfer (core : SnapshotCoreImpl) (env : Env) (fuel : Nat)
    (indexData : ChunkIndexData) (segInfos : List (Nat × SegmentInfo))
    (task : SnapshotTaskInfo) (w : World) :
    Except Abort (PipelineExit × SnapshotTaskInfo × World) :=
  let m := BuildSnapshotMap env task.fileName_ task.snapshotInfo.seqNum w
  if m.1.isNegative then Except.ok (PipelineExit.error, HandleCreateSnapshotError env task m.2.2)
  else
    let task1 := task.SetProgress kProgressBuildSnapshotMapComplete
    match TransferSnapshotData core env fuel indexData task1.snapshotInfo segInfos
        (fun name => m.2.1.IsExistChunk name) task1 m.2.2 with
    | Except.error e => Except.error e
    | Except.ok (ret, task2, w2) =>
      if ret.isNegative then Except.ok (PipelineExit.error, HandleCreateSnapshotError env task2 w2)
      else
        let task3 := task2.SetProgress kProgressTransferSnapshotDataComplete
        if (task3.IsCanceled env).1 then
          CancelAfterTransferSnapshotData env fuel (task3.IsCanceled env).2 indexData m.2.1 w2
        else Except.ok (createFinalize env (task3.IsCanceled env).2 w2)

/-- Cancellation point 2 of `HandleCreateSnapshotTask` (lines 207-210), followed by
the later stages. -/
def createAfterIndex (core : SnapshotCoreImpl) (env : Env) (fuel : Nat)
    (indexData : ChunkIndexData) (segInfos : List (Nat × SegmentInfo))
    (task : SnapshotTaskInfo) (w : World) :
    Except Abort (PipelineExit × SnapshotTaskInfo × World) :=
  if (task.IsCanceled env).1 then
    CancelAfterCreateChunkIndexData env fuel (task.IsCanceled env).2 w
  else createTransfer core env fuel indexData segInfos (task.IsCanceled env).2 w

/-- Stage 2 of `HandleCreateSnapshotTask` (lines 161-205), followed by the later
stages. -/
def createIndex (core : SnapshotCoreImpl) (env : Env) (fuel : Nat) (existIndexData : Bool)
    (task : SnapshotTaskInfo) (w : World) :
    Except Abort (PipelineExit × SnapshotTaskInfo × World) :=
  let name : ChunkIndexDataName := ⟨task.fileName_, task.snapshotInfo.seqNum⟩
  if existIndexData then
    match (w.GetChunkIndexData env name).1 with
    | none =>
      Except.ok (PipelineExit.error,
        HandleCreateSnapshotError env task (w.GetChunkIndexData env name).2)
    | some indexData =>
      let task1 := task.SetProgress kProgressBuildChunkIndexDataComplete
      match BuildSegmentInfo env task1.snapshotInfo with
      | Except.error e => Except.error e
      | Except.ok (ret, segInfos) =>
        if ret.isNegative then
          Except.ok (PipelineExit.error,
            HandleCreateSnapshotError env task1 (w.GetChunkIndexData env name).2)
        else
          createAfterIndex core env fuel indexData segInfos task1
            (w.GetChunkIndexData env name).2
  else
    match BuildChunkIndexData env task.snapshotInfo task with
    | Except.error e => Except.error e
    | Except.ok (ret, indexData, segInfos, task1) =>
      if ret.isNegative then Except.ok (PipelineExit.error, HandleCreateSnapshotError env task1 w)
      else
        let r := w.PutChunkIndexData env name indexData
        if r.1 < 0 then Except.ok (PipelineExit.error, HandleCreateSnapshotError env task1 r.2)
        else
          createAfterIndex core env fuel indexData segInfos
            (task1.SetProgress kProgressBuildChunkIndexDataComplete) r.2

/-- Cancellation point 1 of `HandleCreateSnapshotTask` (lines 154-159), followed by the
later stages. -/
def createAfterSnapshot (core : SnapshotCoreImpl) (env : Env) (fuel : Nat)
    (existIndexData : Bool) (task : SnapshotTaskInfo) (w : World) :
    Except Abort (PipelineExit × SnapshotTaskInfo × World) :=
  let task1 := task.SetProgress kProgressCreateSnapshotOnCurvefsComplete
  if (task1.IsCanceled env).1 then
    CancelAfterCreateSnapshotOnCurvefs env fuel (task1.IsCanceled env).2 w
  else createIndex core env fuel existIndexData (task1.IsCanceled env).2 w

/-- The function `SnapshotCoreImpl::HandleCreateSnapshotTask` (lines 129-261). The
result is the return statement taken, the task record and the world on return. -/
def HandleCreateSnapshotTask (core : SnapshotCoreImpl) (env : Env) (fuel : Nat)
    (task : SnapshotTaskInfo) (w : World) :
    Except Abort (PipelineExit × SnapshotTaskInfo × World) :=
  if kUnInitializeSeqNum = task.snapshotInfo.seqNum then
    let r := CreateSnapshotOnCurvefs env task.fileName_ task w
    if r.1.isNegative then Except.ok (PipelineExit.error, HandleCreateSnapshotError env r.2.1 r.2.2)
    else createAfterSnapshot core env fuel false r.2.1 r.2.2
  else
    createAfterSnapshot core env fuel
      (w.dataStore.ChunkIndexDataExist ⟨task.fileName_, task.snapshotInfo.seqNum⟩) task w

/-! ## Pipelines: the delete pipeline -/

def kDelProgressBuildSnapshotMapComplete : Nat := 10
def kDelProgressDeleteChunkDataStart : Nat := kDelProgressBuildSnapshotMapComplete
def kDelProgressDeleteChunkDataComplete : Nat := 80
def kDelProgressDeleteChunkIndexDataComplete : Nat := 90

/-- The function `SnapshotCoreImpl::HandleDeleteSnapshotError` (lines 846-854). -/
def HandleDeleteSnapshotError (env : Env) (task : SnapshotTaskInfo) (w : World) :
    SnapshotTaskInfo × World :=
  let info := task.snapshotInfo.SetStatus Status.error
  let task1 := { task with snapshotInfo := info }
  let w1 := (w.UpdateSnapshot env info).2
  (task1.Finish, w1)

/-- The progress `HandleDeleteSnapshotTask` reports after chunk number `index` of
`total` (line 802), with the arithmetic taken as exact. -/
def deleteProgress (index total : Nat) : Nat :=
  kDelProgressDeleteChunkDataStart +
    index * (kDelProgressDeleteChunkDataComplete - kDelProgressDeleteChunkDataStart) / total

/-- The loop of `HandleDeleteSnapshotTask` over the chunks of the index
(lines 785-806). -/
def deleteChunkLoop (env : Env) (indexData : ChunkIndexData)
    (fileSnapshotMap : FileSnapMap) (total : Nat) :
    List Nat → Nat → SnapshotTaskInfo → World → Flow × SnapshotTaskInfo × World
  | [], _, task, w => (Flow.next, task, w)
  | chunkIndex :: rest, index, task, w =>
    let chunkDataName := indexData.nameAt chunkIndex
    if !fileSnapshotMap.IsExistChunk chunkDataName ∧
        w.dataStore.ChunkDataExist chunkDataName then
      let r := w.DeleteChunkData env chunkDataName
      if r.1 < 0 then
        (Flow.ret kErrCodeInternalError, HandleDeleteSnapshotError env task r.2)
      else
        deleteChunkLoop env indexData fileSnapshotMap total rest (index + 1)
          (task.SetProgress (deleteProgress index total)) r.2
    else
      deleteChunkLoop env indexData fileSnapshotMap total rest (index + 1)
        (task.SetProgress (deleteProgress index total)) w

/-- The end of `HandleDeleteSnapshotTask` (lines 818-842): the upstream delete for a
snapshot in `errorDeleting` or `canceling`, then the delete of the record. -/
def deleteRecord (env : Env) (fuel : Nat) (task : SnapshotTaskInfo) (w : World) :
    Except Abort (PipelineExit × SnapshotTaskInfo × World) :=
  let last : World → PipelineExit × SnapshotTaskInfo × World := fun w1 =>
    let task1 := task.SetProgress kDelProgressDeleteChunkIndexDataComplete
    let r := w1.DeleteSnapshot env task.uuid_
    if r.1 < 0 then (PipelineExit.error, HandleDeleteSnapshotError env task1 r.2)
    else (PipelineExit.done, (task1.SetProgress kProgressComplete).Finish, r.2)
  if Status.errorDeleting = task.snapshotInfo.status ∨
      Status.canceling = task.snapshotInfo.status then
    match DeleteSnapshotOnCurvefs env fuel task.snapshotInfo w with
    | Except.error e => Except.error e
    | Except.ok (ret, w1) =>
      if ret.isNegative then Except.ok (PipelineExit.error, HandleDeleteSnapshotError env task w1)
      else Except.ok (last w1)
  else Except.ok (last w)

/-- The function `SnapshotCoreImpl::HandleDeleteSnapshotTask` (lines 747-843). The
result is the return statement taken, the task record and the world on return. -/
def HandleDeleteSnapshotTask (env : Env) (fuel : Nat) (task : SnapshotTaskInfo) (w : World) :
    Except Abort (PipelineExit × SnapshotTaskInfo × World) :=
  let m := BuildSnapshotMap env task.fileName_ task.snapshotInfo.seqNum w
  if m.1.isNegative then Except.ok (PipelineExit.error, HandleDeleteSnapshotError env task m.2.2)
  else
    let task1 := task.SetProgress kDelProgressBuildSnapshotMapComplete
    let name : ChunkIndexDataName := ⟨task.fileName_, task.snapshotInfo.seqNum⟩
    if m.2.2.dataStore.ChunkIndexDataExist name then
      match (m.2.2.GetChunkIndexData env name).1 with
      | none =>
        Except.ok (PipelineExit.error,
          HandleDeleteSnapshotError env task1 (m.2.2.GetChunkIndexData env name).2)
      | some indexData =>
        match deleteChunkLoop env indexData m.2.1 indexData.GetAllChunkIndex.length
            indexData.GetAllChunkIndex 0 task1 (m.2.2.GetChunkIndexData env name).2 with
        | (Flow.ret _, task2, w2) => Except.ok (PipelineExit.error, task2, w2)
        | (Flow.next, task2, w2) =>
          let task3 := task2.SetProgress kDelProgressDeleteChunkDataComplete
          let r := w2.DeleteChunkIndexData env name
          if r.1 < 0 then Except.ok (PipelineExit.error, HandleDeleteSnapshotError env task3 r.2)
          else deleteRecord env fuel task3 r.2
    else deleteRecord env fuel task1 m.2.2

/-! ## Sample data for the pipelines -/

/-- An environment in which every call succeeds and nobody cancels: the upstream
snapshot gets sequence number `seq`, the volume has two segments of four chunks of
size 16, and only chunk 7 has ever been written, at sequence number 3. -/
def quietEnv (seq : Nat) : Env :=
  { createSnapshot := fun _ => (LibcurveRet.OK, seq),
    getSnapshot := fun _ =>
      (LibcurveRet.OK,
        { filestatus := FileStatus.Created, chunksize := 16, segmentsize := 64,
          length := 128, ctime := 7 }),
    getSnapshotSegmentInfo := fun offset =>
      (LibcurveRet.OK,
        ⟨[⟨offset / 16, 1, 1⟩, ⟨offset / 16 + 1, 1, 1⟩, ⟨offset / 16 + 2, 1, 1⟩,
          ⟨offset / 16 + 3, 1, 1⟩]⟩),
    getChunkInfo := fun cidInfo =>
      (LibcurveRet.OK, ⟨if cidInfo.cid_ = 7 then [3] else []⟩),
    deleteSnapshot := fun _ => LibcurveRet.OK,
    checkSnapShotStatus := fun _ => (LibcurveRet.NOTEXIST, FileStatus.Created),
    metaRet := fun _ => 0,
    dataRet := fun _ => 0,
    transferRet := fun _ => 0,
    spontaneous := fun _ => 0,
    isCanceled := fun _ => false }

/-- The task record built for a snapshot info. -/
def taskOf (info : SnapshotInfo) : SnapshotTaskInfo :=
  { snapshotInfo := info, uuid_ := info.uuid, fileName_ := info.fileName, progress_ := 0,
    isFinished_ := false, progressLog := [], finishCalls := 0, cancelSamples := 0 }

/-- A pending snapshot of `/a` as `CreateSnapshotPre` leaves it. -/
def pendingInfo (uuid : UUID) : SnapshotInfo :=
  (SnapshotInfo.create uuid "u" "/a" "snap").SetStatus Status.pending

/-- A world that holds the given records and nothing else. -/
def worldOf (records : List SnapshotInfo) : World :=
  { metaStore := ⟨records⟩, dataStore := ⟨[], []⟩, inflight := [], clock := 0, calls := [] }

/-- A configuration for the pipelines: chunks are transferred in pieces of 4, at most
two transfers at a time. -/
def pipeCore : SnapshotCoreImpl :=
  { maxSnapshotLimit_ := 2, snapshotCoreThreadNum_ := 2, chunkSplitSize_ := 4,
    checkSnapshotStatusIntervalMs_ := 1000, mdsSessionTimeUs_ := 5000000 }

/-! ## Pipelines: vocabulary of the statements -/

/-- The metadata stores that are reached from a store by calls of
`UpdateSnapshot(info)` with `info.uuid = u1` and a status in `S`, and of
`DeleteSnapshot(u2)`. -/
inductive MetaReach (u1 u2 : UUID) (S : Status → Prop) : MetaStore → MetaStore → Prop
  | refl (m : MetaStore) : MetaReach u1 u2 S m m
  | update (m m1 : MetaStore) (info : SnapshotInfo) (ret : Int) :
      MetaReach u1 u2 S m m1 → info.uuid = u1 → S info.status →
      MetaReach u1 u2 S m (m1.UpdateSnapshot info ret)
  | delete (m m1 : MetaStore) (ret : Int) :
      MetaReach u1 u2 S m m1 → MetaReach u1 u2 S m (m1.DeleteSnapshot u2 ret)

/-- The last value of a list of progress values, or `d` when the list is empty. -/
def lastOr (d : Nat) (l : List Nat) : Nat := (l.getLast?).getD d

/-- The values `new` were passed to `SetProgress` between the task records `t` and
`t1`: they are non-decreasing, lie between `lo` and 100, and the progress of `t1` is
the last of them (the progress of `t` when there is none). -/
def ProgressExt (lo : Nat) (t t1 : SnapshotTaskInfo) (new : List Nat) : Prop :=
  t1.progressLog = t.progressLog ++ new ∧ new.Pairwise (fun a b => a ≤ b) ∧
  (∀ p ∈ new, lo ≤ p ∧ p ≤ kProgressComplete) ∧ t1.progress_ = lastOr t.progress_ new

/-- The persisted status of a snapshot: the status of the record the metadata store
returns for the uuid, `none` when there is no record (removed). -/
def MetaStore.statusOf (m : MetaStore) (uuid : UUID) : Option Status :=
  (m.GetSnapshotInfo uuid).map SnapshotInfo.status

/-- The records of the other snapshots: those whose uuid is neither `u1` nor `u2`. -/
def MetaStore.others (m : MetaStore) (u1 u2 : UUID) : List SnapshotInfo :=
  m.records.filter (fun s => !(s.uuid == u1) && !(s.uuid == u2))

/-- The content of a finished pipeline run, read off its result. -/
def exitOf (r : Except Abort (PipelineExit × SnapshotTaskInfo × World)) :
    Option PipelineExit :=
  match r with
  | Except.ok (x, _, _) => some x
  | Except.error _ => none

/-- The task record a pipeline run returns with. -/
def taskAfter (r : Except Abort (PipelineExit × SnapshotTaskInfo × World)) :
    Option SnapshotTaskInfo :=
  match r with
  | Except.ok (_, t, _) => some t
  | Except.error _ => none

/-- The world a pipeline run returns with. -/
def worldAfter (r : Except Abort (PipelineExit × SnapshotTaskInfo × World)) :
    Option World :=
  match r with
  | Except.ok (_, _, w) => some w
  | Except.error _ => none

/-- The task record `t1` differs from `t` at most in the progress and in the number
of samples of the cancel flag, which has not decreased. -/
def TaskKeeps (t t1 : SnapshotTaskInfo) : Prop :=
  t1.snapshotInfo = t.snapshotInfo ∧ t1.uuid_ = t.uuid_ ∧ t1.fileName_ = t.fileName_ ∧
  t1.isFinished_ = t.isFinished_ ∧ t1.finishCalls = t.finishCalls ∧
  t.cancelSamples ≤ t1.cancelSamples

/-- The log of calls of `w1` is the log of `w` with further calls at its end. -/
def CallsExt (w w1 : World) : Prop := ∃ new, w1.calls = w.calls ++ new

/-- The world `w1` differs from `w` at most in the chunk blobs of the data store, in
the clock and in the log of calls, which has only grown. -/
def WorldKeeps (w w1 : World) : Prop :=
  w1.metaStore = w.metaStore ∧ w1.dataStore.indexData = w.dataStore.indexData ∧
  w1.inflight = w.inflight ∧ CallsExt w w1

/-- The statuses the create pipeline writes for a snapshot that had status `s0` when
the run began. -/
def createStatuses (s0 : Status) (s : Status) : Prop :=
  s = s0 ∨ s = Status.done ∨ s = Status.error

/-- The record of `u` in `m1` is the record of `m` replaced by `info`, or the stores
are equal. -/
def MetaStore.replacedIn (m m1 : MetaStore) (info : SnapshotInfo) : Prop :=
  m1 = m ∨ m1.records = m.records.map (fun s => if s.uuid == info.uuid then info else s)

/-- What holds of a state `(t0, w0)` the create pipeline has reached from `(t, w)`
before it leaves: the identity and the status of the task are as at the start, the
values passed to `SetProgress` so far are non-decreasing between `lo` and `hi`, and
the metadata store has only seen updates of this snapshot. -/
structure MidFacts (lo hi : Nat) (t : SnapshotTaskInfo) (w : World)
    (t0 : SnapshotTaskInfo) (w0 : World) : Prop where
  uuid_eq : t0.uuid_ = t.uuid_
  fileName_eq : t0.fileName_ = t.fileName_
  info_uuid : t0.snapshotInfo.uuid = t.snapshotInfo.uuid
  status_eq : t0.snapshotInfo.status = t.snapshotInfo.status
  samples : t.cancelSamples ≤ t0.cancelSamples
  progress : ∃ new, ProgressExt lo t t0 new ∧ ∀ p ∈ new, p ≤ hi
  reach : MetaReach t.snapshotInfo.uuid t.uuid_ (createStatuses t.snapshotInfo.status)
    w.metaStore w0.metaStore
  replaced : w.metaStore.replacedIn w0.metaStore t0.snapshotInfo
  calls : CallsExt w w0

/-- What holds of every run of the create pipeline, or of its part from some point
on, that starts in `(t, w)` and returns with `(x, t1, w1)`. -/
structure CreateFacts (env : Env) (lo : Nat) (t : SnapshotTaskInfo) (w : World)
    (x : PipelineExit) (t1 : SnapshotTaskInfo) (w1 : World) : Prop where
  uuid_eq : t1.uuid_ = t.uuid_
  fileName_eq : t1.fileName_ = t.fileName_
  info_uuid : t1.snapshotInfo.uuid = t.snapshotInfo.uuid
  samples : t.cancelSamples ≤ t1.cancelSamples
  progress : ∃ new, ProgressExt lo t t1 new ∧
    (x ≠ PipelineExit.done → kProgressComplete ∉ new) ∧
    (x = PipelineExit.done → t1.progress_ = kProgressComplete)
  finished : t1.isFinished_ = true
  status_error : x = PipelineExit.error → t1.snapshotInfo.status = Status.error
  status_done : x = PipelineExit.done → t1.snapshotInfo.status = Status.done
  status_canceled : x = PipelineExit.canceled → t1.snapshotInfo.status = t.snapshotInfo.status
  done_sample : (∀ a b, a ≤ b → env.isCanceled a = true → env.isCanceled b = true) →
    x = PipelineExit.done →
    ∀ k, t.cancelSamples ≤ k → k < t1.cancelSamples → env.isCanceled k = false
  reach : MetaReach t.snapshotInfo.uuid t.uuid_ (createStatuses t.snapshotInfo.status)
    w.metaStore w1.metaStore
  undone : x ≠ PipelineExit.done →
    MetaReach t.snapshotInfo.uuid t.uuid_
      (fun s => s = t.snapshotInfo.status ∨ s = Status.error) w.metaStore w1.metaStore
  calls : CallsExt w w1
  error_end : x = PipelineExit.error →
    ∃ w0 info, info.status = Status.error ∧ info.uuid = t.snapshotInfo.uuid ∧
      w1 = (w0.UpdateSnapshot env info).2 ∧ CallsExt w w0
  done_meta : x = PipelineExit.done →
    w1.metaStore.records
      = w.metaStore.records.map (fun s => if s.uuid == t.snapshotInfo.uuid then t1.snapshotInfo
          else s)

/-- What holds of every run of the delete pipeline, or of its part from some point
on, that starts in `(t, w)` and returns with `(x, t1, w1)`. -/
structure DeleteFacts (env : Env) (lo : Nat) (t : SnapshotTaskInfo) (w : World)
    (x : PipelineExit) (t1 : SnapshotTaskInfo) (w1 : World) : Prop where
  uuid_eq : t1.uuid_ = t.uuid_
  fileName_eq : t1.fileName_ = t.fileName_
  info_uuid : t1.snapshotInfo.uuid = t.snapshotInfo.uuid
  progress : ∃ new, ProgressExt lo t t1 new ∧
    (x ≠ PipelineExit.done → kProgressComplete ∉ new) ∧
    (x = PipelineExit.done → t1.progress_ = kProgressComplete)
  finished : t1.isFinished_ = true
  not_canceled : x ≠ PipelineExit.canceled
  status_error : x = PipelineExit.error → t1.snapshotInfo.status = Status.error
  status_done : x = PipelineExit.done → t1.snapshotInfo = t.snapshotInfo
  reach : MetaReach t.snapshotInfo.uuid t.uuid_ (fun s => s = Status.error)
    w.metaStore w1.metaStore
  calls : CallsExt w w1
  error_end : x = PipelineExit.error →
    ∃ w0 info, info.status = Status.error ∧ info.uuid = t.snapshotInfo.uuid ∧
      w1 = (w0.UpdateSnapshot env info).2 ∧ CallsExt w w0
  done_meta : x = PipelineExit.done →
    w1.metaStore.records = w.metaStore.records.filter (fun s => !(s.uuid == t.uuid_))

/-! ## Pipelines: the status lifecycle -/

/-- Follows the spec's words: the transitions drawn in the lifecycle diagram of the
data model. `none` is a snapshot without a record (removed). -/
def lifecycleDrawn : Option Status → Option Status → Bool
  | some Status.pending, some Status.done => true
  | some Status.pending, some Status.canceling => true
  | some Status.done, some Status.canceling => true
  | some Status.canceling, some Status.error => true
  | some Status.done, some Status.deleting => true
  | some Status.deleting, none => true
  | some Status.deleting, some Status.error => true
  | some Status.error, some Status.errorDeleting => true
  | some Status.errorDeleting, none => true
  | _, _ => false

/-- The changes of the persisted status that the operations of the core perform:
`CreateSnapshotPre` adds a pending record; the create pipeline takes a pending snapshot
to `done`, to `error` (error handler) or removes its record (end of a rollback chain);
`DeleteSnapshotPre` takes `done` to `deleting` and `error` to `errorDeleting`; the
delete pipeline removes the record or takes it to `error` (error handler). -/
def lifecycleCode : Option Status → Option Status → Bool
  | none, some Status.pending => true
  | some Status.pending, some Status.done => true
  | some Status.pending, some Status.error => true
  | some Status.pending, none => true
  | some Status.done, some Status.deleting => true
  | some Status.error, some Status.errorDeleting => true
  | some Status.deleting, none => true
  | some Status.deleting, some Status.error => true
  | some Status.errorDeleting, none => true
  | some Status.errorDeleting, some Status.error => true
  | _, _ => false

/-- One operation of the core, seen from the metadata store: a call of
`CreateSnapshotPre` or of `DeleteSnapshotPre`, a returning run of the create pipeline
on the task of a pending snapshot, or a returning run of the delete pipeline on the
task of a snapshot in `deleting` or `errorDeleting`. -/
inductive LifecycleStep : MetaStore → MetaStore → Prop
  | createPre (core : SnapshotCoreImpl) (m : MetaStore) (ans : CreateAnswers)
      (file user snapshotName : String) (snapInfo : SnapshotInfo) :
      LifecycleStep m (CreateSnapshotPre core m ans file user snapshotName snapInfo).metaStore
  | deletePre (m : MetaStore) (ans : DeleteAnswers) (uuid : UUID) (user fileName : String)
      (snapInfo : SnapshotInfo) :
      LifecycleStep m (DeleteSnapshotPre m ans uuid user fileName snapInfo).metaStore
  | createTask (core : SnapshotCoreImpl) (env : Env) (fuel : Nat) (t : SnapshotTaskInfo)
      (w : World) (x : PipelineExit) (t1 : SnapshotTaskInfo) (w1 : World) :
      t.uuid_ = t.snapshotInfo.uuid → t.snapshotInfo.status = Status.pending →
      w.metaStore.statusOf t.uuid_ = some Status.pending →
      HandleCreateSnapshotTask core env fuel t w = Except.ok (x, t1, w1) →
      LifecycleStep w.metaStore w1.metaStore
  | deleteTask (env : Env) (fuel : Nat) (t : SnapshotTaskInfo) (w : World)
      (x : PipelineExit) (t1 : SnapshotTaskInfo) (w1 : World) :
      t.uuid_ = t.snapshotInfo.uuid →
      (t.snapshotInfo.status = Status.deleting ∨
        t.snapshotInfo.status = Status.errorDeleting) →
      w.metaStore.statusOf t.uuid_ = some t.snapshotInfo.status →
      HandleDeleteSnapshotTask env fuel t w = Except.ok (x, t1, w1) →
      LifecycleStep w.metaStore w1.metaStore

/-- An environment in which the volume client refuses to create the upstream
snapshot and every other call succeeds. -/
def refusedEnv : Env :=
  { quietEnv 10 with createSnapshot := fun _ => (LibcurveRet.other (-1), 0) }


/-! ## Pipelines: sample runs -/

/-- The task record a run returns with; the task of an empty record for a run that does
not return. -/
def taskAfterD (r : Except Abort (PipelineExit × SnapshotTaskInfo × World)) :
    SnapshotTaskInfo :=
  (taskAfter r).getD (taskOf (SnapshotInfo.create "" "" "" ""))

/-- The world a run returns with; the empty world for a run that does not return. -/
def worldAfterD (r : Except Abort (PipelineExit × SnapshotTaskInfo × World)) : World :=
  (worldAfter r).getD (worldOf [])

/-- The create pipeline on the pending snapshot `id1` of `/a`, alone in the store, in
the environment `env`. -/
def createRun (env : Env) : Except Abort (PipelineExit × SnapshotTaskInfo × World) :=
  HandleCreateSnapshotTask pipeCore env 5 (taskOf (pendingInfo "id1"))
    (worldOf [pendingInfo "id1"])

/-- An environment in which every call succeeds and nobody cancels, and in which every
chunk reports three sequence numbers. -/
def threeSeqEnv : Env :=
  { quietEnv 10 with getChunkInfo := fun _ => (LibcurveRet.OK, ⟨[1, 2, 3]⟩) }

/-- An environment in which every call of the data store fails and every other call
succeeds. -/
def storeDownEnv : Env :=
  { quietEnv 10 with dataRet := fun _ => -1 }


/-! ## Pipelines: vocabulary for the rollback chains -/

/-- Whether a call hands a chunk transfer to the worker pool. -/
def Call.isPushTask : Call → Bool
  | Call.PushTask _ _ => true
  | _ => false

/-- The world `w0` is `w` without a chunk transfer having been submitted: the chunk
blobs and the running transfers are the same, and the calls issued in between contain
no `PushTask`. -/
def Quiet (w w0 : World) : Prop :=
  w0.dataStore.chunkData = w.dataStore.chunkData ∧ w0.inflight = w.inflight ∧
  ∃ pre, w0.calls = w.calls ++ pre ∧ ∀ c ∈ pre, c.isPushTask = false

/-- Rollback-1 has run to its end from `(t0, w0)`: the upstream snapshot delete and the
delete of the record have been issued, in this order, the latter with success, and
`Finish` has been signalled. -/
def RolledBack1 (t0 : SnapshotTaskInfo) (w0 : World) (t1 : SnapshotTaskInfo) (w1 : World) :
    Prop :=
  t1 = t0.Finish ∧ ∃ r : Int, ¬ r < 0 ∧
    w1.metaStore = w0.metaStore.DeleteSnapshot t0.uuid_ r ∧
    w1.dataStore = w0.dataStore ∧ w1.inflight = w0.inflight ∧
    w1.calls = w0.calls ++
      [Call.ClientDeleteSnapshot t0.snapshotInfo.fileName t0.snapshotInfo.user
        t0.snapshotInfo.seqNum,
       Call.metaStore (MetaCall.DeleteSnapshot t0.uuid_) r]

/-- Rollback-2 has run to its end from `(t0, w0)`: the delete of the chunk index, the
upstream snapshot delete and the delete of the record have been issued, in this order,
the first and the last with success, and `Finish` has been signalled. -/
def RolledBack2 (t0 : SnapshotTaskInfo) (w0 : World) (t1 : SnapshotTaskInfo) (w1 : World) :
    Prop :=
  t1 = t0.Finish ∧ ∃ r1 r2 : Int, ¬ r1 < 0 ∧ ¬ r2 < 0 ∧
    w1.metaStore = w0.metaStore.DeleteSnapshot t0.uuid_ r2 ∧
    w1.dataStore
      = w0.dataStore.DeleteChunkIndexData ⟨t0.fileName_, t0.snapshotInfo.seqNum⟩ r1 ∧
    w1.inflight = w0.inflight ∧
    w1.calls = w0.calls ++
      [Call.DeleteChunkIndexData ⟨t0.fileName_, t0.snapshotInfo.seqNum⟩ r1,
       Call.ClientDeleteSnapshot t0.snapshotInfo.fileName t0.snapshotInfo.user
        t0.snapshotInfo.seqNum,
       Call.metaStore (MetaCall.DeleteSnapshot t0.uuid_) r2]

/-- How a run of the create pipeline from `(t, w)` that returns from the end of a
rollback chain with `(t1, w1)` got there: `t2` and `wm` are the task and the world in
which the chain was entered. Cancellation point 1 is the first sample of the flag;
before rollback-2 no chunk transfer has been submitted. -/
def CanceledRun (env : Env) (t : SnapshotTaskInfo) (w : World) (t1 : SnapshotTaskInfo)
    (w1 : World) : Prop :=
  ∃ t2 wm, t2.uuid_ = t.uuid_ ∧ t2.fileName_ = t.fileName_ ∧ CallsExt w wm ∧
    ((t2.progress_ = kProgressCreateSnapshotOnCurvefsComplete ∧
        env.isCanceled t.cancelSamples = true ∧ Quiet w wm ∧ RolledBack1 t2 wm t1 w1) ∨
      (t2.progress_ = kProgressBuildChunkIndexDataComplete ∧
        env.isCanceled t.cancelSamples = false ∧ Quiet w wm ∧ RolledBack2 t2 wm t1 w1) ∨
      (t2.progress_ = kProgressTransferSnapshotDataComplete ∧
        env.isCanceled t.cancelSamples = false ∧ RolledBack2 t2 wm t1 w1))


/-- Whether a call is one of the deletes a rollback chain issues. -/
def Call.isRollback : Call → Bool
  | Call.DeleteChunkData _ _ => true
  | Call.DeleteChunkIndexData _ _ => true
  | Call.ClientDeleteSnapshot _ _ _ => true
  | Call.metaStore (MetaCall.DeleteSnapshot _) _ => true
  | _ => false

/-- An environment in which every call succeeds and the cancel flag is set from sample
`k` on. In a run of `createRun` sample 0 is cancellation point 1, samples 1 to 8 are the
ones of `BuildChunkIndexData`, sample 9 is cancellation point 2, sample 10 the one of the
transfer loop and sample 11 cancellation point 3. -/
def cancelAt (k : Nat) : Env :=
  { quietEnv 10 with isCanceled := fun n => decide (k ≤ n) }

/-- An environment in which the cancel flag is set from sample 1 on, every call of the
data store fails and every other call succeeds. -/
def cancelDownEnv : Env :=
  { quietEnv 10 with isCanceled := fun n => decide (1 ≤ n), dataRet := fun _ => -1 }

/-- An environment in which every call succeeds, the chunks 2 and 7 have been written at
sequence number 3, the cancel flag is set from sample 10 on (the sample of the transfer
loop), and one running chunk transfer completes at tick 6 of the clock: after rollback-3
has asked the store about chunk 2 and before it asks about chunk 7. -/
def raceEnv : Env :=
  { quietEnv 10 with
      getChunkInfo := fun cidInfo =>
        (LibcurveRet.OK, ⟨if cidInfo.cid_ = 2 ∨ cidInfo.cid_ = 7 then [3] else []⟩),
      isCanceled := fun n => decide (10 ≤ n),
      spontaneous := fun c => if c = 6 then 1 else 0 }


/-! ## Pipelines: vocabulary for the chunks of the data store -/

/-- The chunk indices of the peers of a snapshot with sequence number `seqNum` among
the records `snaps`: for every record with another sequence number, the index the store
holds under its key, if it holds one. -/
def peerIndices (d : DataStore) (seqNum : Nat) (snaps : List SnapshotInfo) :
    List ChunkIndexData :=
  snaps.filterMap (fun s =>
    if s.seqNum ≠ seqNum then d.GetChunkIndexData ⟨s.fileName, s.seqNum⟩ 0 else none)


/-- The world `w1` is `w0` after deletes of chunk blobs that spare the chunks the
file-snapshot map names and the chunks outside `names`: the running transfers are the
same, no blob has been added, and every `DeleteChunkData` issued in between is for a
chunk the map does not name. -/
def ChunksKept (fsm : FileSnapMap) (names : List ChunkDataName) (w0 w1 : World) : Prop :=
  w1.inflight = w0.inflight ∧
  (∀ c, c ∈ w1.dataStore.chunkData → c ∈ w0.dataStore.chunkData) ∧
  (∀ c, c ∈ w0.dataStore.chunkData → (fsm.IsExistChunk c = true ∨ c ∉ names) →
    c ∈ w1.dataStore.chunkData) ∧
  ∃ new, w1.calls = w0.calls ++ new ∧
    ∀ nm ret, Call.DeleteChunkData nm ret ∈ new → fsm.IsExistChunk nm = false

/-- The world `w1` is `w0` with the same chunk blobs and running transfers, and no
`DeleteChunkData` has been issued in between. -/
def ChunkSame (w0 w1 : World) : Prop :=
  w1.dataStore.chunkData = w0.dataStore.chunkData ∧ w1.inflight = w0.inflight ∧
  ∃ new, w1.calls = w0.calls ++ new ∧ ∀ nm ret, Call.DeleteChunkData nm ret ∉ new

/-- The names of the chunks of the index the store holds under a key; none when it
holds no index there. -/
def ownChunkNames (d : DataStore) (name : ChunkIndexDataName) : List ChunkDataName :=
  match d.GetChunkIndexData name 0 with
  | some indexData => indexData.GetAllChunkIndex.map indexData.nameAt
  | none => []


/-! ## Pipelines: sample data for the delete pipeline -/

/-- A snapshot record of `/a` with the sizes of `quietEnv`. -/
def snapOf (uuid : UUID) (seq : Nat) (s : Status) : SnapshotInfo :=
  { uuid := uuid, user := "u", fileName := "/a", snapshotName := "snap", seqNum := seq,
    chunkSize := 16, segmentSize := 64, fileLength := 128, time := 7, status := s }

/-- Two snapshots of `/a`, `s1` with sequence number 5 and `s2` with sequence number 10
in status `deleting`; the index of both names the chunk `(/a, 3, 7)`, which the store
holds once. -/
def sharedWorld : World :=
  { metaStore := ⟨[snapOf "s1" 5 Status.done, snapOf "s2" 10 Status.deleting]⟩,
    dataStore :=
      ⟨[(⟨"/a", 5⟩, ⟨"/a", [(7, 3)]⟩), (⟨"/a", 10⟩, ⟨"/a", [(7, 3)]⟩)], [⟨"/a", 3, 7⟩]⟩,
    inflight := [], clock := 0, calls := [] }

/-- The delete pipeline on the task of the record `info`. -/
def deleteRun (env : Env) (info : SnapshotInfo) (w : World) :
    Except Abort (PipelineExit × SnapshotTaskInfo × World) :=
  HandleDeleteSnapshotTask env 5 (taskOf info) w

/-- The world of `sharedWorld` after `s2` has been deleted in a quiet environment and
`DeleteSnapshotPre` has been called for `s1`. -/
def sharedWorldLater : World :=
  { worldAfterD (deleteRun (quietEnv 10) (snapOf "s2" 10 Status.deleting) sharedWorld) with
    metaStore :=
      (DeleteSnapshotPre
        (worldAfterD (deleteRun (quietEnv 10) (snapOf "s2" 10 Status.deleting)
          sharedWorld)).metaStore
        ⟨0, 0⟩ "s1" "u" "/a" (SnapshotInfo.create "" "" "" "")).metaStore }

/-- One snapshot of `/a` in status `deleting` whose index names the chunk `(/a, 3, 7)`,
which the store holds. -/
def loneWorld : World :=
  { metaStore := ⟨[snapOf "s1" 5 Status.deleting]⟩,
    dataStore := ⟨[(⟨"/a", 5⟩, ⟨"/a", [(7, 3)]⟩)], [⟨"/a", 3, 7⟩]⟩,
    inflight := [], clock := 0, calls := [] }

/-- An environment in which the call of the data store at tick 1 of the clock fails and
every other call succeeds. In `deleteRun` on `loneWorld` tick 1 is the call of
`DeleteChunkData`. -/
def chunkDeleteFailsEnv : Env :=
  { quietEnv 10 with dataRet := fun k => if k = 1 then -1 else 0 }


/-- The chunk blobs of `w1` are those of `w0` and, in addition, at most chunks that
satisfy `P`. -/
def Grown (P : ChunkDataName → Prop) (w0 w1 : World) : Prop :=
  (∀ c, c ∈ w0.dataStore.chunkData → c ∈ w1.dataStore.chunkData) ∧
  (∀ c, c ∈ w1.dataStore.chunkData → c ∈ w0.dataStore.chunkData ∨ P c)


/-! ## Pipelines: sample data for the round trip -/

/-- One finished snapshot of `/a`, `s1` with sequence number 5, whose index names the
chunk `(/a, 3, 7)`, which the store holds. -/
def peerWorld : World :=
  { metaStore := ⟨[snapOf "s1" 5 Status.done]⟩,
    dataStore := ⟨[(⟨"/a", 5⟩, ⟨"/a", [(7, 3)]⟩)], [⟨"/a", 3, 7⟩]⟩,
    inflight := [], clock := 0, calls := [] }

/-- The environment `quietEnv 10` on a volume whose chunk 2 has been written as well, at
sequence number 10: the index of a snapshot taken now names the chunks `(/a, 10, 2)` and
`(/a, 3, 7)`. -/
def twoChunkEnv : Env :=
  { quietEnv 10 with
    getChunkInfo := fun cidInfo =>
      (LibcurveRet.OK,
        ⟨if cidInfo.cid_ = 7 then [3] else if cidInfo.cid_ = 2 then [10] else []⟩) }

/-- The answers to a `CreateSnapshotPre` that goes through and draws the uuid `id1`. -/
def roundAnswers : CreateAnswers :=
  { getFileInfoRet := LibcurveRet.OK,
    fInfo := { filestatus := FileStatus.Created, chunksize := 16, segmentsize := 64,
               length := 128, ctime := 7 },
    uuid := "id1", addSnapshotRet := 0 }

/-- The call `CreateSnapshotPre("/a", "u", "snap")` on `peerWorld`. -/
def roundPre : PreResult :=
  CreateSnapshotPre pipeCore peerWorld.metaStore roundAnswers "/a" "u" "snap"
    (SnapshotInfo.create "" "" "" "")

/-- The create pipeline on the snapshot of `roundPre`. -/
def roundCreate : Except Abort (PipelineExit × SnapshotTaskInfo × World) :=
  HandleCreateSnapshotTask pipeCore twoChunkEnv 5 (taskOf roundPre.snapInfo)
    { peerWorld with metaStore := roundPre.metaStore }

/-- The call `DeleteSnapshotPre(id1, "u", "/a")` after `roundCreate`. -/
def roundDel : PreResult :=
  DeleteSnapshotPre (worldAfterD roundCreate).metaStore ⟨0, 0⟩ roundPre.snapInfo.uuid "u" "/a"
    (SnapshotInfo.create "" "" "" "")

/-- The delete pipeline on the snapshot of `roundDel`, in the environment `env`. -/
def roundDelete (env : Env) : Except Abort (PipelineExit × SnapshotTaskInfo × World) :=
  HandleDeleteSnapshotTask env 5 (taskOf roundDel.snapInfo)
    { worldAfterD roundCreate with metaStore := roundDel.metaStore }

/-- An environment in which the call of the data store at tick `k` of the clock fails
and every other call succeeds. -/
def dataFailsAt (k : Nat) : Env :=
  { quietEnv 10 with dataRet := fun n => if n = k then -1 else 0 }


/-! ## Stages: sample data -/

/-- An environment in which the upstream delete answers `OK` and the status polls at the
ticks below `stop` answer `OK` with status `Deleting`; the poll at tick `stop` and the
later ones give the answer `last`. -/
def pollEnv (stop : Nat) (last : LibcurveRet × FileStatus) : Env :=
  { quietEnv 10 with
    checkSnapShotStatus := fun k =>
      if k < stop then (LibcurveRet.OK, FileStatus.Deleting) else last }


/-- The chunk index data of the snapshots of `snaps` whose sequence number differs from
`seqNum` and whose `GetChunkIndexData` call succeeds, in list order; the calls are made
one after the other from tick `clock` on. -/
def peerLoads (env : Env) (d : DataStore) (seqNum clock : Nat) (snaps : List SnapshotInfo) :
    List ChunkIndexData :=
  (List.enumFrom clock (snaps.filter (fun s => decide (s.seqNum ≠ seqNum)))).filterMap
    (fun p => d.GetChunkIndexData ⟨p.2.fileName, p.2.seqNum⟩ (env.dataRet p.1))


/-- Three snapshots of `/a` in list order: `s1` (sequence number 5), `s2` (sequence
number 10) and `s3` (sequence number 7), each with a chunk index in the store. -/
def threeWorld : World :=
  { metaStore :=
      ⟨[snapOf "s1" 5 Status.done, snapOf "s2" 10 Status.deleting, snapOf "s3" 7 Status.done]⟩,
    dataStore :=
      ⟨[(⟨"/a", 5⟩, ⟨"/a", [(7, 3)]⟩), (⟨"/a", 10⟩, ⟨"/a", [(2, 10), (7, 3)]⟩),
        (⟨"/a", 7⟩, ⟨"/a", [(1, 6)]⟩)], [⟨"/a", 3, 7⟩, ⟨"/a", 10, 2⟩, ⟨"/a", 6, 1⟩]⟩,
    inflight := [], clock := 0, calls := [] }


/-- A configuration whose `chunkSplitSize_` is 0. -/
def zeroSplitCore : SnapshotCoreImpl :=
  { pipeCore with chunkSplitSize_ := 0 }

/-- A snapshot record of `/a` whose chunk size is 0. -/
def zeroChunkInfo : SnapshotInfo :=
  { snapOf "s1" 5 Status.pending with chunkSize := 0 }


/-- The chunk a `PushTask` call hands to the worker pool. -/
def Call.pushedName : Call → Option ChunkDataName
  | Call.PushTask name _ => some name
  | _ => none


/-- Between `w` and `w1` calls have been issued, none of them a `PushTask`. -/
def NoPush (w w1 : World) : Prop :=
  ∃ new, w1.calls = w.calls ++ new ∧ ∀ c ∈ new, c.isPushTask = false


/-- The task record a stage function returns with; a fresh record for a call that does
not return. -/
def stageTaskD (r : Except Abort (ErrCode × SnapshotTaskInfo × World)) : SnapshotTaskInfo :=
  match r with
  | Except.ok (_, t, _) => t
  | Except.error _ => taskOf (SnapshotInfo.create "" "" "" "")

/-- The world a stage function returns with; the empty world for a call that does not
return. -/
def stageWorldD (r : Except Abort (ErrCode × SnapshotTaskInfo × World)) : World :=
  match r with
  | Except.ok (_, _, w) => w
  | Except.error _ => worldOf []

/-- The two segments of the volume of `quietEnv`, as `GetSnapshotSegmentInfo` answers
them. -/
def twoSegments : List (Nat × SegmentInfo) :=
  [(0, ⟨[⟨0, 1, 1⟩, ⟨1, 1, 1⟩, ⟨2, 1, 1⟩, ⟨3, 1, 1⟩]⟩),
   (1, ⟨[⟨4, 1, 1⟩, ⟨5, 1, 1⟩, ⟨6, 1, 1⟩, ⟨7, 1, 1⟩]⟩)]

/-- A call of `TransferSnapshotData` for a snapshot of `/a` with sequence number 10 whose
index names the chunks `(/a, 10, 2)` and `(/a, 3, 7)`; the filter is the `FileSnapMap`
that holds the index of a peer naming `(/a, 3, 7)`. -/
def uploadRun : Except Abort (ErrCode × SnapshotTaskInfo × World) :=
  TransferSnapshotData pipeCore (quietEnv 10) 5 ⟨"/a", [(2, 10), (7, 3)]⟩
    (snapOf "id1" 10 Status.pending) twoSegments
    (fun name => FileSnapMap.IsExistChunk ⟨[⟨"/a", [(7, 3)]⟩]⟩ name)
    (taskOf (snapOf "id1" 10 Status.pending)) (worldOf [snapOf "id1" 10 Status.pending])


/-- The test of line 579, `0 == chunkSplitSize_ || chunkSize % chunkSplitSize_ != 0`,
evaluated from left to right as the source does: the remainder is taken only when the
first test has failed. -/
def chunkSizeNotAligned (core : SnapshotCoreImpl) (chunkSize : Nat) : Except Abort Bool :=
  if core.chunkSplitSize_ = 0 then Except.ok true
  else
    match checkedMod chunkSize core.chunkSplitSize_ with
    | Except.error e => Except.error e
    | Except.ok r => Except.ok (decide (r ≠ 0))


/-- The chunk the spec records for slot `j` of segment `i` of a snapshot, given the
sequence numbers `chunkSn` of the chunk: the smaller of two; the only one if it is at
most the sequence number of the snapshot; nothing otherwise. -/
def specChunkName (info : SnapshotInfo) (i j : Nat) (chunkSn : List Nat) :
    Option ChunkDataName :=
  match chunkSn with
  | [a, b] => some ⟨info.fileName, min a b, i * (info.segmentSize / info.chunkSize) + j⟩
  | [a] =>
    if a ≤ info.seqNum then
      some ⟨info.fileName, a, i * (info.segmentSize / info.chunkSize) + j⟩
    else none
  | _ => none

/-- An index after `PutChunkDataName` of the names of a list, one after the other. -/
def putNames (d : ChunkIndexData) (names : List ChunkDataName) : ChunkIndexData :=
  names.foldl ChunkIndexData.PutChunkDataName d

/-- The chunk indices of a chunk map are in strictly increasing order. -/
def ChunkIndexData.Ordered (d : ChunkIndexData) : Prop :=
  (d.GetAllChunkIndex).Pairwise (fun a b => a < b)


/-- The names the spec records for the chunks `cids` in the slots `j`, `j + 1`, ... of
segment `i`, in slot order. -/
def slotNames (env : Env) (info : SnapshotInfo) (i j : Nat) (cids : List ChunkIDInfo) :
    List ChunkDataName :=
  (List.enumFrom j cids).filterMap
    (fun p => specChunkName info i p.1 (env.getChunkInfo p.2).2.chunkSn)

/-- The chunk has at most two sequence numbers. -/
def chunkSnOk (env : Env) (cid : ChunkIDInfo) : Bool :=
  decide ((env.getChunkInfo cid).2.chunkSn.length ≤ 2)

/-- The task record after `n` further samples of the cancel flag. -/
def SnapshotTaskInfo.sampled (task : SnapshotTaskInfo) (n : Nat) : SnapshotTaskInfo :=
  { task with cancelSamples := task.cancelSamples + n }


/-- The slots of segment `i` as the upstream answers them: segment, slot and chunk, in
slot order; none for a segment that is not answered `OK`. -/
def segSlots (env : Env) (info : SnapshotInfo) (i : Nat) : List (Nat × Nat × ChunkIDInfo) :=
  if (env.getSnapshotSegmentInfo (i * info.segmentSize)).1 = LibcurveRet.OK then
    (List.enumFrom 0 (env.getSnapshotSegmentInfo (i * info.segmentSize)).2.chunkvec).map
      (fun p => (i, p.1, p.2))
  else []

/-- The slots of the segments of a list, in the order the loops visit them. -/
def allSlots (env : Env) (info : SnapshotInfo) (l : List Nat) :
    List (Nat × Nat × ChunkIDInfo) :=
  l.flatMap (segSlots env info)

/-- The chunk of the slot has at most two sequence numbers. -/
def slotOk (env : Env) (s : Nat × Nat × ChunkIDInfo) : Bool :=
  chunkSnOk env s.2.2

/-- The chunk the spec records for a slot. -/
def slotName (env : Env) (info : SnapshotInfo) (s : Nat × Nat × ChunkIDInfo) :
    Option ChunkDataName :=
  specChunkName info s.1 s.2.1 (env.getChunkInfo s.2.2).2.chunkSn

/-- The segments of a list that the upstream answers `OK`, each with its answer. -/
def allocatedSegs (env : Env) (info : SnapshotInfo) (l : List Nat) :
    List (Nat × SegmentInfo) :=
  l.filterMap (fun i =>
    if (env.getSnapshotSegmentInfo (i * info.segmentSize)).1 = LibcurveRet.OK then
      some (i, (env.getSnapshotSegmentInfo (i * info.segmentSize)).2)
    else none)


/-- An environment like `quietEnv 10` in which segment 0 is answered with five chunks
(one more than `segmentSize / chunkSize = 4`) and every other segment with four; chunk 4,
in slot 4 of segment 0, was written at sequence number 3, chunk 10, in slot 0 of
segment 1, at sequence number 5, and no other chunk was ever written. -/
def crowdedEnv : Env :=
  { quietEnv 10 with
    getSnapshotSegmentInfo := fun offset =>
      if offset = 0 then
        (LibcurveRet.OK, ⟨[⟨0, 1, 1⟩, ⟨1, 1, 1⟩, ⟨2, 1, 1⟩, ⟨3, 1, 1⟩, ⟨4, 1, 1⟩]⟩)
      else (LibcurveRet.OK, ⟨[⟨10, 1, 1⟩, ⟨11, 1, 1⟩, ⟨12, 1, 1⟩, ⟨13, 1, 1⟩]⟩),
    getChunkInfo := fun cidInfo =>
      (LibcurveRet.OK,
        ⟨if cidInfo.cid_ = 4 then [3] else if cidInfo.cid_ = 10 then [5] else []⟩) }

/-- The index a call of `BuildChunkIndexData` returns; the empty index for a call that
does not return. -/
def builtIndexD
    (r : Except Abort (ErrCode × ChunkIndexData × List (Nat × SegmentInfo) × SnapshotTaskInfo)) :
    ChunkIndexData :=
  match r with
  | Except.ok (_, d, _, _) => d
  | Except.error _ => ⟨"", []⟩

/-- The return code of a call of `BuildChunkIndexData`, if it returns. -/
def builtCode
    (r : Except Abort (ErrCode × ChunkIndexData × List (Nat × SegmentInfo) × SnapshotTaskInfo)) :
    Option ErrCode :=
  match r with
  | Except.ok (c, _, _, _) => some c
  | Except.error _ => none


/-! ## Concurrent calls of `CreateSnapshotPre` under the name lock -/

/-- Where a call of `CreateSnapshotPre` stands: before the lock guard of line 39 is
constructed; holding the lock, before `GetSnapshotList` (line 41); with the list read;
at a `return` statement, the guard not yet destroyed; returned. -/
inductive PrePc
  | start
  | locked
  | listed (fileInfo : List SnapshotInfo)
  | returning (ret : ErrCode) (snapInfo : SnapshotInfo)
  | done (ret : ErrCode) (snapInfo : SnapshotInfo)
  deriving DecidableEq

/-- The part of `SnapshotCoreImpl::CreateSnapshotPre` after the call of
`GetSnapshotList` (lines 42-99), on the list `fileInfo` the call has read and the
metadata store as it is when `AddSnapshot` is reached. -/
def createAfterList (core : SnapshotCoreImpl) (fileInfo : List SnapshotInfo)
    (metaStore : MetaStore) (ans : CreateAnswers) (file user snapshotName : String)
    (snapInfo : SnapshotInfo) : PreResult :=
  if fileInfo.any (fun snap => Status.error == snap.status) then
    ⟨kErrCodeSnapshotCannotCreateWhenError, snapInfo, metaStore, []⟩
  else if fileInfo.length ≥ core.maxSnapshotLimit_ then
    ⟨kErrCodeSnapshotCountReachLimit, snapInfo, metaStore, []⟩
  else
    match ans.getFileInfoRet with
    | LibcurveRet.NOTEXIST => ⟨kErrCodeFileNotExist, snapInfo, metaStore, []⟩
    | LibcurveRet.AUTHFAIL => ⟨kErrCodeInvalidUser, snapInfo, metaStore, []⟩
    | LibcurveRet.OK =>
      if ans.fInfo.filestatus ≠ FileStatus.Created ∧
          ans.fInfo.filestatus ≠ FileStatus.Cloned then
        ⟨kErrCodeFileStatusInvalid, snapInfo, metaStore, []⟩
      else
        let info := (SnapshotInfo.create ans.uuid user file snapshotName).SetStatus
          Status.pending
        let ret := ans.addSnapshotRet
        let metaStore1 := metaStore.AddSnapshot info ret
        if ret < 0 then
          ⟨ErrCode.passThrough ret, snapInfo, metaStore1, [MetaCall.AddSnapshot info]⟩
        else
          ⟨kErrCodeSuccess, info, metaStore1, [MetaCall.AddSnapshot info]⟩
    | _ => ⟨kErrCodeInternalError, snapInfo, metaStore, []⟩

/-- Two calls of `CreateSnapshotPre` in progress (named `true` and `false`), the
metadata store they share, and the names whose lock is held. -/
structure LockState where
  metaStore : MetaStore
  held : List String
  pc : Bool → PrePc

/-- The state in which the call `tid` has moved to `next`. -/
def LockState.moved (s : LockState) (tid : Bool) (next : PrePc) : LockState :=
  { s with pc := Function.update s.pc tid next }

/-- Modelled from the spec: one step of the call `tid`, with the name lock of section 4.1
(`NameLockGuard`, its code is not under src/): the guard is acquired only while no scope
holds the lock of the same name, and it is released when the scope is left. The steps
are: construct the guard; `GetSnapshotList`; the checks, `GetFileInfo` and `AddSnapshot`
up to the `return` statement; destroy the guard. `none`: the call cannot move (it waits
for the lock or has returned). -/
def stepCall (core : SnapshotCoreImpl) (c : CreateCall) (tid : Bool) (s : LockState) :
    Option LockState :=
  match s.pc tid with
  | PrePc.start =>
    if c.file ∈ s.held then none
    else some (LockState.moved { s with held := c.file :: s.held } tid PrePc.locked)
  | PrePc.locked =>
    some (s.moved tid (PrePc.listed (s.metaStore.GetSnapshotList c.file)))
  | PrePc.listed fileInfo =>
    let r := createAfterList core fileInfo s.metaStore c.ans c.file c.user c.snapshotName
      c.snapInfo
    some (LockState.moved { s with metaStore := r.metaStore } tid
      (PrePc.returning r.ret r.snapInfo))
  | PrePc.returning ret snapInfo =>
    some (LockState.moved { s with held := s.held.erase c.file } tid
      (PrePc.done ret snapInfo))
  | PrePc.done _ _ => none

/-- The state after a schedule: the calls move one step at a time in the order the
schedule names them; a call that cannot move when it is named stays where it is. -/
def runSchedule (core : SnapshotCoreImpl) (calls : Bool → CreateCall) :
    LockState → List Bool → LockState
  | s, [] => s
  | s, tid :: rest =>
    runSchedule core calls ((stepCall core (calls tid) tid s).getD s) rest

/-- Both calls about to begin on the store `m`, no lock held. -/
def bothStart (m : MetaStore) : LockState :=
  { metaStore := m, held := [], pc := fun _ => PrePc.start }

/-- How far a call has got. -/
inductive Phase
  | p0
  | p1
  | p2
  | p3
  | p4
  deriving DecidableEq

/-- Where the call `c` stands in each phase when it runs alone on the store `m0`. -/
def phasePc (core : SnapshotCoreImpl) (c : CreateCall) (m0 : MetaStore) : Phase → PrePc
  | Phase.p0 => PrePc.start
  | Phase.p1 => PrePc.locked
  | Phase.p2 => PrePc.listed (m0.GetSnapshotList c.file)
  | Phase.p3 =>
    PrePc.returning (CreateSnapshotPre core m0 c.ans c.file c.user c.snapshotName c.snapInfo).ret
      (CreateSnapshotPre core m0 c.ans c.file c.user c.snapshotName c.snapInfo).snapInfo
  | Phase.p4 =>
    PrePc.done (CreateSnapshotPre core m0 c.ans c.file c.user c.snapshotName c.snapInfo).ret
      (CreateSnapshotPre core m0 c.ans c.file c.user c.snapshotName c.snapInfo).snapInfo

/-- The store in each phase of the call `c` when it runs alone on the store `m0`. -/
def phaseStore (core : SnapshotCoreImpl) (c : CreateCall) (m0 : MetaStore) : Phase → MetaStore
  | Phase.p3 => (CreateSnapshotPre core m0 c.ans c.file c.user c.snapshotName c.snapInfo).metaStore
  | Phase.p4 => (CreateSnapshotPre core m0 c.ans c.file c.user c.snapshotName c.snapInfo).metaStore
  | _ => m0

/-- The phases in which the call holds the lock. -/
def Phase.holds : Phase → Bool
  | Phase.p1 => true
  | Phase.p2 => true
  | Phase.p3 => true
  | _ => false

/-- The state is one that two calls on the same volume reach when one of them (`first`)
runs from the store `m` and the other runs after it has returned: the other call has not
moved before the first one is through. -/
def Serial (core : SnapshotCoreImpl) (calls : Bool → CreateCall) (m : MetaStore)
    (s : LockState) : Prop :=
  ∃ (first : Bool) (p q : Phase), (q ≠ Phase.p0 → p = Phase.p4) ∧
    s.pc first = phasePc core (calls first) m p ∧
    s.pc (!first)
      = phasePc core (calls (!first)) (phaseStore core (calls first) m Phase.p4) q ∧
    s.metaStore
      = (if q = Phase.p0 then phaseStore core (calls first) m p
         else phaseStore core (calls (!first)) (phaseStore core (calls first) m Phase.p4) q) ∧
    s.held = (if p.holds = true ∨ q.holds = true then [(calls first).file] else [])

/-- Two sample calls on the volume `/a`, drawing the uuids `id1` and `id2`. -/
def twoCalls (tid : Bool) : CreateCall :=
  { file := "/a", user := "u", snapshotName := if tid then "snapA" else "snapB",
    snapInfo := SnapshotInfo.create "" "" "" "",
    ans := { getFileInfoRet := LibcurveRet.OK,
             fInfo := { filestatus := FileStatus.Created, chunksize := 16, segmentsize := 64,
                        length := 128, ctime := 7 },
             uuid := if tid then "id1" else "id2", addSnapshotRet := 0 } }


/-- The call is inside the scope of its lock guard (lines 39-99). -/
def PrePc.inside : PrePc → Bool
  | PrePc.locked => true
  | PrePc.listed _ => true
  | PrePc.returning _ _ => true
  | _ => false

/-- A store with one finished snapshot of `/a`. -/
def oneSnapStore : MetaStore := ⟨[snapOf "s1" 5 Status.done]⟩

/-- A schedule in which the two calls take turns: the call `true` gets the lock, the
call `false` waits for it. -/
def turnsSchedule : List Bool :=
  [true, false, true, false, true, false, true, false, false, false, false]


/-- The call has returned. -/
def PrePc.isDone : PrePc → Bool
  | PrePc.done _ _ => true
  | _ => false

/-- A schedule that lets each call move four times, the call `true` twice. -/
def drainSchedule : List Bool :=
  [true, true, true, true, false, false, false, false, true, true, true, true]


/-- Modelled from the spec: the integer a function of the core returns. The values of
the `kErrCode` constants are in `common/define.h` (not under src/) and are given by
`value`; a result handed back by `return ret` is the integer `ret` itself, whichever
constant it may coincide with. -/
def ErrCode.toInt (value : ErrCode → Int) : ErrCode → Int
  | ErrCode.passThrough ret => ret
  | code => value code

/-- An environment in which every chunk transfer fails with the result `v` and every
other call succeeds. -/
def transferFailsEnv (v : Int) : Env :=
  { quietEnv 10 with transferRet := fun _ => v }


/-- Sample integers for the `kErrCode` constants (their values in `common/define.h` are
not under src/): 0 for `kErrCodeSuccess`, a different negative integer for each of the
others. -/
def sampleCodes : ErrCode → Int
  | ErrCode.Success => 0
  | ErrCode.InternalError => -1
  | ErrCode.TaskExist => -2
  | ErrCode.InvalidUser => -3
  | ErrCode.FileNotExist => -4
  | ErrCode.FileStatusInvalid => -5
  | ErrCode.ChunkSizeNotAligned => -6
  | ErrCode.FileNameNotMatch => -7
  | ErrCode.SnapshotCannotDeleteUnfinished => -8
  | ErrCode.SnapshotCannotCreateWhenError => -9
  | ErrCode.SnapshotCannotDeleteCloning => -10
  | ErrCode.SnapshotCountReachLimit => -11
  | ErrCode.passThrough ret => ret


/-! ## Pipelines: the places of the create pipeline -/

/-- The places of `HandleCreateSnapshotTask` between which its stages lie, with the
local variables that are set there: cancellation point 1 (line 154, before
`SetProgress`), the beginning of stage 2 (line 161), cancellation point 2 (line 207),
the beginning of stage 3 (line 212), cancellation point 3 (line 243, after the
`SetProgress` of line 239) and the beginning of stage 5 (line 248). -/
inductive CreatePlace
  | point1 (existIndexData : Bool)
  | stage2 (existIndexData : Bool)
  | point2 (indexData : ChunkIndexData) (segInfos : List (Nat × SegmentInfo))
  | stage3 (indexData : ChunkIndexData) (segInfos : List (Nat × SegmentInfo))
  | point3 (indexData : ChunkIndexData) (fileSnapshotMap : FileSnapMap)
  | stage5

/-- The part of `HandleCreateSnapshotTask` from a place on, run on the task record and
the world the place is reached with. -/
def CreatePlace.rest (core : SnapshotCoreImpl) (env : Env) (fuel : Nat) :
    CreatePlace → SnapshotTaskInfo → World →
      Except Abort (PipelineExit × SnapshotTaskInfo × World)
  | CreatePlace.point1 existIndexData, task, w =>
    createAfterSnapshot core env fuel existIndexData task w
  | CreatePlace.stage2 existIndexData, task, w =>
    createIndex core env fuel existIndexData task w
  | CreatePlace.point2 indexData segInfos, task, w =>
    createAfterIndex core env fuel indexData segInfos task w
  | CreatePlace.stage3 indexData segInfos, task, w =>
    createTransfer core env fuel indexData segInfos task w
  | CreatePlace.point3 indexData fileSnapshotMap, task, w =>
    if (task.IsCanceled env).1 then
      CancelAfterTransferSnapshotData env fuel (task.IsCanceled env).2 indexData
        fileSnapshotMap w
    else Except.ok (createFinalize env (task.IsCanceled env).2 w)
  | CreatePlace.stage5, task, w => Except.ok (createFinalize env task w)

/-- The rollback chain a cancellation point enters when its sample of the flag is
true, run on the task record and the world the place is reached with: rollback-1
(`CancelAfterCreateSnapshotOnCurvefs`) at point 1, rollback-2
(`CancelAfterCreateChunkIndexData`) at point 2, rollback-3
(`CancelAfterTransferSnapshotData`) at point 3; `none` at a place that is not a
cancellation point. -/
def CreatePlace.rollback (env : Env) (fuel : Nat) :
    CreatePlace → SnapshotTaskInfo → World →
      Option (Except Abort (PipelineExit × SnapshotTaskInfo × World))
  | CreatePlace.point1 _, task, w =>
    some (CancelAfterCreateSnapshotOnCurvefs env fuel
      ((task.SetProgress kProgressCreateSnapshotOnCurvefsComplete).IsCanceled env).2 w)
  | CreatePlace.point2 _ _, task, w =>
    some (CancelAfterCreateChunkIndexData env fuel (task.IsCanceled env).2 w)
  | CreatePlace.point3 indexData fileSnapshotMap, task, w =>
    some (CancelAfterTransferSnapshotData env fuel (task.IsCanceled env).2 indexData
      fileSnapshotMap w)
  | _, _, _ => none

/-- The run of `HandleCreateSnapshotTask` from `(t, w)` comes to a place, with the
given task record and world: every stage before the place has returned a
non-negative result and no cancellation point before it has seen the flag. One
constructor per step of the source from place to place: stage 1 (lines 137-147) or
its `else` branch (lines 148-152), cancellation point 1 (lines 154-159), stage 2 with
a stored index (lines 165-185) or without (lines 186-205), cancellation point 2
(lines 207-210), stages 3 and 4 (lines 212-239), cancellation point 3
(lines 242-246). -/
inductive CreateReach (core : SnapshotCoreImpl) (env : Env) (fuel : Nat)
    (t : SnapshotTaskInfo) (w : World) : CreatePlace → SnapshotTaskInfo → World → Prop
  | fresh :
      kUnInitializeSeqNum = t.snapshotInfo.seqNum →
      (CreateSnapshotOnCurvefs env t.fileName_ t w).1.isNegative = false →
      CreateReach core env fuel t w (CreatePlace.point1 false)
        (CreateSnapshotOnCurvefs env t.fileName_ t w).2.1
        (CreateSnapshotOnCurvefs env t.fileName_ t w).2.2
  | resumed :
      kUnInitializeSeqNum ≠ t.snapshotInfo.seqNum →
      CreateReach core env fuel t w
        (CreatePlace.point1
          (w.dataStore.ChunkIndexDataExist ⟨t.fileName_, t.snapshotInfo.seqNum⟩)) t w
  | unseen1 (existIndexData : Bool) (t0 : SnapshotTaskInfo) (w0 : World) :
      CreateReach core env fuel t w (CreatePlace.point1 existIndexData) t0 w0 →
      ((t0.SetProgress kProgressCreateSnapshotOnCurvefsComplete).IsCanceled env).1 = false →
      CreateReach core env fuel t w (CreatePlace.stage2 existIndexData)
        ((t0.SetProgress kProgressCreateSnapshotOnCurvefsComplete).IsCanceled env).2 w0
  | loaded (t0 : SnapshotTaskInfo) (w0 : World) (indexData : ChunkIndexData)
      (ret : ErrCode) (segInfos : List (Nat × SegmentInfo)) :
      CreateReach core env fuel t w (CreatePlace.stage2 true) t0 w0 →
      (w0.GetChunkIndexData env ⟨t0.fileName_, t0.snapshotInfo.seqNum⟩).1 = some indexData →
      BuildSegmentInfo env (t0.SetProgress kProgressBuildChunkIndexDataComplete).snapshotInfo
        = Except.ok (ret, segInfos) →
      ret.isNegative = false →
      CreateReach core env fuel t w (CreatePlace.point2 indexData segInfos)
        (t0.SetProgress kProgressBuildChunkIndexDataComplete)
        (w0.GetChunkIndexData env ⟨t0.fileName_, t0.snapshotInfo.seqNum⟩).2
  | built (t0 : SnapshotTaskInfo) (w0 : World) (ret : ErrCode) (indexData : ChunkIndexData)
      (segInfos : List (Nat × SegmentInfo)) (t1 : SnapshotTaskInfo) :
      CreateReach core env fuel t w (CreatePlace.stage2 false) t0 w0 →
      BuildChunkIndexData env t0.snapshotInfo t0 = Except.ok (ret, indexData, segInfos, t1) →
      ret.isNegative = false →
      ¬ (w0.PutChunkIndexData env ⟨t0.fileName_, t0.snapshotInfo.seqNum⟩ indexData).1 < 0 →
      CreateReach core env fuel t w (CreatePlace.point2 indexData segInfos)
        (t1.SetProgress kProgressBuildChunkIndexDataComplete)
        (w0.PutChunkIndexData env ⟨t0.fileName_, t0.snapshotInfo.seqNum⟩ indexData).2
  | unseen2 (indexData : ChunkIndexData) (segInfos : List (Nat × SegmentInfo))
      (t0 : SnapshotTaskInfo) (w0 : World) :
      CreateReach core env fuel t w (CreatePlace.point2 indexData segInfos) t0 w0 →
      (t0.IsCanceled env).1 = false →
      CreateReach core env fuel t w (CreatePlace.stage3 indexData segInfos)
        (t0.IsCanceled env).2 w0
  | transferred (indexData : ChunkIndexData) (segInfos : List (Nat × SegmentInfo))
      (t0 : SnapshotTaskInfo) (w0 : World) (ret : ErrCode) (t2 : SnapshotTaskInfo)
      (w2 : World) :
      CreateReach core env fuel t w (CreatePlace.stage3 indexData segInfos) t0 w0 →
      (BuildSnapshotMap env t0.fileName_ t0.snapshotInfo.seqNum w0).1.isNegative = false →
      TransferSnapshotData core env fuel indexData
          (t0.SetProgress kProgressBuildSnapshotMapComplete).snapshotInfo segInfos
          (fun name =>
            (BuildSnapshotMap env t0.fileName_ t0.snapshotInfo.seqNum w0).2.1.IsExistChunk name)
          (t0.SetProgress kProgressBuildSnapshotMapComplete)
          (BuildSnapshotMap env t0.fileName_ t0.snapshotInfo.seqNum w0).2.2
        = Except.ok (ret, t2, w2) →
      ret.isNegative = false →
      CreateReach core env fuel t w
        (CreatePlace.point3 indexData
          (BuildSnapshotMap env t0.fileName_ t0.snapshotInfo.seqNum w0).2.1)
        (t2.SetProgress kProgressTransferSnapshotDataComplete) w2
  | unseen3 (indexData : ChunkIndexData) (fileSnapshotMap : FileSnapMap)
      (t0 : SnapshotTaskInfo) (w0 : World) :
      CreateReach core env fuel t w (CreatePlace.point3 indexData fileSnapshotMap) t0 w0 →
      (t0.IsCanceled env).1 = false →
      CreateReach core env fuel t w CreatePlace.stage5 (t0.IsCanceled env).2 w0

/-- A stage of the run of `HandleCreateSnapshotTask` from `(t, w)` returns a negative
result; `(tF, wF)` are the task record and the world at that moment. One constructor
per test `ret < 0` of the function: `CreateSnapshotOnCurvefs` (line 139),
`GetChunkIndexData` (line 167), `BuildSegmentInfo` (line 180), `BuildChunkIndexData`
(line 188), `PutChunkIndexData` (line 196), `BuildSnapshotMap` (line 216),
`TransferSnapshotData` (line 233) and `UpdateSnapshot` (line 250). -/
inductive CreateFails (core : SnapshotCoreImpl) (env : Env) (fuel : Nat)
    (t : SnapshotTaskInfo) (w : World) : SnapshotTaskInfo → World → Prop
  | snapshot :
      kUnInitializeSeqNum = t.snapshotInfo.seqNum →
      (CreateSnapshotOnCurvefs env t.fileName_ t w).1.isNegative = true →
      CreateFails core env fuel t w (CreateSnapshotOnCurvefs env t.fileName_ t w).2.1
        (CreateSnapshotOnCurvefs env t.fileName_ t w).2.2
  | load (t0 : SnapshotTaskInfo) (w0 : World) :
      CreateReach core env fuel t w (CreatePlace.stage2 true) t0 w0 →
      (w0.GetChunkIndexData env ⟨t0.fileName_, t0.snapshotInfo.seqNum⟩).1 = none →
      CreateFails core env fuel t w t0
        (w0.GetChunkIndexData env ⟨t0.fileName_, t0.snapshotInfo.seqNum⟩).2
  | segments (t0 : SnapshotTaskInfo) (w0 : World) (indexData : ChunkIndexData)
      (ret : ErrCode) (segInfos : List (Nat × SegmentInfo)) :
      CreateReach core env fuel t w (CreatePlace.stage2 true) t0 w0 →
      (w0.GetChunkIndexData env ⟨t0.fileName_, t0.snapshotInfo.seqNum⟩).1 = some indexData →
      BuildSegmentInfo env (t0.SetProgress kProgressBuildChunkIndexDataComplete).snapshotInfo
        = Except.ok (ret, segInfos) →
      ret.isNegative = true →
      CreateFails core env fuel t w (t0.SetProgress kProgressBuildChunkIndexDataComplete)
        (w0.GetChunkIndexData env ⟨t0.fileName_, t0.snapshotInfo.seqNum⟩).2
  | build (t0 : SnapshotTaskInfo) (w0 : World) (ret : ErrCode) (indexData : ChunkIndexData)
      (segInfos : List (Nat × SegmentInfo)) (t1 : SnapshotTaskInfo) :
      CreateReach core env fuel t w (CreatePlace.stage2 false) t0 w0 →
      BuildChunkIndexData env t0.snapshotInfo t0 = Except.ok (ret, indexData, segInfos, t1) →
      ret.isNegative = true →
      CreateFails core env fuel t w t1 w0
  | put (t0 : SnapshotTaskInfo) (w0 : World) (ret : ErrCode) (indexData : ChunkIndexData)
      (segInfos : List (Nat × SegmentInfo)) (t1 : SnapshotTaskInfo) :
      CreateReach core env fuel t w (CreatePlace.stage2 false) t0 w0 →
      BuildChunkIndexData env t0.snapshotInfo t0 = Except.ok (ret, indexData, segInfos, t1) →
      ret.isNegative = false →
      (w0.PutChunkIndexData env ⟨t0.fileName_, t0.snapshotInfo.seqNum⟩ indexData).1 < 0 →
      CreateFails core env fuel t w t1
        (w0.PutChunkIndexData env ⟨t0.fileName_, t0.snapshotInfo.seqNum⟩ indexData).2
  | map (indexData : ChunkIndexData) (segInfos : List (Nat × SegmentInfo))
      (t0 : SnapshotTaskInfo) (w0 : World) :
      CreateReach core env fuel t w (CreatePlace.stage3 indexData segInfos) t0 w0 →
      (BuildSnapshotMap env t0.fileName_ t0.snapshotInfo.seqNum w0).1.isNegative = true →
      CreateFails core env fuel t w t0
        (BuildSnapshotMap env t0.fileName_ t0.snapshotInfo.seqNum w0).2.2
  | transfer (indexData : ChunkIndexData) (segInfos : List (Nat × SegmentInfo))
      (t0 : SnapshotTaskInfo) (w0 : World) (ret : ErrCode) (t2 : SnapshotTaskInfo)
      (w2 : World) :
      CreateReach core env fuel t w (CreatePlace.stage3 indexData segInfos) t0 w0 →
      (BuildSnapshotMap env t0.fileName_ t0.snapshotInfo.seqNum w0).1.isNegative = false →
      TransferSnapshotData core env fuel indexData
          (t0.SetProgress kProgressBuildSnapshotMapComplete).snapshotInfo segInfos
          (fun name =>
            (BuildSnapshotMap env t0.fileName_ t0.snapshotInfo.seqNum w0).2.1.IsExistChunk name)
          (t0.SetProgress kProgressBuildSnapshotMapComplete)
          (BuildSnapshotMap env t0.fileName_ t0.snapshotInfo.seqNum w0).2.2
        = Except.ok (ret, t2, w2) →
      ret.isNegative = true →
      CreateFails core env fuel t w t2 w2
  | update (t0 : SnapshotTaskInfo) (w0 : World) :
      CreateReach core env fuel t w CreatePlace.stage5 t0 w0 →
      (w0.UpdateSnapshot env (t0.snapshotInfo.SetStatus Status.done)).1 < 0 →
      CreateFails core env fuel t w
        { t0 with snapshotInfo := t0.snapshotInfo.SetStatus Status.done }
        (w0.UpdateSnapshot env (t0.snapshotInfo.SetStatus Status.done)).2


/-- The volume client deletes the upstream snapshot when it is asked at tick `c` of the
clock: the delete answers `OK`, `NOTEXIST` or `DELETING`, the first `n` polls of the
status answer `OK` with status `Deleting`, and the poll after them answers `NOTEXIST`,
or `OK` with another status. -/
def Env.deletesSnapshotAt (env : Env) (c n : Nat) : Prop :=
  (env.deleteSnapshot c = LibcurveRet.OK ∨ env.deleteSnapshot c = LibcurveRet.NOTEXIST ∨
    env.deleteSnapshot c = LibcurveRet.DELETING) ∧
  (∀ k, k < n → env.checkSnapShotStatus (c + 1 + k) = (LibcurveRet.OK, FileStatus.Deleting)) ∧
  ((env.checkSnapShotStatus (c + 1 + n)).1 = LibcurveRet.NOTEXIST ∨
    ((env.checkSnapShotStatus (c + 1 + n)).1 = LibcurveRet.OK ∧
      (env.checkSnapShotStatus (c + 1 + n)).2 ≠ FileStatus.Deleting))


/-- The snapshot info the stages after stage 1 work with: the record of the task, with
the sequence number and the sizes `CreateSnapshotOnCurvefs` fills in when the run
begins with stage 1. -/
def stageInfo (env : Env) (t : SnapshotTaskInfo) (w : World) : SnapshotInfo :=
  if kUnInitializeSeqNum = t.snapshotInfo.seqNum then
    (CreateSnapshotOnCurvefs env t.fileName_ t w).2.1.snapshotInfo
  else t.snapshotInfo

/-- Every call of a collaborator succeeds: the volume client creates the upstream
snapshot (`OK` or `UNDER_SNAPSHOT`) and answers `GetSnapshot` and `GetChunkInfo` with
`OK`, a segment with `OK` or `NOT_ALLOCATE`; it deletes the upstream snapshot whenever
asked, after fewer polls than the fuel; the stores and the chunk transfers return
non-negative results. -/
structure Env.AllSucceed (env : Env) (fuel : Nat) : Prop where
  createSnapshot : ∀ k, (env.createSnapshot k).1 = LibcurveRet.OK ∨
    (env.createSnapshot k).1 = LibcurveRet.UNDER_SNAPSHOT
  getSnapshot : ∀ k, (env.getSnapshot k).1 = LibcurveRet.OK
  segmentInfo : ∀ offset, (env.getSnapshotSegmentInfo offset).1 = LibcurveRet.OK ∨
    (env.getSnapshotSegmentInfo offset).1 = LibcurveRet.NOT_ALLOCATE
  chunkInfo : ∀ cidInfo, (env.getChunkInfo cidInfo).1 = LibcurveRet.OK
  deleteSnapshot : ∀ c, ∃ n, n < fuel ∧ env.deletesSnapshotAt c n
  metaRet : ∀ k, ¬ env.metaRet k < 0
  dataRet : ∀ k, ¬ env.dataRet k < 0
  transferRet : ∀ k, ¬ env.transferRet k < 0


/-- An environment in which every call succeeds and nobody cancels, and in which every
segment is answered with five chunks, one more than `segmentSize / chunkSize = 4`; only
chunk 8, in slot 4 of segment 1, has ever been written, at sequence number 3. -/
def overfullEnv : Env :=
  { quietEnv 10 with
    getSnapshotSegmentInfo := fun offset =>
      (LibcurveRet.OK,
        ⟨[⟨offset / 16, 1, 1⟩, ⟨offset / 16 + 1, 1, 1⟩, ⟨offset / 16 + 2, 1, 1⟩,
          ⟨offset / 16 + 3, 1, 1⟩, ⟨offset / 16 + 4, 1, 1⟩]⟩),
    getChunkInfo := fun cidInfo =>
      (LibcurveRet.OK, ⟨if cidInfo.cid_ = 8 then [3] else []⟩) }

/-- An environment in which every call succeeds and nobody cancels, and in which
`GetSnapshot` reports the segment size 0. -/
def zeroSegmentEnv : Env :=
  { quietEnv 10 with
    getSnapshot := fun _ =>
      (LibcurveRet.OK,
        { filestatus := FileStatus.Created, chunksize := 16, segmentsize := 0,
          length := 128, ctime := 7 }) }

/-- A world in which the snapshot `id1` of `/a` has its sequence number 10 and the data
store holds an index under its name whose only chunk index, 99, is beyond the two
segments of the volume. -/
def strayIndexWorld : World :=
  { worldOf [snapOf "id1" 10 Status.pending] with
    dataStore := ⟨[(⟨"/a", 10⟩, ⟨"/a", [(99, 3)]⟩)], []⟩ }


/-- An environment in which every call succeeds and nobody cancels, and in which
`GetSnapshot` reports the chunk size 0. -/
def zeroChunkEnv : Env :=
  { quietEnv 10 with
    getSnapshot := fun _ =>
      (LibcurveRet.OK,
        { filestatus := FileStatus.Created, chunksize := 0, segmentsize := 64,
          length := 128, ctime := 7 }) }


/-- How a returning run of `HandleCreateSnapshotTask` from `(t, w)` with exit `x` has
gone: a stage has returned a negative result; or the run has come to a cancellation
point whose sample of the flag is true and has gone on as the rollback chain of that
point; or it has come to stage 5 and left through the success path. -/
def CreateOutcome (core : SnapshotCoreImpl) (env : Env) (fuel : Nat)
    (t : SnapshotTaskInfo) (w : World) (x : PipelineExit) : Prop :=
  (∃ tF wF, CreateFails core env fuel t w tF wF) ∨
  (∃ p t0 w0 chain, CreateReach core env fuel t w p t0 w0 ∧
    p.rollback env fuel t0 w0 = some chain ∧ env.isCanceled t0.cancelSamples = true ∧
    HandleCreateSnapshotTask core env fuel t w = chain) ∨
  (∃ t0 w0, CreateReach core env fuel t w CreatePlace.stage5 t0 w0 ∧ x = PipelineExit.done)


/-! ## Sample data -/

def sampleCore : SnapshotCoreImpl :=
  { maxSnapshotLimit_ := 2, snapshotCoreThreadNum_ := 4, chunkSplitSize_ := 1048576,
    checkSnapshotStatusIntervalMs_ := 1000, mdsSessionTimeUs_ := 5000000 }

def sampleInfo (uuid : UUID) (file : String) (s : Status) : SnapshotInfo :=
  { uuid := uuid, user := "u", fileName := file, snapshotName := "snap",
    seqNum := 1, chunkSize := 16, segmentSize := 64, fileLength := 1024,
    time := 7, status := s }

def blankInfo : SnapshotInfo := SnapshotInfo.create "" "" "" ""

def okFInfo : FInfo :=
  { filestatus := FileStatus.Created, chunksize := 16, segmentsize := 64,
    length := 1024, ctime := 7 }

def okAnswers (uuid : UUID) : CreateAnswers :=
  { getFileInfoRet := LibcurveRet.OK, fInfo := okFInfo, uuid := uuid, addSnapshotRet := 0 }

/-! ## Auxiliary facts -/

theorem GetSnapshotList_AddSnapshot (m : MetaStore) (info : SnapshotInfo) (file : String) :
    (MetaStore.GetSnapshotList ⟨m.records ++ [info]⟩ file).length
      = (m.GetSnapshotList file).length + (if info.fileName = file then 1 else 0) := by
  unfold MetaStore.GetSnapshotList
  by_cases h : info.fileName = file <;> simp [List.filter_append, List.filter_cons, h]

theorem CreateSnapshotPre_metaStore_cases (core : SnapshotCoreImpl) (m : MetaStore)
    (ans : CreateAnswers) (file user snapshotName : String) (snapInfo : SnapshotInfo) :
    (CreateSnapshotPre core m ans file user snapshotName snapInfo).metaStore = m ∨
    ((m.GetSnapshotList file).length < core.maxSnapshotLimit_ ∧
      ∃ info : SnapshotInfo, info.fileName = file ∧
        (CreateSnapshotPre core m ans file user snapshotName snapInfo).metaStore
          = ⟨m.records ++ [info]⟩) := by
  by_cases hlt : (m.GetSnapshotList file).length < core.maxSnapshotLimit_
  · by_cases hadd : ans.addSnapshotRet < 0
    · left
      unfold CreateSnapshotPre
      cases hret : ans.getFileInfoRet <;> simp only [] <;> split_ifs <;>
        simp [MetaStore.AddSnapshot, hadd]
    · unfold CreateSnapshotPre
      cases hret : ans.getFileInfoRet <;> simp only [] <;> split_ifs <;>
        first
          | exact Or.inl rfl
          | exact Or.inr ⟨hlt,
              (SnapshotInfo.create ans.uuid user file snapshotName).SetStatus Status.pending,
              rfl, by simp [MetaStore.AddSnapshot, hadd]⟩
  · left
    have hge : (m.GetSnapshotList file).length ≥ core.maxSnapshotLimit_ := by omega
    unfold CreateSnapshotPre
    simp only [hge, if_true]
    split_ifs <;> rfl

theorem CreateSnapshotPre_SnapshotCap (core : SnapshotCoreImpl) (m : MetaStore)
    (ans : CreateAnswers) (file user snapshotName : String) (snapInfo : SnapshotInfo)
    (h : SnapshotCap core m) :
    SnapshotCap core (CreateSnapshotPre core m ans file user snapshotName snapInfo).metaStore := by
  rcases CreateSnapshotPre_metaStore_cases core m ans file user snapshotName snapInfo with
    he | ⟨hlt, info, hf, he⟩
  · rw [he]; exact h
  · rw [he]
    intro f
    rw [GetSnapshotList_AddSnapshot]
    by_cases hff : info.fileName = f
    · subst hff
      simp only [if_true]
      rw [hf]
      omega
    · simp only [hff, if_false]
      exact h f

theorem GetSnapshotInfo_some (m : MetaStore) (uuid : UUID) (snap : SnapshotInfo)
    (h : m.GetSnapshotInfo uuid = some snap) : snap.uuid = uuid ∧ snap ∈ m.records := by
  unfold MetaStore.GetSnapshotInfo at h
  exact ⟨by simpa using List.find?_some h, List.mem_of_find?_eq_some h⟩

theorem GetSnapshotInfo_none (m : MetaStore) (uuid : UUID)
    (h : ∀ s ∈ m.records, s.uuid ≠ uuid) : m.GetSnapshotInfo uuid = none := by
  unfold MetaStore.GetSnapshotInfo
  rw [List.find?_eq_none]
  intro s hs
  simpa using h s hs

theorem GetSnapshotInfo_DeleteSnapshot (m : MetaStore) (uuid : UUID) (ret : Int)
    (h : ¬ ret < 0) : (m.DeleteSnapshot uuid ret).GetSnapshotInfo uuid = none := by
  apply GetSnapshotInfo_none
  intro s hs
  simp only [MetaStore.DeleteSnapshot, if_neg h, List.mem_filter] at hs
  simpa using hs.2

theorem UpdateSnapshot_records (m : MetaStore) (snap info : SnapshotInfo) (ret : Int)
    (hret : ¬ ret < 0) (hmem : snap ∈ m.records) (huuid : info.uuid = snap.uuid)
    (huniq : (m.records.map SnapshotInfo.uuid).Nodup) :
    (m.UpdateSnapshot info ret).records
      = m.records.map (fun s => if s = snap then info else s) := by
  simp only [MetaStore.UpdateSnapshot, if_neg hret]
  apply List.map_congr_left
  intro s hs
  by_cases hsr : s = snap
  · subst hsr
    simp [huuid]
  · have hne : s.uuid ≠ snap.uuid := fun he =>
      hsr (List.inj_on_of_nodup_map huniq hs hmem he)
    simp [hsr, huuid, hne]

theorem GetSnapshotInfo_UpdateSnapshot (m : MetaStore) (uuid : UUID)
    (snap info : SnapshotInfo) (ret : Int) (hret : ¬ ret < 0)
    (hfind : m.GetSnapshotInfo uuid = some snap) (huuid : info.uuid = uuid) :
    (m.UpdateSnapshot info ret).GetSnapshotInfo uuid = some info := by
  unfold MetaStore.GetSnapshotInfo at hfind ⊢
  simp only [MetaStore.UpdateSnapshot, if_neg hret, List.find?_map]
  have hfun : ((fun s : SnapshotInfo => s.uuid == uuid) ∘
      fun s : SnapshotInfo => if (s.uuid == info.uuid) = true then info else s)
      = fun s : SnapshotInfo => s.uuid == uuid := by
    funext s
    by_cases hs : s.uuid = uuid
    · simp [hs, huuid]
    · simp [hs, huuid]
  rw [hfun, hfind]
  have hsnap : snap.uuid = uuid := by simpa using List.find?_some hfind
  simp [hsnap, huuid]

/-! ## Claims on `CreateSnapshotPre` -/

/-- C1. Snapshot cap invariant: if every volume has at most `maxSnapshotLimit_`
snapshot records, then after any finite sequence of `CreateSnapshotPre` calls, with
any arguments and any answers of the volume client, the uuid generator and the
metadata store, every volume still has at most `maxSnapshotLimit_` records. -/
theorem C1_snapshot_cap_invariant (core : SnapshotCoreImpl) (calls : List CreateCall)
    (m : MetaStore) (h : SnapshotCap core m) :
    SnapshotCap core (runCreateSnapshotPre core m calls) := by
  induction calls generalizing m with
  | nil => exact h
  | cons c cs ih =>
    exact ih _ (CreateSnapshotPre_SnapshotCap core m c.ans c.file c.user c.snapshotName
      c.snapInfo h)

/-- Witness of C1: an empty store, limit 2, three successful requests on `/a` and
one on `/b`. -/
theorem C1_snapshot_cap_invariant_witness :
    SnapshotCap sampleCore ⟨[]⟩ ∧
    SnapshotCap sampleCore (runCreateSnapshotPre sampleCore ⟨[]⟩
      [⟨"/a", "u", "s1", blankInfo, okAnswers "id1"⟩,
       ⟨"/a", "u", "s2", blankInfo, okAnswers "id2"⟩,
       ⟨"/b", "u", "s3", blankInfo, okAnswers "id3"⟩,
       ⟨"/a", "u", "s4", blankInfo, okAnswers "id4"⟩]) :=
  ⟨fun _ => by simp [MetaStore.GetSnapshotList],
   C1_snapshot_cap_invariant sampleCore _ ⟨[]⟩
     (fun _ => by simp [MetaStore.GetSnapshotList])⟩

/-- C2. If the snapshot list of the file holds a snapshot whose status is `error`,
`CreateSnapshotPre` returns `SnapshotCannotCreateWhenError`, whatever the snapshot
count and the answer of the volume client, and adds no record: the store and the
out parameter are as before and no call was issued to the store. -/
theorem C2_error_blocks_create (core : SnapshotCoreImpl) (m : MetaStore)
    (ans : CreateAnswers) (file user snapshotName : String) (snapInfo : SnapshotInfo)
    (h : ∃ s ∈ m.GetSnapshotList file, s.status = Status.error) :
    CreateSnapshotPre core m ans file user snapshotName snapInfo
      = ⟨ErrCode.SnapshotCannotCreateWhenError, snapInfo, m, []⟩ := by
  have hany : (m.GetSnapshotList file).any (fun snap => Status.error == snap.status) = true := by
    obtain ⟨s, hs, he⟩ := h
    rw [List.any_eq_true]
    exact ⟨s, hs, by simp [he]⟩
  unfold CreateSnapshotPre
  simp only [hany, if_true]

/-- Witness of C2 (scenario S3): one prior snapshot of `/a` in `error`. -/
theorem C2_error_blocks_create_witness :
    (∃ s ∈ MetaStore.GetSnapshotList ⟨[sampleInfo "id0" "/a" Status.error]⟩ "/a",
      s.status = Status.error) ∧
    CreateSnapshotPre sampleCore ⟨[sampleInfo "id0" "/a" Status.error]⟩ (okAnswers "id1")
        "/a" "u" "snap2" blankInfo
      = ⟨ErrCode.SnapshotCannotCreateWhenError, blankInfo,
          ⟨[sampleInfo "id0" "/a" Status.error]⟩, []⟩ :=
  ⟨⟨sampleInfo "id0" "/a" Status.error, by decide, rfl⟩,
   C2_error_blocks_create sampleCore ⟨[sampleInfo "id0" "/a" Status.error]⟩ (okAnswers "id1")
     "/a" "u" "snap2" blankInfo ⟨sampleInfo "id0" "/a" Status.error, by decide, rfl⟩⟩

/-- C3. If the snapshot list of the file holds no snapshot in `error` and has at
least `maxSnapshotLimit_` entries, `CreateSnapshotPre` returns
`SnapshotCountReachLimit` and no `AddSnapshot` is persisted: the store and the out
parameter are as before and no call was issued to the store. -/
theorem C3_count_reach_limit (core : SnapshotCoreImpl) (m : MetaStore)
    (ans : CreateAnswers) (file user snapshotName : String) (snapInfo : SnapshotInfo)
    (hne : ∀ s ∈ m.GetSnapshotList file, s.status ≠ Status.error)
    (hcount : core.maxSnapshotLimit_ ≤ (m.GetSnapshotList file).length) :
    CreateSnapshotPre core m ans file user snapshotName snapInfo
      = ⟨ErrCode.SnapshotCountReachLimit, snapInfo, m, []⟩ := by
  have hany : ¬ (m.GetSnapshotList file).any (fun snap => Status.error == snap.status) = true := by
    rw [List.any_eq_true]
    rintro ⟨s, hs, he⟩
    have he2 : Status.error = s.status := by simpa using he
    exact hne s hs he2.symm
  have hge : (m.GetSnapshotList file).length ≥ core.maxSnapshotLimit_ := hcount
  unfold CreateSnapshotPre
  rw [if_neg hany, if_pos hge]

/-- Witness of C3 (scenario S2): limit 2 and two prior snapshots of `/a` in `done`. -/
theorem C3_count_reach_limit_witness :
    sampleCore.maxSnapshotLimit_ = 2 ∧
    CreateSnapshotPre sampleCore
        ⟨[sampleInfo "id1" "/a" Status.done, sampleInfo "id2" "/a" Status.done]⟩
        (okAnswers "id3") "/a" "u" "snap3" blankInfo
      = ⟨ErrCode.SnapshotCountReachLimit, blankInfo,
          ⟨[sampleInfo "id1" "/a" Status.done, sampleInfo "id2" "/a" Status.done]⟩, []⟩ :=
  ⟨rfl,
   C3_count_reach_limit sampleCore
     ⟨[sampleInfo "id1" "/a" Status.done, sampleInfo "id2" "/a" Status.done]⟩
     (okAnswers "id3") "/a" "u" "snap3" blankInfo (by decide) (by decide)⟩

/-- C4. When the error-status check and the count check pass, the answer of
`GetFileInfo` decides the result: `NOTEXIST` gives `FileNotExist`, `AUTHFAIL` gives
`InvalidUser`, any other answer than `OK` gives `InternalError`, `OK` with a file
status that is neither `Created` nor `Cloned` gives `FileStatusInvalid` (in these
four cases nothing is issued to the store), and `AddSnapshot` is issued exactly when
the answer is `OK` with status `Created` or `Cloned`. -/
theorem C4_client_answer_decides (core : SnapshotCoreImpl) (m : MetaStore)
    (ans : CreateAnswers) (file user snapshotName : String) (snapInfo : SnapshotInfo)
    (hne : ∀ s ∈ m.GetSnapshotList file, s.status ≠ Status.error)
    (hlt : (m.GetSnapshotList file).length < core.maxSnapshotLimit_) :
    (ans.getFileInfoRet = LibcurveRet.NOTEXIST →
      CreateSnapshotPre core m ans file user snapshotName snapInfo
        = ⟨ErrCode.FileNotExist, snapInfo, m, []⟩) ∧
    (ans.getFileInfoRet = LibcurveRet.AUTHFAIL →
      CreateSnapshotPre core m ans file user snapshotName snapInfo
        = ⟨ErrCode.InvalidUser, snapInfo, m, []⟩) ∧
    (ans.getFileInfoRet ≠ LibcurveRet.OK → ans.getFileInfoRet ≠ LibcurveRet.NOTEXIST →
      ans.getFileInfoRet ≠ LibcurveRet.AUTHFAIL →
      CreateSnapshotPre core m ans file user snapshotName snapInfo
        = ⟨ErrCode.InternalError, snapInfo, m, []⟩) ∧
    (ans.getFileInfoRet = LibcurveRet.OK → ans.fInfo.filestatus ≠ FileStatus.Created →
      ans.fInfo.filestatus ≠ FileStatus.Cloned →
      CreateSnapshotPre core m ans file user snapshotName snapInfo
        = ⟨ErrCode.FileStatusInvalid, snapInfo, m, []⟩) ∧
    ((CreateSnapshotPre core m ans file user snapshotName snapInfo).metaCalls
        = [MetaCall.AddSnapshot
            ((SnapshotInfo.create ans.uuid user file snapshotName).SetStatus Status.pending)]
      ↔ (ans.getFileInfoRet = LibcurveRet.OK ∧
          (ans.fInfo.filestatus = FileStatus.Created ∨
            ans.fInfo.filestatus = FileStatus.Cloned))) ∧
    ((CreateSnapshotPre core m ans file user snapshotName snapInfo).metaCalls = []
      ↔ ¬ (ans.getFileInfoRet = LibcurveRet.OK ∧
          (ans.fInfo.filestatus = FileStatus.Created ∨
            ans.fInfo.filestatus = FileStatus.Cloned))) := by
  have hany : ¬ (m.GetSnapshotList file).any (fun snap => Status.error == snap.status) = true := by
    rw [List.any_eq_true]
    rintro ⟨s, hs, he⟩
    have he2 : Status.error = s.status := by simpa using he
    exact hne s hs he2.symm
  have hge : ¬ (m.GetSnapshotList file).length ≥ core.maxSnapshotLimit_ := by omega
  unfold CreateSnapshotPre
  simp only [if_neg hany, if_neg hge]
  refine ⟨?_, ?_, ?_, ?_, ?_, ?_⟩
  · intro h; simp only [h]
  · intro h; simp only [h]
  · intro h1 h2 h3
    cases hret : ans.getFileInfoRet <;> simp_all
  · intro h h1 h2
    simp only [h]
    rw [if_pos ⟨h1, h2⟩]
  · cases hret : ans.getFileInfoRet <;> simp only [] <;> (try split_ifs) <;> simp_all <;> tauto
  · cases hret : ans.getFileInfoRet <;> simp only [] <;> (try split_ifs) <;> simp_all

/-- Witness of C4: an empty store and a client that answers `AUTHFAIL`. -/
theorem C4_client_answer_decides_witness :
    CreateSnapshotPre sampleCore ⟨[]⟩ ⟨LibcurveRet.AUTHFAIL, okFInfo, "id1", 0⟩
        "/a" "u" "s1" blankInfo
      = ⟨ErrCode.InvalidUser, blankInfo, ⟨[]⟩, []⟩ :=
  (C4_client_answer_decides sampleCore ⟨[]⟩ ⟨LibcurveRet.AUTHFAIL, okFInfo, "id1", 0⟩
    "/a" "u" "s1" blankInfo (by decide) (by decide)).2.1 rfl

/-- C5. When every check passes and `AddSnapshot` succeeds, `CreateSnapshotPre`
returns `Success`; the returned `SnapshotInfo` has status `pending`, sequence number
`kUnInitializeSeqNum`, the generated uuid and the user, file and snapshot name of
the caller; the store afterwards is the store before plus exactly that record, and
the only call issued to the store is the `AddSnapshot` of that record. -/
theorem C5_create_success (core : SnapshotCoreImpl) (m : MetaStore)
    (ans : CreateAnswers) (file user snapshotName : String) (snapInfo : SnapshotInfo)
    (hne : ∀ s ∈ m.GetSnapshotList file, s.status ≠ Status.error)
    (hlt : (m.GetSnapshotList file).length < core.maxSnapshotLimit_)
    (hok : ans.getFileInfoRet = LibcurveRet.OK)
    (hstatus : ans.fInfo.filestatus = FileStatus.Created ∨
      ans.fInfo.filestatus = FileStatus.Cloned)
    (hadd : ¬ ans.addSnapshotRet < 0) :
    (CreateSnapshotPre core m ans file user snapshotName snapInfo).ret = ErrCode.Success ∧
    (CreateSnapshotPre core m ans file user snapshotName snapInfo).snapInfo.status
      = Status.pending ∧
    (CreateSnapshotPre core m ans file user snapshotName snapInfo).snapInfo.seqNum
      = kUnInitializeSeqNum ∧
    (CreateSnapshotPre core m ans file user snapshotName snapInfo).snapInfo.uuid = ans.uuid ∧
    (CreateSnapshotPre core m ans file user snapshotName snapInfo).snapInfo.user = user ∧
    (CreateSnapshotPre core m ans file user snapshotName snapInfo).snapInfo.fileName = file ∧
    (CreateSnapshotPre core m ans file user snapshotName snapInfo).snapInfo.snapshotName
      = snapshotName ∧
    (CreateSnapshotPre core m ans file user snapshotName snapInfo).metaStore.records
      = m.records ++ [(CreateSnapshotPre core m ans file user snapshotName snapInfo).snapInfo] ∧
    (CreateSnapshotPre core m ans file user snapshotName snapInfo).metaCalls
      = [MetaCall.AddSnapshot
          (CreateSnapshotPre core m ans file user snapshotName snapInfo).snapInfo] := by
  have hany : ¬ (m.GetSnapshotList file).any (fun snap => Status.error == snap.status) = true := by
    rw [List.any_eq_true]
    rintro ⟨s, hs, he⟩
    have he2 : Status.error = s.status := by simpa using he
    exact hne s hs he2.symm
  have hge : ¬ (m.GetSnapshotList file).length ≥ core.maxSnapshotLimit_ := by omega
  have hst : ¬ (ans.fInfo.filestatus ≠ FileStatus.Created ∧
      ans.fInfo.filestatus ≠ FileStatus.Cloned) := by
    rcases hstatus with h | h <;> simp [h]
  have hrun : CreateSnapshotPre core m ans file user snapshotName snapInfo
      = ⟨ErrCode.Success,
          (SnapshotInfo.create ans.uuid user file snapshotName).SetStatus Status.pending,
          ⟨m.records ++
            [(SnapshotInfo.create ans.uuid user file snapshotName).SetStatus Status.pending]⟩,
          [MetaCall.AddSnapshot
            ((SnapshotInfo.create ans.uuid user file snapshotName).SetStatus Status.pending)]⟩ := by
    unfold CreateSnapshotPre
    simp only [if_neg hany, if_neg hge, hok, if_neg hst, if_neg hadd, MetaStore.AddSnapshot]
  rw [hrun]
  exact ⟨rfl, rfl, rfl, rfl, rfl, rfl, rfl, rfl, rfl⟩

/-- Witness of C5: the first snapshot of `/a` on an empty store. -/
theorem C5_create_success_witness :
    (CreateSnapshotPre sampleCore ⟨[]⟩ (okAnswers "id1") "/a" "u" "s1" blankInfo).ret
      = ErrCode.Success ∧
    (CreateSnapshotPre sampleCore ⟨[]⟩ (okAnswers "id1") "/a" "u" "s1"
      blankInfo).metaStore.records
      = [(SnapshotInfo.create "id1" "u" "/a" "s1").SetStatus Status.pending] := by
  have h := C5_create_success sampleCore ⟨[]⟩ (okAnswers "id1") "/a" "u" "s1" blankInfo
    (by decide) (by decide) rfl (Or.inl rfl) (by decide)
  exact ⟨h.1, by decide⟩

/-! ## Claims on both precondition operations and on `DeleteSnapshotPre` -/

/-- C6. Atomicity of the precondition operations: a call of `CreateSnapshotPre` or
of `DeleteSnapshotPre` that returns a code other than `Success` leaves the metadata
store identical to the store before the call, and when that code is the code of a
failed check (not a return value handed back from the store) no `AddSnapshot` and
no `UpdateSnapshot` was issued. -/
theorem C6_precondition_atomicity (core : SnapshotCoreImpl) (m : MetaStore)
    (cans : CreateAnswers) (file user snapshotName : String) (csnap : SnapshotInfo)
    (dans : DeleteAnswers) (uuid : UUID) (duser dfile : String) (dsnap : SnapshotInfo) :
    ((CreateSnapshotPre core m cans file user snapshotName csnap).ret ≠ ErrCode.Success →
      (CreateSnapshotPre core m cans file user snapshotName csnap).metaStore = m ∧
      ((∀ x, (CreateSnapshotPre core m cans file user snapshotName csnap).ret
            ≠ ErrCode.passThrough x) →
        (CreateSnapshotPre core m cans file user snapshotName csnap).metaCalls = [])) ∧
    ((DeleteSnapshotPre m dans uuid duser dfile dsnap).ret ≠ ErrCode.Success →
      (DeleteSnapshotPre m dans uuid duser dfile dsnap).metaStore = m ∧
      ((∀ x, (DeleteSnapshotPre m dans uuid duser dfile dsnap).ret ≠ ErrCode.passThrough x) →
        (DeleteSnapshotPre m dans uuid duser dfile dsnap).metaCalls = [])) := by
  constructor
  · unfold CreateSnapshotPre
    cases hret : cans.getFileInfoRet <;> simp only [] <;> split_ifs <;>
      simp [MetaStore.AddSnapshot, *]
  · unfold DeleteSnapshotPre
    cases hfind : m.GetSnapshotInfo uuid with
    | none => simp
    | some snap =>
      cases hst : snap.status <;> simp only [] <;> split_ifs <;>
        simp [MetaStore.UpdateSnapshot, *]

/-- Witness of C6: a create rejected by the count check and a delete rejected
because the snapshot is still `pending`. -/
theorem C6_precondition_atomicity_witness :
    (CreateSnapshotPre sampleCore
        ⟨[sampleInfo "id1" "/a" Status.done, sampleInfo "id2" "/a" Status.pending]⟩
        (okAnswers "id3") "/a" "u" "snap3" blankInfo).metaStore
      = ⟨[sampleInfo "id1" "/a" Status.done, sampleInfo "id2" "/a" Status.pending]⟩ ∧
    (DeleteSnapshotPre
        ⟨[sampleInfo "id1" "/a" Status.done, sampleInfo "id2" "/a" Status.pending]⟩
        ⟨0, 0⟩ "id2" "u" "/a" blankInfo).metaStore
      = ⟨[sampleInfo "id1" "/a" Status.done, sampleInfo "id2" "/a" Status.pending]⟩ :=
  ⟨((C6_precondition_atomicity sampleCore
      ⟨[sampleInfo "id1" "/a" Status.done, sampleInfo "id2" "/a" Status.pending]⟩
      (okAnswers "id3") "/a" "u" "snap3" blankInfo ⟨0, 0⟩ "id2" "u" "/a" blankInfo).1
      (by decide)).1,
   ((C6_precondition_atomicity sampleCore
      ⟨[sampleInfo "id1" "/a" Status.done, sampleInfo "id2" "/a" Status.pending]⟩
      (okAnswers "id3") "/a" "u" "snap3" blankInfo ⟨0, 0⟩ "id2" "u" "/a" blankInfo).2
      (by decide)).1⟩

/-- C7. Delete idempotence: for a uuid that has no record in the store, and for
every user and file name, `DeleteSnapshotPre` returns `Success`, issues nothing and
leaves the store and the out parameter unchanged; consequently, once the delete
pipeline has removed the record (`MetaStore.DeleteSnapshot` succeeded on any
store), a second `DeleteSnapshotPre` on that uuid returns `Success` with no state
change. -/
theorem C7_delete_idempotent (m : MetaStore) (ans : DeleteAnswers) (uuid : UUID)
    (user fileName : String) (snapInfo : SnapshotInfo)
    (h : ∀ s ∈ m.records, s.uuid ≠ uuid) :
    DeleteSnapshotPre m ans uuid user fileName snapInfo
      = ⟨ErrCode.Success, snapInfo, m, []⟩ ∧
    ∀ (m0 : MetaStore) (ret : Int), ¬ ret < 0 →
      DeleteSnapshotPre (m0.DeleteSnapshot uuid ret) ans uuid user fileName snapInfo
        = ⟨ErrCode.Success, snapInfo, m0.DeleteSnapshot uuid ret, []⟩ := by
  constructor
  · unfold DeleteSnapshotPre
    rw [GetSnapshotInfo_none m uuid h]
  · intro m0 ret hret
    unfold DeleteSnapshotPre
    rw [GetSnapshotInfo_DeleteSnapshot m0 uuid ret hret]

/-- Witness of C7: the store holds `id1` only and `id9` is deleted by a foreign
user under a foreign file name. -/
theorem C7_delete_idempotent_witness :
    DeleteSnapshotPre ⟨[sampleInfo "id1" "/a" Status.done]⟩ ⟨3, -1⟩ "id9" "v" "/b" blankInfo
      = ⟨ErrCode.Success, blankInfo, ⟨[sampleInfo "id1" "/a" Status.done]⟩, []⟩ :=
  (C7_delete_idempotent ⟨[sampleInfo "id1" "/a" Status.done]⟩ ⟨3, -1⟩ "id9" "v" "/b"
    blankInfo (by decide)).1

/-- C8. For an existing record, `DeleteSnapshotPre` rejects in this order of
precedence, whatever the reference count: `InvalidUser` if the user of the caller
differs from the user of the record; otherwise `FileNameNotMatch` if the file name
differs; otherwise `TaskExist` if the status is `canceling`, `deleting` or
`errorDeleting`; otherwise `SnapshotCannotDeleteUnfinished` if the status is
`pending`. -/
theorem C8_delete_rejections (m : MetaStore) (ans : DeleteAnswers) (uuid : UUID)
    (user fileName : String) (snapInfo snap : SnapshotInfo)
    (hfind : m.GetSnapshotInfo uuid = some snap) :
    (snap.user ≠ user →
      (DeleteSnapshotPre m ans uuid user fileName snapInfo).ret = ErrCode.InvalidUser) ∧
    (snap.user = user → snap.fileName ≠ fileName →
      (DeleteSnapshotPre m ans uuid user fileName snapInfo).ret = ErrCode.FileNameNotMatch) ∧
    (snap.user = user → snap.fileName = fileName →
      (snap.status = Status.canceling ∨ snap.status = Status.deleting ∨
        snap.status = Status.errorDeleting) →
      (DeleteSnapshotPre m ans uuid user fileName snapInfo).ret = ErrCode.TaskExist) ∧
    (snap.user = user → snap.fileName = fileName → snap.status = Status.pending →
      (DeleteSnapshotPre m ans uuid user fileName snapInfo).ret
        = ErrCode.SnapshotCannotDeleteUnfinished) := by
  unfold DeleteSnapshotPre
  simp only [hfind]
  refine ⟨?_, ?_, ?_, ?_⟩
  · intro h
    rw [if_pos h]
  · intro h1 h2
    rw [if_neg (not_not.mpr h1), if_pos (fun he => h2 he.symm)]
  · intro h1 h2 h3
    rw [if_neg (not_not.mpr h1), if_neg (not_not.mpr h2.symm)]
    rcases h3 with h | h | h <;> simp [h]
  · intro h1 h2 h3
    rw [if_neg (not_not.mpr h1), if_neg (not_not.mpr h2.symm)]
    simp [h3]

/-- Witness of C8 (scenario S6): a `pending` snapshot with matching user and file. -/
theorem C8_delete_rejections_witness :
    (DeleteSnapshotPre ⟨[sampleInfo "id1" "/a" Status.pending]⟩ ⟨0, 0⟩ "id1" "u" "/a"
      blankInfo).ret = ErrCode.SnapshotCannotDeleteUnfinished :=
  (C8_delete_rejections ⟨[sampleInfo "id1" "/a" Status.pending]⟩ ⟨0, 0⟩ "id1" "u" "/a"
    blankInfo (sampleInfo "id1" "/a" Status.pending) (by decide)).2.2.2 rfl rfl rfl

/-- C9. For an existing snapshot whose reference count is greater than 0,
`DeleteSnapshotPre` refuses: it does not return `Success`, the store is as before
and no `UpdateSnapshot` is issued; when user and file match and the status is
`done` or `error`, the code returned is `SnapshotCannotDeleteCloning`. -/
theorem C9_delete_refused_while_cloning (m : MetaStore) (ans : DeleteAnswers) (uuid : UUID)
    (user fileName : String) (snapInfo snap : SnapshotInfo)
    (hfind : m.GetSnapshotInfo uuid = some snap) (href : 0 < ans.snapshotRef) :
    (DeleteSnapshotPre m ans uuid user fileName snapInfo).ret ≠ ErrCode.Success ∧
    (DeleteSnapshotPre m ans uuid user fileName snapInfo).metaStore = m ∧
    (DeleteSnapshotPre m ans uuid user fileName snapInfo).metaCalls = [] ∧
    (snap.user = user → snap.fileName = fileName →
      (snap.status = Status.done ∨ snap.status = Status.error) →
      (DeleteSnapshotPre m ans uuid user fileName snapInfo).ret
        = ErrCode.SnapshotCannotDeleteCloning) := by
  have hgt : ans.snapshotRef > 0 := href
  unfold DeleteSnapshotPre
  simp only [hfind]
  refine ⟨?_, ?_, ?_, ?_⟩
  · cases hst : snap.status <;> simp only [] <;> split_ifs <;> simp
  · cases hst : snap.status <;> simp only [] <;> split_ifs <;> simp
  · cases hst : snap.status <;> simp only [] <;> split_ifs <;> simp
  · intro h1 h2 h3
    rw [if_neg (not_not.mpr h1), if_neg (not_not.mpr h2.symm)]
    rcases h3 with h | h <;> simp [h, hgt]

/-- Witness of C9: a `done` snapshot read by two clones. -/
theorem C9_delete_refused_while_cloning_witness :
    (DeleteSnapshotPre ⟨[sampleInfo "id1" "/a" Status.done]⟩ ⟨2, 0⟩ "id1" "u" "/a"
      blankInfo).ret = ErrCode.SnapshotCannotDeleteCloning ∧
    (DeleteSnapshotPre ⟨[sampleInfo "id1" "/a" Status.done]⟩ ⟨2, 0⟩ "id1" "u" "/a"
      blankInfo).metaStore = ⟨[sampleInfo "id1" "/a" Status.done]⟩ :=
  ⟨(C9_delete_refused_while_cloning ⟨[sampleInfo "id1" "/a" Status.done]⟩ ⟨2, 0⟩ "id1" "u"
      "/a" blankInfo (sampleInfo "id1" "/a" Status.done) (by decide) (by decide)).2.2.2
      rfl rfl (Or.inl rfl),
   by decide⟩

/-- C10. For an existing snapshot with matching user and file, reference count 0
and a successful `UpdateSnapshot`, in a store whose uuids are unique: if its status
is `done`, `DeleteSnapshotPre` returns `Success` and both the returned info and the
persisted record are the old record with status `deleting`; if its status is
`error`, both are the old record with status `errorDeleting`. In both cases every
other field of the record is unchanged, no other record is touched, and the one call
issued to the store is the `UpdateSnapshot` of the returned info. -/
theorem C10_delete_transition (m : MetaStore) (ans : DeleteAnswers) (uuid : UUID)
    (user fileName : String) (snapInfo snap : SnapshotInfo)
    (hfind : m.GetSnapshotInfo uuid = some snap)
    (huser : snap.user = user) (hfile : snap.fileName = fileName)
    (href : ans.snapshotRef = 0) (hupd : ¬ ans.updateSnapshotRet < 0)
    (huniq : (m.records.map SnapshotInfo.uuid).Nodup) :
    (snap.status = Status.done →
      (DeleteSnapshotPre m ans uuid user fileName snapInfo).ret = ErrCode.Success ∧
      (DeleteSnapshotPre m ans uuid user fileName snapInfo).snapInfo
        = { snap with status := Status.deleting } ∧
      (DeleteSnapshotPre m ans uuid user fileName snapInfo).metaStore.GetSnapshotInfo uuid
        = some { snap with status := Status.deleting } ∧
      (DeleteSnapshotPre m ans uuid user fileName snapInfo).metaStore.records
        = m.records.map
            (fun s => if s = snap then { snap with status := Status.deleting } else s) ∧
      (DeleteSnapshotPre m ans uuid user fileName snapInfo).metaCalls
        = [MetaCall.UpdateSnapshot { snap with status := Status.deleting }]) ∧
    (snap.status = Status.error →
      (DeleteSnapshotPre m ans uuid user fileName snapInfo).ret = ErrCode.Success ∧
      (DeleteSnapshotPre m ans uuid user fileName snapInfo).snapInfo
        = { snap with status := Status.errorDeleting } ∧
      (DeleteSnapshotPre m ans uuid user fileName snapInfo).metaStore.GetSnapshotInfo uuid
        = some { snap with status := Status.errorDeleting } ∧
      (DeleteSnapshotPre m ans uuid user fileName snapInfo).metaStore.records
        = m.records.map
            (fun s => if s = snap then { snap with status := Status.errorDeleting } else s) ∧
      (DeleteSnapshotPre m ans uuid user fileName snapInfo).metaCalls
        = [MetaCall.UpdateSnapshot { snap with status := Status.errorDeleting }]) := by
  have hmem := GetSnapshotInfo_some m uuid snap hfind
  have hrun : ∀ st : Status, (snap.status = Status.done ∧ st = Status.deleting) ∨
      (snap.status = Status.error ∧ st = Status.errorDeleting) →
      DeleteSnapshotPre m ans uuid user fileName snapInfo
        = ⟨ErrCode.Success, snap.SetStatus st,
            m.UpdateSnapshot (snap.SetStatus st) ans.updateSnapshotRet,
            [MetaCall.UpdateSnapshot (snap.SetStatus st)]⟩ := by
    intro st hst
    unfold DeleteSnapshotPre
    simp only [hfind]
    rw [if_neg (not_not.mpr huser), if_neg (not_not.mpr hfile.symm)]
    rcases hst with ⟨h1, h2⟩ | ⟨h1, h2⟩ <;> simp [h1, h2, href, hupd]
  constructor
  · intro hst
    rw [hrun Status.deleting (Or.inl ⟨hst, rfl⟩)]
    exact ⟨rfl, rfl,
      GetSnapshotInfo_UpdateSnapshot m uuid snap _ _ hupd hfind hmem.1,
      UpdateSnapshot_records m snap _ _ hupd hmem.2 rfl huniq, rfl⟩
  · intro hst
    rw [hrun Status.errorDeleting (Or.inr ⟨hst, rfl⟩)]
    exact ⟨rfl, rfl,
      GetSnapshotInfo_UpdateSnapshot m uuid snap _ _ hupd hfind hmem.1,
      UpdateSnapshot_records m snap _ _ hupd hmem.2 rfl huniq, rfl⟩

/-- Witness of C10: `id2`, in `error`, is deleted next to a `done` peer `id1`. -/
theorem C10_delete_transition_witness :
    (DeleteSnapshotPre
        ⟨[sampleInfo "id1" "/a" Status.done, sampleInfo "id2" "/a" Status.error]⟩
        ⟨0, 0⟩ "id2" "u" "/a" blankInfo).ret = ErrCode.Success ∧
    (DeleteSnapshotPre
        ⟨[sampleInfo "id1" "/a" Status.done, sampleInfo "id2" "/a" Status.error]⟩
        ⟨0, 0⟩ "id2" "u" "/a" blankInfo).metaStore.records
      = [sampleInfo "id1" "/a" Status.done, sampleInfo "id2" "/a" Status.errorDeleting] := by
  have h := (C10_delete_transition
    ⟨[sampleInfo "id1" "/a" Status.done, sampleInfo "id2" "/a" Status.error]⟩
    ⟨0, 0⟩ "id2" "u" "/a" blankInfo (sampleInfo "id2" "/a" Status.error)
    (by decide) rfl rfl rfl (by decide) (by decide)).2 rfl
  exact ⟨h.1, by decide⟩

/-! ## Auxiliary facts on the pipelines: task record and world -/

@[simp] theorem SetProgress_snapshotInfo (t : SnapshotTaskInfo) (p : Nat) :
    (t.SetProgress p).snapshotInfo = t.snapshotInfo := rfl

@[simp] theorem SetProgress_uuid (t : SnapshotTaskInfo) (p : Nat) :
    (t.SetProgress p).uuid_ = t.uuid_ := rfl

@[simp] theorem SetProgress_fileName (t : SnapshotTaskInfo) (p : Nat) :
    (t.SetProgress p).fileName_ = t.fileName_ := rfl

@[simp] theorem SetProgress_progress (t : SnapshotTaskInfo) (p : Nat) :
    (t.SetProgress p).progress_ = p := rfl

@[simp] theorem SetProgress_isFinished (t : SnapshotTaskInfo) (p : Nat) :
    (t.SetProgress p).isFinished_ = t.isFinished_ := rfl

@[simp] theorem SetProgress_progressLog (t : SnapshotTaskInfo) (p : Nat) :
    (t.SetProgress p).progressLog = t.progressLog ++ [p] := rfl

@[simp] theorem SetProgress_finishCalls (t : SnapshotTaskInfo) (p : Nat) :
    (t.SetProgress p).finishCalls = t.finishCalls := rfl

@[simp] theorem SetProgress_cancelSamples (t : SnapshotTaskInfo) (p : Nat) :
    (t.SetProgress p).cancelSamples = t.cancelSamples := rfl

@[simp] theorem Finish_snapshotInfo (t : SnapshotTaskInfo) :
    t.Finish.snapshotInfo = t.snapshotInfo := rfl

@[simp] theorem Finish_uuid (t : SnapshotTaskInfo) : t.Finish.uuid_ = t.uuid_ := rfl

@[simp] theorem Finish_fileName (t : SnapshotTaskInfo) : t.Finish.fileName_ = t.fileName_ := rfl

@[simp] theorem Finish_progress (t : SnapshotTaskInfo) : t.Finish.progress_ = t.progress_ := rfl

@[simp] theorem Finish_isFinished (t : SnapshotTaskInfo) : t.Finish.isFinished_ = true := rfl

@[simp] theorem Finish_progressLog (t : SnapshotTaskInfo) :
    t.Finish.progressLog = t.progressLog := rfl

@[simp] theorem Finish_finishCalls (t : SnapshotTaskInfo) :
    t.Finish.finishCalls = t.finishCalls + 1 := rfl

@[simp] theorem Finish_cancelSamples (t : SnapshotTaskInfo) :
    t.Finish.cancelSamples = t.cancelSamples := rfl

@[simp] theorem IsCanceled_fst (env : Env) (t : SnapshotTaskInfo) :
    (t.IsCanceled env).1 = env.isCanceled t.cancelSamples := rfl

@[simp] theorem IsCanceled_snapshotInfo (env : Env) (t : SnapshotTaskInfo) :
    (t.IsCanceled env).2.snapshotInfo = t.snapshotInfo := rfl

@[simp] theorem IsCanceled_uuid (env : Env) (t : SnapshotTaskInfo) :
    (t.IsCanceled env).2.uuid_ = t.uuid_ := rfl

@[simp] theorem IsCanceled_fileName (env : Env) (t : SnapshotTaskInfo) :
    (t.IsCanceled env).2.fileName_ = t.fileName_ := rfl

@[simp] theorem IsCanceled_progress (env : Env) (t : SnapshotTaskInfo) :
    (t.IsCanceled env).2.progress_ = t.progress_ := rfl

@[simp] theorem IsCanceled_isFinished (env : Env) (t : SnapshotTaskInfo) :
    (t.IsCanceled env).2.isFinished_ = t.isFinished_ := rfl

@[simp] theorem IsCanceled_progressLog (env : Env) (t : SnapshotTaskInfo) :
    (t.IsCanceled env).2.progressLog = t.progressLog := rfl

@[simp] theorem IsCanceled_finishCalls (env : Env) (t : SnapshotTaskInfo) :
    (t.IsCanceled env).2.finishCalls = t.finishCalls := rfl

@[simp] theorem IsCanceled_cancelSamples (env : Env) (t : SnapshotTaskInfo) :
    (t.IsCanceled env).2.cancelSamples = t.cancelSamples + 1 := rfl

@[simp] theorem SetStatus_status (info : SnapshotInfo) (s : Status) :
    (info.SetStatus s).status = s := rfl

@[simp] theorem SetStatus_uuid (info : SnapshotInfo) (s : Status) :
    (info.SetStatus s).uuid = info.uuid := rfl

@[simp] theorem SetStatus_fileName (info : SnapshotInfo) (s : Status) :
    (info.SetStatus s).fileName = info.fileName := rfl

@[simp] theorem SetStatus_seqNum (info : SnapshotInfo) (s : Status) :
    (info.SetStatus s).seqNum = info.seqNum := rfl

@[simp] theorem SetStatus_user (info : SnapshotInfo) (s : Status) :
    (info.SetStatus s).user = info.user := rfl

@[simp] theorem World_UpdateSnapshot_fst (env : Env) (w : World) (info : SnapshotInfo) :
    (w.UpdateSnapshot env info).1 = env.metaRet w.clock := rfl

@[simp] theorem World_UpdateSnapshot_metaStore (env : Env) (w : World) (info : SnapshotInfo) :
    (w.UpdateSnapshot env info).2.metaStore
      = w.metaStore.UpdateSnapshot info (env.metaRet w.clock) := rfl

@[simp] theorem World_UpdateSnapshot_dataStore (env : Env) (w : World) (info : SnapshotInfo) :
    (w.UpdateSnapshot env info).2.dataStore = w.dataStore := rfl

@[simp] theorem World_UpdateSnapshot_inflight (env : Env) (w : World) (info : SnapshotInfo) :
    (w.UpdateSnapshot env info).2.inflight = w.inflight := rfl

@[simp] theorem World_UpdateSnapshot_clock (env : Env) (w : World) (info : SnapshotInfo) :
    (w.UpdateSnapshot env info).2.clock = w.clock + 1 := rfl

@[simp] theorem World_UpdateSnapshot_calls (env : Env) (w : World) (info : SnapshotInfo) :
    (w.UpdateSnapshot env info).2.calls
      = w.calls ++ [Call.metaStore (MetaCall.UpdateSnapshot info) (env.metaRet w.clock)] := rfl

@[simp] theorem World_DeleteSnapshot_fst (env : Env) (w : World) (uuid : UUID) :
    (w.DeleteSnapshot env uuid).1 = env.metaRet w.clock := rfl

@[simp] theorem World_DeleteSnapshot_metaStore (env : Env) (w : World) (uuid : UUID) :
    (w.DeleteSnapshot env uuid).2.metaStore
      = w.metaStore.DeleteSnapshot uuid (env.metaRet w.clock) := rfl

@[simp] theorem World_DeleteSnapshot_dataStore (env : Env) (w : World) (uuid : UUID) :
    (w.DeleteSnapshot env uuid).2.dataStore = w.dataStore := rfl

@[simp] theorem World_DeleteSnapshot_inflight (env : Env) (w : World) (uuid : UUID) :
    (w.DeleteSnapshot env uuid).2.inflight = w.inflight := rfl

@[simp] theorem World_DeleteSnapshot_calls (env : Env) (w : World) (uuid : UUID) :
    (w.DeleteSnapshot env uuid).2.calls
      = w.calls ++ [Call.metaStore (MetaCall.DeleteSnapshot uuid) (env.metaRet w.clock)] := rfl

@[simp] theorem World_GetChunkIndexData_metaStore (env : Env) (w : World)
    (name : ChunkIndexDataName) : (w.GetChunkIndexData env name).2.metaStore = w.metaStore := rfl

@[simp] theorem World_GetChunkIndexData_dataStore (env : Env) (w : World)
    (name : ChunkIndexDataName) : (w.GetChunkIndexData env name).2.dataStore = w.dataStore := rfl

@[simp] theorem World_GetChunkIndexData_inflight (env : Env) (w : World)
    (name : ChunkIndexDataName) : (w.GetChunkIndexData env name).2.inflight = w.inflight := rfl

@[simp] theorem World_GetChunkIndexData_calls (env : Env) (w : World)
    (name : ChunkIndexDataName) : (w.GetChunkIndexData env name).2.calls = w.calls := rfl

@[simp] theorem World_PutChunkIndexData_fst (env : Env) (w : World)
    (name : ChunkIndexDataName) (data : ChunkIndexData) :
    (w.PutChunkIndexData env name data).1 = env.dataRet w.clock := rfl

@[simp] theorem World_PutChunkIndexData_metaStore (env : Env) (w : World)
    (name : ChunkIndexDataName) (data : ChunkIndexData) :
    (w.PutChunkIndexData env name data).2.metaStore = w.metaStore := rfl

@[simp] theorem World_PutChunkIndexData_dataStore (env : Env) (w : World)
    (name : ChunkIndexDataName) (data : ChunkIndexData) :
    (w.PutChunkIndexData env name data).2.dataStore
      = w.dataStore.PutChunkIndexData name data (env.dataRet w.clock) := rfl

@[simp] theorem World_PutChunkIndexData_inflight (env : Env) (w : World)
    (name : ChunkIndexDataName) (data : ChunkIndexData) :
    (w.PutChunkIndexData env name data).2.inflight = w.inflight := rfl

@[simp] theorem World_PutChunkIndexData_calls (env : Env) (w : World)
    (name : ChunkIndexDataName) (data : ChunkIndexData) :
    (w.PutChunkIndexData env name data).2.calls
      = w.calls ++ [Call.PutChunkIndexData name data (env.dataRet w.clock)] := rfl

@[simp] theorem World_DeleteChunkIndexData_fst (env : Env) (w : World)
    (name : ChunkIndexDataName) : (w.DeleteChunkIndexData env name).1 = env.dataRet w.clock := rfl

@[simp] theorem World_DeleteChunkIndexData_metaStore (env : Env) (w : World)
    (name : ChunkIndexDataName) : (w.DeleteChunkIndexData env name).2.metaStore = w.metaStore := rfl

@[simp] theorem World_DeleteChunkIndexData_dataStore (env : Env) (w : World)
    (name : ChunkIndexDataName) :
    (w.DeleteChunkIndexData env name).2.dataStore
      = w.dataStore.DeleteChunkIndexData name (env.dataRet w.clock) := rfl

@[simp] theorem World_DeleteChunkIndexData_inflight (env : Env) (w : World)
    (name : ChunkIndexDataName) : (w.DeleteChunkIndexData env name).2.inflight = w.inflight := rfl

@[simp] theorem World_DeleteChunkIndexData_calls (env : Env) (w : World)
    (name : ChunkIndexDataName) :
    (w.DeleteChunkIndexData env name).2.calls
      = w.calls ++ [Call.DeleteChunkIndexData name (env.dataRet w.clock)] := rfl

@[simp] theorem World_DeleteChunkData_fst (env : Env) (w : World) (name : ChunkDataName) :
    (w.DeleteChunkData env name).1 = env.dataRet w.clock := rfl

@[simp] theorem World_DeleteChunkData_metaStore (env : Env) (w : World) (name : ChunkDataName) :
    (w.DeleteChunkData env name).2.metaStore = w.metaStore := rfl

@[simp] theorem World_DeleteChunkData_dataStore (env : Env) (w : World) (name : ChunkDataName) :
    (w.DeleteChunkData env name).2.dataStore
      = w.dataStore.DeleteChunkData name (env.dataRet w.clock) := rfl

@[simp] theorem World_DeleteChunkData_inflight (env : Env) (w : World) (name : ChunkDataName) :
    (w.DeleteChunkData env name).2.inflight = w.inflight := rfl

@[simp] theorem World_DeleteChunkData_calls (env : Env) (w : World) (name : ChunkDataName) :
    (w.DeleteChunkData env name).2.calls
      = w.calls ++ [Call.DeleteChunkData name (env.dataRet w.clock)] := rfl

/-! ## Auxiliary facts on the pipelines: metadata store and progress -/

theorem MetaReach.chain {u1 u2 : UUID} {S : Status → Prop} {m m1 m2 : MetaStore}
    (h1 : MetaReach u1 u2 S m m1) (h2 : MetaReach u1 u2 S m1 m2) :
    MetaReach u1 u2 S m m2 := by
  induction h2 with
  | refl => exact h1
  | update m3 info ret _ hu hs ih => exact MetaReach.update m m3 info ret ih hu hs
  | delete m3 ret _ ih => exact MetaReach.delete m m3 ret ih

theorem MetaReach.mono {u1 u2 : UUID} {S T : Status → Prop} {m m1 : MetaStore}
    (hST : ∀ s, S s → T s) (h : MetaReach u1 u2 S m m1) : MetaReach u1 u2 T m m1 := by
  induction h with
  | refl => exact MetaReach.refl m
  | update m3 info ret _ hu hs ih => exact MetaReach.update m m3 info ret ih hu (hST _ hs)
  | delete m3 ret _ ih => exact MetaReach.delete m m3 ret ih

theorem MetaReach.ofUpdate (u1 u2 : UUID) (S : Status → Prop) (m : MetaStore)
    (info : SnapshotInfo) (ret : Int) (hu : info.uuid = u1) (hs : S info.status) :
    MetaReach u1 u2 S m (m.UpdateSnapshot info ret) :=
  MetaReach.update m m info ret (MetaReach.refl m) hu hs

theorem MetaReach.ofDelete (u1 u2 : UUID) (S : Status → Prop) (m : MetaStore) (ret : Int) :
    MetaReach u1 u2 S m (m.DeleteSnapshot u2 ret) :=
  MetaReach.delete m m ret (MetaReach.refl m)

theorem filter_map_replace (l : List SnapshotInfo) (info : SnapshotInfo) (u1 u2 : UUID)
    (hu : info.uuid = u1) :
    (l.map (fun s => if s.uuid == info.uuid then info else s)).filter
        (fun s => !(s.uuid == u1) && !(s.uuid == u2))
      = l.filter (fun s => !(s.uuid == u1) && !(s.uuid == u2)) := by
  induction l with
  | nil => rfl
  | cons s rest ih =>
    rw [List.map_cons, List.filter_cons, List.filter_cons, ih]
    by_cases hs : s.uuid = u1
    · have h1 : (s.uuid == info.uuid) = true := by simp [hs, hu]
      simp [h1, hs, hu]
    · have h1 : ¬ (s.uuid == info.uuid) = true := by simp [hu, hs]
      simp [h1]

theorem others_UpdateSnapshot (m : MetaStore) (info : SnapshotInfo) (ret : Int)
    (u1 u2 : UUID) (hu : info.uuid = u1) :
    (m.UpdateSnapshot info ret).others u1 u2 = m.others u1 u2 := by
  unfold MetaStore.UpdateSnapshot MetaStore.others
  split_ifs with h
  · rfl
  · exact filter_map_replace m.records info u1 u2 hu

theorem others_DeleteSnapshot (m : MetaStore) (ret : Int) (u1 u2 : UUID) :
    (m.DeleteSnapshot u2 ret).others u1 u2 = m.others u1 u2 := by
  unfold MetaStore.DeleteSnapshot MetaStore.others
  split_ifs with h
  · rfl
  · simp only [List.filter_filter]
    apply List.filter_congr
    intro s _
    by_cases h2 : s.uuid = u2 <;> simp [h2]

theorem MetaReach.others_eq {u1 u2 : UUID} {S : Status → Prop} {m m1 : MetaStore}
    (h : MetaReach u1 u2 S m m1) : m1.others u1 u2 = m.others u1 u2 := by
  induction h with
  | refl => rfl
  | update m3 info ret _ hu _ ih => rw [others_UpdateSnapshot m3 info ret u1 u2 hu, ih]
  | delete m3 ret _ ih => rw [others_DeleteSnapshot, ih]

@[simp] theorem lastOr_nil (d : Nat) : lastOr d [] = d := rfl

@[simp] theorem lastOr_append_singleton (d p : Nat) (l : List Nat) :
    lastOr d (l ++ [p]) = p := by
  simp [lastOr]

theorem lastOr_append (d : Nat) (l1 l2 : List Nat) :
    lastOr d (l1 ++ l2) = lastOr (lastOr d l1) l2 := by
  induction l2 using List.reverseRecOn with
  | nil => simp
  | append_singleton l p _ =>
    rw [← List.append_assoc, lastOr_append_singleton, lastOr_append_singleton]

theorem ProgressExt.none (lo : Nat) (t : SnapshotTaskInfo) : ProgressExt lo t t [] := by
  refine ⟨by simp, List.Pairwise.nil, ?_, by simp⟩
  intro p hp
  cases hp

theorem ProgressExt.congr {lo : Nat} {t t1 s s1 : SnapshotTaskInfo} {new : List Nat}
    (h : ProgressExt lo t t1 new)
    (h1 : s.progressLog = t.progressLog) (h2 : s.progress_ = t.progress_)
    (h3 : s1.progressLog = t1.progressLog) (h4 : s1.progress_ = t1.progress_) :
    ProgressExt lo s s1 new := by
  obtain ⟨a, b, c, d⟩ := h
  exact ⟨by rw [h3, h1, a], b, c, by rw [h4, h2, d]⟩

theorem ProgressExt.weaken {lo lo1 : Nat} {t t1 : SnapshotTaskInfo} {new : List Nat}
    (h : ProgressExt lo t t1 new) (hle : lo1 ≤ lo) : ProgressExt lo1 t t1 new := by
  obtain ⟨a, b, c, d⟩ := h
  exact ⟨a, b, fun p hp => ⟨le_trans hle (c p hp).1, (c p hp).2⟩, d⟩

theorem ProgressExt.append {lo lo2 : Nat} {t t1 t2 : SnapshotTaskInfo} {n1 n2 : List Nat}
    (h1 : ProgressExt lo t t1 n1) (h2 : ProgressExt lo2 t1 t2 n2)
    (hle : lo ≤ lo2) (hup : ∀ p ∈ n1, p ≤ lo2) : ProgressExt lo t t2 (n1 ++ n2) := by
  obtain ⟨a1, b1, c1, d1⟩ := h1
  obtain ⟨a2, b2, c2, d2⟩ := h2
  refine ⟨by rw [a2, a1, List.append_assoc], ?_, ?_, ?_⟩
  · rw [List.pairwise_append]
    exact ⟨b1, b2, fun x hx y hy => le_trans (hup x hx) (c2 y hy).1⟩
  · intro p hp
    rcases List.mem_append.mp hp with hp | hp
    · exact c1 p hp
    · exact ⟨le_trans hle (c2 p hp).1, (c2 p hp).2⟩
  · rw [d2, d1, lastOr_append]

theorem ProgressExt.step (lo p : Nat) (t : SnapshotTaskInfo) (h1 : lo ≤ p)
    (h2 : p ≤ kProgressComplete) : ProgressExt lo t (t.SetProgress p) [p] := by
  refine ⟨rfl, List.pairwise_singleton _ _, ?_, ?_⟩
  · intro q hq
    rw [List.mem_singleton] at hq
    subst hq
    exact ⟨h1, h2⟩
  · simp [lastOr]

/-! ## Auxiliary facts on the pipelines: stages of the create pipeline -/

theorem buildChunkLoop_task (env : Env) (info : SnapshotInfo) (i : Nat) :
    ∀ (l : List ChunkIDInfo) (j : Nat) (d : ChunkIndexData) (t : SnapshotTaskInfo)
      (f : Flow) (d1 : ChunkIndexData) (t1 : SnapshotTaskInfo),
      buildChunkLoop env info i j l d t = Except.ok (f, d1, t1) →
      ∃ n, t.cancelSamples ≤ n ∧ t1 = { t with cancelSamples := n } := by
  intro l
  induction l with
  | nil =>
    intro j d t f d1 t1 h
    simp only [buildChunkLoop, Except.ok.injEq, Prod.mk.injEq] at h
    exact ⟨t.cancelSamples, le_refl _, h.2.2.symm⟩
  | cons c rest ih =>
    intro j d t f d1 t1 h
    unfold buildChunkLoop at h
    split at h
    · simp only [Except.ok.injEq, Prod.mk.injEq] at h
      exact ⟨t.cancelSamples, le_refl _, h.2.2.symm⟩
    · split at h
      · cases h
      · simp only [Except.ok.injEq, Prod.mk.injEq] at h
        exact ⟨t.cancelSamples, le_refl _, h.2.2.symm⟩
      · split at h
        · simp only [Except.ok.injEq, Prod.mk.injEq] at h
          exact ⟨t.cancelSamples + 1, Nat.le_succ _, h.2.2.symm⟩
        · obtain ⟨n, hn, ht⟩ := ih _ _ _ _ _ _ h
          refine ⟨n, ?_, ?_⟩
          · simp only [IsCanceled_cancelSamples] at hn
            omega
          · rw [ht]
            rfl

theorem buildSegmentLoop_task (env : Env) (info : SnapshotInfo) :
    ∀ (l : List Nat) (d : ChunkIndexData) (segs : List (Nat × SegmentInfo))
      (t : SnapshotTaskInfo) (ret : ErrCode) (d1 : ChunkIndexData)
      (segs1 : List (Nat × SegmentInfo)) (t1 : SnapshotTaskInfo),
      buildSegmentLoop env info l d segs t = Except.ok (ret, d1, segs1, t1) →
      ∃ n, t.cancelSamples ≤ n ∧ t1 = { t with cancelSamples := n } := by
  intro l
  induction l with
  | nil =>
    intro d segs t ret d1 segs1 t1 h
    simp only [buildSegmentLoop, Except.ok.injEq, Prod.mk.injEq] at h
    exact ⟨t.cancelSamples, le_refl _, h.2.2.2.symm⟩
  | cons i rest ih =>
    intro d segs t ret d1 segs1 t1 h
    unfold buildSegmentLoop at h
    split at h
    · simp only [] at h
      split at h
      · cases h
      · rename_i code d2 t2 hloop
        simp only [Except.ok.injEq, Prod.mk.injEq] at h
        obtain ⟨n, hn, ht⟩ := buildChunkLoop_task env info i _ _ _ _ _ _ _ hloop
        exact ⟨n, hn, by rw [← h.2.2.2, ht]⟩
      · rename_i d2 t2 hloop
        obtain ⟨n, hn, ht⟩ := buildChunkLoop_task env info i _ _ _ _ _ _ _ hloop
        obtain ⟨n2, hn2, ht2⟩ := ih _ _ _ _ _ _ _ h
        refine ⟨n2, ?_, ?_⟩
        · rw [ht] at hn2
          simp only [] at hn2
          omega
        · rw [ht2, ht]
    · exact ih _ _ _ _ _ _ _ h
    · simp only [Except.ok.injEq, Prod.mk.injEq] at h
      exact ⟨t.cancelSamples, le_refl _, h.2.2.2.symm⟩

theorem BuildChunkIndexData_task (env : Env) (info : SnapshotInfo) (t : SnapshotTaskInfo)
    (ret : ErrCode) (d1 : ChunkIndexData) (segs1 : List (Nat × SegmentInfo))
    (t1 : SnapshotTaskInfo)
    (h : BuildChunkIndexData env info t = Except.ok (ret, d1, segs1, t1)) :
    ∃ n, t.cancelSamples ≤ n ∧ t1 = { t with cancelSamples := n } := by
  unfold BuildChunkIndexData at h
  split at h
  · cases h
  · exact buildSegmentLoop_task env info _ _ _ _ _ _ _ _ h

theorem TaskKeeps.same (t : SnapshotTaskInfo) : TaskKeeps t t :=
  ⟨rfl, rfl, rfl, rfl, rfl, le_refl _⟩

theorem TaskKeeps.andThen {t t1 t2 : SnapshotTaskInfo} (h1 : TaskKeeps t t1)
    (h2 : TaskKeeps t1 t2) : TaskKeeps t t2 :=
  ⟨h2.1.trans h1.1, h2.2.1.trans h1.2.1, h2.2.2.1.trans h1.2.2.1,
   h2.2.2.2.1.trans h1.2.2.2.1, h2.2.2.2.2.1.trans h1.2.2.2.2.1,
   le_trans h1.2.2.2.2.2 h2.2.2.2.2.2⟩

theorem TaskKeeps.ofSetProgress (t : SnapshotTaskInfo) (p : Nat) : TaskKeeps t (t.SetProgress p) :=
  ⟨rfl, rfl, rfl, rfl, rfl, le_refl _⟩

theorem TaskKeeps.isCanceled (env : Env) (t : SnapshotTaskInfo) :
    TaskKeeps t (t.IsCanceled env).2 :=
  ⟨rfl, rfl, rfl, rfl, rfl, Nat.le_succ _⟩

theorem TaskKeeps.ofSamples (t : SnapshotTaskInfo) (n : Nat) (h : t.cancelSamples ≤ n) :
    TaskKeeps t { t with cancelSamples := n } :=
  ⟨rfl, rfl, rfl, rfl, rfl, h⟩

theorem CallsExt.noCalls (w : World) : CallsExt w w := ⟨[], by simp⟩

theorem CallsExt.followedBy {w w1 w2 : World} (h1 : CallsExt w w1) (h2 : CallsExt w1 w2) :
    CallsExt w w2 := by
  obtain ⟨a, ha⟩ := h1
  obtain ⟨b, hb⟩ := h2
  exact ⟨a ++ b, by rw [hb, ha, List.append_assoc]⟩

theorem CallsExt.ofEq {w w1 : World} (h : w1.calls = w.calls) : CallsExt w w1 :=
  ⟨[], by simp [h]⟩

theorem CallsExt.ofAppend {w w1 : World} (c : List Call) (h : w1.calls = w.calls ++ c) :
    CallsExt w w1 := ⟨c, h⟩

theorem WorldKeeps.unchanged (w : World) : WorldKeeps w w := ⟨rfl, rfl, rfl, CallsExt.noCalls w⟩

theorem WorldKeeps.thenKeeps {w w1 w2 : World} (h1 : WorldKeeps w w1) (h2 : WorldKeeps w1 w2) :
    WorldKeeps w w2 :=
  ⟨h2.1.trans h1.1, h2.2.1.trans h1.2.1, h2.2.2.1.trans h1.2.2.1, h1.2.2.2.followedBy h2.2.2.2⟩

theorem TransferChunk_indexData (d : DataStore) (name : ChunkDataName) (ret : Int) :
    (d.TransferChunk name ret).indexData = d.indexData := by
  unfold DataStore.TransferChunk
  split_ifs <;> rfl

theorem settleOne_keeps (env : Env) (tr : TaskTracker) (w : World) :
    WorldKeeps w (settleOne env tr w).2 := by
  unfold settleOne
  split
  · exact WorldKeeps.unchanged w
  · exact ⟨rfl, TransferChunk_indexData _ _ _, rfl, CallsExt.ofEq rfl⟩

theorem settleN_keeps (env : Env) : ∀ (n : Nat) (tr : TaskTracker) (w : World),
    WorldKeeps w (settleN env n tr w).2 := by
  intro n
  induction n with
  | zero => intro tr w; exact WorldKeeps.unchanged w
  | succ n ih =>
    intro tr w
    unfold settleN
    exact (settleOne_keeps env tr w).thenKeeps (ih _ _)

theorem submitTransfer_keeps (indexData : ChunkIndexData) (segInfos : List (Nat × SegmentInfo))
    (filter : ChunkDataName → Bool) (cps chunkIndex : Nat) (tr : TaskTracker) (w : World) :
    WorldKeeps w (submitTransfer indexData segInfos filter cps chunkIndex tr w).2 ∧
    (submitTransfer indexData segInfos filter cps chunkIndex tr w).2.dataStore = w.dataStore := by
  unfold submitTransfer
  simp only []
  split
  · split
    · exact ⟨⟨rfl, rfl, rfl, CallsExt.ofAppend _ rfl⟩, rfl⟩
    · exact ⟨WorldKeeps.unchanged w, rfl⟩
  · exact ⟨WorldKeeps.unchanged w, rfl⟩

theorem progressAlone_keeps (env : Env) (tr : TaskTracker) (w : World) :
    WorldKeeps w (TaskTracker.progressAlone env tr w).2 := by
  unfold TaskTracker.progressAlone
  have h : WorldKeeps w { w with clock := w.clock + 1 } := ⟨rfl, rfl, rfl, CallsExt.ofEq rfl⟩
  exact h.thenKeeps (settleN_keeps env _ _ _)

theorem observeTracker_keeps (core : SnapshotCoreImpl) (env : Env) (tr : TaskTracker)
    (w : World) : WorldKeeps w (observeTracker core env tr w).2 := by
  unfold observeTracker
  split
  · exact (settleN_keeps env _ _ _).thenKeeps (progressAlone_keeps env _ _)
  · exact progressAlone_keeps env _ _

theorem transferLoop_keeps (core : SnapshotCoreImpl) (env : Env) (indexData : ChunkIndexData)
    (segInfos : List (Nat × SegmentInfo)) (filter : ChunkDataName → Bool) (cps total : Nat) :
    ∀ (l : List Nat) (index : Nat) (tr : TaskTracker) (t : SnapshotTaskInfo) (w : World),
      WorldKeeps w
        (transferLoop core env indexData segInfos filter cps total l index tr t w).2.2.2 ∧
      TaskKeeps t
        (transferLoop core env indexData segInfos filter cps total l index tr t w).2.2.1 := by
  intro l
  induction l with
  | nil => intro index tr t w; exact ⟨WorldKeeps.unchanged w, TaskKeeps.same t⟩
  | cons c rest ih =>
    intro index tr t w
    have hw := ((submitTransfer_keeps indexData segInfos filter cps c tr w).1).thenKeeps
      (observeTracker_keeps core env
        (submitTransfer indexData segInfos filter cps c tr w).1
        (submitTransfer indexData segInfos filter cps c tr w).2)
    unfold transferLoop
    simp only []
    split
    · exact ⟨hw, TaskKeeps.same t⟩
    · split
      · exact ⟨hw, (TaskKeeps.ofSetProgress t _).andThen (TaskKeeps.isCanceled env _)⟩
      · exact ⟨hw.thenKeeps (ih _ _ _ _).1,
          ((TaskKeeps.ofSetProgress t _).andThen (TaskKeeps.isCanceled env _)).andThen (ih _ _ _ _).2⟩

theorem range_map_pairwise (f : Nat → Nat) (hf : ∀ a b, a ≤ b → f a ≤ f b) :
    ∀ (n s : Nat), ((List.range' s n).map f).Pairwise (fun a b => a ≤ b) := by
  intro n
  induction n with
  | zero => intro s; simp
  | succ n ih =>
    intro s
    rw [List.range'_succ, List.map_cons, List.pairwise_cons]
    refine ⟨?_, ih (s + 1)⟩
    intro b hb
    rw [List.mem_map] at hb
    obtain ⟨k, hk, rfl⟩ := hb
    rw [List.mem_range'_1] at hk
    exact hf _ _ (by omega)

theorem transferProgress_mono (total a b : Nat) (h : a ≤ b) :
    transferProgress a total ≤ transferProgress b total := by
  unfold transferProgress
  exact Nat.add_le_add_left (Nat.div_le_div_right (Nat.mul_le_mul_right _ h)) _

theorem transferProgress_bounds (index total : Nat) (h : index < total) :
    10 ≤ transferProgress index total ∧ transferProgress index total < 99 := by
  unfold transferProgress kProgressTransferSnapshotDataStart
    kProgressTransferSnapshotDataComplete kProgressBuildSnapshotMapComplete
  constructor
  · exact Nat.le_add_right _ _
  · have h1 : index * (99 - 10) / total < 89 := by
      rw [Nat.div_lt_iff_lt_mul (by omega)]
      have : index * 89 < total * 89 := Nat.mul_lt_mul_of_pos_right h (by omega)
      simpa [Nat.mul_comm] using this
    omega

theorem deleteProgress_mono (total a b : Nat) (h : a ≤ b) :
    deleteProgress a total ≤ deleteProgress b total := by
  unfold deleteProgress
  exact Nat.add_le_add_left (Nat.div_le_div_right (Nat.mul_le_mul_right _ h)) _

theorem deleteProgress_bounds (index total : Nat) (h : index < total) :
    10 ≤ deleteProgress index total ∧ deleteProgress index total < 80 := by
  unfold deleteProgress kDelProgressDeleteChunkDataStart
    kDelProgressDeleteChunkDataComplete kDelProgressBuildSnapshotMapComplete
  constructor
  · exact Nat.le_add_right _ _
  · have h1 : index * (80 - 10) / total < 70 := by
      rw [Nat.div_lt_iff_lt_mul (by omega)]
      have : index * 70 < total * 70 := Nat.mul_lt_mul_of_pos_right h (by omega)
      simpa [Nat.mul_comm] using this
    omega

theorem transferLoop_progress (core : SnapshotCoreImpl) (env : Env) (indexData : ChunkIndexData)
    (segInfos : List (Nat × SegmentInfo)) (filter : ChunkDataName → Bool) (cps total : Nat) :
    ∀ (l : List Nat) (index : Nat) (tr : TaskTracker) (t : SnapshotTaskInfo) (w : World),
      ∃ m, m ≤ l.length ∧
        (transferLoop core env indexData segInfos filter cps total l index tr t w).2.2.1.progressLog
          = t.progressLog ++ (List.range' index m).map (fun k => transferProgress k total) ∧
        (transferLoop core env indexData segInfos filter cps total l index tr t w).2.2.1.progress_
          = lastOr t.progress_ ((List.range' index m).map (fun k => transferProgress k total)) := by
  intro l
  induction l with
  | nil => intro index tr t w; exact ⟨0, le_refl _, by simp [transferLoop], by simp [transferLoop]⟩
  | cons c rest ih =>
    intro index tr t w
    unfold transferLoop
    simp only []
    split
    · exact ⟨0, Nat.zero_le _, by simp, by simp⟩
    · split
      · refine ⟨1, by simp, ?_, ?_⟩
        · simp
        · simp [lastOr]
      · obtain ⟨m, hm, h1, h2⟩ := ih (index + 1)
          (observeTracker core env (submitTransfer indexData segInfos filter cps c tr w).1
            (submitTransfer indexData segInfos filter cps c tr w).2).1
          ((t.SetProgress (transferProgress index total)).IsCanceled env).2
          (observeTracker core env (submitTransfer indexData segInfos filter cps c tr w).1
            (submitTransfer indexData segInfos filter cps c tr w).2).2
        refine ⟨m + 1, by simpa using hm, ?_, ?_⟩
        · rw [h1, List.range'_succ]
          simp
        · rw [h2, List.range'_succ, List.map_cons]
          have : transferProgress index total :: List.map (fun k => transferProgress k total)
              (List.range' (index + 1) m)
              = [transferProgress index total] ++ List.map (fun k => transferProgress k total)
                (List.range' (index + 1) m) := rfl
          rw [this, lastOr_append]
          simp [lastOr]

theorem pollSnapShotStatus_world (env : Env) :
    ∀ (fuel : Nat) (w : World) (ret : ErrCode) (w1 : World),
      pollSnapShotStatus env fuel w = Except.ok (ret, w1) →
      w1.metaStore = w.metaStore ∧ w1.dataStore = w.dataStore ∧ w1.inflight = w.inflight ∧
      w1.calls = w.calls ∧ (ret = ErrCode.Success ∨ ret = ErrCode.InternalError) := by
  intro fuel
  induction fuel with
  | zero => intro w ret w1 h; simp [pollSnapShotStatus] at h
  | succ n ih =>
    intro w ret w1 h
    unfold pollSnapShotStatus at h
    simp only [] at h
    split at h
    · simp only [Except.ok.injEq, Prod.mk.injEq] at h
      obtain ⟨h1, h2⟩ := h
      subst h1 h2
      exact ⟨rfl, rfl, rfl, rfl, Or.inl rfl⟩
    · split at h
      · simp only [Except.ok.injEq, Prod.mk.injEq] at h
        obtain ⟨h1, h2⟩ := h
        subst h1 h2
        exact ⟨rfl, rfl, rfl, rfl, Or.inl rfl⟩
      · have h3 := ih _ _ _ h
        exact h3
    · simp only [Except.ok.injEq, Prod.mk.injEq] at h
      obtain ⟨h1, h2⟩ := h
      subst h1 h2
      exact ⟨rfl, rfl, rfl, rfl, Or.inr rfl⟩

theorem DeleteSnapshotOnCurvefs_world (env : Env) (fuel : Nat) (info : SnapshotInfo)
    (w : World) (ret : ErrCode) (w1 : World)
    (h : DeleteSnapshotOnCurvefs env fuel info w = Except.ok (ret, w1)) :
    w1.metaStore = w.metaStore ∧ w1.dataStore = w.dataStore ∧ w1.inflight = w.inflight ∧
    w1.calls = w.calls ++ [Call.ClientDeleteSnapshot info.fileName info.user info.seqNum] ∧
    (ret = ErrCode.Success ∨ ret = ErrCode.InternalError) := by
  unfold DeleteSnapshotOnCurvefs at h
  simp only [] at h
  split at h
  · simp only [Except.ok.injEq, Prod.mk.injEq] at h
    obtain ⟨h1, h2⟩ := h
    subst h1 h2
    exact ⟨rfl, rfl, rfl, rfl, Or.inr rfl⟩
  · have h3 := pollSnapShotStatus_world env fuel _ ret w1 h
    exact h3

theorem DeleteSnapshotOnCurvefs_keeps (env : Env) (fuel : Nat) (info : SnapshotInfo)
    (w : World) (ret : ErrCode) (w1 : World)
    (h : DeleteSnapshotOnCurvefs env fuel info w = Except.ok (ret, w1)) : WorldKeeps w w1 := by
  obtain ⟨a, b, c, d, _⟩ := DeleteSnapshotOnCurvefs_world env fuel info w ret w1 h
  exact ⟨a, by rw [b], c, CallsExt.ofAppend _ d⟩

theorem abandon_metaStore (w : World) (tr : TaskTracker) :
    (w.abandon tr).metaStore = w.metaStore := rfl

theorem abandon_dataStore (w : World) (tr : TaskTracker) :
    (w.abandon tr).dataStore = w.dataStore := rfl

theorem abandon_calls (w : World) (tr : TaskTracker) : (w.abandon tr).calls = w.calls := rfl

/-- What `TransferSnapshotData` leaves unchanged, and the progress it reports. -/
theorem TransferSnapshotData_facts (core : SnapshotCoreImpl) (env : Env) (fuel : Nat)
    (indexData : ChunkIndexData) (info : SnapshotInfo) (segInfos : List (Nat × SegmentInfo))
    (filter : ChunkDataName → Bool) (t : SnapshotTaskInfo) (w : World)
    (ret : ErrCode) (t1 : SnapshotTaskInfo) (w1 : World)
    (h : TransferSnapshotData core env fuel indexData info segInfos filter t w
      = Except.ok (ret, t1, w1)) :
    TaskKeeps t t1 ∧
    (∃ new, ProgressExt 10 t t1 new ∧ ∀ p ∈ new, p ≤ 99) ∧
    w1.metaStore = w.metaStore ∧ w1.dataStore.indexData = w.dataStore.indexData ∧
    CallsExt w w1 := by
  have hnone : TaskKeeps t t ∧ (∃ new, ProgressExt 10 t t new ∧ ∀ p ∈ new, p ≤ 99) ∧
      w.metaStore = w.metaStore ∧ w.dataStore.indexData = w.dataStore.indexData ∧
      CallsExt w w :=
    ⟨TaskKeeps.same t, ⟨[], ProgressExt.none 10 t, by simp⟩, rfl, rfl, CallsExt.noCalls w⟩
  unfold TransferSnapshotData at h
  split at h
  · cases h
  · rename_i cps _
    split at h
    · simp only [Except.ok.injEq, Prod.mk.injEq] at h
      obtain ⟨_, h2, h3⟩ := h
      subst h2 h3
      exact hnone
    · split at h
      · cases h
      · simp only [Except.ok.injEq, Prod.mk.injEq] at h
        obtain ⟨_, h2, h3⟩ := h
        subst h2 h3
        exact hnone
      · have hk := transferLoop_keeps core env indexData segInfos filter cps
          indexData.GetAllChunkIndex.length indexData.GetAllChunkIndex 0 ⟨[], 0⟩ t w
        obtain ⟨m, hm, hlog, hprog⟩ := transferLoop_progress core env indexData segInfos filter
          cps indexData.GetAllChunkIndex.length indexData.GetAllChunkIndex 0 ⟨[], 0⟩ t w
        have hext : ∃ new, ProgressExt 10 t
            (transferLoop core env indexData segInfos filter cps
              indexData.GetAllChunkIndex.length indexData.GetAllChunkIndex 0 ⟨[], 0⟩ t w).2.2.1 new
            ∧ ∀ p ∈ new, p ≤ 99 := by
          refine ⟨_, ⟨hlog, range_map_pairwise _ (transferProgress_mono _) _ _, ?_, hprog⟩, ?_⟩
          · intro p hp
            rw [List.mem_map] at hp
            obtain ⟨k, hk2, rfl⟩ := hp
            rw [List.mem_range'_1] at hk2
            have := transferProgress_bounds k indexData.GetAllChunkIndex.length (by omega)
            exact ⟨this.1, by unfold kProgressComplete; omega⟩
          · intro p hp
            rw [List.mem_map] at hp
            obtain ⟨k, hk2, rfl⟩ := hp
            rw [List.mem_range'_1] at hk2
            have := transferProgress_bounds k indexData.GetAllChunkIndex.length (by omega)
            omega
        split at h
        · rename_i code tr t2 w2 heq
          simp only [Except.ok.injEq, Prod.mk.injEq] at h
          obtain ⟨_, h2, h3⟩ := h
          rw [heq] at hk hext
          subst h2 h3
          exact ⟨hk.2, hext, hk.1.1, hk.1.2.1, hk.1.2.2.2⟩
        · rename_i tr t2 w2 heq
          rw [heq] at hk hext
          have hwait := settleN_keeps env tr.outstanding.length tr w2
          split at h
          · simp only [Except.ok.injEq, Prod.mk.injEq] at h
            obtain ⟨_, h2, h3⟩ := h
            subst h2 h3
            exact ⟨hk.2, hext, hwait.1.trans hk.1.1, hwait.2.1.trans hk.1.2.1,
              hk.1.2.2.2.followedBy hwait.2.2.2⟩
          · split at h
            · cases h
            · rename_i ret2 w3 hdel
              simp only [Except.ok.injEq, Prod.mk.injEq] at h
              obtain ⟨_, h2, h3⟩ := h
              subst h2 h3
              have hd := DeleteSnapshotOnCurvefs_keeps env fuel info _ _ _ hdel
              exact ⟨hk.2, hext, (hd.1.trans hwait.1).trans hk.1.1,
                (hd.2.1.trans hwait.2.1).trans hk.1.2.1,
                (hk.1.2.2.2.followedBy hwait.2.2.2).followedBy hd.2.2.2⟩

/-! ## Auxiliary facts on the pipelines: states reached by the create pipeline -/

theorem MidFacts.start (lo hi : Nat) (t : SnapshotTaskInfo) (w : World) :
    MidFacts lo hi t w t w :=
  { uuid_eq := rfl, fileName_eq := rfl, info_uuid := rfl, status_eq := rfl,
    samples := le_refl _,
    progress := ⟨[], ProgressExt.none lo t, by simp⟩,
    reach := MetaReach.refl _, replaced := Or.inl rfl, calls := CallsExt.noCalls w }

theorem MidFacts.task {lo hi : Nat} {t : SnapshotTaskInfo} {w : World}
    {t0 t2 : SnapshotTaskInfo} {w0 : World} (h : MidFacts lo hi t w t0 w0)
    (hk : TaskKeeps t0 t2) (hl : t2.progressLog = t0.progressLog)
    (hp : t2.progress_ = t0.progress_) : MidFacts lo hi t w t2 w0 :=
  { uuid_eq := hk.2.1.trans h.uuid_eq, fileName_eq := hk.2.2.1.trans h.fileName_eq,
    info_uuid := by rw [hk.1]; exact h.info_uuid,
    status_eq := by rw [hk.1]; exact h.status_eq,
    samples := le_trans h.samples hk.2.2.2.2.2,
    progress := by
      obtain ⟨new, hn, hb⟩ := h.progress
      exact ⟨new, hn.congr rfl rfl hl hp, hb⟩,
    reach := h.reach,
    replaced := by rw [hk.1]; exact h.replaced,
    calls := h.calls }

theorem MidFacts.extend {lo hi lo2 hi2 : Nat} {t : SnapshotTaskInfo} {w : World}
    {t0 t2 : SnapshotTaskInfo} {w0 : World} {new2 : List Nat}
    (h : MidFacts lo hi t w t0 w0) (hk : TaskKeeps t0 t2)
    (hext : ProgressExt lo2 t0 t2 new2) (hb2 : ∀ p ∈ new2, p ≤ hi2)
    (h1 : hi ≤ lo2) (h2 : lo ≤ lo2) (h3 : hi ≤ hi2) : MidFacts lo hi2 t w t2 w0 :=
  { uuid_eq := hk.2.1.trans h.uuid_eq, fileName_eq := hk.2.2.1.trans h.fileName_eq,
    info_uuid := by rw [hk.1]; exact h.info_uuid,
    status_eq := by rw [hk.1]; exact h.status_eq,
    samples := le_trans h.samples hk.2.2.2.2.2,
    progress := by
      obtain ⟨new, hn, hb⟩ := h.progress
      refine ⟨new ++ new2, hn.append hext h2 (fun p hp => le_trans (hb p hp) h1), ?_⟩
      intro p hp
      rcases List.mem_append.mp hp with hp | hp
      · exact le_trans (hb p hp) h3
      · exact hb2 p hp,
    reach := h.reach,
    replaced := by rw [hk.1]; exact h.replaced,
    calls := h.calls }

theorem MidFacts.setProgress {lo hi : Nat} {t : SnapshotTaskInfo} {w : World}
    {t0 : SnapshotTaskInfo} {w0 : World} (h : MidFacts lo hi t w t0 w0) (p : Nat)
    (h1 : hi ≤ p) (h2 : lo ≤ p) (h3 : p ≤ kProgressComplete) :
    MidFacts lo p t w (t0.SetProgress p) w0 :=
  h.extend (TaskKeeps.ofSetProgress t0 p) (ProgressExt.step p p t0 (le_refl _) h3)
    (by intro q hq; rw [List.mem_singleton] at hq; omega) h1 h2 h1

theorem MidFacts.sample {lo hi : Nat} {t : SnapshotTaskInfo} {w : World}
    {t0 : SnapshotTaskInfo} {w0 : World} (env : Env) (h : MidFacts lo hi t w t0 w0) :
    MidFacts lo hi t w (t0.IsCanceled env).2 w0 :=
  h.task (TaskKeeps.isCanceled env t0) rfl rfl

theorem MidFacts.world {lo hi : Nat} {t : SnapshotTaskInfo} {w : World}
    {t0 : SnapshotTaskInfo} {w0 w2 : World} (h : MidFacts lo hi t w t0 w0)
    (hm : w2.metaStore = w0.metaStore) (hc : CallsExt w0 w2) : MidFacts lo hi t w t0 w2 :=
  { uuid_eq := h.uuid_eq, fileName_eq := h.fileName_eq, info_uuid := h.info_uuid,
    status_eq := h.status_eq, samples := h.samples, progress := h.progress,
    reach := by rw [hm]; exact h.reach,
    replaced := by
      rcases h.replaced with hr | hr
      · left
        cases w2
        cases w0
        simp only [] at hm hr ⊢
        rw [hm, hr]
      · right
        rw [hm]
        exact hr,
    calls := h.calls.followedBy hc }

/-- Before the pipeline leaves, the metadata store has seen at most an update of this
snapshot that keeps its status. -/
theorem MidFacts.reachSame {lo hi : Nat} {t : SnapshotTaskInfo} {w : World}
    {t0 : SnapshotTaskInfo} {w0 : World} (h : MidFacts lo hi t w t0 w0) :
    MetaReach t.snapshotInfo.uuid t.uuid_
      (fun s => s = t.snapshotInfo.status ∨ s = Status.error) w.metaStore w0.metaStore := by
  rcases h.replaced with hr | hr
  · rw [hr]
    exact MetaReach.refl _
  · have he : w0.metaStore = w.metaStore.UpdateSnapshot t0.snapshotInfo 0 := by
      cases hw : w0.metaStore
      rw [hw] at hr
      simp only [] at hr
      simp [MetaStore.UpdateSnapshot, hr]
    rw [he]
    exact MetaReach.ofUpdate _ _ _ _ _ _ h.info_uuid (Or.inl h.status_eq)

theorem CreateFacts.finishAgain {env : Env} {lo : Nat} {t : SnapshotTaskInfo} {w : World}
    {x : PipelineExit} {t1 : SnapshotTaskInfo} {w1 : World}
    (h : CreateFacts env lo t w x t1 w1) : CreateFacts env lo t w x t1.Finish w1 :=
  { uuid_eq := h.uuid_eq, fileName_eq := h.fileName_eq, info_uuid := h.info_uuid,
    samples := h.samples,
    progress := by
      obtain ⟨new, hn, h1, h2⟩ := h.progress
      exact ⟨new, hn.congr rfl rfl rfl rfl, h1, h2⟩,
    finished := rfl, status_error := h.status_error, status_done := h.status_done,
    status_canceled := h.status_canceled, done_sample := h.done_sample, reach := h.reach,
    undone := h.undone,
    calls := h.calls, error_end := h.error_end, done_meta := h.done_meta }

/-- The error handler, entered in a state the create pipeline has reached. -/
theorem CreateFacts.ofError {env : Env} {lo hi : Nat} {t : SnapshotTaskInfo} {w : World}
    {t0 : SnapshotTaskInfo} {w0 : World} (h : MidFacts lo hi t w t0 w0) (hhi : hi ≤ 99) :
    CreateFacts env lo t w PipelineExit.error (HandleCreateSnapshotError env t0 w0).1
      (HandleCreateSnapshotError env t0 w0).2 :=
  { uuid_eq := h.uuid_eq, fileName_eq := h.fileName_eq, info_uuid := h.info_uuid,
    samples := h.samples,
    progress := by
      obtain ⟨new, hn, hb⟩ := h.progress
      refine ⟨new, hn.congr rfl rfl rfl rfl, ?_, ?_⟩
      · intro _ hmem
        have := hb _ hmem
        unfold kProgressComplete at this
        omega
      · intro hx
        exact PipelineExit.noConfusion hx,
    finished := rfl,
    status_error := fun _ => rfl,
    status_done := fun hx => (by cases hx),
    status_canceled := fun hx => (by cases hx),
    done_sample := fun _ hx => (by cases hx),
    reach := by
      refine MetaReach.update _ _ _ _ h.reach ?_ ?_
      · exact h.info_uuid
      · exact Or.inr (Or.inr rfl),
    undone := fun _ => MetaReach.update _ _ _ _ h.reachSame h.info_uuid (Or.inr rfl),
    calls := h.calls.followedBy (CallsExt.ofAppend _ rfl),
    error_end := fun _ =>
      ⟨w0, t0.snapshotInfo.SetStatus Status.error, rfl, h.info_uuid, rfl, h.calls⟩,
    done_meta := fun hx => (by cases hx) }

theorem map_replace_twice (l : List SnapshotInfo) (info1 info2 : SnapshotInfo)
    (hu : info1.uuid = info2.uuid) :
    (l.map (fun s => if s.uuid == info1.uuid then info1 else s)).map
        (fun s => if s.uuid == info2.uuid then info2 else s)
      = l.map (fun s => if s.uuid == info2.uuid then info2 else s) := by
  rw [List.map_map]
  apply List.map_congr_left
  intro s _
  by_cases hs : s.uuid = info2.uuid
  · simp [hs, hu]
  · simp [hs, hu]

theorem UpdateSnapshot_failed (m : MetaStore) (info : SnapshotInfo) (ret : Int)
    (h : ret < 0) : m.UpdateSnapshot info ret = m := by
  simp [MetaStore.UpdateSnapshot, h]

theorem UpdateSnapshot_ok (m : MetaStore) (info : SnapshotInfo) (ret : Int)
    (h : ¬ ret < 0) :
    (m.UpdateSnapshot info ret).records
      = m.records.map (fun s => if s.uuid == info.uuid then info else s) := by
  simp [MetaStore.UpdateSnapshot, h]

/-- Stage 5, entered in a state the create pipeline has reached. -/
theorem createFinalize_facts {env : Env} {lo hi : Nat} {t : SnapshotTaskInfo} {w : World}
    {t0 : SnapshotTaskInfo} {w0 : World} (h : MidFacts lo hi t w t0 w0) (hhi : hi ≤ 99)
    (hlo : lo ≤ kProgressComplete)
    (hs : (∀ a b, a ≤ b → env.isCanceled a = true → env.isCanceled b = true) →
      ∀ k, t.cancelSamples ≤ k → k < t0.cancelSamples → env.isCanceled k = false) :
    CreateFacts env lo t w (createFinalize env t0 w0).1 (createFinalize env t0 w0).2.1
      (createFinalize env t0 w0).2.2 := by
  unfold createFinalize
  simp only []
  split
  · rename_i hret
    simp only [World_UpdateSnapshot_fst] at hret
    have hmid : MidFacts lo hi t w t0
        (w0.UpdateSnapshot env (t0.snapshotInfo.SetStatus Status.done)).2 :=
      h.world (by simp [UpdateSnapshot_failed _ _ _ hret]) (CallsExt.ofAppend _ rfl)
    have hfin := @CreateFacts.ofError env lo hi t w t0 _ hmid hhi
    exact hfin
  · rename_i hret
    simp only [World_UpdateSnapshot_fst] at hret
    exact
      { uuid_eq := h.uuid_eq, fileName_eq := h.fileName_eq, info_uuid := h.info_uuid,
        samples := h.samples,
        progress := by
          obtain ⟨new, hn, hb⟩ := h.progress
          have hstep : ProgressExt kProgressComplete t0
              (({ t0 with snapshotInfo := t0.snapshotInfo.SetStatus Status.done }.SetProgress
                kProgressComplete).Finish) [kProgressComplete] :=
            (ProgressExt.step kProgressComplete kProgressComplete t0 (le_refl _)
              (le_refl _)).congr rfl rfl rfl rfl
          refine ⟨new ++ [kProgressComplete], hn.append hstep hlo ?_, ?_, ?_⟩
          · intro p hp
            have := hb p hp
            unfold kProgressComplete
            omega
          · intro hx
            exact absurd rfl hx
          · intro _
            rfl,
        finished := rfl,
        status_error := fun hx => (by cases hx),
        status_done := fun _ => rfl,
        status_canceled := fun hx => (by cases hx),
        done_sample := fun hm _ => hs hm,
        reach := MetaReach.update _ _ _ _ h.reach h.info_uuid (Or.inr (Or.inl rfl)),
        undone := fun hx => absurd rfl hx,
        calls := h.calls.followedBy (CallsExt.ofAppend _ rfl),
        error_end := fun hx => (by cases hx),
        done_meta := fun _ => by
          simp only [World_UpdateSnapshot_metaStore, Finish_snapshotInfo,
            SetProgress_snapshotInfo]
          rw [UpdateSnapshot_ok _ _ _ hret]
          have hu : (t0.snapshotInfo.SetStatus Status.done).uuid = t.snapshotInfo.uuid :=
            h.info_uuid
          rcases h.replaced with hr | hr
          · rw [hr, hu]
          · rw [hr, map_replace_twice _ _ _ (by simp), hu] }

theorem DeleteSnapshot_failed (m : MetaStore) (uuid : UUID) (ret : Int) (h : ret < 0) :
    m.DeleteSnapshot uuid ret = m := by
  simp [MetaStore.DeleteSnapshot, h]

theorem land_keeps (env : Env) : ∀ (n : Nat) (w : World),
    (World.land env n w).metaStore = w.metaStore ∧ (World.land env n w).calls = w.calls ∧
    (World.land env n w).dataStore.indexData = w.dataStore.indexData := by
  intro n
  induction n with
  | zero => intro w; exact ⟨rfl, rfl, rfl⟩
  | succ n ih =>
    intro w
    unfold World.land
    split
    · exact ⟨rfl, rfl, rfl⟩
    · obtain ⟨a, b, c⟩ := ih { w with
        dataStore := w.dataStore.TransferChunk _ (env.transferRet w.clock),
        inflight := _, clock := w.clock + 1 }
      exact ⟨a, b, c.trans (TransferChunk_indexData _ _ _)⟩

theorem landAlone_keeps (env : Env) (w : World) :
    (w.landAlone env).metaStore = w.metaStore ∧ (w.landAlone env).calls = w.calls ∧
    (w.landAlone env).dataStore.indexData = w.dataStore.indexData := by
  unfold World.landAlone
  exact land_keeps env _ _

/-- The end of every rollback chain, entered in a state the create pipeline has
reached. -/
theorem HandleClearSnapshotOnMateStore_facts {env : Env} {lo hi : Nat}
    {t : SnapshotTaskInfo} {w : World} {t0 : SnapshotTaskInfo} {w0 : World}
    (h : MidFacts lo hi t w t0 w0) (hhi : hi ≤ 99) :
    CreateFacts env lo t w (HandleClearSnapshotOnMateStore env t0 w0).1
      (HandleClearSnapshotOnMateStore env t0 w0).2.1
      (HandleClearSnapshotOnMateStore env t0 w0).2.2 := by
  unfold HandleClearSnapshotOnMateStore
  simp only []
  split
  · rename_i hret
    simp only [World_DeleteSnapshot_fst] at hret
    have hmid : MidFacts lo hi t w t0 (w0.DeleteSnapshot env t0.uuid_).2 :=
      h.world (by simp [DeleteSnapshot_failed _ _ _ hret]) (CallsExt.ofAppend _ rfl)
    exact (@CreateFacts.ofError env lo hi t w t0 _ hmid hhi).finishAgain
  · exact
      { uuid_eq := h.uuid_eq, fileName_eq := h.fileName_eq, info_uuid := h.info_uuid,
        samples := h.samples,
        progress := by
          obtain ⟨new, hn, hb⟩ := h.progress
          refine ⟨new, hn.congr rfl rfl rfl rfl, ?_, ?_⟩
          · intro _ hmem
            have := hb _ hmem
            unfold kProgressComplete at this
            omega
          · intro hx
            exact PipelineExit.noConfusion hx,
        finished := rfl,
        status_error := fun hx => (by cases hx),
        status_done := fun hx => (by cases hx),
        status_canceled := fun _ => h.status_eq,
        done_sample := fun _ hx => (by cases hx),
        reach := by
          have := MetaReach.delete _ _ (env.metaRet w0.clock) h.reach
          rw [h.uuid_eq]
          exact this,
        undone := fun _ => by
          have := MetaReach.delete _ _ (env.metaRet w0.clock) h.reachSame
          rw [h.uuid_eq]
          exact this,
        calls := h.calls.followedBy (CallsExt.ofAppend _ rfl),
        error_end := fun hx => (by cases hx),
        done_meta := fun hx => (by cases hx) }

/-- Rollback-1, entered in a state the create pipeline has reached. -/
theorem CancelAfterCreateSnapshotOnCurvefs_facts {env : Env} {fuel lo hi : Nat}
    {t : SnapshotTaskInfo} {w : World} {t0 : SnapshotTaskInfo} {w0 : World}
    {x : PipelineExit} {t1 : SnapshotTaskInfo} {w1 : World}
    (h : MidFacts lo hi t w t0 w0) (hhi : hi ≤ 99)
    (hrun : CancelAfterCreateSnapshotOnCurvefs env fuel t0 w0 = Except.ok (x, t1, w1)) :
    CreateFacts env lo t w x t1 w1 := by
  unfold CancelAfterCreateSnapshotOnCurvefs at hrun
  split at hrun
  · cases hrun
  · rename_i ret w2 hdel
    have hk := DeleteSnapshotOnCurvefs_keeps env fuel _ _ _ _ hdel
    have hmid : MidFacts lo hi t w t0 w2 := h.world hk.1 hk.2.2.2
    split at hrun
    · cases hrun
      exact @CreateFacts.ofError env lo hi t w t0 w2 hmid hhi
    · simp only [Except.ok.injEq] at hrun
      have hfin := @HandleClearSnapshotOnMateStore_facts env lo hi t w t0 w2 hmid hhi
      rw [hrun] at hfin
      exact hfin

/-- Rollback-2, entered in a state the create pipeline has reached. -/
theorem CancelAfterCreateChunkIndexData_facts {env : Env} {fuel lo hi : Nat}
    {t : SnapshotTaskInfo} {w : World} {t0 : SnapshotTaskInfo} {w0 : World}
    {x : PipelineExit} {t1 : SnapshotTaskInfo} {w1 : World}
    (h : MidFacts lo hi t w t0 w0) (hhi : hi ≤ 99)
    (hrun : CancelAfterCreateChunkIndexData env fuel t0 w0 = Except.ok (x, t1, w1)) :
    CreateFacts env lo t w x t1 w1 := by
  unfold CancelAfterCreateChunkIndexData at hrun
  simp only [] at hrun
  have hmid : MidFacts lo hi t w t0
      (w0.DeleteChunkIndexData env ⟨t0.fileName_, t0.snapshotInfo.seqNum⟩).2 :=
    h.world rfl (CallsExt.ofAppend _ rfl)
  split at hrun
  · cases hrun
    exact @CreateFacts.ofError env lo hi t w t0 _ hmid hhi
  · exact CancelAfterCreateSnapshotOnCurvefs_facts hmid hhi hrun

theorem cancelTransferLoop_facts (env : Env) {lo hi : Nat} (hhi : hi ≤ 99)
    (indexData : ChunkIndexData) (fileSnapshotMap : FileSnapMap)
    {t : SnapshotTaskInfo} {w : World} :
    ∀ (l : List Nat) (t0 : SnapshotTaskInfo) (w0 : World), MidFacts lo hi t w t0 w0 →
      ((cancelTransferLoop env indexData fileSnapshotMap l t0 w0).1 = Flow.next →
        MidFacts lo hi t w (cancelTransferLoop env indexData fileSnapshotMap l t0 w0).2.1
          (cancelTransferLoop env indexData fileSnapshotMap l t0 w0).2.2) ∧
      (∀ c, (cancelTransferLoop env indexData fileSnapshotMap l t0 w0).1 = Flow.ret c →
        CreateFacts env lo t w PipelineExit.error
          (cancelTransferLoop env indexData fileSnapshotMap l t0 w0).2.1
          (cancelTransferLoop env indexData fileSnapshotMap l t0 w0).2.2) := by
  intro l
  induction l with
  | nil =>
    intro t0 w0 h
    refine ⟨fun _ => h, ?_⟩
    intro c hc
    simp [cancelTransferLoop] at hc
  | cons ci rest ih =>
    intro t0 w0 h
    have hl := landAlone_keeps env w0
    have hmid0 : MidFacts lo hi t w t0 (w0.landAlone env) :=
      h.world hl.1 (CallsExt.ofEq hl.2.1)
    unfold cancelTransferLoop
    simp only []
    split
    · have hmid1 : MidFacts lo hi t w t0
          ((w0.landAlone env).DeleteChunkData env (indexData.nameAt ci)).2 :=
        hmid0.world rfl (CallsExt.ofAppend _ rfl)
      split
      · refine ⟨?_, ?_⟩
        · intro hf
          cases hf
        · intro _ _
          exact @CreateFacts.ofError env lo hi t w t0 _ hmid1 hhi
      · exact ih _ _ hmid1
    · exact ih _ _ hmid0

/-- Rollback-3, entered in a state the create pipeline has reached. -/
theorem CancelAfterTransferSnapshotData_facts {env : Env} {fuel lo hi : Nat}
    {t : SnapshotTaskInfo} {w : World} {t0 : SnapshotTaskInfo} {w0 : World}
    {x : PipelineExit} {t1 : SnapshotTaskInfo} {w1 : World}
    (indexData : ChunkIndexData) (fileSnapshotMap : FileSnapMap)
    (h : MidFacts lo hi t w t0 w0) (hhi : hi ≤ 99)
    (hrun : CancelAfterTransferSnapshotData env fuel t0 indexData fileSnapshotMap w0
      = Except.ok (x, t1, w1)) :
    CreateFacts env lo t w x t1 w1 := by
  unfold CancelAfterTransferSnapshotData at hrun
  have hloop := cancelTransferLoop_facts env hhi indexData fileSnapshotMap
    indexData.GetAllChunkIndex t0 w0 h
  split at hrun
  · rename_i c t2 w2 heq
    have := hloop.2 c (by rw [heq])
    rw [heq] at this
    cases hrun
    exact this
  · rename_i t2 w2 heq
    have := hloop.1 (by rw [heq])
    rw [heq] at this
    exact CancelAfterCreateChunkIndexData_facts this hhi hrun

theorem buildSnapshotMapLoop_world (env : Env) (seqNum : Nat) :
    ∀ (l : List SnapshotInfo) (m : FileSnapMap) (w : World),
      (buildSnapshotMapLoop env seqNum l m w).2.metaStore = w.metaStore ∧
      (buildSnapshotMapLoop env seqNum l m w).2.dataStore = w.dataStore ∧
      (buildSnapshotMapLoop env seqNum l m w).2.inflight = w.inflight ∧
      (buildSnapshotMapLoop env seqNum l m w).2.calls = w.calls := by
  intro l
  induction l with
  | nil => intro m w; exact ⟨rfl, rfl, rfl, rfl⟩
  | cons snap rest ih =>
    intro m w
    unfold buildSnapshotMapLoop
    split
    · split
      · exact ih _ _
      · exact ih _ _
    · exact ih _ _

theorem BuildSnapshotMap_world (env : Env) (fileName : String) (seqNum : Nat) (w : World) :
    (BuildSnapshotMap env fileName seqNum w).2.2.metaStore = w.metaStore ∧
    (BuildSnapshotMap env fileName seqNum w).2.2.dataStore = w.dataStore ∧
    (BuildSnapshotMap env fileName seqNum w).2.2.inflight = w.inflight ∧
    (BuildSnapshotMap env fileName seqNum w).2.2.calls = w.calls :=
  buildSnapshotMapLoop_world env seqNum _ _ w

theorem BuildSnapshotMap_ret (env : Env) (fileName : String) (seqNum : Nat) (w : World) :
    (BuildSnapshotMap env fileName seqNum w).1 = ErrCode.Success := rfl

/-- Stages 3 to 5, entered in a state the create pipeline has reached. -/
theorem createTransfer_facts {core : SnapshotCoreImpl} {env : Env} {fuel lo hi : Nat}
    {t : SnapshotTaskInfo} {w : World} {t0 : SnapshotTaskInfo} {w0 : World}
    {x : PipelineExit} {t1 : SnapshotTaskInfo} {w1 : World}
    (indexData : ChunkIndexData) (segInfos : List (Nat × SegmentInfo))
    (h : MidFacts lo hi t w t0 w0) (hhi : hi ≤ 10) (hlo : lo ≤ 10)
    (hrun : createTransfer core env fuel indexData segInfos t0 w0 = Except.ok (x, t1, w1)) :
    CreateFacts env lo t w x t1 w1 := by
  unfold createTransfer at hrun
  simp only [BuildSnapshotMap_ret, ErrCode.isNegative] at hrun
  have hb := BuildSnapshotMap_world env t0.fileName_ t0.snapshotInfo.seqNum w0
  have hmid1 : MidFacts lo 10 t w (t0.SetProgress kProgressBuildSnapshotMapComplete)
      (BuildSnapshotMap env t0.fileName_ t0.snapshotInfo.seqNum w0).2.2 :=
    (h.world hb.1 (CallsExt.ofEq hb.2.2.2)).setProgress 10 hhi hlo
      (by unfold kProgressComplete; omega)
  simp only [Bool.false_eq_true, if_false] at hrun
  split at hrun
  · cases hrun
  · rename_i ret task2 w2 htr
    obtain ⟨hk, ⟨new, hext, hbound⟩, hm, _, hc⟩ :=
      TransferSnapshotData_facts core env fuel _ _ _ _ _ _ _ _ _ htr
    have hmid2 : MidFacts lo 99 t w task2 w2 :=
      (hmid1.extend hk hext hbound (le_refl _) hlo (by omega)).world hm hc
    split at hrun
    · cases hrun
      exact @CreateFacts.ofError env lo 99 t w task2 w2 hmid2 (le_refl _)
    · have hmid3 : MidFacts lo 99 t w
          (task2.SetProgress kProgressTransferSnapshotDataComplete) w2 :=
        hmid2.setProgress 99 (le_refl _) (by omega) (by unfold kProgressComplete; omega)
      split at hrun
      · exact CancelAfterTransferSnapshotData_facts indexData _ (hmid3.sample env)
          (le_refl _) hrun
      · rename_i hfalse
        simp only [IsCanceled_fst, SetProgress_cancelSamples, Bool.not_eq_true] at hfalse
        have hfin := @createFinalize_facts env lo 99 t w _ w2 (hmid3.sample env) (le_refl _)
          (by unfold kProgressComplete; omega)
          (by
            intro hmono k hk1 hk2
            simp only [IsCanceled_cancelSamples, SetProgress_cancelSamples] at hk2
            by_contra hne
            have htrue : env.isCanceled k = true := by
              cases hv : env.isCanceled k
              · exact absurd hv hne
              · rfl
            have := hmono k task2.cancelSamples (by omega) htrue
            rw [hfalse] at this
            cases this)
        simp only [Except.ok.injEq] at hrun
        rw [hrun] at hfin
        exact hfin

/-- Cancellation point 2 and what follows, entered in a state the create pipeline has
reached. -/
theorem createAfterIndex_facts {core : SnapshotCoreImpl} {env : Env} {fuel lo hi : Nat}
    {t : SnapshotTaskInfo} {w : World} {t0 : SnapshotTaskInfo} {w0 : World}
    {x : PipelineExit} {t1 : SnapshotTaskInfo} {w1 : World}
    (indexData : ChunkIndexData) (segInfos : List (Nat × SegmentInfo))
    (h : MidFacts lo hi t w t0 w0) (hhi : hi ≤ 10) (hlo : lo ≤ 10)
    (hrun : createAfterIndex core env fuel indexData segInfos t0 w0 = Except.ok (x, t1, w1)) :
    CreateFacts env lo t w x t1 w1 := by
  unfold createAfterIndex at hrun
  split at hrun
  · exact CancelAfterCreateChunkIndexData_facts (h.sample env) (by omega) hrun
  · exact createTransfer_facts indexData segInfos (h.sample env) hhi hlo hrun

/-- Stage 2 and what follows, entered in a state the create pipeline has reached. -/
theorem createIndex_facts {core : SnapshotCoreImpl} {env : Env} {fuel lo hi : Nat}
    {t : SnapshotTaskInfo} {w : World} {t0 : SnapshotTaskInfo} {w0 : World}
    {x : PipelineExit} {t1 : SnapshotTaskInfo} {w1 : World} (existIndexData : Bool)
    (h : MidFacts lo hi t w t0 w0) (hhi : hi ≤ 6) (hlo : lo ≤ 6)
    (hrun : createIndex core env fuel existIndexData t0 w0 = Except.ok (x, t1, w1)) :
    CreateFacts env lo t w x t1 w1 := by
  unfold createIndex at hrun
  simp only [] at hrun
  split at hrun
  · have hmid0 : MidFacts lo hi t w t0
        (w0.GetChunkIndexData env ⟨t0.fileName_, t0.snapshotInfo.seqNum⟩).2 :=
      h.world rfl (CallsExt.ofEq rfl)
    split at hrun
    · cases hrun
      exact @CreateFacts.ofError env lo hi t w t0 _ hmid0 (by omega)
    · have hmid1 := hmid0.setProgress kProgressBuildChunkIndexDataComplete hhi hlo
        (by unfold kProgressComplete kProgressBuildChunkIndexDataComplete; omega)
      split at hrun
      · cases hrun
      · split at hrun
        · cases hrun
          exact @CreateFacts.ofError env lo 6 t w _ _ hmid1 (by omega)
        · exact createAfterIndex_facts _ _ hmid1 (by decide) (by omega) hrun
  · split at hrun
    · cases hrun
    · rename_i ret indexData segInfos task1 hb
      obtain ⟨n, hn, ht⟩ := BuildChunkIndexData_task env _ _ _ _ _ _ hb
      have hmid0 : MidFacts lo hi t w task1 w0 := by
        rw [ht]
        exact h.task (TaskKeeps.ofSamples t0 n hn) rfl rfl
      split at hrun
      · cases hrun
        exact @CreateFacts.ofError env lo hi t w task1 w0 hmid0 (by omega)
      · have hmid1 : MidFacts lo hi t w task1
            (w0.PutChunkIndexData env ⟨t0.fileName_, t0.snapshotInfo.seqNum⟩ indexData).2 :=
          hmid0.world rfl (CallsExt.ofAppend _ rfl)
        split at hrun
        · cases hrun
          exact @CreateFacts.ofError env lo hi t w task1 _ hmid1 (by omega)
        · have hmid2 := hmid1.setProgress kProgressBuildChunkIndexDataComplete hhi hlo
            (by unfold kProgressComplete kProgressBuildChunkIndexDataComplete; omega)
          exact createAfterIndex_facts _ _ hmid2 (by decide) (by omega) hrun

/-- Cancellation point 1 and what follows, entered in a state the create pipeline has
reached. -/
theorem createAfterSnapshot_facts {core : SnapshotCoreImpl} {env : Env} {fuel lo hi : Nat}
    {t : SnapshotTaskInfo} {w : World} {t0 : SnapshotTaskInfo} {w0 : World}
    {x : PipelineExit} {t1 : SnapshotTaskInfo} {w1 : World} (existIndexData : Bool)
    (h : MidFacts lo hi t w t0 w0) (hhi : hi ≤ 5) (hlo : lo ≤ 5)
    (hrun : createAfterSnapshot core env fuel existIndexData t0 w0 = Except.ok (x, t1, w1)) :
    CreateFacts env lo t w x t1 w1 := by
  unfold createAfterSnapshot at hrun
  simp only [] at hrun
  have hmid1 := (h.setProgress kProgressCreateSnapshotOnCurvefsComplete hhi hlo
    (by unfold kProgressComplete kProgressCreateSnapshotOnCurvefsComplete; omega)).sample env
  split at hrun
  · exact CancelAfterCreateSnapshotOnCurvefs_facts hmid1 (by decide) hrun
  · exact createIndex_facts existIndexData hmid1 (by decide) (by omega) hrun

theorem CreateSnapshotOnCurvefs_mid (env : Env) (lo hi : Nat) (fileName : String)
    (t : SnapshotTaskInfo) (w : World) :
    MidFacts lo hi t w (CreateSnapshotOnCurvefs env fileName t w).2.1
      (CreateSnapshotOnCurvefs env fileName t w).2.2 := by
  have hbase := MidFacts.start lo hi t w
  unfold CreateSnapshotOnCurvefs
  simp only []
  split
  · exact hbase.world rfl (CallsExt.ofAppend _ rfl)
  · split
    · exact hbase.world rfl (CallsExt.ofAppend _ rfl)
    · split
      · rename_i hret
        simp only [World_UpdateSnapshot_fst] at hret
        exact
          { uuid_eq := rfl, fileName_eq := rfl, info_uuid := rfl, status_eq := rfl,
            samples := le_refl _,
            progress := ⟨[], (ProgressExt.none lo t).congr rfl rfl rfl rfl, by simp⟩,
            reach := by
              simp only [World_UpdateSnapshot_metaStore]
              rw [UpdateSnapshot_failed _ _ _ hret]
              exact MetaReach.refl _,
            replaced := by
              left
              simp only [World_UpdateSnapshot_metaStore]
              rw [UpdateSnapshot_failed _ _ _ hret],
            calls :=
              (CallsExt.ofAppend [Call.ClientCreateSnapshot fileName t.snapshotInfo.user]
                rfl).followedBy (CallsExt.ofAppend _ rfl) }
      · rename_i hret
        simp only [World_UpdateSnapshot_fst] at hret
        exact
          { uuid_eq := rfl, fileName_eq := rfl, info_uuid := rfl, status_eq := rfl,
            samples := le_refl _,
            progress := ⟨[], (ProgressExt.none lo t).congr rfl rfl rfl rfl, by simp⟩,
            reach := MetaReach.ofUpdate _ _ _ _ _ _ rfl (Or.inl rfl),
            replaced := by
              right
              simp only [World_UpdateSnapshot_metaStore]
              rw [UpdateSnapshot_ok _ _ _ hret],
            calls :=
              (CallsExt.ofAppend [Call.ClientCreateSnapshot fileName t.snapshotInfo.user]
                rfl).followedBy (CallsExt.ofAppend _ rfl) }

/-- What holds of every run of `HandleCreateSnapshotTask` that returns. -/
theorem HandleCreateSnapshotTask_facts (core : SnapshotCoreImpl) (env : Env) (fuel : Nat)
    (t : SnapshotTaskInfo) (w : World) (x : PipelineExit) (t1 : SnapshotTaskInfo) (w1 : World)
    (hrun : HandleCreateSnapshotTask core env fuel t w = Except.ok (x, t1, w1)) :
    CreateFacts env 5 t w x t1 w1 := by
  unfold HandleCreateSnapshotTask at hrun
  split at hrun
  · simp only [] at hrun
    have hmid := CreateSnapshotOnCurvefs_mid env 5 0 t.fileName_ t w
    split at hrun
    · cases hrun
      exact @CreateFacts.ofError env 5 0 t w _ _ hmid (by omega)
    · exact createAfterSnapshot_facts false hmid (by omega) (le_refl _) hrun
  · exact createAfterSnapshot_facts _ (MidFacts.start 5 0 t w) (by omega) (le_refl _) hrun

/-! ## Auxiliary facts on the pipelines: the delete pipeline -/

/-- The error handler of the delete pipeline, entered in a state the pipeline has
reached without touching the metadata store. -/
theorem DeleteFacts.ofDeleteError {env : Env} {lo hi : Nat} {t : SnapshotTaskInfo} {w : World}
    {t0 : SnapshotTaskInfo} {w0 : World} (h : MidFacts lo hi t w t0 w0)
    (hm : w0.metaStore = w.metaStore) (hhi : hi ≤ 99) :
    DeleteFacts env lo t w PipelineExit.error (HandleDeleteSnapshotError env t0 w0).1
      (HandleDeleteSnapshotError env t0 w0).2 :=
  { uuid_eq := h.uuid_eq, fileName_eq := h.fileName_eq, info_uuid := h.info_uuid,
    progress := by
      obtain ⟨new, hn, hb⟩ := h.progress
      refine ⟨new, hn.congr rfl rfl rfl rfl, ?_, ?_⟩
      · intro _ hmem
        have := hb _ hmem
        unfold kProgressComplete at this
        omega
      · intro hx
        exact PipelineExit.noConfusion hx,
    finished := rfl,
    not_canceled := fun hx => (by cases hx),
    status_error := fun _ => rfl,
    status_done := fun hx => (by cases hx),
    reach := by
      have := MetaReach.ofUpdate t.snapshotInfo.uuid t.uuid_ (fun s => s = Status.error)
        w.metaStore (t0.snapshotInfo.SetStatus Status.error) (env.metaRet w0.clock)
        h.info_uuid rfl
      simp only [HandleDeleteSnapshotError, World_UpdateSnapshot_metaStore, hm]
      exact this,
    calls := h.calls.followedBy (CallsExt.ofAppend _ rfl),
    error_end := fun _ =>
      ⟨w0, t0.snapshotInfo.SetStatus Status.error, rfl, h.info_uuid, rfl, h.calls⟩,
    done_meta := fun hx => (by cases hx) }

/-- The end of the delete pipeline, entered in a state the pipeline has reached without
touching the metadata store. -/
theorem deleteRecord_facts {env : Env} {fuel lo hi : Nat} {t : SnapshotTaskInfo} {w : World}
    {t0 : SnapshotTaskInfo} {w0 : World} {x : PipelineExit} {t1 : SnapshotTaskInfo}
    {w1 : World} (h : MidFacts lo hi t w t0 w0) (hm : w0.metaStore = w.metaStore)
    (hinfo : t0.snapshotInfo = t.snapshotInfo) (hhi : hi ≤ 90) (hlo : lo ≤ 90)
    (hrun : deleteRecord env fuel t0 w0 = Except.ok (x, t1, w1)) :
    DeleteFacts env lo t w x t1 w1 := by
  have hlast : ∀ w2 : World, MidFacts lo hi t w t0 w2 → w2.metaStore = w.metaStore →
      ∀ r : PipelineExit × SnapshotTaskInfo × World,
      r = (if (w2.DeleteSnapshot env t0.uuid_).1 < 0 then
            (PipelineExit.error, HandleDeleteSnapshotError env
              (t0.SetProgress kDelProgressDeleteChunkIndexDataComplete)
              (w2.DeleteSnapshot env t0.uuid_).2)
          else (PipelineExit.done,
            ((t0.SetProgress kDelProgressDeleteChunkIndexDataComplete).SetProgress
              kProgressComplete).Finish, (w2.DeleteSnapshot env t0.uuid_).2)) →
      DeleteFacts env lo t w r.1 r.2.1 r.2.2 := by
    intro w2 h2 hm2 r hr
    have hmid90 := h2.setProgress kDelProgressDeleteChunkIndexDataComplete hhi hlo
      (by decide)
    split at hr
    · rename_i hret
      simp only [World_DeleteSnapshot_fst] at hret
      subst hr
      have hmid : MidFacts lo 90 t w
          (t0.SetProgress kDelProgressDeleteChunkIndexDataComplete)
          (w2.DeleteSnapshot env t0.uuid_).2 :=
        hmid90.world (by simp [DeleteSnapshot_failed _ _ _ hret]) (CallsExt.ofAppend _ rfl)
      exact @DeleteFacts.ofDeleteError env lo 90 t w _ _ hmid
        (by simp [DeleteSnapshot_failed _ _ _ hret, hm2]) (by omega)
    · rename_i hret
      simp only [World_DeleteSnapshot_fst] at hret
      subst hr
      exact
        { uuid_eq := h.uuid_eq, fileName_eq := h.fileName_eq, info_uuid := h.info_uuid,
          progress := by
            obtain ⟨new, hn, hb⟩ := hmid90.progress
            have hstep : ProgressExt kProgressComplete
                (t0.SetProgress kDelProgressDeleteChunkIndexDataComplete)
                (((t0.SetProgress kDelProgressDeleteChunkIndexDataComplete).SetProgress
                  kProgressComplete).Finish) [kProgressComplete] :=
              (ProgressExt.step kProgressComplete kProgressComplete _ (le_refl _)
                (le_refl _)).congr rfl rfl rfl rfl
            refine ⟨new ++ [kProgressComplete], hn.append hstep
              (le_trans hlo (by decide)) ?_, ?_, ?_⟩
            · intro p hp
              have := hb p hp
              unfold kProgressComplete
              unfold kDelProgressDeleteChunkIndexDataComplete at this
              omega
            · intro hx
              exact absurd rfl hx
            · intro _
              rfl,
          finished := rfl,
          not_canceled := fun hx => (by cases hx),
          status_error := fun hx => (by cases hx),
          status_done := fun _ => hinfo,
          reach := by
            have := MetaReach.ofDelete t.snapshotInfo.uuid t.uuid_
              (fun s => s = Status.error) w.metaStore (env.metaRet w2.clock)
            simp only [World_DeleteSnapshot_metaStore, hm2, h.uuid_eq]
            exact this,
          calls := h2.calls.followedBy (CallsExt.ofAppend _ rfl),
          error_end := fun hx => (by cases hx),
          done_meta := fun _ => by
            simp only [World_DeleteSnapshot_metaStore, hm2, h.uuid_eq]
            simp [MetaStore.DeleteSnapshot, hret] }
  unfold deleteRecord at hrun
  simp only [] at hrun
  split at hrun
  · split at hrun
    · cases hrun
    · rename_i ret w2 hdel
      have hk := DeleteSnapshotOnCurvefs_keeps env fuel _ _ _ _ hdel
      have hmid2 : MidFacts lo hi t w t0 w2 := h.world hk.1 hk.2.2.2
      split at hrun
      · cases hrun
        exact @DeleteFacts.ofDeleteError env lo hi t w t0 w2 hmid2 (hk.1.trans hm) (by omega)
      · simp only [Except.ok.injEq] at hrun
        have := hlast w2 hmid2 (hk.1.trans hm) _ rfl
        rw [hrun] at this
        exact this
  · simp only [Except.ok.injEq] at hrun
    have := hlast w0 h hm _ rfl
    rw [hrun] at this
    exact this

theorem deleteChunkLoop_shape (env : Env) (indexData : ChunkIndexData)
    (fileSnapshotMap : FileSnapMap) (total : Nat) :
    ∀ (l : List Nat) (index : Nat) (t0 : SnapshotTaskInfo) (w0 : World),
      ∃ (tm : SnapshotTaskInfo) (wm : World) (m : Nat), m ≤ l.length ∧ TaskKeeps t0 tm ∧
        tm.progressLog
          = t0.progressLog ++ (List.range' index m).map (fun k => deleteProgress k total) ∧
        tm.progress_
          = lastOr t0.progress_ ((List.range' index m).map (fun k => deleteProgress k total)) ∧
        wm.metaStore = w0.metaStore ∧ CallsExt w0 wm ∧
        (deleteChunkLoop env indexData fileSnapshotMap total l index t0 w0
            = (Flow.next, tm, wm) ∨
          ∃ c, deleteChunkLoop env indexData fileSnapshotMap total l index t0 w0
            = (Flow.ret c, HandleDeleteSnapshotError env tm wm)) := by
  intro l
  induction l with
  | nil =>
    intro index t0 w0
    exact ⟨t0, w0, 0, le_refl _, TaskKeeps.same t0, by simp, by simp, rfl, CallsExt.noCalls w0,
      Or.inl rfl⟩
  | cons ci rest ih =>
    intro index t0 w0
    have hnext : ∀ w2 : World, w2.metaStore = w0.metaStore → CallsExt w0 w2 →
        ∃ (tm : SnapshotTaskInfo) (wm : World) (m : Nat), m ≤ (ci :: rest).length ∧
          TaskKeeps t0 tm ∧
          tm.progressLog
            = t0.progressLog ++ (List.range' index m).map (fun k => deleteProgress k total) ∧
          tm.progress_
            = lastOr t0.progress_
                ((List.range' index m).map (fun k => deleteProgress k total)) ∧
          wm.metaStore = w0.metaStore ∧ CallsExt w0 wm ∧
          (deleteChunkLoop env indexData fileSnapshotMap total rest (index + 1)
              (t0.SetProgress (deleteProgress index total)) w2 = (Flow.next, tm, wm) ∨
            ∃ c, deleteChunkLoop env indexData fileSnapshotMap total rest (index + 1)
              (t0.SetProgress (deleteProgress index total)) w2
              = (Flow.ret c, HandleDeleteSnapshotError env tm wm)) := by
      intro w2 hm2 hc2
      obtain ⟨tm, wm, m, hm, hk, hlog, hprog, hmeta, hcalls, hres⟩ :=
        ih (index + 1) (t0.SetProgress (deleteProgress index total)) w2
      refine ⟨tm, wm, m + 1, by simpa using hm, (TaskKeeps.ofSetProgress t0 _).andThen hk,
        ?_, ?_, hmeta.trans hm2, hc2.followedBy hcalls, hres⟩
      · rw [hlog, List.range'_succ]
        simp
      · rw [hprog, List.range'_succ, List.map_cons]
        have : deleteProgress index total :: List.map (fun k => deleteProgress k total)
            (List.range' (index + 1) m)
            = [deleteProgress index total] ++ List.map (fun k => deleteProgress k total)
              (List.range' (index + 1) m) := rfl
        rw [this, lastOr_append]
        simp [lastOr]
    unfold deleteChunkLoop
    simp only []
    split
    · split
      · exact ⟨t0, (w0.DeleteChunkData env (indexData.nameAt ci)).2, 0, Nat.zero_le _,
          TaskKeeps.same t0, by simp, by simp, rfl, CallsExt.ofAppend _ rfl,
          Or.inr ⟨kErrCodeInternalError, rfl⟩⟩
      · exact hnext _ rfl (CallsExt.ofAppend _ rfl)
    · exact hnext w0 rfl (CallsExt.noCalls w0)

/-- What holds of every run of `HandleDeleteSnapshotTask` that returns. -/
theorem HandleDeleteSnapshotTask_facts (env : Env) (fuel : Nat)
    (t : SnapshotTaskInfo) (w : World) (x : PipelineExit) (t1 : SnapshotTaskInfo) (w1 : World)
    (hrun : HandleDeleteSnapshotTask env fuel t w = Except.ok (x, t1, w1)) :
    DeleteFacts env 10 t w x t1 w1 := by
  unfold HandleDeleteSnapshotTask at hrun
  simp only [BuildSnapshotMap_ret, ErrCode.isNegative, Bool.false_eq_true, if_false] at hrun
  have hb := BuildSnapshotMap_world env t.fileName_ t.snapshotInfo.seqNum w
  have hmid1 : MidFacts 10 10 t w (t.SetProgress kDelProgressBuildSnapshotMapComplete)
      (BuildSnapshotMap env t.fileName_ t.snapshotInfo.seqNum w).2.2 :=
    ((MidFacts.start 10 0 t w).world hb.1 (CallsExt.ofEq hb.2.2.2)).setProgress 10
      (by omega) (le_refl _) (by decide)
  split at hrun
  · have hmid2 : MidFacts 10 10 t w (t.SetProgress kDelProgressBuildSnapshotMapComplete)
        ((BuildSnapshotMap env t.fileName_ t.snapshotInfo.seqNum w).2.2.GetChunkIndexData
          env ⟨t.fileName_, t.snapshotInfo.seqNum⟩).2 :=
      hmid1.world rfl (CallsExt.ofEq rfl)
    split at hrun
    · cases hrun
      exact @DeleteFacts.ofDeleteError env 10 10 t w _ _ hmid2 hb.1 (by omega)
    · rename_i indexData _
      obtain ⟨tm, wm, m, hm, hk, hlog, hprog, hmeta, hcalls, hres⟩ :=
        deleteChunkLoop_shape env indexData
          (BuildSnapshotMap env t.fileName_ t.snapshotInfo.seqNum w).2.1
          indexData.GetAllChunkIndex.length indexData.GetAllChunkIndex 0
          (t.SetProgress kDelProgressBuildSnapshotMapComplete)
          ((BuildSnapshotMap env t.fileName_ t.snapshotInfo.seqNum w).2.2.GetChunkIndexData
            env ⟨t.fileName_, t.snapshotInfo.seqNum⟩).2
      have hext : ProgressExt 10 (t.SetProgress kDelProgressBuildSnapshotMapComplete) tm
          ((List.range' 0 m).map
            (fun k => deleteProgress k indexData.GetAllChunkIndex.length)) := by
        refine ⟨hlog, range_map_pairwise _ (deleteProgress_mono _) _ _, ?_, hprog⟩
        intro p hp
        rw [List.mem_map] at hp
        obtain ⟨k, hk2, rfl⟩ := hp
        rw [List.mem_range'_1] at hk2
        have := deleteProgress_bounds k indexData.GetAllChunkIndex.length (by omega)
        exact ⟨this.1, by unfold kProgressComplete; omega⟩
      have hbound : ∀ p ∈ (List.range' 0 m).map
          (fun k => deleteProgress k indexData.GetAllChunkIndex.length), p ≤ 80 := by
        intro p hp
        rw [List.mem_map] at hp
        obtain ⟨k, hk2, rfl⟩ := hp
        rw [List.mem_range'_1] at hk2
        have := deleteProgress_bounds k indexData.GetAllChunkIndex.length (by omega)
        omega
      have hmid3 : MidFacts 10 80 t w tm wm :=
        (hmid2.extend hk hext hbound (le_refl _) (le_refl _) (by omega)).world hmeta hcalls
      have hm3 : wm.metaStore = w.metaStore := hmeta.trans hb.1
      rcases hres with hres | ⟨c, hres⟩
      · rw [hres] at hrun
        simp only [] at hrun
        have hmid4 := hmid3.setProgress kDelProgressDeleteChunkDataComplete (le_refl _)
          (by decide) (by decide)
        have hmid5 : MidFacts 10 kDelProgressDeleteChunkDataComplete t w
            (tm.SetProgress kDelProgressDeleteChunkDataComplete)
            (wm.DeleteChunkIndexData env ⟨t.fileName_, t.snapshotInfo.seqNum⟩).2 :=
          hmid4.world rfl (CallsExt.ofAppend _ rfl)
        split at hrun
        · cases hrun
          exact @DeleteFacts.ofDeleteError env 10 80 t w _ _ hmid5 hm3 (by omega)
        · exact deleteRecord_facts hmid5 hm3 hk.1 (by decide) (by omega) hrun
      · rw [hres] at hrun
        simp only [] at hrun
        cases hrun
        exact @DeleteFacts.ofDeleteError env 10 80 t w tm wm hmid3 hm3 (by omega)
  · exact deleteRecord_facts hmid1 hb.1 rfl (by omega) (by omega) hrun

/-! ## Auxiliary facts on the pipelines: the persisted status -/

theorem statusOf_UpdateSnapshot (m : MetaStore) (info : SnapshotInfo) (ret : Int) (u : UUID) :
    (m.UpdateSnapshot info ret).statusOf u = m.statusOf u ∨
    (m.statusOf u ≠ none ∧ u = info.uuid ∧
      (m.UpdateSnapshot info ret).statusOf u = some info.status) := by
  by_cases hret : ret < 0
  · left
    rw [UpdateSnapshot_failed _ _ _ hret]
  · unfold MetaStore.statusOf MetaStore.GetSnapshotInfo
    simp only [MetaStore.UpdateSnapshot, if_neg hret, List.find?_map]
    have hfun : ((fun s : SnapshotInfo => s.uuid == u) ∘
        fun s : SnapshotInfo => if (s.uuid == info.uuid) = true then info else s)
        = fun s : SnapshotInfo => s.uuid == u := by
      funext s
      by_cases hs : s.uuid = info.uuid
      · by_cases hu : info.uuid = u
        · simp [hs, hu]
        · simp [hs, hu]
      · simp [hs]
    rw [hfun]
    cases hfind : List.find? (fun s : SnapshotInfo => s.uuid == u) m.records with
    | none => left; rfl
    | some snap =>
      have hsnap : snap.uuid = u := by simpa using List.find?_some hfind
      by_cases hu : info.uuid = u
      · right
        refine ⟨by simp, hu.symm, ?_⟩
        simp [hsnap, hu]
      · left
        have : ¬ snap.uuid = info.uuid := fun he => hu (he.symm.trans hsnap)
        simp [this]

theorem statusOf_DeleteSnapshot (m : MetaStore) (uuid : UUID) (ret : Int) (u : UUID) :
    (m.DeleteSnapshot uuid ret).statusOf u = m.statusOf u ∨
    (m.statusOf u ≠ none ∧ u = uuid ∧ (m.DeleteSnapshot uuid ret).statusOf u = none) := by
  by_cases hret : ret < 0
  · left
    rw [DeleteSnapshot_failed _ _ _ hret]
  · by_cases hu : u = uuid
    · have hnone : (m.DeleteSnapshot uuid ret).statusOf u = none := by
        unfold MetaStore.statusOf
        rw [hu, GetSnapshotInfo_DeleteSnapshot m uuid ret hret]
        rfl
      cases hs : m.statusOf u with
      | none => left; rw [hnone]
      | some s => right; exact ⟨by simp, hu, hnone⟩
    · left
      unfold MetaStore.statusOf MetaStore.GetSnapshotInfo
      simp only [MetaStore.DeleteSnapshot, if_neg hret, List.find?_filter]
      have hfun : (fun a : SnapshotInfo =>
          decide ((!(a.uuid == uuid)) = true ∧ (a.uuid == u) = true))
          = fun s : SnapshotInfo => s.uuid == u := by
        funext s
        by_cases hs : s.uuid = u
        · simp [hs, hu]
        · simp [hs]
      rw [hfun]

/-- The persisted status of a snapshot after updates of `u1` with a status in `S` and
deletes of `u2`: it is as before, or the snapshot had a record, is one of the two, and
now has no record or a status in `S`. -/
theorem MetaReach.statusOf {u1 u2 : UUID} {S : Status → Prop} {m m1 : MetaStore}
    (h : MetaReach u1 u2 S m m1) (u : UUID) :
    m1.statusOf u = m.statusOf u ∨
    (m.statusOf u ≠ none ∧ (u = u1 ∨ u = u2) ∧
      (m1.statusOf u = none ∨ ∃ s, S s ∧ m1.statusOf u = some s)) := by
  induction h with
  | refl => exact Or.inl rfl
  | update m1 info ret _ hinfo hS ih =>
    rcases statusOf_UpdateSnapshot m1 info ret u with hsame | ⟨hne, hu, hnew⟩
    · rw [hsame]
      exact ih
    · right
      have hbefore : m.statusOf u ≠ none := by
        rcases ih with ih | ih
        · rw [← ih]
          exact hne
        · exact ih.1
      exact ⟨hbefore, Or.inl (hu.trans hinfo), Or.inr ⟨info.status, hS, hnew⟩⟩
  | delete m1 ret _ ih =>
    rcases statusOf_DeleteSnapshot m1 u2 ret u with hsame | ⟨hne, hu, hnew⟩
    · rw [hsame]
      exact ih
    · right
      have hbefore : m.statusOf u ≠ none := by
        rcases ih with ih | ih
        · rw [← ih]
          exact hne
        · exact ih.1
      exact ⟨hbefore, Or.inr hu, Or.inl hnew⟩

theorem CreateSnapshotPre_metaStore_pending (core : SnapshotCoreImpl) (m : MetaStore)
    (ans : CreateAnswers) (file user snapshotName : String) (snapInfo : SnapshotInfo) :
    (CreateSnapshotPre core m ans file user snapshotName snapInfo).metaStore = m ∨
    ∃ info : SnapshotInfo, info.status = Status.pending ∧
      (CreateSnapshotPre core m ans file user snapshotName snapInfo).metaStore
        = ⟨m.records ++ [info]⟩ := by
  by_cases hadd : ans.addSnapshotRet < 0
  · left
    unfold CreateSnapshotPre
    cases hret : ans.getFileInfoRet <;> simp only [] <;> split_ifs <;>
      simp [MetaStore.AddSnapshot, hadd]
  · unfold CreateSnapshotPre
    cases hret : ans.getFileInfoRet <;> simp only [] <;> split_ifs <;>
      first
        | exact Or.inl rfl
        | exact Or.inr
            ⟨(SnapshotInfo.create ans.uuid user file snapshotName).SetStatus Status.pending,
              rfl, by simp [MetaStore.AddSnapshot, hadd]⟩

theorem statusOf_append (m : MetaStore) (info : SnapshotInfo) (u : UUID) :
    MetaStore.statusOf ⟨m.records ++ [info]⟩ u = m.statusOf u ∨
    (m.statusOf u = none ∧ MetaStore.statusOf ⟨m.records ++ [info]⟩ u = some info.status) := by
  unfold MetaStore.statusOf MetaStore.GetSnapshotInfo
  simp only [List.find?_append]
  cases hfind : List.find? (fun s : SnapshotInfo => s.uuid == u) m.records with
  | some snap => left; rfl
  | none =>
    by_cases hu : info.uuid = u
    · right
      simp [hu]
    · left
      simp [hu]

theorem DeleteSnapshotPre_metaStore_cases (m : MetaStore) (ans : DeleteAnswers) (uuid : UUID)
    (user fileName : String) (snapInfo : SnapshotInfo) :
    (DeleteSnapshotPre m ans uuid user fileName snapInfo).metaStore = m ∨
    ∃ snap : SnapshotInfo, ∃ s2 : Status, m.GetSnapshotInfo uuid = some snap ∧
      ((snap.status = Status.done ∧ s2 = Status.deleting) ∨
        (snap.status = Status.error ∧ s2 = Status.errorDeleting)) ∧
      (DeleteSnapshotPre m ans uuid user fileName snapInfo).metaStore
        = m.UpdateSnapshot (snap.SetStatus s2) ans.updateSnapshotRet := by
  unfold DeleteSnapshotPre
  cases hfind : m.GetSnapshotInfo uuid with
  | none => exact Or.inl rfl
  | some snap =>
    simp only []
    split
    · exact Or.inl rfl
    · split
      · exact Or.inl rfl
      · cases hst : snap.status <;> simp only [] <;>
          (first | exact Or.inl rfl | exact Or.inl trivial | skip)
        · split
          · exact Or.inl rfl
          · right
            refine ⟨snap, Status.deleting, rfl, Or.inl ⟨hst, rfl⟩, ?_⟩
            split <;> rfl
        · split
          · exact Or.inl rfl
          · right
            refine ⟨snap, Status.errorDeleting, rfl, Or.inr ⟨hst, rfl⟩, ?_⟩
            split <;> rfl

/-- Every operation of the core leaves the persisted status of a snapshot as it is or
changes it along `lifecycleCode`. -/
theorem LifecycleStep.status {m m1 : MetaStore} (h : LifecycleStep m m1) (u : UUID) :
    m1.statusOf u = m.statusOf u ∨ lifecycleCode (m.statusOf u) (m1.statusOf u) = true := by
  cases h with
  | createPre core _ ans file user snapshotName snapInfo =>
    rcases CreateSnapshotPre_metaStore_pending core m ans file user snapshotName snapInfo with
      he | ⟨info, hst, he⟩
    · rw [he]
      exact Or.inl rfl
    · rw [he]
      rcases statusOf_append m info u with hs | ⟨hnone, hnew⟩
      · exact Or.inl hs
      · right
        rw [hnone, hnew, hst]
        rfl
  | deletePre _ ans uuid user fileName snapInfo =>
    rcases DeleteSnapshotPre_metaStore_cases m ans uuid user fileName snapInfo with
      he | ⟨snap, s2, hfind, hcase, he⟩
    · rw [he]
      exact Or.inl rfl
    · rw [he]
      rcases statusOf_UpdateSnapshot m (snap.SetStatus s2) ans.updateSnapshotRet u with
        hs | ⟨_, hu, hnew⟩
      · exact Or.inl hs
      · right
        have huuid : u = uuid := hu.trans (GetSnapshotInfo_some m uuid snap hfind).1
        have hold : m.statusOf u = some snap.status := by
          unfold MetaStore.statusOf
          rw [huuid, hfind]
          rfl
        rw [hnew, hold]
        rcases hcase with ⟨h1, h2⟩ | ⟨h1, h2⟩
        · rw [h1, h2]
          rfl
        · rw [h1, h2]
          rfl
  | createTask core env fuel t w x t1 w1 huuid hstatus hrec hrun =>
    have hf := HandleCreateSnapshotTask_facts core env fuel t w x t1 w1 hrun
    rcases hf.reach.statusOf u with hs | ⟨_, hu, hnew⟩
    · exact Or.inl hs
    · have hut : u = t.uuid_ := by
        rcases hu with hu | hu
        · exact hu.trans huuid.symm
        · exact hu
      rw [hut, hrec]
      rw [hut] at hnew
      rcases hnew with hnew | ⟨s, hS, hnew⟩
      · right
        rw [hnew]
        rfl
      · rw [hnew]
        rcases hS with hS | hS | hS
        · left
          rw [hS, hstatus]
        · right
          rw [hS]
          rfl
        · right
          rw [hS]
          rfl
  | deleteTask env fuel t w x t1 w1 huuid hstatus hrec hrun =>
    have hf := HandleDeleteSnapshotTask_facts env fuel t w x t1 w1 hrun
    rcases hf.reach.statusOf u with hs | ⟨_, hu, hnew⟩
    · exact Or.inl hs
    · right
      have hut : u = t.uuid_ := by
        rcases hu with hu | hu
        · exact hu.trans huuid.symm
        · exact hu
      rw [hut, hrec]
      rw [hut] at hnew
      rcases hnew with hnew | ⟨s, hS, hnew⟩
      · rw [hnew]
        rcases hstatus with hst | hst <;> rw [hst] <;> rfl
      · rw [hnew, hS]
        rcases hstatus with hst | hst <;> rw [hst] <;> rfl


/-! ## Auxiliary facts on the pipelines: the rollback chains -/

theorem Quiet.atStart (w : World) : Quiet w w :=
  ⟨rfl, rfl, [], by simp, by simp⟩

theorem Quiet.andQuiet {w w1 w2 : World} (h1 : Quiet w w1) (h2 : Quiet w1 w2) : Quiet w w2 := by
  obtain ⟨a1, b1, pre1, c1, d1⟩ := h1
  obtain ⟨a2, b2, pre2, c2, d2⟩ := h2
  refine ⟨a2.trans a1, b2.trans b1, pre1 ++ pre2, by rw [c2, c1, List.append_assoc], ?_⟩
  intro c hc
  rcases List.mem_append.mp hc with hc | hc
  · exact d1 c hc
  · exact d2 c hc

theorem Quiet.callsExt {w w1 : World} (h : Quiet w w1) : CallsExt w w1 := by
  obtain ⟨_, _, pre, c, _⟩ := h
  exact ⟨pre, c⟩

/-- Rollback-1 that returns from its end. -/
theorem CancelAfterCreateSnapshotOnCurvefs_canceled (env : Env) (fuel : Nat)
    (t0 : SnapshotTaskInfo) (w0 : World) (t1 : SnapshotTaskInfo) (w1 : World)
    (h : CancelAfterCreateSnapshotOnCurvefs env fuel t0 w0
      = Except.ok (PipelineExit.canceled, t1, w1)) : RolledBack1 t0 w0 t1 w1 := by
  unfold CancelAfterCreateSnapshotOnCurvefs at h
  split at h
  · cases h
  · rename_i ret w2 hdel
    obtain ⟨hm, hd, hi, hc, _⟩ := DeleteSnapshotOnCurvefs_world env fuel _ _ _ _ hdel
    split at h
    · simp at h
    · unfold HandleClearSnapshotOnMateStore at h
      simp only [] at h
      split at h
      · simp at h
      · rename_i hret
        simp only [World_DeleteSnapshot_fst] at hret
        simp only [Except.ok.injEq, Prod.mk.injEq, true_and] at h
        obtain ⟨h2, h3⟩ := h
        subst h2 h3
        refine ⟨rfl, env.metaRet w2.clock, hret, ?_, hd, hi, ?_⟩
        · simp only [World_DeleteSnapshot_metaStore, hm]
        · simp only [World_DeleteSnapshot_calls, hc, List.append_assoc, List.singleton_append]

/-- Rollback-2 that returns from its end. -/
theorem CancelAfterCreateChunkIndexData_canceled (env : Env) (fuel : Nat)
    (t0 : SnapshotTaskInfo) (w0 : World) (t1 : SnapshotTaskInfo) (w1 : World)
    (h : CancelAfterCreateChunkIndexData env fuel t0 w0
      = Except.ok (PipelineExit.canceled, t1, w1)) : RolledBack2 t0 w0 t1 w1 := by
  unfold CancelAfterCreateChunkIndexData at h
  simp only [] at h
  split at h
  · simp at h
  · rename_i hret
    simp only [World_DeleteChunkIndexData_fst] at hret
    obtain ⟨ht, r, hr, hm, hd, hi, hc⟩ :=
      CancelAfterCreateSnapshotOnCurvefs_canceled env fuel _ _ _ _ h
    refine ⟨ht, env.dataRet w0.clock, r, hret, hr, ?_, ?_, ?_, ?_⟩
    · rw [hm]
      rfl
    · rw [hd]
      rfl
    · rw [hi]
      rfl
    · rw [hc]
      simp only [World_DeleteChunkIndexData_calls, List.append_assoc, List.singleton_append]

theorem cancelTransferLoop_next (env : Env) (indexData : ChunkIndexData)
    (fileSnapshotMap : FileSnapMap) :
    ∀ (l : List Nat) (t0 : SnapshotTaskInfo) (w0 : World),
      (cancelTransferLoop env indexData fileSnapshotMap l t0 w0).1 = Flow.next →
      (cancelTransferLoop env indexData fileSnapshotMap l t0 w0).2.1 = t0 ∧
      CallsExt w0 (cancelTransferLoop env indexData fileSnapshotMap l t0 w0).2.2 := by
  intro l
  induction l with
  | nil => intro t0 w0 _; exact ⟨rfl, CallsExt.noCalls w0⟩
  | cons ci rest ih =>
    intro t0 w0
    have hl := landAlone_keeps env w0
    unfold cancelTransferLoop
    simp only []
    split
    · split
      · intro hf
        cases hf
      · intro hf
        have h3 := ih _ _ hf
        exact ⟨h3.1, ((CallsExt.ofEq hl.2.1).followedBy (CallsExt.ofAppend _ rfl)).followedBy
          h3.2⟩
    · intro hf
      have h3 := ih _ _ hf
      exact ⟨h3.1, (CallsExt.ofEq hl.2.1).followedBy h3.2⟩

/-- Rollback-3 that returns from its end: the loop over the chunks has left the task as
it was, then rollback-2 has run to its end. -/
theorem CancelAfterTransferSnapshotData_canceled (env : Env) (fuel : Nat)
    (t0 : SnapshotTaskInfo) (indexData : ChunkIndexData) (fileSnapshotMap : FileSnapMap)
    (w0 : World) (t1 : SnapshotTaskInfo) (w1 : World)
    (h : CancelAfterTransferSnapshotData env fuel t0 indexData fileSnapshotMap w0
      = Except.ok (PipelineExit.canceled, t1, w1)) :
    ∃ wm, cancelTransferLoop env indexData fileSnapshotMap indexData.GetAllChunkIndex t0 w0
        = (Flow.next, t0, wm) ∧ CallsExt w0 wm ∧ RolledBack2 t0 wm t1 w1 := by
  unfold CancelAfterTransferSnapshotData at h
  split at h
  · simp at h
  · rename_i t2 w2 heq
    have hn := cancelTransferLoop_next env indexData fileSnapshotMap
      indexData.GetAllChunkIndex t0 w0 (by rw [heq])
    rw [heq] at hn
    simp only [] at hn
    obtain ⟨ht, hc⟩ := hn
    subst ht
    exact ⟨w2, heq, hc, CancelAfterCreateChunkIndexData_canceled env fuel _ _ _ _ h⟩


theorem PutChunkIndexData_chunkData (d : DataStore) (name : ChunkIndexDataName)
    (data : ChunkIndexData) (ret : Int) :
    (d.PutChunkIndexData name data ret).chunkData = d.chunkData := by
  unfold DataStore.PutChunkIndexData
  split <;> rfl

theorem DeleteChunkIndexData_chunkData (d : DataStore) (name : ChunkIndexDataName)
    (ret : Int) : (d.DeleteChunkIndexData name ret).chunkData = d.chunkData := by
  unfold DataStore.DeleteChunkIndexData
  split <;> rfl

/-- Stages 3 to 5 that return from the end of a rollback chain: it is rollback-3, entered
with progress 99. -/
theorem createTransfer_canceled (core : SnapshotCoreImpl) (env : Env) (fuel : Nat)
    (indexData : ChunkIndexData) (segInfos : List (Nat × SegmentInfo))
    (t0 : SnapshotTaskInfo) (w0 : World) (t1 : SnapshotTaskInfo) (w1 : World)
    (h : createTransfer core env fuel indexData segInfos t0 w0
      = Except.ok (PipelineExit.canceled, t1, w1)) :
    ∃ t2 wm, t2.uuid_ = t0.uuid_ ∧ t2.fileName_ = t0.fileName_ ∧ CallsExt w0 wm ∧
      t2.progress_ = kProgressTransferSnapshotDataComplete ∧ RolledBack2 t2 wm t1 w1 := by
  unfold createTransfer at h
  simp only [BuildSnapshotMap_ret, ErrCode.isNegative, Bool.false_eq_true, if_false] at h
  have hb := BuildSnapshotMap_world env t0.fileName_ t0.snapshotInfo.seqNum w0
  split at h
  · cases h
  · rename_i ret task2 w2 htr
    obtain ⟨hk, _, _, _, hc⟩ := TransferSnapshotData_facts core env fuel _ _ _ _ _ _ _ _ _ htr
    split at h
    · simp at h
    · split at h
      · obtain ⟨wm, _, hcm, hroll⟩ :=
          CancelAfterTransferSnapshotData_canceled env fuel _ _ _ _ _ _ h
        refine ⟨_, wm, ?_, ?_, ((CallsExt.ofEq hb.2.2.2).followedBy hc).followedBy hcm, rfl,
          hroll⟩
        · exact hk.2.1
        · exact hk.2.2.1
      · unfold createFinalize at h
        simp only [] at h
        split at h
        · simp at h
        · simp at h

/-- Cancellation point 2 and what follows, returning from the end of a rollback chain. -/
theorem createAfterIndex_canceled (core : SnapshotCoreImpl) (env : Env) (fuel : Nat)
    (indexData : ChunkIndexData) (segInfos : List (Nat × SegmentInfo))
    (t0 : SnapshotTaskInfo) (w0 : World) (t1 : SnapshotTaskInfo) (w1 : World)
    (h : createAfterIndex core env fuel indexData segInfos t0 w0
      = Except.ok (PipelineExit.canceled, t1, w1)) :
    RolledBack2 (t0.IsCanceled env).2 w0 t1 w1 ∨
    ∃ t2 wm, t2.uuid_ = t0.uuid_ ∧ t2.fileName_ = t0.fileName_ ∧ CallsExt w0 wm ∧
      t2.progress_ = kProgressTransferSnapshotDataComplete ∧ RolledBack2 t2 wm t1 w1 := by
  unfold createAfterIndex at h
  split at h
  · exact Or.inl (CancelAfterCreateChunkIndexData_canceled env fuel _ _ _ _ h)
  · obtain ⟨t2, wm, a, b, c, d, e⟩ := createTransfer_canceled core env fuel _ _ _ _ _ _ h
    exact Or.inr ⟨t2, wm, a, b, c, d, e⟩

/-- Stage 2 and what follows, returning from the end of a rollback chain. -/
theorem createIndex_canceled (core : SnapshotCoreImpl) (env : Env) (fuel : Nat)
    (existIndexData : Bool) (t0 : SnapshotTaskInfo) (w0 : World) (t1 : SnapshotTaskInfo)
    (w1 : World)
    (h : createIndex core env fuel existIndexData t0 w0
      = Except.ok (PipelineExit.canceled, t1, w1)) :
    ∃ t2 wm, t2.uuid_ = t0.uuid_ ∧ t2.fileName_ = t0.fileName_ ∧ CallsExt w0 wm ∧
      ((t2.progress_ = kProgressBuildChunkIndexDataComplete ∧ Quiet w0 wm ∧
          RolledBack2 t2 wm t1 w1) ∨
        (t2.progress_ = kProgressTransferSnapshotDataComplete ∧ RolledBack2 t2 wm t1 w1)) := by
  unfold createIndex at h
  simp only [] at h
  split at h
  · split at h
    · simp at h
    · split at h
      · cases h
      · split at h
        · simp at h
        · have hq : Quiet w0 (w0.GetChunkIndexData env ⟨t0.fileName_, t0.snapshotInfo.seqNum⟩).2 :=
            ⟨rfl, rfl, [], by simp [World.GetChunkIndexData], by simp⟩
          rcases createAfterIndex_canceled core env fuel _ _ _ _ _ _ h with hr | hr
          · exact ⟨((t0.SetProgress kProgressBuildChunkIndexDataComplete).IsCanceled env).2,
              _, rfl, rfl, hq.callsExt, Or.inl ⟨rfl, hq, hr⟩⟩
          · obtain ⟨t2, wm, h1, h2, h3, h4, h5⟩ := hr
            exact ⟨t2, wm, h1, h2, hq.callsExt.followedBy h3, Or.inr ⟨h4, h5⟩⟩
  · split at h
    · cases h
    · rename_i ret indexData segInfos task1 hb
      obtain ⟨n, hn, ht⟩ := BuildChunkIndexData_task env _ _ _ _ _ _ hb
      split at h
      · simp at h
      · split at h
        · simp at h
        · have hq : Quiet w0
              (w0.PutChunkIndexData env ⟨t0.fileName_, t0.snapshotInfo.seqNum⟩ indexData).2 :=
            ⟨PutChunkIndexData_chunkData _ _ _ _, rfl,
              [Call.PutChunkIndexData ⟨t0.fileName_, t0.snapshotInfo.seqNum⟩ indexData
                (env.dataRet w0.clock)], rfl, by simp [Call.isPushTask]⟩
          have hu : task1.uuid_ = t0.uuid_ := by rw [ht]
          have hfn : task1.fileName_ = t0.fileName_ := by rw [ht]
          rcases createAfterIndex_canceled core env fuel _ _ _ _ _ _ h with hr | hr
          · exact ⟨((task1.SetProgress kProgressBuildChunkIndexDataComplete).IsCanceled env).2,
              _, hu, hfn, hq.callsExt, Or.inl ⟨rfl, hq, hr⟩⟩
          · obtain ⟨t2, wm, h1, h2, h3, h4, h5⟩ := hr
            exact ⟨t2, wm, h1.trans hu, h2.trans hfn, hq.callsExt.followedBy h3,
              Or.inr ⟨h4, h5⟩⟩

/-- Cancellation point 1 and what follows, returning from the end of a rollback chain. -/
theorem createAfterSnapshot_canceled (core : SnapshotCoreImpl) (env : Env) (fuel : Nat)
    (existIndexData : Bool) (t0 : SnapshotTaskInfo) (w0 : World) (t1 : SnapshotTaskInfo)
    (w1 : World)
    (h : createAfterSnapshot core env fuel existIndexData t0 w0
      = Except.ok (PipelineExit.canceled, t1, w1)) : CanceledRun env t0 w0 t1 w1 := by
  unfold createAfterSnapshot at h
  simp only [] at h
  split at h
  · rename_i hflag
    simp only [IsCanceled_fst, SetProgress_cancelSamples] at hflag
    exact ⟨((t0.SetProgress kProgressCreateSnapshotOnCurvefsComplete).IsCanceled env).2, w0,
      rfl, rfl, CallsExt.noCalls w0,
      Or.inl ⟨rfl, hflag, Quiet.atStart w0,
        CancelAfterCreateSnapshotOnCurvefs_canceled env fuel _ _ _ _ h⟩⟩
  · rename_i hflag
    simp only [IsCanceled_fst, SetProgress_cancelSamples, Bool.not_eq_true] at hflag
    obtain ⟨t2, wm, h1, h2, h3, h4⟩ := createIndex_canceled core env fuel _ _ _ _ _ h
    refine ⟨t2, wm, h1, h2, h3, Or.inr ?_⟩
    rcases h4 with ⟨ha, hb, hc⟩ | ⟨ha, hb⟩
    · exact Or.inl ⟨ha, hflag, hb, hc⟩
    · exact Or.inr ⟨ha, hflag, hb⟩

theorem CreateSnapshotOnCurvefs_quiet (env : Env) (fileName : String) (t : SnapshotTaskInfo)
    (w : World) :
    (CreateSnapshotOnCurvefs env fileName t w).2.1.uuid_ = t.uuid_ ∧
    (CreateSnapshotOnCurvefs env fileName t w).2.1.fileName_ = t.fileName_ ∧
    (CreateSnapshotOnCurvefs env fileName t w).2.1.cancelSamples = t.cancelSamples ∧
    Quiet w (CreateSnapshotOnCurvefs env fileName t w).2.2 := by
  unfold CreateSnapshotOnCurvefs
  simp only []
  split
  · exact ⟨rfl, rfl, rfl, rfl, rfl, [Call.ClientCreateSnapshot fileName t.snapshotInfo.user],
      rfl, by simp [Call.isPushTask]⟩
  · split
    · exact ⟨rfl, rfl, rfl, rfl, rfl, [Call.ClientCreateSnapshot fileName t.snapshotInfo.user],
        rfl, by simp [Call.isPushTask]⟩
    · split
      · exact ⟨rfl, rfl, rfl, rfl, rfl, _, by simp [World.UpdateSnapshot]; rfl,
          by simp [Call.isPushTask]⟩
      · exact ⟨rfl, rfl, rfl, rfl, rfl, _, by simp [World.UpdateSnapshot]; rfl,
          by simp [Call.isPushTask]⟩

/-- Every run of `HandleCreateSnapshotTask` that returns from the end of a rollback
chain. -/
theorem HandleCreateSnapshotTask_canceled (core : SnapshotCoreImpl) (env : Env) (fuel : Nat)
    (t : SnapshotTaskInfo) (w : World) (t1 : SnapshotTaskInfo) (w1 : World)
    (h : HandleCreateSnapshotTask core env fuel t w
      = Except.ok (PipelineExit.canceled, t1, w1)) : CanceledRun env t w t1 w1 := by
  unfold HandleCreateSnapshotTask at h
  split at h
  · simp only [] at h
    obtain ⟨hu, hf, hs, hq⟩ := CreateSnapshotOnCurvefs_quiet env t.fileName_ t w
    split at h
    · simp at h
    · obtain ⟨t2, wm, h1, h2, h3, h4⟩ := createAfterSnapshot_canceled core env fuel _ _ _ _ _ h
      rw [hs] at h4
      refine ⟨t2, wm, h1.trans hu, h2.trans hf, hq.callsExt.followedBy h3, ?_⟩
      rcases h4 with ⟨ha, hb, hc, hd⟩ | ⟨ha, hb, hc, hd⟩ | ⟨ha, hb, hc⟩
      · exact Or.inl ⟨ha, hb, hq.andQuiet hc, hd⟩
      · exact Or.inr (Or.inl ⟨ha, hb, hq.andQuiet hc, hd⟩)
      · exact Or.inr (Or.inr ⟨ha, hb, hc⟩)
  · exact createAfterSnapshot_canceled core env fuel _ _ _ _ _ h


theorem DeleteChunkIndexData_absent (d : DataStore) (name : ChunkIndexDataName) (r : Int)
    (hr : ¬ r < 0) : (d.DeleteChunkIndexData name r).ChunkIndexDataExist name = false := by
  unfold DataStore.ChunkIndexDataExist DataStore.DeleteChunkIndexData
  rw [if_neg hr, Bool.eq_false_iff]
  intro h
  rw [List.any_eq_true] at h
  obtain ⟨e, he, hn⟩ := h
  rw [List.mem_filter] at he
  simp [hn] at he

theorem RolledBack1.recordGone1 {t2 : SnapshotTaskInfo} {wm : World} {t1 : SnapshotTaskInfo}
    {w1 : World} (h : RolledBack1 t2 wm t1 w1) :
    w1.metaStore.GetSnapshotInfo t2.uuid_ = none := by
  obtain ⟨_, r, hr, hm, _⟩ := h
  rw [hm]
  exact GetSnapshotInfo_DeleteSnapshot _ _ _ hr

theorem RolledBack2.record_gone {t2 : SnapshotTaskInfo} {wm : World} {t1 : SnapshotTaskInfo}
    {w1 : World} (h : RolledBack2 t2 wm t1 w1) :
    w1.metaStore.GetSnapshotInfo t2.uuid_ = none := by
  obtain ⟨_, r1, r2, _, hr, hm, _⟩ := h
  rw [hm]
  exact GetSnapshotInfo_DeleteSnapshot _ _ _ hr

theorem RolledBack2.index_absent {t2 : SnapshotTaskInfo} {wm : World} {t1 : SnapshotTaskInfo}
    {w1 : World} (h : RolledBack2 t2 wm t1 w1) :
    w1.dataStore.ChunkIndexDataExist ⟨t2.fileName_, t1.snapshotInfo.seqNum⟩ = false := by
  obtain ⟨ht, r1, r2, hr, _, _, hd, _⟩ := h
  rw [hd, ht]
  exact DeleteChunkIndexData_absent _ _ _ hr


/-! ## Auxiliary facts on the pipelines: chunk names and the file-snapshot map -/

theorem IsExistChunkDataName_nameAt (d : ChunkIndexData) (c : ChunkDataName)
    (h : d.IsExistChunkDataName c = true) :
    c.chunkIndex_ ∈ d.GetAllChunkIndex ∧ d.nameAt c.chunkIndex_ = c := by
  unfold ChunkIndexData.IsExistChunkDataName at h
  have hget : d.GetChunkDataName c.chunkIndex_ = some c := by simpa using h
  refine ⟨?_, ?_⟩
  · unfold ChunkIndexData.GetChunkDataName at hget
    split at hget
    · rename_i e hfind
      have hmem := List.mem_of_find?_eq_some hfind
      have hkey : e.1 = c.chunkIndex_ := by simpa using List.find?_some hfind
      unfold ChunkIndexData.GetAllChunkIndex
      rw [List.mem_map]
      exact ⟨e, hmem, hkey⟩
    · cases hget
  · unfold ChunkIndexData.nameAt
    rw [hget]
    rfl

theorem nameAt_IsExistChunkDataName (d : ChunkIndexData) (i : Nat)
    (h : i ∈ d.GetAllChunkIndex) : d.IsExistChunkDataName (d.nameAt i) = true := by
  unfold ChunkIndexData.GetAllChunkIndex at h
  rw [List.mem_map] at h
  obtain ⟨e, he, hkey⟩ := h
  have hsome : (d.chunkMap.find? (fun e => e.1 == i)).isSome = true := by
    rw [List.find?_isSome]
    exact ⟨e, he, by simp [hkey]⟩
  cases hfind : d.chunkMap.find? (fun e => e.1 == i) with
  | none => rw [hfind] at hsome; cases hsome
  | some e1 =>
    have hget : d.GetChunkDataName i = some ⟨d.fileName_, e1.2, i⟩ := by
      unfold ChunkIndexData.GetChunkDataName
      rw [hfind]
    unfold ChunkIndexData.IsExistChunkDataName ChunkIndexData.nameAt
    rw [hget]
    simp only [Option.getD_some]
    rw [hget]
    simp

theorem GetChunkIndexData_ok (d : DataStore) (name : ChunkIndexDataName) (r : Int)
    (hr : ¬ r < 0) : d.GetChunkIndexData name r = d.GetChunkIndexData name 0 := by
  unfold DataStore.GetChunkIndexData
  rw [if_neg hr, if_neg (by decide)]

theorem buildSnapshotMapLoop_clock (env : Env) (seqNum : Nat) :
    ∀ (l : List SnapshotInfo) (m : FileSnapMap) (w : World),
      w.clock ≤ (buildSnapshotMapLoop env seqNum l m w).2.clock := by
  intro l
  induction l with
  | nil => intro m w; exact le_refl _
  | cons snap rest ih =>
    intro m w
    have key : ∀ m1 : FileSnapMap, w.clock + 1 ≤ (buildSnapshotMapLoop env seqNum rest m1
        (w.GetChunkIndexData env ⟨snap.fileName, snap.seqNum⟩).2).2.clock :=
      fun m1 => ih m1 (w.GetChunkIndexData env ⟨snap.fileName, snap.seqNum⟩).2
    unfold buildSnapshotMapLoop
    split
    · split
      · exact le_trans (Nat.le_succ _) (key _)
      · exact le_trans (Nat.le_succ _) (key _)
    · exact ih _ _

/-- The file-snapshot map holds only chunk indices of peers. -/
theorem buildSnapshotMapLoop_subset (env : Env) (seqNum : Nat) :
    ∀ (l : List SnapshotInfo) (m : FileSnapMap) (w : World),
      ∀ d ∈ (buildSnapshotMapLoop env seqNum l m w).1.maps,
        d ∈ m.maps ∨ d ∈ peerIndices w.dataStore seqNum l := by
  intro l
  induction l with
  | nil => intro m w d hd; exact Or.inl hd
  | cons snap rest ih =>
    intro m w d hd
    unfold buildSnapshotMapLoop at hd
    unfold peerIndices
    split at hd
    · rename_i hseq
      split at hd
      · rcases ih _ _ d hd with h | h
        · exact Or.inl h
        · right
          rw [List.filterMap_cons]
          split
          · exact h
          · exact List.mem_cons_of_mem _ h
      · rename_i indexData hload
        rcases ih _ _ d hd with h | h
        · simp only [List.mem_append, List.mem_singleton] at h
          rcases h with h | h
          · exact Or.inl h
          · right
            rw [List.filterMap_cons]
            have hstored : w.dataStore.GetChunkIndexData ⟨snap.fileName, snap.seqNum⟩ 0
                = some indexData := by
              simp only [World.GetChunkIndexData] at hload
              unfold DataStore.GetChunkIndexData at hload ⊢
              split at hload
              · cases hload
              · rw [if_neg (by decide)]
                exact hload
            simp only [hseq, if_true, hstored, ne_eq, not_false_eq_true]
            rw [h]
            exact List.mem_cons_self _ _
        · right
          rw [List.filterMap_cons]
          split
          · exact h
          · exact List.mem_cons_of_mem _ h
    · rename_i hseq
      rcases ih _ _ d hd with h | h
      · exact Or.inl h
      · right
        rw [List.filterMap_cons]
        split
        · exact h
        · exact List.mem_cons_of_mem _ h

/-- When every load succeeds, the file-snapshot map holds the chunk indices of all
peers. -/
theorem buildSnapshotMapLoop_maps (env : Env) (seqNum : Nat) :
    ∀ (l : List SnapshotInfo) (m : FileSnapMap) (w : World),
      (∀ k, w.clock ≤ k → k < (buildSnapshotMapLoop env seqNum l m w).2.clock →
        ¬ env.dataRet k < 0) →
      (buildSnapshotMapLoop env seqNum l m w).1.maps
        = m.maps ++ peerIndices w.dataStore seqNum l := by
  intro l
  induction l with
  | nil => intro m w _; simp [buildSnapshotMapLoop, peerIndices]
  | cons snap rest ih =>
    intro m w hload
    unfold buildSnapshotMapLoop at hload ⊢
    unfold peerIndices
    rw [List.filterMap_cons]
    by_cases hseq : snap.seqNum ≠ seqNum
    · simp only [hseq, if_true, ne_eq, not_false_eq_true] at hload ⊢
      have hclock : ∀ m1 : FileSnapMap, w.clock + 1 ≤ (buildSnapshotMapLoop env seqNum rest m1
          (w.GetChunkIndexData env ⟨snap.fileName, snap.seqNum⟩).2).2.clock :=
        fun m1 => buildSnapshotMapLoop_clock env seqNum rest m1
          (w.GetChunkIndexData env ⟨snap.fileName, snap.seqNum⟩).2
      have hret : ¬ env.dataRet w.clock < 0 := by
        apply hload w.clock (le_refl _)
        split
        · exact Nat.lt_of_lt_of_le (Nat.lt_succ_self _) (hclock _)
        · exact Nat.lt_of_lt_of_le (Nat.lt_succ_self _) (hclock _)
      have hsame : (w.GetChunkIndexData env ⟨snap.fileName, snap.seqNum⟩).1
          = w.dataStore.GetChunkIndexData ⟨snap.fileName, snap.seqNum⟩ 0 :=
        GetChunkIndexData_ok _ _ _ hret
      rw [hsame] at hload ⊢
      cases hstored : w.dataStore.GetChunkIndexData ⟨snap.fileName, snap.seqNum⟩ 0 with
      | none =>
        rw [hstored] at hload
        simp only [] at hload ⊢
        have h3 := ih m (w.GetChunkIndexData env ⟨snap.fileName, snap.seqNum⟩).2
          (fun k hk1 hk2 => hload k (le_trans (Nat.le_succ _) hk1) hk2)
        exact h3
      | some indexData =>
        rw [hstored] at hload
        simp only [] at hload ⊢
        have h3 := ih ⟨m.maps ++ [indexData]⟩
          (w.GetChunkIndexData env ⟨snap.fileName, snap.seqNum⟩).2
          (fun k hk1 hk2 => hload k (le_trans (Nat.le_succ _) hk1) hk2)
        rw [h3]
        simp [peerIndices, World.GetChunkIndexData]
    · simp only [hseq, if_false] at hload ⊢
      exact ih m w hload


/-! ## Auxiliary facts on the pipelines: the chunks during the delete pipeline -/

theorem ChunksKept.noDelete (fsm : FileSnapMap) (names : List ChunkDataName) (w : World) :
    ChunksKept fsm names w w :=
  ⟨rfl, fun _ h => h, fun _ h _ => h, [], by simp, by simp⟩

theorem ChunkSame.noStep (w : World) : ChunkSame w w :=
  ⟨rfl, rfl, [], by simp, by simp⟩

theorem ChunkSame.andSame {w0 w1 w2 : World} (h1 : ChunkSame w0 w1) (h2 : ChunkSame w1 w2) :
    ChunkSame w0 w2 := by
  obtain ⟨a1, b1, new1, c1, d1⟩ := h1
  obtain ⟨a2, b2, new2, c2, d2⟩ := h2
  refine ⟨a2.trans a1, b2.trans b1, new1 ++ new2, by rw [c2, c1, List.append_assoc], ?_⟩
  intro nm ret hmem
  rcases List.mem_append.mp hmem with h | h
  · exact d1 nm ret h
  · exact d2 nm ret h

theorem ChunkSame.kept {w0 w1 : World} (h : ChunkSame w0 w1) (fsm : FileSnapMap)
    (names : List ChunkDataName) : ChunksKept fsm names w0 w1 := by
  obtain ⟨a, b, new, c, d⟩ := h
  exact ⟨b, fun _ h => by rw [a] at h; exact h, fun _ h _ => by rw [a]; exact h, new, c,
    fun nm ret h => absurd h (d nm ret)⟩

theorem ChunksKept.andKept {fsm : FileSnapMap} {names1 names2 : List ChunkDataName}
    {w0 w1 w2 : World} (h1 : ChunksKept fsm names1 w0 w1) (h2 : ChunksKept fsm names2 w1 w2)
    (names : List ChunkDataName) (hs1 : ∀ c, c ∈ names1 → c ∈ names)
    (hs2 : ∀ c, c ∈ names2 → c ∈ names) : ChunksKept fsm names w0 w2 := by
  obtain ⟨b1, c1, d1, new1, e1, f1⟩ := h1
  obtain ⟨b2, c2, d2, new2, e2, f2⟩ := h2
  refine ⟨b2.trans b1, fun c h => c1 c (c2 c h), ?_, new1 ++ new2,
    by rw [e2, e1, List.append_assoc], ?_⟩
  · intro c hc hor
    have hor1 : fsm.IsExistChunk c = true ∨ c ∉ names1 := by
      rcases hor with h | h
      · exact Or.inl h
      · exact Or.inr (fun hm => h (hs1 c hm))
    have hor2 : fsm.IsExistChunk c = true ∨ c ∉ names2 := by
      rcases hor with h | h
      · exact Or.inl h
      · exact Or.inr (fun hm => h (hs2 c hm))
    exact d2 c (d1 c hc hor1) hor2
  · intro nm ret hmem
    rcases List.mem_append.mp hmem with h | h
    · exact f1 nm ret h
    · exact f2 nm ret h

theorem DeleteChunkData_indexData (d : DataStore) (name : ChunkDataName) (r : Int) :
    (d.DeleteChunkData name r).indexData = d.indexData := by
  unfold DataStore.DeleteChunkData
  split <;> rfl

theorem DeleteChunkData_mem (d : DataStore) (name c : ChunkDataName) (r : Int) :
    c ∈ (d.DeleteChunkData name r).chunkData ↔
      c ∈ d.chunkData ∧ (r < 0 ∨ c ≠ name) := by
  unfold DataStore.DeleteChunkData
  by_cases hr : r < 0
  · simp [hr]
  · simp [hr]

theorem HandleDeleteSnapshotError_same (env : Env) (t0 : SnapshotTaskInfo) (w0 : World) :
    (HandleDeleteSnapshotError env t0 w0).2.dataStore = w0.dataStore ∧
    ChunkSame w0 (HandleDeleteSnapshotError env t0 w0).2 :=
  ⟨rfl, rfl, rfl, [Call.metaStore (MetaCall.UpdateSnapshot
    (t0.snapshotInfo.SetStatus Status.error)) (env.metaRet w0.clock)], rfl, by simp⟩

/-- The loop of the delete pipeline spares the chunks the file-snapshot map names and,
when it runs to its end, leaves no other chunk of the index in the store. -/
theorem deleteChunkLoop_store (env : Env) (indexData : ChunkIndexData)
    (fsm : FileSnapMap) (total : Nat) :
    ∀ (l : List Nat) (index : Nat) (t0 : SnapshotTaskInfo) (w0 : World),
      (deleteChunkLoop env indexData fsm total l index t0 w0).2.2.dataStore.indexData
        = w0.dataStore.indexData ∧
      ChunksKept fsm (l.map indexData.nameAt) w0
        (deleteChunkLoop env indexData fsm total l index t0 w0).2.2 ∧
      ((deleteChunkLoop env indexData fsm total l index t0 w0).1 = Flow.next →
        ∀ i ∈ l, fsm.IsExistChunk (indexData.nameAt i) = false →
          indexData.nameAt i ∉
            (deleteChunkLoop env indexData fsm total l index t0 w0).2.2.dataStore.chunkData) := by
  intro l
  induction l with
  | nil =>
    intro index t0 w0
    exact ⟨rfl, ChunksKept.noDelete _ _ _, fun _ i hi => absurd hi (List.not_mem_nil i)⟩
  | cons ci rest ih =>
    intro index t0 w0
    unfold deleteChunkLoop
    simp only []
    split
    · rename_i hcond
      have hfsm : fsm.IsExistChunk (indexData.nameAt ci) = false := by simpa using hcond.1
      have hfirst : ChunksKept fsm [indexData.nameAt ci] w0
          (w0.DeleteChunkData env (indexData.nameAt ci)).2 := by
        refine ⟨rfl, ?_, ?_,
          [Call.DeleteChunkData (indexData.nameAt ci) (env.dataRet w0.clock)], rfl, ?_⟩
        · intro c hc
          exact ((DeleteChunkData_mem _ _ _ _).mp hc).1
        · intro c hc hor
          refine (DeleteChunkData_mem _ _ _ _).mpr ⟨hc, Or.inr ?_⟩
          intro heq
          rcases hor with h | h
          · rw [heq, hfsm] at h
            cases h
          · exact h (by rw [heq]; exact List.mem_singleton_self _)
        · intro nm ret hmem
          simp only [List.mem_singleton, Call.DeleteChunkData.injEq] at hmem
          rw [hmem.1]
          exact hfsm
      have hsub1 : ∀ c, c ∈ [indexData.nameAt ci] →
          c ∈ (ci :: rest).map indexData.nameAt := by
        intro c hc
        rw [List.mem_singleton] at hc
        rw [hc]
        exact List.mem_cons_self _ _
      have hsub2 : ∀ c, c ∈ rest.map indexData.nameAt →
          c ∈ (ci :: rest).map indexData.nameAt :=
        fun c hc => List.mem_cons_of_mem _ hc
      split
      · refine ⟨DeleteChunkData_indexData _ _ _, ?_, fun hf => by cases hf⟩
        exact hfirst.andKept ((HandleDeleteSnapshotError_same env t0 _).2.kept fsm []) _ hsub1
          (fun c hc => absurd hc (List.not_mem_nil c))
      · rename_i hret
        simp only [World_DeleteChunkData_fst] at hret
        obtain ⟨hidx, hkept, hnext⟩ := ih (index + 1)
          (t0.SetProgress (deleteProgress index total))
          (w0.DeleteChunkData env (indexData.nameAt ci)).2
        refine ⟨hidx.trans (DeleteChunkData_indexData _ _ _),
          hfirst.andKept hkept _ hsub1 hsub2, ?_⟩
        intro hf i hi hfi
        rcases List.mem_cons.mp hi with h | h
        · intro hmem
          have h1 := hkept.2.1 _ hmem
          have h2 := (DeleteChunkData_mem _ _ _ _).mp h1
          rcases h2.2 with h3 | h3
          · exact hret h3
          · exact h3 (by rw [h])
        · exact hnext hf i h hfi
    · rename_i hcond
      obtain ⟨hidx, hkept, hnext⟩ := ih (index + 1)
        (t0.SetProgress (deleteProgress index total)) w0
      refine ⟨hidx, (ChunksKept.noDelete fsm [] w0).andKept hkept _ ?_ ?_, ?_⟩
      · intro c hc
        exact absurd hc (List.not_mem_nil c)
      · intro c hc
        exact List.mem_cons_of_mem _ hc
      · intro hf i hi hfi
        rcases List.mem_cons.mp hi with h | h
        · intro hmem
          have h1 := hkept.2.1 _ hmem
          apply hcond
          rw [h] at hfi h1
          refine ⟨by simp [hfi], ?_⟩
          unfold DataStore.ChunkDataExist
          simpa using h1
        · exact hnext hf i h hfi

/-- The end of the delete pipeline does not touch the data store. -/
theorem deleteRecord_store (env : Env) (fuel : Nat) (t0 : SnapshotTaskInfo) (w0 : World)
    (x : PipelineExit) (t1 : SnapshotTaskInfo) (w1 : World)
    (h : deleteRecord env fuel t0 w0 = Except.ok (x, t1, w1)) :
    w1.dataStore = w0.dataStore ∧ ChunkSame w0 w1 := by
  have hlast : ∀ w2 : World, w2.dataStore = w0.dataStore → ChunkSame w0 w2 →
      ∀ r : PipelineExit × SnapshotTaskInfo × World,
      r = (if (w2.DeleteSnapshot env t0.uuid_).1 < 0 then
            (PipelineExit.error, HandleDeleteSnapshotError env
              (t0.SetProgress kDelProgressDeleteChunkIndexDataComplete)
              (w2.DeleteSnapshot env t0.uuid_).2)
          else (PipelineExit.done,
            ((t0.SetProgress kDelProgressDeleteChunkIndexDataComplete).SetProgress
              kProgressComplete).Finish, (w2.DeleteSnapshot env t0.uuid_).2)) →
      r.2.2.dataStore = w0.dataStore ∧ ChunkSame w0 r.2.2 := by
    intro w2 hd hs r hr
    have hstep : ChunkSame w2 (w2.DeleteSnapshot env t0.uuid_).2 :=
      ⟨rfl, rfl, [Call.metaStore (MetaCall.DeleteSnapshot t0.uuid_) (env.metaRet w2.clock)],
        rfl, by simp⟩
    split at hr
    · subst hr
      exact ⟨hd, (hs.andSame hstep).andSame (HandleDeleteSnapshotError_same env _ _).2⟩
    · subst hr
      exact ⟨hd, hs.andSame hstep⟩
  unfold deleteRecord at h
  simp only [] at h
  split at h
  · split at h
    · cases h
    · rename_i ret w2 hdel
      obtain ⟨_, hd, hi, hc, _⟩ := DeleteSnapshotOnCurvefs_world env fuel _ _ _ _ hdel
      have hs : ChunkSame w0 w2 := ⟨by rw [hd], hi, _, hc, by simp⟩
      split at h
      · simp only [Except.ok.injEq, Prod.mk.injEq] at h
        obtain ⟨_, h2⟩ := h
        have h3 : (HandleDeleteSnapshotError env t0 w2).2 = w1 := by rw [h2]
        subst h3
        exact ⟨hd, hs.andSame (HandleDeleteSnapshotError_same env _ _).2⟩
      · simp only [Except.ok.injEq] at h
        have := hlast w2 hd hs _ rfl
        rw [h] at this
        exact this
  · simp only [Except.ok.injEq] at h
    have := hlast w0 rfl (ChunkSame.noStep w0) _ rfl
    rw [h] at this
    exact this


theorem not_exist_GetChunkIndexData (d : DataStore) (name : ChunkIndexDataName) (r : Int)
    (h : ¬ d.ChunkIndexDataExist name = true) : d.GetChunkIndexData name r = none := by
  unfold DataStore.GetChunkIndexData
  split
  · rfl
  · have hnone : d.indexData.find? (fun e => e.1 == name) = none := by
      rw [List.find?_eq_none]
      intro e he hk
      apply h
      unfold DataStore.ChunkIndexDataExist
      rw [List.any_eq_true]
      exact ⟨e, he, hk⟩
    rw [hnone]
    rfl

theorem not_exist_filter (d : DataStore) (name : ChunkIndexDataName)
    (h : ¬ d.ChunkIndexDataExist name = true) :
    d.indexData.filter (fun e => !(e.1 == name)) = d.indexData := by
  rw [List.filter_eq_self]
  intro e he
  cases hk : e.1 == name with
  | false => rfl
  | true =>
    exfalso
    apply h
    unfold DataStore.ChunkIndexDataExist
    rw [List.any_eq_true]
    exact ⟨e, he, hk⟩

theorem mem_ownChunkNames (d : DataStore) (name : ChunkIndexDataName)
    (indexData : ChunkIndexData) (h : d.GetChunkIndexData name 0 = some indexData)
    (c : ChunkDataName) :
    c ∈ ownChunkNames d name ↔ indexData.IsExistChunkDataName c = true := by
  unfold ownChunkNames
  rw [h]
  simp only [List.mem_map]
  constructor
  · rintro ⟨i, hi, rfl⟩
    exact nameAt_IsExistChunkDataName indexData i hi
  · intro hc
    obtain ⟨h1, h2⟩ := IsExistChunkDataName_nameAt indexData c hc
    exact ⟨c.chunkIndex_, h1, h2⟩

/-- What every returning run of the delete pipeline does to the chunk blobs, and what a
run that succeeds does to the chunk indices. -/
theorem HandleDeleteSnapshotTask_store (env : Env) (fuel : Nat) (t : SnapshotTaskInfo)
    (w : World) (x : PipelineExit) (t1 : SnapshotTaskInfo) (w1 : World)
    (hrun : HandleDeleteSnapshotTask env fuel t w = Except.ok (x, t1, w1)) :
    ChunksKept (BuildSnapshotMap env t.fileName_ t.snapshotInfo.seqNum w).2.1
      (ownChunkNames w.dataStore ⟨t.fileName_, t.snapshotInfo.seqNum⟩) w w1 ∧
    (x = PipelineExit.done →
      (∀ c ∈ ownChunkNames w.dataStore ⟨t.fileName_, t.snapshotInfo.seqNum⟩,
        (BuildSnapshotMap env t.fileName_ t.snapshotInfo.seqNum w).2.1.IsExistChunk c = false →
        c ∉ w1.dataStore.chunkData) ∧
      w1.dataStore.indexData = w.dataStore.indexData.filter
        (fun e => !(e.1 == (⟨t.fileName_, t.snapshotInfo.seqNum⟩ : ChunkIndexDataName)))) := by
  unfold HandleDeleteSnapshotTask at hrun
  simp only [BuildSnapshotMap_ret, ErrCode.isNegative, Bool.false_eq_true, if_false] at hrun
  have hb := BuildSnapshotMap_world env t.fileName_ t.snapshotInfo.seqNum w
  have hsB : ChunkSame w (BuildSnapshotMap env t.fileName_ t.snapshotInfo.seqNum w).2.2 :=
    ⟨by rw [hb.2.1], hb.2.2.1, [], by simp [hb.2.2.2], by simp⟩
  split at hrun
  · rename_i hexist
    have hsG : ChunkSame w
        ((BuildSnapshotMap env t.fileName_ t.snapshotInfo.seqNum w).2.2.GetChunkIndexData env
          ⟨t.fileName_, t.snapshotInfo.seqNum⟩).2 :=
      hsB.andSame ⟨rfl, rfl, [], by simp [World.GetChunkIndexData], by simp⟩
    split at hrun
    · simp only [Except.ok.injEq, Prod.mk.injEq] at hrun
      obtain ⟨hx, h2⟩ := hrun
      have h3 : (HandleDeleteSnapshotError env
          (t.SetProgress kDelProgressBuildSnapshotMapComplete)
          ((BuildSnapshotMap env t.fileName_ t.snapshotInfo.seqNum w).2.2.GetChunkIndexData env
            ⟨t.fileName_, t.snapshotInfo.seqNum⟩).2).2 = w1 := by rw [h2]
      subst h3
      subst hx
      exact ⟨(hsG.andSame (HandleDeleteSnapshotError_same env _ _).2).kept _ _,
        fun hd => by cases hd⟩
    · rename_i indexData hload
      have hown : w.dataStore.GetChunkIndexData ⟨t.fileName_, t.snapshotInfo.seqNum⟩ 0
          = some indexData := by
        simp only [World.GetChunkIndexData, hb.2.1] at hload
        unfold DataStore.GetChunkIndexData at hload ⊢
        split at hload
        · cases hload
        · rw [if_neg (by decide)]
          exact hload
      have hnames : ownChunkNames w.dataStore ⟨t.fileName_, t.snapshotInfo.seqNum⟩
          = indexData.GetAllChunkIndex.map indexData.nameAt := by
        unfold ownChunkNames
        rw [hown]
      rw [hnames]
      obtain ⟨hidx, hkept, hnext⟩ := deleteChunkLoop_store env indexData
        (BuildSnapshotMap env t.fileName_ t.snapshotInfo.seqNum w).2.1
        indexData.GetAllChunkIndex.length indexData.GetAllChunkIndex 0
        (t.SetProgress kDelProgressBuildSnapshotMapComplete)
        ((BuildSnapshotMap env t.fileName_ t.snapshotInfo.seqNum w).2.2.GetChunkIndexData env
          ⟨t.fileName_, t.snapshotInfo.seqNum⟩).2
      split at hrun
      · rename_i c task2 w2 heq
        rw [heq] at hkept
        simp only [Except.ok.injEq, Prod.mk.injEq] at hrun
        obtain ⟨hx, _, h3⟩ := hrun
        subst h3
        subst hx
        exact ⟨(hsG.kept _ []).andKept hkept _
          (fun c hc => absurd hc (List.not_mem_nil c)) (fun _ hc => hc),
          fun hd => by cases hd⟩
      · rename_i task2 w2 heq
        rw [heq] at hkept hnext hidx
        simp only [] at hkept hnext hidx
        have hkept2 : ChunksKept
            (BuildSnapshotMap env t.fileName_ t.snapshotInfo.seqNum w).2.1
            (indexData.GetAllChunkIndex.map indexData.nameAt) w w2 :=
          (hsG.kept _ []).andKept hkept _
            (fun c hc => absurd hc (List.not_mem_nil c)) (fun _ hc => hc)
        have hsD : ChunkSame w2
            (w2.DeleteChunkIndexData env ⟨t.fileName_, t.snapshotInfo.seqNum⟩).2 :=
          ⟨DeleteChunkIndexData_chunkData _ _ _, rfl,
            [Call.DeleteChunkIndexData ⟨t.fileName_, t.snapshotInfo.seqNum⟩
              (env.dataRet w2.clock)], rfl, by simp⟩
        split at hrun
        · simp only [Except.ok.injEq, Prod.mk.injEq] at hrun
          obtain ⟨hx, h2⟩ := hrun
          have h3 : (HandleDeleteSnapshotError env
              (task2.SetProgress kDelProgressDeleteChunkDataComplete)
              (w2.DeleteChunkIndexData env ⟨t.fileName_, t.snapshotInfo.seqNum⟩).2).2 = w1 := by
            rw [h2]
          subst h3
          subst hx
          exact ⟨hkept2.andKept
            ((hsD.andSame (HandleDeleteSnapshotError_same env _ _).2).kept _ []) _
            (fun _ hc => hc) (fun c hc => absurd hc (List.not_mem_nil c)),
            fun hd => by cases hd⟩
        · rename_i hret
          simp only [World_DeleteChunkIndexData_fst] at hret
          obtain ⟨hds, hsR⟩ := deleteRecord_store env fuel _ _ _ _ _ hrun
          have hchunks : w1.dataStore.chunkData = w2.dataStore.chunkData := by
            rw [hds]
            exact DeleteChunkIndexData_chunkData _ _ _
          refine ⟨hkept2.andKept ((hsD.andSame hsR).kept _ []) _
            (fun _ hc => hc) (fun c hc => absurd hc (List.not_mem_nil c)), fun _ => ⟨?_, ?_⟩⟩
          · intro c hc hfalse
            rw [List.mem_map] at hc
            obtain ⟨i, hi, rfl⟩ := hc
            rw [hchunks]
            exact hnext trivial i hi hfalse
          · rw [hds]
            simp only [World_DeleteChunkIndexData_dataStore, DataStore.DeleteChunkIndexData,
              if_neg hret, hidx]
            simp [World.GetChunkIndexData, hb.2.1]
  · rename_i hexist
    obtain ⟨hds, hsR⟩ := deleteRecord_store env fuel _ _ _ _ _ hrun
    rw [hb.2.1] at hexist
    refine ⟨(hsB.andSame hsR).kept _ _, fun _ => ⟨?_, ?_⟩⟩
    · intro c hc
      unfold ownChunkNames at hc
      rw [not_exist_GetChunkIndexData _ _ _ hexist] at hc
      exact absurd hc (List.not_mem_nil c)
    · rw [hds, hb.2.1, not_exist_filter _ _ hexist]


/-! ## Auxiliary facts on the pipelines: the chunks during the create pipeline -/

theorem TransferChunk_mem (d : DataStore) (name c : ChunkDataName) (r : Int) :
    c ∈ (d.TransferChunk name r).chunkData ↔
      c ∈ d.chunkData ∨ (¬ r < 0 ∧ c = name) := by
  unfold DataStore.TransferChunk
  by_cases hr : r < 0
  · simp [hr]
  · by_cases hc : name ∈ d.chunkData
    · have hcon : d.chunkData.contains name = true := by simpa using hc
      rw [if_neg hr, if_pos hcon]
      constructor
      · exact Or.inl
      · rintro (h | h)
        · exact h
        · rw [h.2]
          exact hc
    · simp [hr, hc]

theorem Grown.noGrowth (P : ChunkDataName → Prop) (w : World) : Grown P w w :=
  ⟨fun _ h => h, fun _ h => Or.inl h⟩

theorem Grown.ofChunkEq (P : ChunkDataName → Prop) {w0 w1 : World}
    (h : w1.dataStore.chunkData = w0.dataStore.chunkData) : Grown P w0 w1 :=
  ⟨fun _ hc => by rw [h]; exact hc, fun _ hc => by rw [h] at hc; exact Or.inl hc⟩

theorem Grown.andGrown {P : ChunkDataName → Prop} {w0 w1 w2 : World} (h1 : Grown P w0 w1)
    (h2 : Grown P w1 w2) : Grown P w0 w2 := by
  refine ⟨fun c hc => h2.1 c (h1.1 c hc), ?_⟩
  intro c hc
  rcases h2.2 c hc with h | h
  · exact h1.2 c h
  · exact Or.inr h

theorem settleOne_grown (env : Env) (P : ChunkDataName → Prop) (tr : TaskTracker) (w : World)
    (hall : ∀ c ∈ tr.outstanding, P c) :
    Grown P w (settleOne env tr w).2 ∧
    (∀ c ∈ (settleOne env tr w).1.outstanding, P c) ∧
    (settleOne env tr w).1.outstanding.length = tr.outstanding.length - 1 := by
  unfold settleOne
  split
  · rename_i hnil
    exact ⟨Grown.noGrowth P w, hall, by rw [hnil]; rfl⟩
  · rename_i name rest hcons
    refine ⟨⟨?_, ?_⟩, ?_, ?_⟩
    · intro c hc
      exact (TransferChunk_mem _ _ _ _).mpr (Or.inl hc)
    · intro c hc
      rcases (TransferChunk_mem _ _ _ _).mp hc with h | h
      · exact Or.inl h
      · right
        rw [h.2]
        exact hall name (by rw [hcons]; exact List.mem_cons_self _ _)
    · intro c hc
      exact hall c (by rw [hcons]; exact List.mem_cons_of_mem _ hc)
    · rw [hcons]
      simp

theorem settleN_grown (env : Env) (P : ChunkDataName → Prop) :
    ∀ (n : Nat) (tr : TaskTracker) (w : World), (∀ c ∈ tr.outstanding, P c) →
      Grown P w (settleN env n tr w).2 ∧
      (∀ c ∈ (settleN env n tr w).1.outstanding, P c) ∧
      (settleN env n tr w).1.outstanding.length = tr.outstanding.length - n := by
  intro n
  induction n with
  | zero => intro tr w hall; exact ⟨Grown.noGrowth P w, hall, rfl⟩
  | succ n ih =>
    intro tr w hall
    obtain ⟨h1, h2, h3⟩ := settleOne_grown env P tr w hall
    obtain ⟨h4, h5, h6⟩ := ih (settleOne env tr w).1 (settleOne env tr w).2 h2
    unfold settleN
    refine ⟨h1.andGrown h4, h5, ?_⟩
    rw [h6, h3]
    omega

theorem submitTransfer_outstanding (indexData : ChunkIndexData)
    (segInfos : List (Nat × SegmentInfo)) (filter : ChunkDataName → Bool)
    (cps chunkIndex : Nat) (tr : TaskTracker) (w : World)
    (hi : chunkIndex ∈ indexData.GetAllChunkIndex)
    (hall : ∀ c ∈ tr.outstanding,
      indexData.IsExistChunkDataName c = true ∧ filter c = false) :
    ∀ c ∈ (submitTransfer indexData segInfos filter cps chunkIndex tr w).1.outstanding,
      indexData.IsExistChunkDataName c = true ∧ filter c = false := by
  unfold submitTransfer
  simp only []
  split
  · split
    · rename_i hf
      intro c hc
      simp only [List.mem_append, List.mem_singleton] at hc
      rcases hc with h | h
      · exact hall c h
      · rw [h]
        exact ⟨nameAt_IsExistChunkDataName indexData chunkIndex hi, by simpa using hf⟩
    · exact hall
  · exact hall

theorem observeTracker_grown (core : SnapshotCoreImpl) (env : Env)
    (P : ChunkDataName → Prop) (tr : TaskTracker) (w : World)
    (hall : ∀ c ∈ tr.outstanding, P c) :
    Grown P w (observeTracker core env tr w).2 ∧
    ∀ c ∈ (observeTracker core env tr w).1.outstanding, P c := by
  have hstep : ∀ (tr1 : TaskTracker) (w1 : World), (∀ c ∈ tr1.outstanding, P c) →
      Grown P w1 (TaskTracker.progressAlone env tr1 w1).2 ∧
      ∀ c ∈ (TaskTracker.progressAlone env tr1 w1).1.outstanding, P c := by
    intro tr1 w1 h1
    unfold TaskTracker.progressAlone
    obtain ⟨a, b, _⟩ := settleN_grown env P (env.spontaneous w1.clock) tr1
      { w1 with clock := w1.clock + 1 } h1
    exact ⟨⟨a.1, a.2⟩, b⟩
  unfold observeTracker
  split
  · obtain ⟨a, b, _⟩ := settleN_grown env P (tr.outstanding.length - 1) tr w hall
    obtain ⟨c, d⟩ := hstep _ _ b
    exact ⟨a.andGrown c, d⟩
  · exact hstep tr w hall

/-- The end of every rollback chain never reports `done`. -/
theorem HandleClearSnapshotOnMateStore_exit (env : Env) (t : SnapshotTaskInfo) (w : World) :
    (HandleClearSnapshotOnMateStore env t w).1 ≠ PipelineExit.done := by
  unfold HandleClearSnapshotOnMateStore
  simp only []
  split <;> simp

/-- Rollback-1 never leaves through the success path. -/
theorem CancelAfterCreateSnapshotOnCurvefs_exit (env : Env) (fuel : Nat)
    (t0 : SnapshotTaskInfo) (w0 : World) (t1 : SnapshotTaskInfo) (w1 : World) :
    CancelAfterCreateSnapshotOnCurvefs env fuel t0 w0
      ≠ Except.ok (PipelineExit.done, t1, w1) := by
  intro h
  unfold CancelAfterCreateSnapshotOnCurvefs at h
  split at h
  · cases h
  · split at h
    · simp at h
    · simp only [Except.ok.injEq] at h
      exact HandleClearSnapshotOnMateStore_exit env _ _ (by rw [h])

/-- Rollback-2 never leaves through the success path. -/
theorem CancelAfterCreateChunkIndexData_exit (env : Env) (fuel : Nat)
    (t0 : SnapshotTaskInfo) (w0 : World) (t1 : SnapshotTaskInfo) (w1 : World) :
    CancelAfterCreateChunkIndexData env fuel t0 w0
      ≠ Except.ok (PipelineExit.done, t1, w1) := by
  intro h
  unfold CancelAfterCreateChunkIndexData at h
  simp only [] at h
  split at h
  · simp at h
  · exact CancelAfterCreateSnapshotOnCurvefs_exit env fuel _ _ _ _ h

/-- Rollback-3 never leaves through the success path. -/
theorem CancelAfterTransferSnapshotData_exit (env : Env) (fuel : Nat)
    (t0 : SnapshotTaskInfo) (indexData : ChunkIndexData) (fileSnapshotMap : FileSnapMap)
    (w0 : World) (t1 : SnapshotTaskInfo) (w1 : World) :
    CancelAfterTransferSnapshotData env fuel t0 indexData fileSnapshotMap w0
      ≠ Except.ok (PipelineExit.done, t1, w1) := by
  intro h
  unfold CancelAfterTransferSnapshotData at h
  split at h
  · simp at h
  · exact CancelAfterCreateChunkIndexData_exit env fuel _ _ _ _ h

/-- The transfer loop adds at most chunks of the index that the filter lets pass, and it
ends normally, with a negative result, or after a sample of the cancel flag that was
set. -/
theorem transferLoop_grown (core : SnapshotCoreImpl) (env : Env) (indexData : ChunkIndexData)
    (segInfos : List (Nat × SegmentInfo)) (filter : ChunkDataName → Bool) (cps total : Nat) :
    ∀ (l : List Nat) (index : Nat) (tr : TaskTracker) (t : SnapshotTaskInfo) (w : World),
      (∀ i ∈ l, i ∈ indexData.GetAllChunkIndex) →
      (∀ c ∈ tr.outstanding, indexData.IsExistChunkDataName c = true ∧ filter c = false) →
      Grown (fun c => indexData.IsExistChunkDataName c = true ∧ filter c = false) w
        (transferLoop core env indexData segInfos filter cps total l index tr t w).2.2.2 ∧
      (∀ c ∈ (transferLoop core env indexData segInfos filter cps total l index tr t
          w).2.1.outstanding,
        indexData.IsExistChunkDataName c = true ∧ filter c = false) ∧
      ((transferLoop core env indexData segInfos filter cps total l index tr t w).1 = Flow.next ∨
        (∃ code, (transferLoop core env indexData segInfos filter cps total l index tr t w).1
          = Flow.ret code ∧ code.isNegative = true) ∨
        ∃ k, k < (transferLoop core env indexData segInfos filter cps total l index tr t
            w).2.2.1.cancelSamples ∧ env.isCanceled k = true) := by
  intro l
  induction l with
  | nil =>
    intro index tr t w _ hall
    exact ⟨Grown.noGrowth _ w, hall, Or.inl rfl⟩
  | cons ci rest ih =>
    intro index tr t w hl hall
    have hsub := submitTransfer_outstanding indexData segInfos filter cps ci tr w
      (hl ci (List.mem_cons_self _ _)) hall
    have hsw := (submitTransfer_keeps indexData segInfos filter cps ci tr w).2
    obtain ⟨hobs, hout⟩ := observeTracker_grown core env
      (fun c => indexData.IsExistChunkDataName c = true ∧ filter c = false)
      (submitTransfer indexData segInfos filter cps ci tr w).1
      (submitTransfer indexData segInfos filter cps ci tr w).2 hsub
    have hg : Grown (fun c => indexData.IsExistChunkDataName c = true ∧ filter c = false) w
        (observeTracker core env (submitTransfer indexData segInfos filter cps ci tr w).1
          (submitTransfer indexData segInfos filter cps ci tr w).2).2 :=
      (Grown.ofChunkEq _ (by rw [hsw])).andGrown hobs
    unfold transferLoop
    simp only []
    split
    · rename_i hneg
      exact ⟨hg, hout, Or.inr (Or.inl ⟨_, rfl, by simp [ErrCode.isNegative, hneg]⟩)⟩
    · split
      · rename_i hc
        simp only [IsCanceled_fst] at hc
        exact ⟨hg, hout, Or.inr (Or.inr
          ⟨(t.SetProgress (transferProgress index total)).cancelSamples,
            Nat.lt_succ_self _, hc⟩)⟩
      · obtain ⟨h1, h2, h3⟩ := ih (index + 1) _
          ((t.SetProgress (transferProgress index total)).IsCanceled env).2 _
          (fun i hi => hl i (List.mem_cons_of_mem _ hi)) hout
        exact ⟨hg.andGrown h1, h2, h3⟩


theorem validateLoop_ret (segInfos : List (Nat × SegmentInfo)) (cps : Nat) :
    ∀ (l : List Nat) (code : ErrCode),
      validateLoop segInfos cps l = Except.ok (Flow.ret code) → code.isNegative = true := by
  intro l
  induction l with
  | nil => intro code h; simp [validateLoop] at h
  | cons ci rest ih =>
    intro code h
    unfold validateLoop at h
    split at h
    · cases h
    · split at h
      · simp only [Except.ok.injEq, Flow.ret.injEq] at h
        rw [← h]
        rfl
      · split at h
        · cases h
        · split at h
          · simp only [Except.ok.injEq, Flow.ret.injEq] at h
            rw [← h]
            rfl
          · exact ih code h

/-- A call of `TransferSnapshotData` that returns a non-negative result has waited for
all its transfers and has added at most chunks of the index that the filter lets pass,
unless it has seen the cancel flag set. -/
theorem TransferSnapshotData_grown (core : SnapshotCoreImpl) (env : Env) (fuel : Nat)
    (indexData : ChunkIndexData) (info : SnapshotInfo) (segInfos : List (Nat × SegmentInfo))
    (filter : ChunkDataName → Bool) (t : SnapshotTaskInfo) (w : World)
    (ret : ErrCode) (t1 : SnapshotTaskInfo) (w1 : World)
    (h : TransferSnapshotData core env fuel indexData info segInfos filter t w
      = Except.ok (ret, t1, w1))
    (hneg : ret.isNegative = false) :
    (Grown (fun c => indexData.IsExistChunkDataName c = true ∧ filter c = false) w w1 ∧
      w1.inflight = w.inflight) ∨
    ∃ k, k < t1.cancelSamples ∧ env.isCanceled k = true := by
  unfold TransferSnapshotData at h
  split at h
  · cases h
  · rename_i cps _
    split at h
    · simp only [Except.ok.injEq, Prod.mk.injEq] at h
      rw [← h.1] at hneg
      cases hneg
    · split at h
      · cases h
      · rename_i code hval
        simp only [Except.ok.injEq, Prod.mk.injEq] at h
        rw [← h.1, validateLoop_ret _ _ _ _ hval] at hneg
        cases hneg
      · obtain ⟨hg, hout, hflow⟩ := transferLoop_grown core env indexData segInfos filter cps
          indexData.GetAllChunkIndex.length indexData.GetAllChunkIndex 0 ⟨[], 0⟩ t w
          (fun _ hi => hi) (fun c hc => absurd hc (List.not_mem_nil c))
        have hk := (transferLoop_keeps core env indexData segInfos filter cps
          indexData.GetAllChunkIndex.length indexData.GetAllChunkIndex 0 ⟨[], 0⟩ t w).1
        split at h
        · rename_i code tr t2 w2 heq
          rw [heq] at hflow
          simp only [Except.ok.injEq, Prod.mk.injEq] at h
          rcases hflow with hf | ⟨code2, hf, hc2⟩ | ⟨k, hk, hck⟩
          · cases hf
          · simp only [Flow.ret.injEq] at hf
            rw [← h.1, hf, hc2] at hneg
            cases hneg
          · right
            rw [← h.2.1]
            exact ⟨k, hk, hck⟩
        · rename_i tr t2 w2 heq
          rw [heq] at hg hout hk
          simp only [] at hg hout hk
          obtain ⟨hw1, hw2, hw3⟩ := settleN_grown env
            (fun c => indexData.IsExistChunkDataName c = true ∧ filter c = false)
            tr.outstanding.length tr w2 hout
          have hwk := settleN_keeps env tr.outstanding.length tr w2
          have hempty : (TaskTracker.Wait env tr w2).1.outstanding = [] := by
            unfold TaskTracker.Wait
            apply List.eq_nil_of_length_eq_zero
            rw [hw3]
            omega
          split at h
          · rename_i hres
            simp only [Except.ok.injEq, Prod.mk.injEq] at h
            rw [← h.1] at hneg
            simp [ErrCode.isNegative, hres] at hneg
          · split at h
            · cases h
            · rename_i ret2 w3 hdel
              simp only [Except.ok.injEq, Prod.mk.injEq] at h
              obtain ⟨_, _, h3⟩ := h
              subst h3
              obtain ⟨_, hd, hi, _, _⟩ := DeleteSnapshotOnCurvefs_world env fuel _ _ _ _ hdel
              left
              refine ⟨hg.andGrown (hw1.andGrown (Grown.ofChunkEq _ (by rw [hd]; rfl))), ?_⟩
              rw [hi]
              unfold World.abandon
              simp only [hempty, List.append_nil]
              exact hwk.2.2.1.trans hk.2.2.1

/-- Stages 3 to 5 that leave through the success path, the cancel flag being one that
stays set once it is set. -/
theorem createTransfer_done (core : SnapshotCoreImpl) (env : Env) (fuel : Nat)
    (indexData : ChunkIndexData) (segInfos : List (Nat × SegmentInfo))
    (t0 : SnapshotTaskInfo) (w0 : World) (t1 : SnapshotTaskInfo) (w1 : World)
    (hmono : ∀ a b, a ≤ b → env.isCanceled a = true → env.isCanceled b = true)
    (h : createTransfer core env fuel indexData segInfos t0 w0
      = Except.ok (PipelineExit.done, t1, w1)) :
    t1.snapshotInfo = t0.snapshotInfo.SetStatus Status.done ∧
    w1.dataStore.indexData = w0.dataStore.indexData ∧ w1.inflight = w0.inflight ∧
    Grown (fun c => indexData.IsExistChunkDataName c = true ∧
      (BuildSnapshotMap env t0.fileName_ t0.snapshotInfo.seqNum w0).2.1.IsExistChunk c = false)
      w0 w1 := by
  unfold createTransfer at h
  simp only [BuildSnapshotMap_ret, ErrCode.isNegative, Bool.false_eq_true, if_false] at h
  have hb := BuildSnapshotMap_world env t0.fileName_ t0.snapshotInfo.seqNum w0
  split at h
  · cases h
  · rename_i ret task2 w2 htr
    obtain ⟨hk, _, _, hidx, _⟩ := TransferSnapshotData_facts core env fuel _ _ _ _ _ _ _ _ _ htr
    split at h
    · simp at h
    · rename_i hneg
      simp only [Bool.not_eq_true] at hneg
      split at h
      · exact absurd h (CancelAfterTransferSnapshotData_exit env fuel _ _ _ _ _ _)
      · rename_i hc
        simp only [IsCanceled_fst] at hc
        have hseen := TransferSnapshotData_grown core env fuel _ _ _ _ _ _ _ _ _ htr hneg
        have hfull : Grown (fun c => indexData.IsExistChunkDataName c = true ∧
            (fun name =>
              (BuildSnapshotMap env t0.fileName_ t0.snapshotInfo.seqNum w0).2.1.IsExistChunk
                name) c = false)
            (BuildSnapshotMap env t0.fileName_ t0.snapshotInfo.seqNum w0).2.2 w2 ∧
            w2.inflight
              = (BuildSnapshotMap env t0.fileName_ t0.snapshotInfo.seqNum w0).2.2.inflight := by
          rcases hseen with hfull | ⟨k, hk, hck⟩
          · exact hfull
          · exact absurd (hmono k _ (Nat.le_of_lt hk) hck) hc
        obtain ⟨hg, hinf⟩ := hfull
        unfold createFinalize at h
        simp only [] at h
        split at h
        · simp at h
        · simp only [Except.ok.injEq, Prod.mk.injEq, true_and] at h
          obtain ⟨h2, h3⟩ := h
          subst h2 h3
          refine ⟨?_, ?_, ?_, ?_⟩
          · simp only [Finish_snapshotInfo, SetProgress_snapshotInfo, IsCanceled_snapshotInfo]
            rw [hk.1]
            rfl
          · simp only [World_UpdateSnapshot_dataStore]
            rw [hidx, hb.2.1]
          · simp only [World_UpdateSnapshot_inflight]
            rw [hinf, hb.2.2.1]
          · refine (Grown.ofChunkEq _ (by rw [hb.2.1])).andGrown
              (hg.andGrown (Grown.ofChunkEq _ rfl))

/-- Stage 2 and what follows, for a snapshot whose index is built in this run, leaving
through the success path, the cancel flag being one that stays set once it is set. -/
theorem createIndex_done (core : SnapshotCoreImpl) (env : Env) (fuel : Nat)
    (t0 : SnapshotTaskInfo) (w0 : World) (t1 : SnapshotTaskInfo) (w1 : World)
    (hmono : ∀ a b, a ≤ b → env.isCanceled a = true → env.isCanceled b = true)
    (h : createIndex core env fuel false t0 w0 = Except.ok (PipelineExit.done, t1, w1)) :
    ∃ indexData, ¬ env.dataRet w0.clock < 0 ∧
      t1.snapshotInfo = t0.snapshotInfo.SetStatus Status.done ∧
      w1.dataStore.indexData
        = (w0.PutChunkIndexData env ⟨t0.fileName_, t0.snapshotInfo.seqNum⟩
            indexData).2.dataStore.indexData ∧
      w1.inflight = w0.inflight ∧
      Grown (fun c => indexData.IsExistChunkDataName c = true ∧
        (BuildSnapshotMap env t0.fileName_ t0.snapshotInfo.seqNum
          (w0.PutChunkIndexData env ⟨t0.fileName_, t0.snapshotInfo.seqNum⟩
            indexData).2).2.1.IsExistChunk c = false) w0 w1 := by
  unfold createIndex at h
  simp only [Bool.false_eq_true, if_false] at h
  split at h
  · cases h
  · rename_i ret indexData segInfos task1 hb
    obtain ⟨n, hn, ht⟩ := BuildChunkIndexData_task env _ _ _ _ _ _ hb
    split at h
    · simp at h
    · split at h
      · simp at h
      · rename_i hret
        simp only [World_PutChunkIndexData_fst] at hret
        unfold createAfterIndex at h
        split at h
        · exact absurd h (CancelAfterCreateChunkIndexData_exit env fuel _ _ _ _)
        · obtain ⟨h1, h2, h3, h4⟩ := createTransfer_done core env fuel _ _ _ _ _ _ hmono h
          subst ht
          refine ⟨indexData, hret, h1, h2, h3, ?_⟩
          exact (Grown.ofChunkEq _ (PutChunkIndexData_chunkData _ _ _ _)).andGrown h4


theorem Grown.weaker {P Q : ChunkDataName → Prop} {w0 w1 : World} (h : Grown P w0 w1)
    (hpq : ∀ c, P c → Q c) : Grown Q w0 w1 := by
  refine ⟨h.1, ?_⟩
  intro c hc
  rcases h.2 c hc with h1 | h1
  · exact Or.inl h1
  · exact Or.inr (hpq c h1)

theorem PutChunkIndexData_ok (d : DataStore) (name : ChunkIndexDataName)
    (data : ChunkIndexData) (r : Int) (hr : ¬ r < 0) :
    d.PutChunkIndexData name data r = d.PutChunkIndexData name data 0 := by
  unfold DataStore.PutChunkIndexData
  rw [if_neg hr, if_neg (by decide)]

theorem BuildSnapshotMap_IsExistChunk (env : Env) (fileName : String) (seqNum : Nat)
    (w : World) (hload : ∀ k, ¬ env.dataRet k < 0) (c : ChunkDataName) :
    (BuildSnapshotMap env fileName seqNum w).2.1.IsExistChunk c
      = FileSnapMap.IsExistChunk
          ⟨peerIndices w.dataStore seqNum (w.metaStore.GetSnapshotList fileName)⟩ c := by
  have hmaps := buildSnapshotMapLoop_maps env seqNum (w.metaStore.GetSnapshotList fileName)
    ⟨[]⟩ w (fun k _ _ => hload k)
  unfold FileSnapMap.IsExistChunk BuildSnapshotMap
  simp only []
  rw [hmaps]
  simp

/-- A call of `CreateSnapshotOnCurvefs` that returns a non-negative result: the task
holds the record with the sequence number and the sizes filled in, the metadata store
holds this record in place of the old one, and the data store is untouched. -/
theorem CreateSnapshotOnCurvefs_ok (env : Env) (fileName : String) (t : SnapshotTaskInfo)
    (w : World) (h : (CreateSnapshotOnCurvefs env fileName t w).1.isNegative = false) :
    (CreateSnapshotOnCurvefs env fileName t w).2.2.dataStore = w.dataStore ∧
    (CreateSnapshotOnCurvefs env fileName t w).2.2.inflight = w.inflight ∧
    (CreateSnapshotOnCurvefs env fileName t w).2.1.fileName_ = t.fileName_ ∧
    (CreateSnapshotOnCurvefs env fileName t w).2.1.uuid_ = t.uuid_ ∧
    (CreateSnapshotOnCurvefs env fileName t w).2.1.snapshotInfo.uuid = t.snapshotInfo.uuid ∧
    (CreateSnapshotOnCurvefs env fileName t w).2.1.snapshotInfo.fileName
      = t.snapshotInfo.fileName ∧
    (CreateSnapshotOnCurvefs env fileName t w).2.1.snapshotInfo.user = t.snapshotInfo.user ∧
    (CreateSnapshotOnCurvefs env fileName t w).2.1.snapshotInfo.status
      = t.snapshotInfo.status ∧
    (CreateSnapshotOnCurvefs env fileName t w).2.2.metaStore
      = w.metaStore.UpdateSnapshot (CreateSnapshotOnCurvefs env fileName t w).2.1.snapshotInfo
          0 := by
  unfold CreateSnapshotOnCurvefs at h ⊢
  simp only [] at h ⊢
  split
  · rename_i hc
    rw [if_pos hc] at h
    cases h
  · rename_i hc
    rw [if_neg hc] at h
    split
    · rename_i hc2
      rw [if_pos hc2] at h
      cases h
    · rename_i hc2
      rw [if_neg hc2] at h
      split
      · rename_i hc3
        rw [if_pos hc3] at h
        simp only [World_UpdateSnapshot_fst] at hc3
        simp [ErrCode.isNegative, World.UpdateSnapshot, hc3] at h
      · rename_i hc3
        simp only [World_UpdateSnapshot_fst] at hc3
        refine ⟨rfl, rfl, rfl, rfl, rfl, rfl, rfl, rfl, ?_⟩
        simp only [World_UpdateSnapshot_metaStore]
        unfold MetaStore.UpdateSnapshot
        rw [if_neg hc3, if_neg (by decide)]

/-- A run of `HandleCreateSnapshotTask` on a snapshot without a sequence number that
leaves through the success path, with a cancel flag that stays set once it is set and
with every call of the data store succeeding: what it has done to the data store. `info1` is the record with the sequence
number and the sizes filled in. -/
theorem HandleCreateSnapshotTask_done (core : SnapshotCoreImpl) (env : Env) (fuel : Nat)
    (t : SnapshotTaskInfo) (w : World) (t1 : SnapshotTaskInfo) (w1 : World)
    (hmono : ∀ a b, a ≤ b → env.isCanceled a = true → env.isCanceled b = true)
    (hload : ∀ k, ¬ env.dataRet k < 0)
    (hseq : kUnInitializeSeqNum = t.snapshotInfo.seqNum)
    (h : HandleCreateSnapshotTask core env fuel t w = Except.ok (PipelineExit.done, t1, w1)) :
    ∃ indexData info1,
      info1.uuid = t.snapshotInfo.uuid ∧ info1.fileName = t.snapshotInfo.fileName ∧
      info1.user = t.snapshotInfo.user ∧ info1.status = t.snapshotInfo.status ∧
      t1.snapshotInfo = info1.SetStatus Status.done ∧
      w1.dataStore.indexData
        = (w.dataStore.PutChunkIndexData ⟨t.fileName_, info1.seqNum⟩ indexData 0).indexData ∧
      w1.inflight = w.inflight ∧
      Grown (fun c => indexData.IsExistChunkDataName c = true ∧
        FileSnapMap.IsExistChunk
          ⟨peerIndices (w.dataStore.PutChunkIndexData ⟨t.fileName_, info1.seqNum⟩ indexData 0)
            info1.seqNum ((w.metaStore.UpdateSnapshot info1 0).GetSnapshotList t.fileName_)⟩ c
          = false) w w1 := by
  unfold HandleCreateSnapshotTask at h
  rw [if_pos hseq] at h
  simp only [] at h
  split at h
  · simp at h
  · rename_i hneg
    simp only [Bool.not_eq_true] at hneg
    obtain ⟨hd, hi, hf, _, hu, hfn, huser, hst, hm⟩ :=
      CreateSnapshotOnCurvefs_ok env t.fileName_ t w hneg
    unfold createAfterSnapshot at h
    simp only [] at h
    split at h
    · exact absurd h (CancelAfterCreateSnapshotOnCurvefs_exit env fuel _ _ _ _)
    · obtain ⟨indexData, hret, h1, h2, h3, h4⟩ := createIndex_done core env fuel _ _ _ _ hmono h
      simp only [IsCanceled_snapshotInfo, SetProgress_snapshotInfo, IsCanceled_fileName,
        SetProgress_fileName] at h1 h2 h4
      refine ⟨indexData, (CreateSnapshotOnCurvefs env t.fileName_ t w).2.1.snapshotInfo, hu,
        hfn, huser, hst, h1, ?_, h3.trans hi, ?_⟩
      · rw [h2]
        simp only [World_PutChunkIndexData_dataStore]
        rw [PutChunkIndexData_ok _ _ _ _ hret, hd, hf]
      · refine (Grown.ofChunkEq _ (by rw [hd])).andGrown (h4.weaker ?_)
        intro c hc
        refine ⟨hc.1, ?_⟩
        have h5 := hc.2
        rw [BuildSnapshotMap_IsExistChunk env _ _ _ hload c] at h5
        simp only [World_PutChunkIndexData_dataStore, World_PutChunkIndexData_metaStore] at h5
        rw [PutChunkIndexData_ok _ _ _ _ hret, hd, hm, hf] at h5
        exact h5


/-! ## Auxiliary facts on the pipelines: the round trip -/

theorem CreateSnapshotPre_success (core : SnapshotCoreImpl) (m : MetaStore)
    (ans : CreateAnswers) (file user snapshotName : String) (snapInfo : SnapshotInfo)
    (h : (CreateSnapshotPre core m ans file user snapshotName snapInfo).ret = ErrCode.Success) :
    (CreateSnapshotPre core m ans file user snapshotName snapInfo).snapInfo
      = (SnapshotInfo.create ans.uuid user file snapshotName).SetStatus Status.pending ∧
    (CreateSnapshotPre core m ans file user snapshotName snapInfo).metaStore
      = ⟨m.records ++
          [(SnapshotInfo.create ans.uuid user file snapshotName).SetStatus Status.pending]⟩ := by
  by_cases hany : (m.GetSnapshotList file).any (fun snap => Status.error == snap.status) = true
  · exfalso
    unfold CreateSnapshotPre at h
    simp [hany] at h
  · by_cases hge : (m.GetSnapshotList file).length ≥ core.maxSnapshotLimit_
    · exfalso
      unfold CreateSnapshotPre at h
      simp only [if_neg hany, if_pos hge] at h
      cases h
    · cases hret : ans.getFileInfoRet with
      | OK =>
        by_cases hst : ans.fInfo.filestatus ≠ FileStatus.Created ∧
            ans.fInfo.filestatus ≠ FileStatus.Cloned
        · exfalso
          unfold CreateSnapshotPre at h
          simp only [if_neg hany, if_neg hge, hret, if_pos hst] at h
          cases h
        · by_cases hadd : ans.addSnapshotRet < 0
          · exfalso
            unfold CreateSnapshotPre at h
            simp only [if_neg hany, if_neg hge, hret, if_neg hst, if_pos hadd] at h
            cases h
          · unfold CreateSnapshotPre
            simp only [if_neg hany, if_neg hge, hret, if_neg hst, if_neg hadd,
              MetaStore.AddSnapshot, and_self]
      | NOTEXIST =>
        exfalso
        unfold CreateSnapshotPre at h
        simp only [if_neg hany, if_neg hge, hret] at h
        cases h
      | AUTHFAIL =>
        exfalso
        unfold CreateSnapshotPre at h
        simp only [if_neg hany, if_neg hge, hret] at h
        cases h
      | UNDER_SNAPSHOT =>
        exfalso
        unfold CreateSnapshotPre at h
        simp only [if_neg hany, if_neg hge, hret] at h
        cases h
      | DELETING =>
        exfalso
        unfold CreateSnapshotPre at h
        simp only [if_neg hany, if_neg hge, hret] at h
        cases h
      | NOT_ALLOCATE =>
        exfalso
        unfold CreateSnapshotPre at h
        simp only [if_neg hany, if_neg hge, hret] at h
        cases h
      | other r =>
        exfalso
        unfold CreateSnapshotPre at h
        simp only [if_neg hany, if_neg hge, hret] at h
        cases h

theorem DeleteSnapshotPre_success (m : MetaStore) (ans : DeleteAnswers) (uuid : UUID)
    (user fileName : String) (snapInfo snap : SnapshotInfo)
    (hfind : m.GetSnapshotInfo uuid = some snap) (hst : snap.status = Status.done)
    (h : (DeleteSnapshotPre m ans uuid user fileName snapInfo).ret = ErrCode.Success) :
    (DeleteSnapshotPre m ans uuid user fileName snapInfo).snapInfo
      = snap.SetStatus Status.deleting ∧
    (DeleteSnapshotPre m ans uuid user fileName snapInfo).metaStore
      = m.UpdateSnapshot (snap.SetStatus Status.deleting) ans.updateSnapshotRet ∧
    ¬ ans.updateSnapshotRet < 0 := by
  by_cases huser : snap.user ≠ user
  · exfalso
    unfold DeleteSnapshotPre at h
    simp only [hfind, if_pos huser] at h
    cases h
  · by_cases hfile : fileName ≠ snap.fileName
    · exfalso
      unfold DeleteSnapshotPre at h
      simp only [hfind, if_neg huser, if_pos hfile] at h
      cases h
    · by_cases href : ans.snapshotRef > 0
      · exfalso
        unfold DeleteSnapshotPre at h
        simp only [hfind, if_neg huser, if_neg hfile, hst, if_pos href] at h
        cases h
      · by_cases hupd : ans.updateSnapshotRet < 0
        · exfalso
          unfold DeleteSnapshotPre at h
          simp only [hfind, if_neg huser, if_neg hfile, hst, if_neg href, if_pos hupd] at h
          cases h
        · unfold DeleteSnapshotPre
          simp only [hfind, if_neg huser, if_neg hfile, hst, if_neg href, if_neg hupd]
          exact ⟨trivial, trivial, hupd⟩

theorem GetSnapshotList_append_one (m : MetaStore) (info : SnapshotInfo) (file : String)
    (h : info.fileName = file) :
    MetaStore.GetSnapshotList ⟨m.records ++ [info]⟩ file = m.GetSnapshotList file ++ [info] := by
  unfold MetaStore.GetSnapshotList
  simp [List.filter_append, h]

theorem map_replace_fresh (l : List SnapshotInfo) (u : UUID) (info : SnapshotInfo)
    (h : ∀ s ∈ l, s.uuid ≠ u) :
    l.map (fun s => if s.uuid == u then info else s) = l := by
  induction l with
  | nil => rfl
  | cons a rest ih =>
    have ha : a.uuid ≠ u := h a (List.mem_cons_self _ _)
    rw [List.map_cons, ih (fun s hs => h s (List.mem_cons_of_mem _ hs))]
    simp [ha]

theorem filter_fresh (l : List SnapshotInfo) (u : UUID) (h : ∀ s ∈ l, s.uuid ≠ u) :
    l.filter (fun s => !(s.uuid == u)) = l := by
  rw [List.filter_eq_self]
  intro s hs
  simp [h s hs]

theorem GetSnapshotInfo_fresh (m : MetaStore) (u : UUID) (h : m.GetSnapshotInfo u = none) :
    ∀ s ∈ m.records, s.uuid ≠ u := by
  unfold MetaStore.GetSnapshotInfo at h
  rw [List.find?_eq_none] at h
  intro s hs
  simpa using h s hs

theorem GetSnapshotInfo_append_one (m : MetaStore) (info : SnapshotInfo)
    (h : m.GetSnapshotInfo info.uuid = none) :
    MetaStore.GetSnapshotInfo ⟨m.records ++ [info]⟩ info.uuid = some info := by
  unfold MetaStore.GetSnapshotInfo at h ⊢
  rw [List.find?_append, h]
  simp

theorem peerIndices_append (d : DataStore) (seqNum : Nat) (l1 l2 : List SnapshotInfo) :
    peerIndices d seqNum (l1 ++ l2) = peerIndices d seqNum l1 ++ peerIndices d seqNum l2 := by
  unfold peerIndices
  rw [List.filterMap_append]

theorem peerIndices_self (d : DataStore) (info : SnapshotInfo) :
    peerIndices d info.seqNum [info] = [] := by
  simp [peerIndices]

theorem peerIndices_congr (d1 d2 : DataStore) (seqNum : Nat) (l : List SnapshotInfo)
    (h : ∀ s ∈ l, s.seqNum ≠ seqNum →
      d1.GetChunkIndexData ⟨s.fileName, s.seqNum⟩ 0
        = d2.GetChunkIndexData ⟨s.fileName, s.seqNum⟩ 0) :
    peerIndices d1 seqNum l = peerIndices d2 seqNum l := by
  unfold peerIndices
  apply List.filterMap_congr
  intro s hs
  by_cases hseq : s.seqNum ≠ seqNum
  · simp only [hseq, if_true, ne_eq, not_false_eq_true]
    exact h s hs hseq
  · simp only [hseq, if_false]

theorem GetChunkIndexData_congr (d1 d2 : DataStore) (h : d1.indexData = d2.indexData)
    (name : ChunkIndexDataName) (r : Int) :
    d1.GetChunkIndexData name r = d2.GetChunkIndexData name r := by
  unfold DataStore.GetChunkIndexData
  rw [h]

theorem GetChunkIndexData_put_other (d : DataStore) (name key : ChunkIndexDataName)
    (data : ChunkIndexData) (h : key ≠ name) :
    (d.PutChunkIndexData name data 0).GetChunkIndexData key 0 = d.GetChunkIndexData key 0 := by
  unfold DataStore.GetChunkIndexData DataStore.PutChunkIndexData
  simp only [if_neg (by decide : ¬ (0 : Int) < 0)]
  rw [List.find?_append, List.find?_filter]
  have hfun : (fun a : ChunkIndexDataName × ChunkIndexData =>
      decide ((!(a.1 == name)) = true ∧ (a.1 == key) = true))
      = fun a => a.1 == key := by
    funext a
    by_cases ha : a.1 = key
    · simp [ha, h]
    · simp [ha]
  rw [hfun]
  have hne : ¬ name = key := fun he => h he.symm
  simp [hne]

theorem GetChunkIndexData_put_self (d : DataStore) (name : ChunkIndexDataName)
    (data : ChunkIndexData) :
    (d.PutChunkIndexData name data 0).GetChunkIndexData name 0 = some data := by
  unfold DataStore.GetChunkIndexData DataStore.PutChunkIndexData
  simp only [if_neg (by decide : ¬ (0 : Int) < 0)]
  rw [List.find?_append]
  have hnone : List.find? (fun e : ChunkIndexDataName × ChunkIndexData => e.1 == name)
      (d.indexData.filter (fun e => !(e.1 == name))) = none := by
    rw [List.find?_eq_none]
    intro e he
    rw [List.mem_filter] at he
    simpa using he.2
  rw [hnone]
  simp

theorem filter_put (d : DataStore) (name : ChunkIndexDataName) (data : ChunkIndexData) :
    (d.PutChunkIndexData name data 0).indexData.filter (fun e => !(e.1 == name))
      = d.indexData.filter (fun e => !(e.1 == name)) := by
  unfold DataStore.PutChunkIndexData
  simp only [if_neg (by decide : ¬ (0 : Int) < 0)]
  rw [List.filter_append, List.filter_filter]
  simp


theorem records_replace_last (m : MetaStore) (old new : SnapshotInfo)
    (hfr : ∀ s ∈ m.records, s.uuid ≠ old.uuid) :
    (m.records ++ [old]).map (fun s => if s.uuid == old.uuid then new else s)
      = m.records ++ [new] := by
  rw [List.map_append, map_replace_fresh _ _ _ hfr]
  simp

theorem records_filter_last (m : MetaStore) (old : SnapshotInfo)
    (hfr : ∀ s ∈ m.records, s.uuid ≠ old.uuid) :
    (m.records ++ [old]).filter (fun s => !(s.uuid == old.uuid)) = m.records := by
  rw [List.filter_append, filter_fresh _ _ hfr]
  simp

/-- The chunk indices of the peers are the same while the snapshot itself, with its own
sequence number and its own chunk index, is in both stores. -/
theorem peerIndices_round (d d1 : DataStore) (m : MetaStore) (file : String) (seq : Nat)
    (info : SnapshotInfo) (indexData : ChunkIndexData)
    (hfile : info.fileName = file) (hseq : info.seqNum = seq)
    (hseqs : ∀ s ∈ m.GetSnapshotList file, s.seqNum ≠ seq)
    (hd1 : d1.indexData = (d.PutChunkIndexData ⟨file, seq⟩ indexData 0).indexData) :
    peerIndices d1 seq (MetaStore.GetSnapshotList ⟨m.records ++ [info]⟩ file)
      = peerIndices d seq (m.GetSnapshotList file) := by
  rw [GetSnapshotList_append_one _ _ _ hfile, peerIndices_append]
  have hself : peerIndices d1 seq [info] = [] := by
    rw [← hseq]
    exact peerIndices_self d1 info
  rw [hself, List.append_nil]
  apply peerIndices_congr
  intro s hs hne
  rw [GetChunkIndexData_congr d1 _ hd1, GetChunkIndexData_put_other]
  intro he
  have : s.seqNum = seq := by
    have h2 := congrArg ChunkIndexDataName.fileSeqNum_ he
    exact h2
  exact hseqs s hs this


/-! ## Claims on the pipelines -/

/-- C11, as the code has it. Status lifecycle: for every uuid and every sequence of
`CreateSnapshotPre`, `DeleteSnapshotPre`, create-pipeline and delete-pipeline steps (the
pipelines run on the task of a pending snapshot, respectively of a snapshot in `deleting`
or `errorDeleting`), every change of the persisted status of the snapshot is one of:
no record to pending, pending to done, pending to error, pending to removed, done to
deleting, error to errorDeleting, deleting to removed, deleting to error, errorDeleting
to removed, errorDeleting to error. -/
theorem C11_status_lifecycle (u : UUID) (ms : List MetaStore)
    (h : ms.Chain' LifecycleStep) :
    (ms.map (fun m => m.statusOf u)).Chain'
      (fun a b => b = a ∨ lifecycleCode a b = true) := by
  rw [List.chain'_map]
  exact h.imp (fun _ _ hstep => hstep.status u)

/-- Witness of C11: `CreateSnapshotPre` on an empty store, then the create pipeline in
a quiet environment; the status of `id1` goes from no record to pending to done. -/
theorem C11_status_lifecycle_witness :
    ([(⟨[]⟩ : MetaStore), (worldOf [pendingInfo "id1"]).metaStore,
        (worldAfterD (createRun (quietEnv 10))).metaStore].map
      (fun m => m.statusOf "id1")).Chain' (fun a b => b = a ∨ lifecycleCode a b = true) ∧
    [(⟨[]⟩ : MetaStore), (worldOf [pendingInfo "id1"]).metaStore,
        (worldAfterD (createRun (quietEnv 10))).metaStore].map (fun m => m.statusOf "id1")
      = [none, some Status.pending, some Status.done] :=
  ⟨C11_status_lifecycle "id1" _
    (List.Chain'.cons
      (LifecycleStep.createPre pipeCore ⟨[]⟩
        ⟨LibcurveRet.OK, ⟨FileStatus.Created, 16, 64, 128, 7⟩, "id1", 0⟩ "/a" "u" "snap"
        (SnapshotInfo.create "" "" "" ""))
      (List.Chain'.cons
        (LifecycleStep.createTask pipeCore (quietEnv 10) 5 (taskOf (pendingInfo "id1"))
          (worldOf [pendingInfo "id1"]) PipelineExit.done
          (taskAfterD (createRun (quietEnv 10))) (worldAfterD (createRun (quietEnv 10)))
          rfl rfl (by decide) rfl)
        (List.chain'_singleton _))),
   by decide⟩

/-- Counterexample to C11 as stated: the volume client refuses to create the upstream
snapshot; the create pipeline takes the persisted status of the snapshot from pending to
error, a change the lifecycle diagram does not draw. -/
theorem C11_status_lifecycle_counterexample :
    exitOf (createRun refusedEnv) = some PipelineExit.error ∧
    (worldOf [pendingInfo "id1"]).metaStore.statusOf "id1" = some Status.pending ∧
    (worldAfterD (createRun refusedEnv)).metaStore.statusOf "id1" = some Status.error ∧
    lifecycleDrawn (some Status.pending) (some Status.error) = false := by
  decide


/-- A run of the create pipeline that leaves through its success path, on a snapshot
that has a record: the progress of the task is 100, the status is `done` both in the
task record and in the metadata store, whose record of the snapshot is the one of the
task, and `Finish` has been signalled. -/
theorem create_done_facts (core : SnapshotCoreImpl) (env : Env) (fuel : Nat)
    (t : SnapshotTaskInfo) (w : World) (t1 : SnapshotTaskInfo) (w1 : World)
    (hrun : HandleCreateSnapshotTask core env fuel t w = Except.ok (PipelineExit.done, t1, w1))
    (hrec : w.metaStore.GetSnapshotInfo t.snapshotInfo.uuid ≠ none) :
    t1.progress_ = 100 ∧ t1.snapshotInfo.status = Status.done ∧
    w1.metaStore.GetSnapshotInfo t.snapshotInfo.uuid = some t1.snapshotInfo ∧
    w1.metaStore.statusOf t.snapshotInfo.uuid = some Status.done ∧
    t1.isFinished_ = true := by
  have hf := HandleCreateSnapshotTask_facts core env fuel t w PipelineExit.done t1 w1 hrun
  obtain ⟨new, _, _, hp⟩ := hf.progress
  have hmeta : w1.metaStore = w.metaStore.UpdateSnapshot t1.snapshotInfo 0 := by
    have hrecords := hf.done_meta rfl
    cases hw : w1.metaStore
    rw [hw] at hrecords
    simp only [] at hrecords
    simp [MetaStore.UpdateSnapshot, hrecords, hf.info_uuid]
  have hget : w1.metaStore.GetSnapshotInfo t.snapshotInfo.uuid = some t1.snapshotInfo := by
    cases hfind : w.metaStore.GetSnapshotInfo t.snapshotInfo.uuid with
    | none => exact absurd hfind hrec
    | some snap =>
      rw [hmeta]
      exact GetSnapshotInfo_UpdateSnapshot _ _ snap _ 0 (by decide) hfind hf.info_uuid
  refine ⟨hp rfl, hf.status_done rfl, hget, ?_, hf.finished⟩
  unfold MetaStore.statusOf
  rw [hget]
  exact congrArg some (hf.status_done rfl)


/-- C14. Progress is monotone: in every run of the create pipeline and of the delete
pipeline that returns, the values passed to `SetProgress` are non-decreasing and lie in
[0, 100]; for an index of `n > 0` chunks the transfer-stage values
`10 + index * 89 / n` for `index < n` are non-decreasing and lie in [10, 99), and the
delete-stage values `10 + index * 70 / n` are non-decreasing and lie in [10, 80) (the
arithmetic is exact, the quotient rounded down). -/
theorem C14_progress_monotone (core : SnapshotCoreImpl) (env : Env) (fuel : Nat)
    (t : SnapshotTaskInfo) (w : World) (x : PipelineExit) (t1 : SnapshotTaskInfo) (w1 : World)
    (hrun : HandleCreateSnapshotTask core env fuel t w = Except.ok (x, t1, w1) ∨
      HandleDeleteSnapshotTask env fuel t w = Except.ok (x, t1, w1)) :
    (∃ new, t1.progressLog = t.progressLog ++ new ∧ new.Pairwise (fun a b => a ≤ b) ∧
      ∀ p ∈ new, 0 ≤ p ∧ p ≤ 100) ∧
    (∀ index n, transferProgress index n = 10 + index * 89 / n) ∧
    (∀ n, 0 < n →
      (∀ a b, a ≤ b → transferProgress a n ≤ transferProgress b n) ∧
      ∀ index, index < n → 10 ≤ transferProgress index n ∧ transferProgress index n < 99) ∧
    (∀ index n, deleteProgress index n = 10 + index * 70 / n) ∧
    (∀ n, 0 < n →
      (∀ a b, a ≤ b → deleteProgress a n ≤ deleteProgress b n) ∧
      ∀ index, index < n → 10 ≤ deleteProgress index n ∧ deleteProgress index n < 80) := by
  have hlog : ∃ new, t1.progressLog = t.progressLog ++ new ∧
      new.Pairwise (fun a b => a ≤ b) ∧ ∀ p ∈ new, 0 ≤ p ∧ p ≤ 100 := by
    rcases hrun with hrun | hrun
    · obtain ⟨new, hext, _, _⟩ :=
        (HandleCreateSnapshotTask_facts core env fuel t w x t1 w1 hrun).progress
      exact ⟨new, hext.1, hext.2.1, fun p hp => ⟨Nat.zero_le _, (hext.2.2.1 p hp).2⟩⟩
    · obtain ⟨new, hext, _, _⟩ :=
        (HandleDeleteSnapshotTask_facts env fuel t w x t1 w1 hrun).progress
      exact ⟨new, hext.1, hext.2.1, fun p hp => ⟨Nat.zero_le _, (hext.2.2.1 p hp).2⟩⟩
  exact ⟨hlog, fun _ _ => rfl,
    fun n _ => ⟨fun a b hab => transferProgress_mono n a b hab,
      fun index hi => transferProgress_bounds index n hi⟩,
    fun _ _ => rfl,
    fun n _ => ⟨fun a b hab => deleteProgress_mono n a b hab,
      fun index hi => deleteProgress_bounds index n hi⟩⟩

/-- Witness of C14: the create pipeline in a quiet environment passes 5, 6, 10, 10, 99
and 100 to `SetProgress`. -/
theorem C14_progress_monotone_witness :
    (createRun (quietEnv 10)
        = Except.ok (PipelineExit.done, taskAfterD (createRun (quietEnv 10)),
            worldAfterD (createRun (quietEnv 10))) ∨
      HandleDeleteSnapshotTask (quietEnv 10) 5 (taskOf (pendingInfo "id1"))
          (worldOf [pendingInfo "id1"])
        = Except.ok (PipelineExit.done, taskAfterD (createRun (quietEnv 10)),
            worldAfterD (createRun (quietEnv 10)))) ∧
    (taskAfterD (createRun (quietEnv 10))).progressLog = [5, 6, 10, 10, 99, 100] ∧
    ∃ new, (taskAfterD (createRun (quietEnv 10))).progressLog
        = (taskOf (pendingInfo "id1")).progressLog ++ new ∧
      new.Pairwise (fun a b => a ≤ b) ∧ ∀ p ∈ new, 0 ≤ p ∧ p ≤ 100 :=
  ⟨Or.inl rfl, by decide,
    (C14_progress_monotone pipeCore (quietEnv 10) 5 (taskOf (pendingInfo "id1"))
      (worldOf [pendingInfo "id1"]) PipelineExit.done (taskAfterD (createRun (quietEnv 10)))
      (worldAfterD (createRun (quietEnv 10))) (Or.inl rfl)).1⟩

/-- C20, as the code has it. For every run of the create pipeline or of the delete
pipeline that fails, the error handler sets the status of the snapshot to `error` and
signals `Finish`; it does not touch the progress: no value is passed to `SetProgress`
by either error handler, the run has not passed 100 to `SetProgress`, and the progress
of the task on return is the last value a stage had set before the failure. -/
theorem C20_failure_keeps_progress (core : SnapshotCoreImpl) (env : Env) (fuel : Nat)
    (t : SnapshotTaskInfo) (w : World) (t1 : SnapshotTaskInfo) (w1 : World)
    (hrun : HandleCreateSnapshotTask core env fuel t w
        = Except.ok (PipelineExit.error, t1, w1) ∨
      HandleDeleteSnapshotTask env fuel t w = Except.ok (PipelineExit.error, t1, w1)) :
    t1.snapshotInfo.status = Status.error ∧ t1.isFinished_ = true ∧
    (∃ new, t1.progressLog = t.progressLog ++ new ∧ kProgressComplete ∉ new ∧
      t1.progress_ = lastOr t.progress_ new) ∧
    (∀ t0 w0, (HandleCreateSnapshotError env t0 w0).1.progress_ = t0.progress_ ∧
      (HandleCreateSnapshotError env t0 w0).1.progressLog = t0.progressLog ∧
      (HandleDeleteSnapshotError env t0 w0).1.progress_ = t0.progress_ ∧
      (HandleDeleteSnapshotError env t0 w0).1.progressLog = t0.progressLog) := by
  rcases hrun with hrun | hrun
  · have hf := HandleCreateSnapshotTask_facts core env fuel t w PipelineExit.error t1 w1 hrun
    obtain ⟨new, hext, hnot, _⟩ := hf.progress
    exact ⟨hf.status_error rfl, hf.finished,
      ⟨new, hext.1, hnot (by decide), hext.2.2.2⟩, fun _ _ => ⟨rfl, rfl, rfl, rfl⟩⟩
  · have hf := HandleDeleteSnapshotTask_facts env fuel t w PipelineExit.error t1 w1 hrun
    obtain ⟨new, hext, hnot, _⟩ := hf.progress
    exact ⟨hf.status_error rfl, hf.finished,
      ⟨new, hext.1, hnot (by decide), hext.2.2.2⟩, fun _ _ => ⟨rfl, rfl, rfl, rfl⟩⟩

/-- Witness of C20: the data store is down; the create pipeline fails when it stores
the chunk index and returns with progress 5. -/
theorem C20_failure_keeps_progress_witness :
    (createRun storeDownEnv
        = Except.ok (PipelineExit.error, taskAfterD (createRun storeDownEnv),
            worldAfterD (createRun storeDownEnv)) ∨
      HandleDeleteSnapshotTask storeDownEnv 5 (taskOf (pendingInfo "id1"))
          (worldOf [pendingInfo "id1"])
        = Except.ok (PipelineExit.error, taskAfterD (createRun storeDownEnv),
            worldAfterD (createRun storeDownEnv))) ∧
    (taskAfterD (createRun storeDownEnv)).snapshotInfo.status = Status.error ∧
    (taskAfterD (createRun storeDownEnv)).isFinished_ = true ∧
    (taskAfterD (createRun storeDownEnv)).progressLog = [5] :=
  have h := C20_failure_keeps_progress pipeCore storeDownEnv 5 (taskOf (pendingInfo "id1"))
    (worldOf [pendingInfo "id1"]) (taskAfterD (createRun storeDownEnv))
    (worldAfterD (createRun storeDownEnv)) (Or.inl rfl)
  ⟨Or.inl rfl, h.1, h.2.1, by decide⟩

/-- Counterexample to C20 as stated: the volume client refuses to delete the upstream
snapshot at the end of the transfer stage; the create pipeline fails, the error handler
sets the status to `error` and signals `Finish`, and the progress of the task stays at
10, the last value the transfer stage had set. -/
theorem C20_failure_keeps_progress_counterexample :
    exitOf (createRun { quietEnv 10 with deleteSnapshot := fun _ => LibcurveRet.other (-1) })
      = some PipelineExit.error ∧
    (taskAfterD (createRun
      { quietEnv 10 with deleteSnapshot := fun _ => LibcurveRet.other (-1) })).snapshotInfo.status
      = Status.error ∧
    (taskAfterD (createRun
      { quietEnv 10 with deleteSnapshot := fun _ => LibcurveRet.other (-1) })).isFinished_
      = true ∧
    (taskAfterD (createRun
      { quietEnv 10 with deleteSnapshot := fun _ => LibcurveRet.other (-1) })).progress_ = 10 ∧
    (taskAfterD (createRun
      { quietEnv 10 with deleteSnapshot := fun _ => LibcurveRet.other (-1) })).progress_
      ≠ kProgressComplete := by
  decide


/-- A run of the create pipeline that returns from the end of a rollback chain with
progress 6 has gone through rollback-2: the chunk index data is deleted, the record is
deleted, `Finish` is signalled, the last three calls are the deletes of the index, of
the upstream snapshot and of the record, no call before them is a `PushTask`, and the
chunk blobs and the running transfers are as before the run. -/
theorem cancel_after_index_facts (core : SnapshotCoreImpl) (env : Env) (fuel : Nat)
    (t : SnapshotTaskInfo) (w : World) (t1 : SnapshotTaskInfo) (w1 : World)
    (hrun : HandleCreateSnapshotTask core env fuel t w
      = Except.ok (PipelineExit.canceled, t1, w1))
    (hpoint : t1.progress_ = kProgressBuildChunkIndexDataComplete) :
    w1.dataStore.ChunkIndexDataExist ⟨t.fileName_, t1.snapshotInfo.seqNum⟩ = false ∧
    w1.metaStore.GetSnapshotInfo t.uuid_ = none ∧
    t1.isFinished_ = true ∧
    (∃ pre r1 r2, ¬ r1 < 0 ∧ ¬ r2 < 0 ∧ (∀ c ∈ pre, c.isPushTask = false) ∧
      w1.calls = w.calls ++ pre ++
        [Call.DeleteChunkIndexData ⟨t.fileName_, t1.snapshotInfo.seqNum⟩ r1,
         Call.ClientDeleteSnapshot t1.snapshotInfo.fileName t1.snapshotInfo.user
          t1.snapshotInfo.seqNum,
         Call.metaStore (MetaCall.DeleteSnapshot t.uuid_) r2]) ∧
    w1.dataStore.chunkData = w.dataStore.chunkData ∧ w1.inflight = w.inflight := by
  obtain ⟨t2, wm, hu, hf, _, hcase⟩ :=
    HandleCreateSnapshotTask_canceled core env fuel t w t1 w1 hrun
  rcases hcase with ⟨hp, _, _, hroll⟩ | ⟨_, _, hq, hroll⟩ | ⟨hp, _, hroll⟩
  · obtain ⟨ht, _⟩ := hroll
    rw [ht] at hpoint
    simp only [Finish_progress, hp] at hpoint
    exact absurd hpoint (by decide)
  · have hgone := hroll.record_gone
    have habs := hroll.index_absent
    obtain ⟨ht, r1, r2, hr1, hr2, _, hd, hi, hc⟩ := hroll
    obtain ⟨hqc, hqi, pre, hpre, hno⟩ := hq
    rw [hu] at hgone
    rw [hf] at habs
    refine ⟨habs, hgone, by rw [ht]; rfl, ⟨pre, r1, r2, hr1, hr2, hno, ?_⟩, ?_, hi.trans hqi⟩
    · rw [hc, hpre, ht, hu, hf]
      rfl
    · rw [hd, DeleteChunkIndexData_chunkData, hqc]
  · obtain ⟨ht, _⟩ := hroll
    rw [ht] at hpoint
    simp only [Finish_progress, hp] at hpoint
    exact absurd hpoint (by decide)


/-- A run of the create pipeline that returns and has taken a sample at which the
flag, which stays set once it is set, was true: it does not leave through the success
path, does not pass 100 to `SetProgress`, keeps the status or sets it to `error`, makes
no snapshot `done` in the metadata store, and, when it returns from the end of a
rollback chain, has removed the record and, unless the flag was already set at
cancellation point 1, the chunk index data. -/
theorem once_canceled_facts (core : SnapshotCoreImpl) (env : Env) (fuel : Nat)
    (t : SnapshotTaskInfo) (w : World) (x : PipelineExit) (t1 : SnapshotTaskInfo) (w1 : World)
    (k : Nat)
    (hrun : HandleCreateSnapshotTask core env fuel t w = Except.ok (x, t1, w1))
    (hmono : ∀ a b, a ≤ b → env.isCanceled a = true → env.isCanceled b = true)
    (hk1 : t.cancelSamples ≤ k) (hk2 : k < t1.cancelSamples)
    (hk3 : env.isCanceled k = true) :
    x ≠ PipelineExit.done ∧
    (∃ new, t1.progressLog = t.progressLog ++ new ∧ kProgressComplete ∉ new) ∧
    (t1.snapshotInfo.status = Status.error ∨
      t1.snapshotInfo.status = t.snapshotInfo.status) ∧
    (t.snapshotInfo.status ≠ Status.done → ∀ u,
      w1.metaStore.statusOf u = some Status.done →
      w.metaStore.statusOf u = some Status.done) ∧
    (x = PipelineExit.canceled →
      w1.metaStore.GetSnapshotInfo t.uuid_ = none ∧
      (env.isCanceled t.cancelSamples = false →
        w1.dataStore.ChunkIndexDataExist ⟨t.fileName_, t1.snapshotInfo.seqNum⟩ = false)) := by
  have hf := HandleCreateSnapshotTask_facts core env fuel t w x t1 w1 hrun
  have hx : x ≠ PipelineExit.done := by
    intro hdone
    have := hf.done_sample hmono hdone k hk1 hk2
    rw [hk3] at this
    cases this
  obtain ⟨new, hext, hnot, _⟩ := hf.progress
  refine ⟨hx, ⟨new, hext.1, hnot hx⟩, ?_, ?_, ?_⟩
  · cases x with
    | done => exact absurd rfl hx
    | canceled => exact Or.inr (hf.status_canceled rfl)
    | error => exact Or.inl (hf.status_error rfl)
  · intro hst u hdone
    rcases (hf.undone hx).statusOf u with hs | ⟨_, _, hnew⟩
    · rw [← hs]
      exact hdone
    · rcases hnew with hnew | ⟨s, hS, hnew⟩
      · rw [hnew] at hdone
        cases hdone
      · rw [hnew] at hdone
        have hs : s = Status.done := Option.some.inj hdone
        rcases hS with hS | hS
        · exact absurd (hS.symm.trans hs) hst
        · rw [hS] at hs
          cases hs
  · intro hc
    subst hc
    obtain ⟨t2, wm, hu, hfn, _, hcase⟩ :=
      HandleCreateSnapshotTask_canceled core env fuel t w t1 w1 hrun
    rcases hcase with ⟨_, hflag, _, hroll⟩ | ⟨_, _, _, hroll⟩ | ⟨_, _, hroll⟩
    · refine ⟨hu ▸ hroll.recordGone1, ?_⟩
      intro hfalse
      rw [hflag] at hfalse
      cases hfalse
    · exact ⟨hu ▸ hroll.record_gone, fun _ => hfn ▸ hroll.index_absent⟩
    · exact ⟨hu ▸ hroll.record_gone, fun _ => hfn ▸ hroll.index_absent⟩


/-- C16, a run in which the code does not do what the claim says. Cancellation inverse
after stage 4: the transfer loop sees the flag after it has submitted the transfer of
chunk 2 and returns without waiting for it; cancellation point 3 sees the flag, every
rollback call succeeds and the run returns from the end of the rollback chain. The
transfer completes while rollback-3 is past chunk 2, so on return the store holds the
chunk `(/a, 3, 2)`: a chunk of this snapshot's index that no other snapshot references
(the volume has no other snapshot). -/
theorem C16_cancel_after_transfer_leaves_chunk :
    exitOf (createRun raceEnv) = some PipelineExit.canceled ∧
    (taskAfterD (createRun raceEnv)).progress_ = kProgressTransferSnapshotDataComplete ∧
    (taskAfterD (createRun raceEnv)).cancelSamples = 12 ∧ raceEnv.isCanceled 11 = true ∧
    (worldOf [pendingInfo "id1"]).metaStore.GetSnapshotList "/a" = [pendingInfo "id1"] ∧
    (worldAfterD (createRun raceEnv)).calls.map Call.isRollback
      = [false, false, false, false, true, true, true] ∧
    Call.PutChunkIndexData ⟨"/a", 10⟩ ⟨"/a", [(2, 3), (7, 3)]⟩ 0
      ∈ (worldAfterD (createRun raceEnv)).calls ∧
    Call.PushTask ⟨"/a", 3, 2⟩ ⟨2, 1, 1⟩ ∈ (worldAfterD (createRun raceEnv)).calls ∧
    (worldAfterD (createRun raceEnv)).dataStore.ChunkIndexDataExist ⟨"/a", 10⟩ = false ∧
    (worldAfterD (createRun raceEnv)).metaStore.GetSnapshotInfo "id1" = none ∧
    (taskAfterD (createRun raceEnv)).isFinished_ = true ∧
    (worldAfterD (createRun raceEnv)).dataStore.chunkData = [⟨"/a", 3, 2⟩] ∧
    (ChunkIndexData.mk "/a" [(2, 3), (7, 3)]).IsExistChunkDataName ⟨"/a", 3, 2⟩ = true := by
  decide


/-- C15, as the code has it. Dedup on delete: in every run of `HandleDeleteSnapshotTask`
that returns, the file-snapshot map holds only chunk indices of peers (snapshots of the
same volume with another sequence number), and the indices of all peers when every load
succeeds; a chunk named in an index of the map is never passed to `DeleteChunkData` and,
if the store held it, is still in the store afterwards. When the run succeeds, every
chunk of the deleted snapshot's index that no index of the map names is gone from the
store. -/
theorem C15_dedup_on_delete (env : Env) (fuel : Nat) (t : SnapshotTaskInfo) (w : World)
    (x : PipelineExit) (t1 : SnapshotTaskInfo) (w1 : World)
    (hrun : HandleDeleteSnapshotTask env fuel t w = Except.ok (x, t1, w1)) :
    (∀ d ∈ (BuildSnapshotMap env t.fileName_ t.snapshotInfo.seqNum w).2.1.maps,
      d ∈ peerIndices w.dataStore t.snapshotInfo.seqNum
        (w.metaStore.GetSnapshotList t.fileName_)) ∧
    ((∀ k, w.clock ≤ k →
        k < (BuildSnapshotMap env t.fileName_ t.snapshotInfo.seqNum w).2.2.clock →
        ¬ env.dataRet k < 0) →
      (BuildSnapshotMap env t.fileName_ t.snapshotInfo.seqNum w).2.1.maps
        = peerIndices w.dataStore t.snapshotInfo.seqNum
            (w.metaStore.GetSnapshotList t.fileName_)) ∧
    (∀ d ∈ (BuildSnapshotMap env t.fileName_ t.snapshotInfo.seqNum w).2.1.maps,
      ∀ c, d.IsExistChunkDataName c = true →
        (∃ new, w1.calls = w.calls ++ new ∧ ∀ ret, Call.DeleteChunkData c ret ∉ new) ∧
        (c ∈ w.dataStore.chunkData → c ∈ w1.dataStore.chunkData)) ∧
    (x = PipelineExit.done → ∀ indexData,
      w.dataStore.GetChunkIndexData ⟨t.fileName_, t.snapshotInfo.seqNum⟩ 0 = some indexData →
      ∀ c, indexData.IsExistChunkDataName c = true →
        (BuildSnapshotMap env t.fileName_ t.snapshotInfo.seqNum w).2.1.IsExistChunk c = false →
        c ∉ w1.dataStore.chunkData) := by
  obtain ⟨hkept, hdone⟩ := HandleDeleteSnapshotTask_store env fuel t w x t1 w1 hrun
  refine ⟨?_, ?_, ?_, ?_⟩
  · intro d hd
    rcases buildSnapshotMapLoop_subset env t.snapshotInfo.seqNum
      (w.metaStore.GetSnapshotList t.fileName_) ⟨[]⟩ w d hd with h | h
    · exact absurd h (List.not_mem_nil d)
    · exact h
  · intro hload
    have := buildSnapshotMapLoop_maps env t.snapshotInfo.seqNum
      (w.metaStore.GetSnapshotList t.fileName_) ⟨[]⟩ w hload
    simpa using this
  · intro d hd c hc
    have hfsm : (BuildSnapshotMap env t.fileName_ t.snapshotInfo.seqNum w).2.1.IsExistChunk c
        = true := by
      unfold FileSnapMap.IsExistChunk
      rw [List.any_eq_true]
      exact ⟨d, hd, hc⟩
    obtain ⟨_, _, hk, new, hcalls, hdel⟩ := hkept
    refine ⟨⟨new, hcalls, ?_⟩, fun hmem => hk c hmem (Or.inl hfsm)⟩
    intro ret hmem
    have := hdel c ret hmem
    rw [hfsm] at this
    cases this
  · intro hx indexData hown c hc hfalse
    exact (hdone hx).1 c ((mem_ownChunkNames _ _ indexData hown c).mpr hc) hfalse

/-- Witness of C15: `s1` (sequence number 5) and `s2` (sequence number 10) both name the
chunk `(/a, 3, 7)`. Deleting `s2` leaves the chunk in the store; deleting `s1` afterwards
removes it. -/
theorem C15_dedup_on_delete_witness :
    deleteRun (quietEnv 10) (snapOf "s2" 10 Status.deleting) sharedWorld
      = Except.ok (PipelineExit.done,
          taskAfterD (deleteRun (quietEnv 10) (snapOf "s2" 10 Status.deleting) sharedWorld),
          worldAfterD (deleteRun (quietEnv 10) (snapOf "s2" 10 Status.deleting) sharedWorld)) ∧
    ((∃ new,
        (worldAfterD (deleteRun (quietEnv 10) (snapOf "s2" 10 Status.deleting)
          sharedWorld)).calls = sharedWorld.calls ++ new ∧
        ∀ ret, Call.DeleteChunkData ⟨"/a", 3, 7⟩ ret ∉ new) ∧
      ((⟨"/a", 3, 7⟩ : ChunkDataName) ∈ sharedWorld.dataStore.chunkData →
        (⟨"/a", 3, 7⟩ : ChunkDataName) ∈
          (worldAfterD (deleteRun (quietEnv 10) (snapOf "s2" 10 Status.deleting)
            sharedWorld)).dataStore.chunkData)) ∧
    (worldAfterD (deleteRun (quietEnv 10) (snapOf "s2" 10 Status.deleting)
      sharedWorld)).dataStore.chunkData = [⟨"/a", 3, 7⟩] ∧
    sharedWorldLater.metaStore.records = [snapOf "s1" 5 Status.deleting] ∧
    exitOf (deleteRun (quietEnv 10) (snapOf "s1" 5 Status.deleting) sharedWorldLater)
      = some PipelineExit.done ∧
    (worldAfterD (deleteRun (quietEnv 10) (snapOf "s1" 5 Status.deleting)
      sharedWorldLater)).dataStore.chunkData = [] :=
  ⟨rfl,
    (C15_dedup_on_delete (quietEnv 10) 5 (taskOf (snapOf "s2" 10 Status.deleting)) sharedWorld
      PipelineExit.done
      (taskAfterD (deleteRun (quietEnv 10) (snapOf "s2" 10 Status.deleting) sharedWorld))
      (worldAfterD (deleteRun (quietEnv 10) (snapOf "s2" 10 Status.deleting) sharedWorld))
      rfl).2.2.1 ⟨"/a", [(7, 3)]⟩ (by decide) ⟨"/a", 3, 7⟩ (by decide),
    by decide, by decide, by decide, by decide⟩

/-- Counterexample to C15 as stated: the only snapshot of the volume is deleted, its
index names the chunk `(/a, 3, 7)`, no peer references it and the store holds it, but
the store refuses the `DeleteChunkData`; the run ends in the error handler and the chunk
is still in the store. -/
theorem C15_dedup_on_delete_counterexample :
    exitOf (deleteRun chunkDeleteFailsEnv (snapOf "s1" 5 Status.deleting) loneWorld)
      = some PipelineExit.error ∧
    loneWorld.dataStore.GetChunkIndexData ⟨"/a", 5⟩ 0 = some ⟨"/a", [(7, 3)]⟩ ∧
    (ChunkIndexData.mk "/a" [(7, 3)]).IsExistChunkDataName ⟨"/a", 3, 7⟩ = true ∧
    (BuildSnapshotMap chunkDeleteFailsEnv "/a" 5 loneWorld).2.1.IsExistChunk ⟨"/a", 3, 7⟩
      = false ∧
    loneWorld.dataStore.ChunkDataExist ⟨"/a", 3, 7⟩ = true ∧
    (worldAfterD (deleteRun chunkDeleteFailsEnv (snapOf "s1" 5 Status.deleting)
      loneWorld)).dataStore.ChunkDataExist ⟨"/a", 3, 7⟩ = true := by
  decide


/-- C18, as the code has it. Create/delete round trip: a successful `CreateSnapshotPre`
and create pipeline followed by a successful `DeleteSnapshotPre` and delete pipeline on
the returned uuid, where the uuid is fresh, the new sequence number differs from the ones
of the other snapshots of the volume, the cancel flag stays set once it is set, and the
data store answers every call of both pipelines with success (the loads of the peer
indices included): the metadata store is as before the create, the data store has no chunk index
under the key of the snapshot and every other chunk index as before, no chunk transfer
is left running, and the store holds exactly the chunks it held before except those that
only the index of this snapshot names; a chunk that an index of a peer names is in the
store if and only if it was there before. -/
theorem C18_round_trip (core : SnapshotCoreImpl) (w : World) (ansC : CreateAnswers)
    (file user snapshotName : String) (snapInfo snapInfoD : SnapshotInfo) (pre : PreResult)
    (envC : Env) (fuelC : Nat) (t1 : SnapshotTaskInfo) (w1 : World) (ansD : DeleteAnswers)
    (del : PreResult) (envD : Env) (fuelD : Nat) (t2 : SnapshotTaskInfo) (w2 : World)
    (hpre : CreateSnapshotPre core w.metaStore ansC file user snapshotName snapInfo = pre)
    (hpreOk : pre.ret = ErrCode.Success)
    (hcreate : HandleCreateSnapshotTask core envC fuelC (taskOf pre.snapInfo)
      { w with metaStore := pre.metaStore } = Except.ok (PipelineExit.done, t1, w1))
    (hdel : DeleteSnapshotPre w1.metaStore ansD pre.snapInfo.uuid user file snapInfoD = del)
    (hdelOk : del.ret = ErrCode.Success)
    (hdelete : HandleDeleteSnapshotTask envD fuelD (taskOf del.snapInfo)
      { w1 with metaStore := del.metaStore } = Except.ok (PipelineExit.done, t2, w2))
    (hfresh : w.metaStore.GetSnapshotInfo ansC.uuid = none)
    (hseqs : ∀ s ∈ w.metaStore.GetSnapshotList file, s.seqNum ≠ t1.snapshotInfo.seqNum)
    (hsticky : ∀ a b, a ≤ b → envC.isCanceled a = true → envC.isCanceled b = true)
    (hloadC : ∀ k, ¬ envC.dataRet k < 0) (hloadD : ∀ k, ¬ envD.dataRet k < 0) :
    w2.metaStore = w.metaStore ∧
    w2.metaStore.GetSnapshotInfo pre.snapInfo.uuid = none ∧
    w2.dataStore.ChunkIndexDataExist ⟨file, t1.snapshotInfo.seqNum⟩ = false ∧
    w2.dataStore.indexData = w.dataStore.indexData.filter
      (fun e => !(e.1 == (⟨file, t1.snapshotInfo.seqNum⟩ : ChunkIndexDataName))) ∧
    w2.inflight = w.inflight ∧
    ∃ indexData,
      w1.dataStore.GetChunkIndexData ⟨file, t1.snapshotInfo.seqNum⟩ 0 = some indexData ∧
      ∀ c, c ∈ w2.dataStore.chunkData ↔
        c ∈ w.dataStore.chunkData ∧
        (indexData.IsExistChunkDataName c = true →
          FileSnapMap.IsExistChunk
            ⟨peerIndices w.dataStore t1.snapshotInfo.seqNum
              (w.metaStore.GetSnapshotList file)⟩ c = true) := by
  subst hpre
  obtain ⟨hN0, hM0⟩ := CreateSnapshotPre_success core w.metaStore ansC file user snapshotName
    snapInfo hpreOk
  rw [hN0, hM0] at hcreate
  rw [hN0] at hdel
  rw [hN0]
  have hfr := GetSnapshotInfo_fresh w.metaStore ansC.uuid hfresh
  -- the create pipeline
  have hcf := HandleCreateSnapshotTask_facts core envC fuelC _ _ _ _ _ hcreate
  obtain ⟨indexData, info1, hu1, hf1, _, _, ht1, hidx1, hinf1, hgrow⟩ :=
    HandleCreateSnapshotTask_done core envC fuelC _ _ _ _ hsticky hloadC rfl hcreate
  have hu1a : info1.uuid = ansC.uuid := hu1
  have hf1a : info1.fileName = file := hf1
  have hseq1 : info1.seqNum = t1.snapshotInfo.seqNum := by rw [ht1]; rfl
  have hut1 : t1.snapshotInfo.uuid = ansC.uuid := hcf.info_uuid
  have hft1 : t1.snapshotInfo.fileName = file := by rw [ht1]; exact hf1a
  rw [hseq1] at hidx1 hgrow
  have hidx1a : w1.dataStore.indexData
      = (w.dataStore.PutChunkIndexData ⟨file, t1.snapshotInfo.seqNum⟩ indexData 0).indexData :=
    hidx1
  have hinf1a : w1.inflight = w.inflight := hinf1
  have hm1 : w1.metaStore.records = w.metaStore.records ++ [t1.snapshotInfo] :=
    (hcf.done_meta rfl).trans (records_replace_last w.metaStore
      ((SnapshotInfo.create ansC.uuid user file snapshotName).SetStatus Status.pending)
      t1.snapshotInfo hfr)
  have hm1a : w1.metaStore = ⟨w.metaStore.records ++ [t1.snapshotInfo]⟩ := by
    cases hw : w1.metaStore
    rw [hw] at hm1
    simp only [] at hm1
    rw [hm1]
  have hfrt : ∀ s ∈ w.metaStore.records, s.uuid ≠ t1.snapshotInfo.uuid := by
    rw [hut1]
    exact hfr
  -- the peers as the create pipeline sees them
  have hpeersC : peerIndices
      (w.dataStore.PutChunkIndexData ⟨file, t1.snapshotInfo.seqNum⟩ indexData 0)
      t1.snapshotInfo.seqNum
      ((MetaStore.UpdateSnapshot ⟨w.metaStore.records ++
          [(SnapshotInfo.create ansC.uuid user file snapshotName).SetStatus Status.pending]⟩
          info1 0).GetSnapshotList file)
      = peerIndices w.dataStore t1.snapshotInfo.seqNum (w.metaStore.GetSnapshotList file) := by
    have hupdC : MetaStore.UpdateSnapshot ⟨w.metaStore.records ++
          [(SnapshotInfo.create ansC.uuid user file snapshotName).SetStatus Status.pending]⟩
          info1 0 = ⟨w.metaStore.records ++ [info1]⟩ := by
      unfold MetaStore.UpdateSnapshot
      rw [if_neg (by decide), hu1a]
      exact congrArg MetaStore.mk (records_replace_last w.metaStore
        ((SnapshotInfo.create ansC.uuid user file snapshotName).SetStatus Status.pending)
        info1 hfr)
    rw [hupdC]
    exact peerIndices_round w.dataStore _ w.metaStore file t1.snapshotInfo.seqNum info1
      indexData hf1a hseq1 hseqs rfl
  have hgrowa : Grown (fun c => indexData.IsExistChunkDataName c = true ∧
      FileSnapMap.IsExistChunk
        ⟨peerIndices w.dataStore t1.snapshotInfo.seqNum (w.metaStore.GetSnapshotList file)⟩ c
        = false) w w1 := by
    rw [← hpeersC]
    exact hgrow
  -- the call of DeleteSnapshotPre
  subst hdel
  have hfind1 : w1.metaStore.GetSnapshotInfo ansC.uuid = some t1.snapshotInfo := by
    rw [hm1a, ← hut1]
    apply GetSnapshotInfo_append_one
    rw [hut1]
    exact hfresh
  obtain ⟨hNd, hMd, hupd⟩ := DeleteSnapshotPre_success w1.metaStore ansD
    ((SnapshotInfo.create ansC.uuid user file snapshotName).SetStatus Status.pending).uuid
    user file snapInfoD t1.snapshotInfo hfind1 (hcf.status_done rfl) hdelOk
  rw [hNd, hMd] at hdelete
  have hmd : w1.metaStore.UpdateSnapshot (t1.snapshotInfo.SetStatus Status.deleting)
      ansD.updateSnapshotRet
      = ⟨w.metaStore.records ++ [t1.snapshotInfo.SetStatus Status.deleting]⟩ := by
    unfold MetaStore.UpdateSnapshot
    rw [if_neg hupd, hm1]
    exact congrArg MetaStore.mk (records_replace_last w.metaStore t1.snapshotInfo
      (t1.snapshotInfo.SetStatus Status.deleting) hfrt)
  rw [hmd] at hdelete
  -- the delete pipeline
  have hdf := HandleDeleteSnapshotTask_facts envD fuelD _ _ _ _ _ hdelete
  obtain ⟨hkept, hdoneD⟩ := HandleDeleteSnapshotTask_store envD fuelD _ _ _ _ _ hdelete
  obtain ⟨hgone, hidx2⟩ := hdoneD rfl
  have hname : (⟨(taskOf (t1.snapshotInfo.SetStatus Status.deleting)).fileName_,
      (taskOf (t1.snapshotInfo.SetStatus Status.deleting)).snapshotInfo.seqNum⟩ :
        ChunkIndexDataName) = ⟨file, t1.snapshotInfo.seqNum⟩ := by
    show (⟨t1.snapshotInfo.fileName, t1.snapshotInfo.seqNum⟩ : ChunkIndexDataName) = _
    rw [hft1]
  have hmeta2 : w2.metaStore = w.metaStore := by
    have h1 := hdf.done_meta rfl
    have h2 : w2.metaStore.records = w.metaStore.records :=
      h1.trans (records_filter_last w.metaStore (t1.snapshotInfo.SetStatus Status.deleting)
        hfrt)
    cases hw2 : w2.metaStore
    cases hw0 : w.metaStore
    rw [hw2, hw0] at h2
    simp only [] at h2
    rw [h2]
  have hidx2a : w2.dataStore.indexData = w.dataStore.indexData.filter
      (fun e => !(e.1 == (⟨file, t1.snapshotInfo.seqNum⟩ : ChunkIndexDataName))) := by
    rw [hidx2, hname]
    show w1.dataStore.indexData.filter _ = _
    rw [hidx1a, filter_put]
  have hown : w1.dataStore.GetChunkIndexData ⟨file, t1.snapshotInfo.seqNum⟩ 0
      = some indexData := by
    rw [GetChunkIndexData_congr w1.dataStore _ hidx1a, GetChunkIndexData_put_self]
  have hfsmD : ∀ c,
      (BuildSnapshotMap envD (taskOf (t1.snapshotInfo.SetStatus Status.deleting)).fileName_
        (taskOf (t1.snapshotInfo.SetStatus Status.deleting)).snapshotInfo.seqNum
        { w1 with metaStore :=
            ⟨w.metaStore.records ++ [t1.snapshotInfo.SetStatus Status.deleting]⟩ }).2.1.IsExistChunk
        c
      = FileSnapMap.IsExistChunk
          ⟨peerIndices w.dataStore t1.snapshotInfo.seqNum (w.metaStore.GetSnapshotList file)⟩
          c := by
    intro c
    rw [BuildSnapshotMap_IsExistChunk envD _ _ _ hloadD c]
    show FileSnapMap.IsExistChunk ⟨peerIndices w1.dataStore t1.snapshotInfo.seqNum
      (MetaStore.GetSnapshotList
        ⟨w.metaStore.records ++ [t1.snapshotInfo.SetStatus Status.deleting]⟩
        t1.snapshotInfo.fileName)⟩ c = _
    rw [hft1, peerIndices_round w.dataStore w1.dataStore w.metaStore file
      t1.snapshotInfo.seqNum (t1.snapshotInfo.SetStatus Status.deleting) indexData hft1 rfl
      hseqs hidx1a]
  have hnames : ∀ c, c ∈ ownChunkNames w1.dataStore
      ⟨(taskOf (t1.snapshotInfo.SetStatus Status.deleting)).fileName_,
        (taskOf (t1.snapshotInfo.SetStatus Status.deleting)).snapshotInfo.seqNum⟩
      ↔ indexData.IsExistChunkDataName c = true := by
    intro c
    rw [hname]
    exact mem_ownChunkNames w1.dataStore _ indexData hown c
  refine ⟨hmeta2, ?_, ?_, hidx2a, hkept.1.trans hinf1a, indexData, hown, ?_⟩
  · rw [hmeta2]
    exact hfresh
  · unfold DataStore.ChunkIndexDataExist
    rw [hidx2a, Bool.eq_false_iff]
    intro hany
    rw [List.any_eq_true] at hany
    obtain ⟨e, he, hk⟩ := hany
    rw [List.mem_filter] at he
    simp [hk] at he
  · intro c
    constructor
    · intro hc
      have hc1 : c ∈ w1.dataStore.chunkData := hkept.2.1 c hc
      have himp : indexData.IsExistChunkDataName c = true →
          FileSnapMap.IsExistChunk
            ⟨peerIndices w.dataStore t1.snapshotInfo.seqNum
              (w.metaStore.GetSnapshotList file)⟩ c = true := by
        intro hnamed
        by_contra hnot
        have hfalse : FileSnapMap.IsExistChunk
            ⟨peerIndices w.dataStore t1.snapshotInfo.seqNum
              (w.metaStore.GetSnapshotList file)⟩ c = false := by
          simpa using hnot
        exact hgone c ((hnames c).mpr hnamed) ((hfsmD c).trans hfalse) hc
      refine ⟨?_, himp⟩
      rcases hgrowa.2 c hc1 with h | h
      · exact h
      · have := himp h.1
        rw [h.2] at this
        cases this
    · rintro ⟨hc, himp⟩
      have hc1 : c ∈ w1.dataStore.chunkData := hgrowa.1 c hc
      apply hkept.2.2.1 c hc1
      by_cases hnamed : indexData.IsExistChunkDataName c = true
      · exact Or.inl ((hfsmD c).trans (himp hnamed))
      · exact Or.inr (fun hmem => hnamed ((hnames c).mp hmem))


/-- Witness for C18: on `peerWorld` the snapshot `id1` of `/a` is created in
`twoChunkEnv` (its index names the chunk `(/a, 10, 2)` of its own and the chunk
`(/a, 3, 7)` of the peer `s1`) and deleted again in a quiet environment; the metadata
store, the chunk indices and the chunks are those of `peerWorld`. -/
theorem C18_round_trip_witness :
    roundPre.ret = ErrCode.Success ∧
    exitOf roundCreate = some PipelineExit.done ∧
    (worldAfterD roundCreate).dataStore.chunkData = [⟨"/a", 3, 7⟩, ⟨"/a", 10, 2⟩] ∧
    roundDel.ret = ErrCode.Success ∧
    exitOf (roundDelete (quietEnv 10)) = some PipelineExit.done ∧
    ((worldAfterD (roundDelete (quietEnv 10))).metaStore = peerWorld.metaStore ∧
      (worldAfterD (roundDelete (quietEnv 10))).metaStore.GetSnapshotInfo roundPre.snapInfo.uuid
        = none ∧
      (worldAfterD (roundDelete (quietEnv 10))).dataStore.ChunkIndexDataExist
        ⟨"/a", (taskAfterD roundCreate).snapshotInfo.seqNum⟩ = false ∧
      (worldAfterD (roundDelete (quietEnv 10))).dataStore.indexData
        = peerWorld.dataStore.indexData.filter
          (fun e => !(e.1 == (⟨"/a", (taskAfterD roundCreate).snapshotInfo.seqNum⟩ :
            ChunkIndexDataName))) ∧
      (worldAfterD (roundDelete (quietEnv 10))).inflight = peerWorld.inflight ∧
      ∃ indexData,
        (worldAfterD roundCreate).dataStore.GetChunkIndexData
          ⟨"/a", (taskAfterD roundCreate).snapshotInfo.seqNum⟩ 0 = some indexData ∧
        ∀ c, c ∈ (worldAfterD (roundDelete (quietEnv 10))).dataStore.chunkData ↔
          c ∈ peerWorld.dataStore.chunkData ∧
          (indexData.IsExistChunkDataName c = true →
            FileSnapMap.IsExistChunk
              ⟨peerIndices peerWorld.dataStore (taskAfterD roundCreate).snapshotInfo.seqNum
                (peerWorld.metaStore.GetSnapshotList "/a")⟩ c = true)) ∧
    (worldAfterD (roundDelete (quietEnv 10))).dataStore.chunkData = [⟨"/a", 3, 7⟩] :=
  ⟨by decide, by decide, by decide, by decide, by decide,
    C18_round_trip pipeCore peerWorld roundAnswers "/a" "u" "snap"
      (SnapshotInfo.create "" "" "" "") (SnapshotInfo.create "" "" "" "") roundPre
      twoChunkEnv 5 (taskAfterD roundCreate) (worldAfterD roundCreate) ⟨0, 0⟩ roundDel
      (quietEnv 10) 5 (taskAfterD (roundDelete (quietEnv 10)))
      (worldAfterD (roundDelete (quietEnv 10)))
      rfl (by decide) rfl rfl (by decide) rfl (by decide) (by decide) (fun _ _ _ h => h)
      (fun _ => (by decide : ¬ (0 : Int) < 0)) (fun _ => (by decide : ¬ (0 : Int) < 0)),
    by decide⟩

/-- Counterexample to C18 as stated: the round trip of the witness, with the one
difference that during the delete pipeline the data store fails to load the chunk index
of the peer `s1` (tick 11 of the clock, the call of `GetChunkIndexData` in
`BuildSnapshotMap`, which goes on without that index). Both precondition calls return
`Success` and both pipelines end at `done`; the peer `s1` and its index are in the
stores as before, but the chunk `(/a, 3, 7)` that the index of `s1` names, and that the
store held before the create, is gone. -/
theorem C18_round_trip_counterexample :
    roundPre.ret = ErrCode.Success ∧
    exitOf roundCreate = some PipelineExit.done ∧
    (worldAfterD roundCreate).clock = 11 ∧
    roundDel.ret = ErrCode.Success ∧
    exitOf (roundDelete (dataFailsAt 11)) = some PipelineExit.done ∧
    (worldAfterD (roundDelete (dataFailsAt 11))).metaStore.records
      = [snapOf "s1" 5 Status.done] ∧
    (worldAfterD (roundDelete (dataFailsAt 11))).dataStore.GetChunkIndexData ⟨"/a", 5⟩ 0
      = some ⟨"/a", [(7, 3)]⟩ ∧
    (ChunkIndexData.mk "/a" [(7, 3)]).IsExistChunkDataName ⟨"/a", 3, 7⟩ = true ∧
    peerWorld.dataStore.ChunkDataExist ⟨"/a", 3, 7⟩ = true ∧
    (worldAfterD (roundDelete (dataFailsAt 11))).dataStore.ChunkDataExist ⟨"/a", 3, 7⟩
      = false := by
  decide


/-! ## Auxiliary facts on the stages: `DeleteSnapshotOnCurvefs` -/

/-- The polling loop goes on while the answers are `OK` with status `Deleting`. -/
theorem pollSnapShotStatus_goes_on (env : Env) :
    ∀ (n fuel : Nat) (w : World), n < fuel →
      (∀ k, k < n →
        env.checkSnapShotStatus (w.clock + k) = (LibcurveRet.OK, FileStatus.Deleting)) →
      pollSnapShotStatus env fuel w
        = pollSnapShotStatus env (fuel - n) { w with clock := w.clock + n } := by
  intro n
  induction n with
  | zero => intro fuel w _ _; rfl
  | succ n ih =>
    intro fuel w hlt hall
    obtain ⟨f, rfl⟩ : ∃ f, fuel = f + 1 := ⟨fuel - 1, by omega⟩
    have h0 := hall 0 (by omega)
    simp only [Nat.add_zero] at h0
    rw [pollSnapShotStatus]
    simp only [h0, ne_eq, not_true_eq_false, if_false]
    rw [ih f { w with clock := w.clock + 1 } (by omega)
      (fun k hk => by
        have := hall (k + 1) (by omega)
        simp only [] 
        rw [← this]
        congr 1
        omega)]
    have hf : f + 1 - (n + 1) = f - n := by omega
    have hc : w.clock + 1 + n = w.clock + (n + 1) := by omega
    simp only [hf, hc]

/-- The polling loop does not return while the fuel lasts if every answer is `OK` with
status `Deleting`. -/
theorem pollSnapShotStatus_out_of_fuel (env : Env) :
    ∀ (fuel : Nat) (w : World),
      (∀ k, k < fuel →
        env.checkSnapShotStatus (w.clock + k) = (LibcurveRet.OK, FileStatus.Deleting)) →
      pollSnapShotStatus env fuel w = Except.error Abort.pollOutOfFuel := by
  intro fuel
  induction fuel with
  | zero => intro w _; rfl
  | succ f ih =>
    intro w hall
    have h0 := hall 0 (by omega)
    simp only [Nat.add_zero] at h0
    rw [pollSnapShotStatus]
    simp only [h0, ne_eq, not_true_eq_false, if_false]
    apply ih
    intro k hk
    have := hall (k + 1) (by omega)
    simp only []
    rw [← this]
    congr 1
    omega


/-! ## Auxiliary facts on the stages: `TransferSnapshotData` -/

theorem checkedDiv_ok (a b : Nat) (hb : b ≠ 0) : checkedDiv a b = Except.ok (a / b) := by
  unfold checkedDiv
  rw [if_neg hb]

theorem checkedMod_ok (a b : Nat) (hb : b ≠ 0) : checkedMod a b = Except.ok (a % b) := by
  unfold checkedMod
  rw [if_neg hb]

/-- The validation loop leaves the function with `InternalError` only. -/
theorem validateLoop_code (segInfos : List (Nat × SegmentInfo)) (cps : Nat) :
    ∀ (l : List Nat) (code : ErrCode),
      validateLoop segInfos cps l = Except.ok (Flow.ret code) →
      code = kErrCodeInternalError := by
  intro l
  induction l with
  | nil => intro code h; simp [validateLoop] at h
  | cons ci rest ih =>
    intro code h
    unfold validateLoop at h
    split at h
    · cases h
    · split at h
      · simp only [Except.ok.injEq, Flow.ret.injEq] at h
        exact h.symm
      · split at h
        · cases h
        · split at h
          · simp only [Except.ok.injEq, Flow.ret.injEq] at h
            exact h.symm
          · exact ih code h

/-- The transfer loop leaves the function with the negative result of the tracker or,
after a cancel, with `Success`. -/
theorem transferLoop_code (core : SnapshotCoreImpl) (env : Env) (indexData : ChunkIndexData)
    (segInfos : List (Nat × SegmentInfo)) (filter : ChunkDataName → Bool) (cps total : Nat) :
    ∀ (l : List Nat) (index : Nat) (tr : TaskTracker) (t : SnapshotTaskInfo) (w : World)
      (code : ErrCode),
      (transferLoop core env indexData segInfos filter cps total l index tr t w).1
        = Flow.ret code →
      code = kErrCodeSuccess ∨ ∃ r : Int, r < 0 ∧ code = ErrCode.passThrough r := by
  intro l
  induction l with
  | nil => intro index tr t w code h; simp [transferLoop] at h
  | cons ci rest ih =>
    intro index tr t w code h
    unfold transferLoop at h
    simp only [] at h
    split at h
    · rename_i hneg
      simp only [Flow.ret.injEq] at h
      exact Or.inr ⟨_, hneg, h.symm⟩
    · split at h
      · simp only [Flow.ret.injEq] at h
        exact Or.inl h.symm
      · exact ih _ _ _ _ code h


/-- With a divisor other than 0 the validation loop passes exactly if every chunk index
maps to a segment of `segInfos` and to a slot of its `chunkvec`. -/
theorem validateLoop_pass (segInfos : List (Nat × SegmentInfo)) (cps : Nat) (hq : cps ≠ 0) :
    ∀ (l : List Nat),
      validateLoop segInfos cps l = Except.ok Flow.next ↔
        ∀ ci ∈ l, ∃ it, segInfos.find? (fun e => e.1 == ci / cps) = some it ∧
          ci % cps < it.2.chunkvec.length := by
  intro l
  induction l with
  | nil => simp [validateLoop]
  | cons ci rest ih =>
    unfold validateLoop
    rw [checkedDiv_ok _ _ hq]
    simp only []
    cases hfind : segInfos.find? (fun e => e.1 == ci / cps) with
    | none =>
      simp only []
      constructor
      · intro h
        cases h
      · intro h
        obtain ⟨it, hit, _⟩ := h ci (List.mem_cons_self _ _)
        rw [hfind] at hit
        cases hit
    | some it =>
      simp only []
      rw [checkedMod_ok _ _ hq]
      simp only []
      by_cases hlen : ci % cps ≥ it.2.chunkvec.length
      · rw [if_pos hlen]
        constructor
        · intro h
          cases h
        · intro h
          obtain ⟨it2, hit, hlt⟩ := h ci (List.mem_cons_self _ _)
          rw [hfind] at hit
          cases hit
          omega
      · rw [if_neg hlen, ih]
        constructor
        · intro h c hc
          rcases List.mem_cons.mp hc with rfl | hc
          · exact ⟨it, hfind, by omega⟩
          · exact h c hc
        · intro h c hc
          exact h c (List.mem_cons_of_mem _ hc)

/-- With a divisor other than 0 the validation loop returns: it passes or it leaves
with `InternalError`. -/
theorem validateLoop_total (segInfos : List (Nat × SegmentInfo)) (cps : Nat) (hq : cps ≠ 0) :
    ∀ (l : List Nat),
      validateLoop segInfos cps l = Except.ok Flow.next ∨
      validateLoop segInfos cps l = Except.ok (Flow.ret kErrCodeInternalError) := by
  intro l
  induction l with
  | nil => left; rfl
  | cons ci rest ih =>
    unfold validateLoop
    rw [checkedDiv_ok _ _ hq]
    simp only []
    cases hfind : segInfos.find? (fun e => e.1 == ci / cps) with
    | none => right; rfl
    | some it =>
      simp only []
      rw [checkedMod_ok _ _ hq]
      simp only []
      by_cases hlen : ci % cps ≥ it.2.chunkvec.length
      · rw [if_pos hlen]
        right
        rfl
      · rw [if_neg hlen]
        exact ih


theorem checkedDiv_eq (a b n : Nat) (h : checkedDiv a b = Except.ok n) :
    b ≠ 0 ∧ n = a / b := by
  unfold checkedDiv at h
  split at h
  · cases h
  · rename_i hb
    simp only [Except.ok.injEq] at h
    exact ⟨hb, h.symm⟩

theorem checkedMod_eq (a b n : Nat) (h : checkedMod a b = Except.ok n) :
    b ≠ 0 ∧ n = a % b := by
  unfold checkedMod at h
  split at h
  · cases h
  · rename_i hb
    simp only [Except.ok.injEq] at h
    exact ⟨hb, h.symm⟩

/-- A validation that passes has found, for every chunk index, its segment in `segInfos`
and its slot in the `chunkvec` of the segment. -/
theorem validateLoop_next (segInfos : List (Nat × SegmentInfo)) (cps : Nat) :
    ∀ (l : List Nat), validateLoop segInfos cps l = Except.ok Flow.next →
      ∀ ci ∈ l, ∃ it, segInfos.find? (fun e => e.1 == ci / cps) = some it ∧
        ci % cps < it.2.chunkvec.length := by
  intro l
  induction l with
  | nil => intro _ ci hci; cases hci
  | cons c rest ih =>
    intro h ci hci
    unfold validateLoop at h
    split at h
    · cases h
    · rename_i segNum hdiv
      obtain ⟨hq, hseg⟩ := checkedDiv_eq _ _ _ hdiv
      subst hseg
      rw [validateLoop_pass segInfos cps hq] at ih
      have hall : ∀ ci ∈ c :: rest, ∃ it,
          segInfos.find? (fun e => e.1 == ci / cps) = some it ∧
            ci % cps < it.2.chunkvec.length := by
        rw [← validateLoop_pass segInfos cps hq]
        unfold validateLoop
        rw [hdiv]
        exact h
      exact hall ci hci

theorem settleOne_calls (env : Env) (tr : TaskTracker) (w : World) :
    (settleOne env tr w).2.calls = w.calls := by
  unfold settleOne
  split <;> rfl

theorem settleN_calls (env : Env) : ∀ (n : Nat) (tr : TaskTracker) (w : World),
    (settleN env n tr w).2.calls = w.calls := by
  intro n
  induction n with
  | zero => intro tr w; rfl
  | succ n ih =>
    intro tr w
    unfold settleN
    rw [ih, settleOne_calls]

theorem observeTracker_calls (core : SnapshotCoreImpl) (env : Env) (tr : TaskTracker)
    (w : World) : (observeTracker core env tr w).2.calls = w.calls := by
  unfold observeTracker TaskTracker.progressAlone TaskTracker.WaitSome
  split
  · rw [settleN_calls, settleN_calls]
  · rw [settleN_calls]

/-- The submission step hands the chunk to the worker pool exactly if the filter does not
hold of its name. -/
theorem submitTransfer_calls (indexData : ChunkIndexData) (segInfos : List (Nat × SegmentInfo))
    (filter : ChunkDataName → Bool) (cps ci : Nat) (tr : TaskTracker) (w : World)
    (it : Nat × SegmentInfo)
    (hfind : segInfos.find? (fun e => e.1 == ci / cps) = some it) :
    (submitTransfer indexData segInfos filter cps ci tr w).2.calls
      = w.calls ++ (if filter (indexData.nameAt ci) = true then []
          else [Call.PushTask (indexData.nameAt ci)
            (it.2.chunkvec.getD (ci % cps) ⟨0, 0, 0⟩)]) := by
  unfold submitTransfer
  simp only [hfind]
  cases hf : filter (indexData.nameAt ci) <;> simp

theorem nameAt_chunkIndex (d : ChunkIndexData) (i : Nat) (h : i ∈ d.GetAllChunkIndex) :
    (d.nameAt i).chunkIndex_ = i := by
  unfold ChunkIndexData.nameAt ChunkIndexData.GetChunkDataName
  cases hfind : d.chunkMap.find? (fun e => e.1 == i) with
  | some e => rfl
  | none =>
    exfalso
    unfold ChunkIndexData.GetAllChunkIndex at h
    rw [List.mem_map] at h
    obtain ⟨e, he, hei⟩ := h
    rw [List.find?_eq_none] at hfind
    exact hfind e he (by simpa using hei)


/-- The chunks the transfer loop hands to the worker pool: for the chunk indices it gets
to, in order, the names the filter does not hold of. The loop gets to every chunk index
unless it leaves with a negative result or after a sample of the cancel flag that was
set. -/
theorem transferLoop_pushes (core : SnapshotCoreImpl) (env : Env) (indexData : ChunkIndexData)
    (segInfos : List (Nat × SegmentInfo)) (filter : ChunkDataName → Bool) (cps total : Nat) :
    ∀ (l : List Nat) (index : Nat) (tr : TaskTracker) (t : SnapshotTaskInfo) (w : World),
      (∀ ci ∈ l, ∃ it, segInfos.find? (fun e => e.1 == ci / cps) = some it) →
      ∃ done new, done <+: l ∧
        (transferLoop core env indexData segInfos filter cps total l index tr t w).2.2.2.calls
          = w.calls ++ new ∧
        (∀ c ∈ new, c.isPushTask = true) ∧
        new.filterMap Call.pushedName
          = (done.map indexData.nameAt).filter (fun c => !filter c) ∧
        ((transferLoop core env indexData segInfos filter cps total l index tr t w).1
            = Flow.next → done = l) ∧
        (∀ code, (transferLoop core env indexData segInfos filter cps total l index tr t w).1
            = Flow.ret code → code.isNegative = false →
          ∃ k, t.cancelSamples ≤ k ∧
            k < (transferLoop core env indexData segInfos filter cps total l index tr t
              w).2.2.1.cancelSamples ∧ env.isCanceled k = true) := by
  intro l
  induction l with
  | nil =>
    intro index tr t w _
    refine ⟨[], [], List.prefix_refl _, by simp [transferLoop], by simp, by simp,
      fun _ => rfl, ?_⟩
    intro code h
    simp [transferLoop] at h
  | cons ci rest ih =>
    intro index tr t w hall
    obtain ⟨it, hfind⟩ := hall ci (List.mem_cons_self _ _)
    have hs := submitTransfer_calls indexData segInfos filter cps ci tr w it hfind
    have ho : (observeTracker core env
        (submitTransfer indexData segInfos filter cps ci tr w).1
        (submitTransfer indexData segInfos filter cps ci tr w).2).2.calls
        = w.calls ++ (if filter (indexData.nameAt ci) = true then []
          else [Call.PushTask (indexData.nameAt ci)
            (it.2.chunkvec.getD (ci % cps) ⟨0, 0, 0⟩)]) := by
      rw [observeTracker_calls, hs]
    have hP1 : ∀ c ∈ (if filter (indexData.nameAt ci) = true then ([] : List Call)
          else [Call.PushTask (indexData.nameAt ci)
            (it.2.chunkvec.getD (ci % cps) ⟨0, 0, 0⟩)]), c.isPushTask = true := by
      intro c hc
      split at hc
      · cases hc
      · rw [List.mem_singleton] at hc
        rw [hc]
        rfl
    have hP2 : (if filter (indexData.nameAt ci) = true then ([] : List Call)
          else [Call.PushTask (indexData.nameAt ci)
            (it.2.chunkvec.getD (ci % cps) ⟨0, 0, 0⟩)]).filterMap Call.pushedName
        = ([ci].map indexData.nameAt).filter (fun c => !filter c) := by
      cases hf : filter (indexData.nameAt ci) <;> simp [Call.pushedName, hf]
    unfold transferLoop
    simp only []
    split
    · rename_i hneg
      refine ⟨[ci], _, ⟨rest, rfl⟩, ho, hP1, hP2, ?_, ?_⟩
      · intro h
        cases h
      · intro code h hcode
        simp only [Flow.ret.injEq] at h
        rw [← h] at hcode
        simp [ErrCode.isNegative, hneg] at hcode
    · split
      · rename_i hc
        simp only [IsCanceled_fst] at hc
        refine ⟨[ci], _, ⟨rest, rfl⟩, ho, hP1, hP2, ?_, ?_⟩
        · intro h
          cases h
        · intro code _ _
          exact ⟨(t.SetProgress (transferProgress index total)).cancelSamples,
            Nat.le_of_eq (SetProgress_cancelSamples t _).symm, Nat.lt_succ_self _, hc⟩
      · obtain ⟨done, new, hpre, hcalls, hpush, hnames, hnext, hcode⟩ :=
          ih (index + 1)
            (observeTracker core env (submitTransfer indexData segInfos filter cps ci tr w).1
              (submitTransfer indexData segInfos filter cps ci tr w).2).1
            ((t.SetProgress (transferProgress index total)).IsCanceled env).2
            (observeTracker core env (submitTransfer indexData segInfos filter cps ci tr w).1
              (submitTransfer indexData segInfos filter cps ci tr w).2).2
            (fun c hc => hall c (List.mem_cons_of_mem _ hc))
        refine ⟨ci :: done,
          (if filter (indexData.nameAt ci) = true then ([] : List Call)
            else [Call.PushTask (indexData.nameAt ci)
              (it.2.chunkvec.getD (ci % cps) ⟨0, 0, 0⟩)]) ++ new, ?_, ?_, ?_, ?_, ?_, ?_⟩
        · obtain ⟨tl, htl⟩ := hpre
          exact ⟨tl, by rw [← htl]; rfl⟩
        · rw [hcalls, ho, List.append_assoc]
        · intro c hc
          rcases List.mem_append.mp hc with h | h
          · exact hP1 c h
          · exact hpush c h
        · rw [List.filterMap_append, hP2, hnames]
          simp only [List.map_cons, List.map_nil]
          rw [← List.filter_append]
          rfl
        · intro h
          rw [hnext h]
        · intro code h hneg
          obtain ⟨k, hk1, hk2, hk3⟩ := hcode code h hneg
          refine ⟨k, ?_, hk2, hk3⟩
          simp only [IsCanceled_cancelSamples, SetProgress_cancelSamples] at hk1
          omega


/-- The calls of a run of `TransferSnapshotData`: the chunks handed to the worker pool, as
in `transferLoop_pushes`, followed by the upstream delete if the run gets there. A run
that returns a non-negative result without having seen the cancel flag set has got to
every chunk index and to the upstream delete. -/
theorem TransferSnapshotData_pushes (core : SnapshotCoreImpl) (env : Env) (fuel : Nat)
    (indexData : ChunkIndexData) (info : SnapshotInfo) (segInfos : List (Nat × SegmentInfo))
    (filter : ChunkDataName → Bool) (t : SnapshotTaskInfo) (w : World)
    (ret : ErrCode) (t1 : SnapshotTaskInfo) (w1 : World)
    (h : TransferSnapshotData core env fuel indexData info segInfos filter t w
      = Except.ok (ret, t1, w1)) :
    ∃ done new tail, done <+: indexData.GetAllChunkIndex ∧
      w1.calls = w.calls ++ new ++ tail ∧
      (∀ c ∈ new, c.isPushTask = true) ∧
      new.filterMap Call.pushedName
        = (done.map indexData.nameAt).filter (fun c => !filter c) ∧
      (tail = [] ∨
        tail = [Call.ClientDeleteSnapshot info.fileName info.user info.seqNum]) ∧
      (ret.isNegative = false →
        (∀ k, t.cancelSamples ≤ k → k < t1.cancelSamples → env.isCanceled k = false) →
        done = indexData.GetAllChunkIndex ∧
          tail = [Call.ClientDeleteSnapshot info.fileName info.user info.seqNum]) := by
  unfold TransferSnapshotData at h
  split at h
  · cases h
  · rename_i cps hdiv
    split at h
    · simp only [Except.ok.injEq, Prod.mk.injEq] at h
      obtain ⟨h1, _, h3⟩ := h
      subst h1 h3
      exact ⟨[], [], [], List.nil_prefix, by simp, by simp, by simp, Or.inl rfl,
        fun hneg => by simp [ErrCode.isNegative] at hneg⟩
    · split at h
      · cases h
      · rename_i code hval
        simp only [Except.ok.injEq, Prod.mk.injEq] at h
        obtain ⟨h1, _, h3⟩ := h
        subst h1 h3
        refine ⟨[], [], [], List.nil_prefix, by simp, by simp, by simp, Or.inl rfl, ?_⟩
        intro hneg
        rw [validateLoop_ret _ _ _ _ hval] at hneg
        cases hneg
      · rename_i hval
        have hfound : ∀ ci ∈ indexData.GetAllChunkIndex, ∃ it,
            segInfos.find? (fun e => e.1 == ci / cps) = some it := by
          intro ci hci
          obtain ⟨it, hit, _⟩ := validateLoop_next segInfos cps _ hval ci hci
          exact ⟨it, hit⟩
        obtain ⟨done, new, hpre, hcalls, hpush, hnames, hnext, hcode⟩ :=
          transferLoop_pushes core env indexData segInfos filter cps
            indexData.GetAllChunkIndex.length indexData.GetAllChunkIndex 0 ⟨[], 0⟩ t w hfound
        split at h
        · rename_i code tr t2 w2 heq
          rw [heq] at hcalls hcode
          simp only [] at hcalls hcode
          simp only [Except.ok.injEq, Prod.mk.injEq] at h
          obtain ⟨h1, h2, h3⟩ := h
          subst h1 h2 h3
          refine ⟨done, new, [], hpre, ?_, hpush, hnames, Or.inl rfl, ?_⟩
          · rw [List.append_nil]
            exact hcalls
          · intro hneg hunc
            obtain ⟨k, hk1, hk2, hk3⟩ := hcode code rfl hneg
            rw [hunc k hk1 hk2] at hk3
            cases hk3
        · rename_i tr t2 w2 heq
          rw [heq] at hcalls hnext
          simp only [] at hcalls hnext
          have hdone := hnext trivial
          have hwait : ((TaskTracker.Wait env tr w2).2.abandon
              (TaskTracker.Wait env tr w2).1).calls = w.calls ++ new := by
            unfold World.abandon TaskTracker.Wait
            simp only []
            rw [settleN_calls, hcalls]
          split at h
          · rename_i hres
            simp only [Except.ok.injEq, Prod.mk.injEq] at h
            obtain ⟨h1, h2, h3⟩ := h
            subst h1 h2 h3
            refine ⟨done, new, [], hpre, ?_, hpush, hnames, Or.inl rfl, ?_⟩
            · rw [List.append_nil]
              exact hwait
            · intro hneg
              simp [ErrCode.isNegative, hres] at hneg
          · split at h
            · cases h
            · rename_i ret2 w3 hdel
              simp only [Except.ok.injEq, Prod.mk.injEq] at h
              obtain ⟨h1, h2, h3⟩ := h
              subst h1 h2 h3
              have hd := (DeleteSnapshotOnCurvefs_world env fuel _ _ _ _ hdel).2.2.2.1
              refine ⟨done, new, [Call.ClientDeleteSnapshot info.fileName info.user
                info.seqNum], hpre, ?_, hpush, hnames, Or.inr rfl, fun _ _ => ⟨hdone, rfl⟩⟩
              rw [hd, hwait]


theorem NoPush.sameCalls {w w1 : World} (h : w1.calls = w.calls) : NoPush w w1 :=
  ⟨[], by rw [h, List.append_nil], fun _ hc => absurd hc (List.not_mem_nil _)⟩

theorem NoPush.oneCall {w w1 : World} (c : Call) (h : w1.calls = w.calls ++ [c])
    (hc : c.isPushTask = false) : NoPush w w1 :=
  ⟨[c], h, fun c1 h1 => by rw [List.mem_singleton] at h1; rw [h1]; exact hc⟩

theorem NoPush.andNoPush {w w1 w2 : World} (h1 : NoPush w w1) (h2 : NoPush w1 w2) :
    NoPush w w2 := by
  obtain ⟨n1, hc1, hp1⟩ := h1
  obtain ⟨n2, hc2, hp2⟩ := h2
  refine ⟨n1 ++ n2, by rw [hc2, hc1, List.append_assoc], ?_⟩
  intro c hc
  rcases List.mem_append.mp hc with h | h
  · exact hp1 c h
  · exact hp2 c h

theorem NoPush.pushedBefore {w w1 : World} (h : NoPush w w1) (name : ChunkDataName)
    (cid : ChunkIDInfo) (hmem : Call.PushTask name cid ∈ w1.calls) :
    Call.PushTask name cid ∈ w.calls := by
  obtain ⟨new, hc, hp⟩ := h
  rw [hc] at hmem
  rcases List.mem_append.mp hmem with h1 | h1
  · exact h1
  · have := hp _ h1
    cases this

theorem HandleCreateSnapshotError_noPush (env : Env) (t : SnapshotTaskInfo) (w : World) :
    NoPush w (HandleCreateSnapshotError env t w).2 :=
  NoPush.oneCall _ rfl rfl

theorem World_UpdateSnapshot_noPush (env : Env) (w : World) (info : SnapshotInfo) :
    NoPush w (w.UpdateSnapshot env info).2 :=
  NoPush.oneCall _ rfl rfl

theorem World_DeleteSnapshot_noPush (env : Env) (w : World) (uuid : UUID) :
    NoPush w (w.DeleteSnapshot env uuid).2 :=
  NoPush.oneCall _ rfl rfl

theorem createFinalize_noPush (env : Env) (t : SnapshotTaskInfo) (w : World) :
    NoPush w (createFinalize env t w).2.2 := by
  unfold createFinalize
  simp only []
  split
  · exact (World_UpdateSnapshot_noPush env w _).andNoPush
      (HandleCreateSnapshotError_noPush env _ _)
  · exact World_UpdateSnapshot_noPush env w _

theorem HandleClearSnapshotOnMateStore_noPush (env : Env) (t : SnapshotTaskInfo) (w : World) :
    NoPush w (HandleClearSnapshotOnMateStore env t w).2.2 := by
  unfold HandleClearSnapshotOnMateStore
  simp only []
  split
  · exact (World_DeleteSnapshot_noPush env w _).andNoPush
      (HandleCreateSnapshotError_noPush env _ _)
  · exact World_DeleteSnapshot_noPush env w _

theorem CancelAfterCreateSnapshotOnCurvefs_noPush (env : Env) (fuel : Nat)
    (t0 : SnapshotTaskInfo) (w0 : World) (x : PipelineExit) (t1 : SnapshotTaskInfo)
    (w1 : World)
    (h : CancelAfterCreateSnapshotOnCurvefs env fuel t0 w0 = Except.ok (x, t1, w1)) :
    NoPush w0 w1 := by
  unfold CancelAfterCreateSnapshotOnCurvefs at h
  split at h
  · cases h
  · rename_i ret w2 hdel
    have hd : NoPush w0 w2 :=
      NoPush.oneCall _ (DeleteSnapshotOnCurvefs_world env fuel _ _ _ _ hdel).2.2.2.1 rfl
    split at h
    · simp only [Except.ok.injEq, Prod.mk.injEq] at h
      obtain ⟨_, h2⟩ := h
      have h3 : (HandleCreateSnapshotError env t0 w2).2 = w1 := by rw [h2]
      rw [← h3]
      exact hd.andNoPush (HandleCreateSnapshotError_noPush env _ _)
    · simp only [Except.ok.injEq] at h
      have h3 : (HandleClearSnapshotOnMateStore env t0 w2).2.2 = w1 := by rw [h]
      rw [← h3]
      exact hd.andNoPush (HandleClearSnapshotOnMateStore_noPush env _ _)

theorem CancelAfterCreateChunkIndexData_noPush (env : Env) (fuel : Nat)
    (t0 : SnapshotTaskInfo) (w0 : World) (x : PipelineExit) (t1 : SnapshotTaskInfo)
    (w1 : World)
    (h : CancelAfterCreateChunkIndexData env fuel t0 w0 = Except.ok (x, t1, w1)) :
    NoPush w0 w1 := by
  unfold CancelAfterCreateChunkIndexData at h
  simp only [] at h
  have hd : NoPush w0 (w0.DeleteChunkIndexData env ⟨t0.fileName_, t0.snapshotInfo.seqNum⟩).2 :=
    NoPush.oneCall _ rfl rfl
  split at h
  · simp only [Except.ok.injEq, Prod.mk.injEq] at h
    obtain ⟨_, h2⟩ := h
    have h3 : (HandleCreateSnapshotError env t0
        (w0.DeleteChunkIndexData env ⟨t0.fileName_, t0.snapshotInfo.seqNum⟩).2).2 = w1 := by
      rw [h2]
    rw [← h3]
    exact hd.andNoPush (HandleCreateSnapshotError_noPush env _ _)
  · exact hd.andNoPush (CancelAfterCreateSnapshotOnCurvefs_noPush env fuel _ _ _ _ _ h)

theorem cancelTransferLoop_noPush (env : Env) (indexData : ChunkIndexData)
    (fileSnapshotMap : FileSnapMap) :
    ∀ (l : List Nat) (t0 : SnapshotTaskInfo) (w0 : World),
      NoPush w0 (cancelTransferLoop env indexData fileSnapshotMap l t0 w0).2.2 := by
  intro l
  induction l with
  | nil => intro t0 w0; exact NoPush.sameCalls rfl
  | cons ci rest ih =>
    intro t0 w0
    have hl : NoPush w0 (w0.landAlone env) := NoPush.sameCalls (landAlone_keeps env w0).2.1
    unfold cancelTransferLoop
    simp only []
    split
    · have hd : NoPush w0 ((w0.landAlone env).DeleteChunkData env (indexData.nameAt ci)).2 :=
        hl.andNoPush (NoPush.oneCall _ rfl rfl)
      split
      · exact hd.andNoPush (HandleCreateSnapshotError_noPush env _ _)
      · exact hd.andNoPush (ih _ _)
    · exact hl.andNoPush (ih _ _)

theorem CancelAfterTransferSnapshotData_noPush (env : Env) (fuel : Nat)
    (t0 : SnapshotTaskInfo) (indexData : ChunkIndexData) (fileSnapshotMap : FileSnapMap)
    (w0 : World) (x : PipelineExit) (t1 : SnapshotTaskInfo) (w1 : World)
    (h : CancelAfterTransferSnapshotData env fuel t0 indexData fileSnapshotMap w0
      = Except.ok (x, t1, w1)) : NoPush w0 w1 := by
  unfold CancelAfterTransferSnapshotData at h
  have hloop := cancelTransferLoop_noPush env indexData fileSnapshotMap
    indexData.GetAllChunkIndex t0 w0
  split at h
  · rename_i c t2 w2 heq
    rw [heq] at hloop
    simp only [Except.ok.injEq, Prod.mk.injEq] at h
    obtain ⟨_, _, h3⟩ := h
    subst h3
    exact hloop
  · rename_i t2 w2 heq
    rw [heq] at hloop
    exact hloop.andNoPush (CancelAfterCreateChunkIndexData_noPush env fuel _ _ _ _ _ h)

/-- Every chunk that a run of stages 3 to 5 hands to the worker pool is a chunk of the
index that the `FileSnapMap` loaded by `BuildSnapshotMap` does not hold. -/
theorem createTransfer_pushes (core : SnapshotCoreImpl) (env : Env) (fuel : Nat)
    (indexData : ChunkIndexData) (segInfos : List (Nat × SegmentInfo))
    (t0 : SnapshotTaskInfo) (w0 : World) (x : PipelineExit) (t1 : SnapshotTaskInfo)
    (w1 : World)
    (h : createTransfer core env fuel indexData segInfos t0 w0 = Except.ok (x, t1, w1))
    (name : ChunkDataName) (cid : ChunkIDInfo) (hmem : Call.PushTask name cid ∈ w1.calls) :
    Call.PushTask name cid ∈ w0.calls ∨
      (name.chunkIndex_ ∈ indexData.GetAllChunkIndex ∧
        name = indexData.nameAt name.chunkIndex_ ∧
        (BuildSnapshotMap env t0.fileName_ t0.snapshotInfo.seqNum w0).2.1.IsExistChunk name
          = false) := by
  unfold createTransfer at h
  simp only [BuildSnapshotMap_ret, ErrCode.isNegative, Bool.false_eq_true, if_false] at h
  have hb := (BuildSnapshotMap_world env t0.fileName_ t0.snapshotInfo.seqNum w0).2.2.2
  split at h
  · cases h
  · rename_i ret task2 w2 htr
    obtain ⟨done, new, tail, hpre, hcalls, hpush, hnames, htail, _⟩ :=
      TransferSnapshotData_pushes core env fuel _ _ _ _ _ _ _ _ _ htr
    have hafter : NoPush w2 w1 := by
      split at h
      · simp only [Except.ok.injEq, Prod.mk.injEq] at h
        obtain ⟨_, h2⟩ := h
        have h3 : (HandleCreateSnapshotError env task2 w2).2 = w1 := by rw [h2]
        rw [← h3]
        exact HandleCreateSnapshotError_noPush env _ _
      · split at h
        · exact CancelAfterTransferSnapshotData_noPush env fuel _ _ _ _ _ _ _ h
        · simp only [Except.ok.injEq] at h
          have h3 : (createFinalize env
              ((task2.SetProgress kProgressTransferSnapshotDataComplete).IsCanceled env).2
              w2).2.2 = w1 := by rw [h]
          rw [← h3]
          exact createFinalize_noPush env _ _
    have hin2 := hafter.pushedBefore name cid hmem
    rw [hcalls, hb] at hin2
    rcases List.mem_append.mp hin2 with h1 | h1
    · rcases List.mem_append.mp h1 with h2 | h2
      · exact Or.inl h2
      · right
        have hn : name ∈ new.filterMap Call.pushedName := by
          rw [List.mem_filterMap]
          exact ⟨_, h2, rfl⟩
        rw [hnames, List.mem_filter, List.mem_map] at hn
        obtain ⟨⟨ci, hci, hname⟩, hfilter⟩ := hn
        have hci2 : ci ∈ indexData.GetAllChunkIndex := hpre.subset hci
        have hidx : name.chunkIndex_ = ci := by
          rw [← hname]
          exact nameAt_chunkIndex indexData ci hci2
        refine ⟨by rw [hidx]; exact hci2, by rw [hidx]; exact hname.symm, ?_⟩
        simpa using hfilter
    · rcases htail with ht | ht
      · rw [ht] at h1
        cases h1
      · rw [ht, List.mem_singleton] at h1
        cases h1


/-! ## Auxiliary facts on the stages: divisions -/

theorem recordChunk_returns (info : SnapshotInfo) (i j : Nat) (chunkSn : List Nat)
    (indexData : ChunkIndexData) (hchunk : info.chunkSize ≠ 0) :
    ∃ r, recordChunk info i j chunkSn indexData = Except.ok r := by
  unfold recordChunk
  split
  · rw [checkedDiv_ok _ _ hchunk]
    exact ⟨_, rfl⟩
  · split
    · rw [checkedDiv_ok _ _ hchunk]
      exact ⟨_, rfl⟩
    · exact ⟨_, rfl⟩
  · exact ⟨_, rfl⟩
  · exact ⟨_, rfl⟩

theorem buildChunkLoop_returns (env : Env) (info : SnapshotInfo) (i : Nat)
    (hchunk : info.chunkSize ≠ 0) :
    ∀ (cids : List ChunkIDInfo) (j : Nat) (indexData : ChunkIndexData)
      (task : SnapshotTaskInfo),
      ∃ r, buildChunkLoop env info i j cids indexData task = Except.ok r := by
  intro cids
  induction cids with
  | nil => intro j indexData task; exact ⟨_, rfl⟩
  | cons cid rest ih =>
    intro j indexData task
    unfold buildChunkLoop
    split
    · exact ⟨_, rfl⟩
    · obtain ⟨r, hr⟩ := recordChunk_returns info i j (env.getChunkInfo cid).2.chunkSn indexData
        hchunk
      rw [hr]
      obtain ⟨flow, indexData1⟩ := r
      cases flow with
      | ret code => exact ⟨_, rfl⟩
      | next =>
        simp only []
        split
        · exact ⟨_, rfl⟩
        · exact ih _ _ _

theorem buildSegmentLoop_returns (env : Env) (info : SnapshotInfo)
    (hchunk : info.chunkSize ≠ 0) :
    ∀ (l : List Nat) (indexData : ChunkIndexData) (segInfos : List (Nat × SegmentInfo))
      (task : SnapshotTaskInfo),
      ∃ r, buildSegmentLoop env info l indexData segInfos task = Except.ok r := by
  intro l
  induction l with
  | nil => intro indexData segInfos task; exact ⟨_, rfl⟩
  | cons i rest ih =>
    intro indexData segInfos task
    unfold buildSegmentLoop
    split
    · simp only []
      obtain ⟨r, hr⟩ := buildChunkLoop_returns env info i hchunk
        (env.getSnapshotSegmentInfo (i * info.segmentSize)).2.chunkvec 0 indexData task
      rw [hr]
      obtain ⟨flow, indexData1, task1⟩ := r
      cases flow with
      | ret code => exact ⟨_, rfl⟩
      | next => exact ih _ _ _
    · exact ih _ _ _
    · exact ⟨_, rfl⟩

theorem pollSnapShotStatus_abort (env : Env) :
    ∀ (fuel : Nat) (w : World) (e : Abort),
      pollSnapShotStatus env fuel w = Except.error e → e = Abort.pollOutOfFuel := by
  intro fuel
  induction fuel with
  | zero =>
    intro w e h
    simp only [pollSnapShotStatus, Except.error.injEq] at h
    exact h.symm
  | succ n ih =>
    intro w e h
    unfold pollSnapShotStatus at h
    simp only [] at h
    split at h
    · cases h
    · split at h
      · cases h
      · exact ih _ _ h
    · cases h

theorem DeleteSnapshotOnCurvefs_abort (env : Env) (fuel : Nat) (info : SnapshotInfo)
    (w : World) (e : Abort)
    (h : DeleteSnapshotOnCurvefs env fuel info w = Except.error e) :
    e = Abort.pollOutOfFuel := by
  unfold DeleteSnapshotOnCurvefs at h
  simp only [] at h
  split at h
  · cases h
  · exact pollSnapShotStatus_abort env _ _ _ h

/-- With a chunk size other than 0 and at least one chunk per segment,
`TransferSnapshotData` does not divide by zero. -/
theorem TransferSnapshotData_no_division_by_zero (core : SnapshotCoreImpl) (env : Env)
    (fuel : Nat) (indexData : ChunkIndexData) (info : SnapshotInfo)
    (segInfos : List (Nat × SegmentInfo)) (filter : ChunkDataName → Bool)
    (t : SnapshotTaskInfo) (w : World)
    (hq : info.segmentSize / info.chunkSize ≠ 0) :
    TransferSnapshotData core env fuel indexData info segInfos filter t w
      ≠ Except.error Abort.divisionByZero := by
  have hchunk : info.chunkSize ≠ 0 := by
    intro h0
    rw [h0, Nat.div_zero] at hq
    exact hq rfl
  intro h
  unfold TransferSnapshotData at h
  rw [checkedDiv_ok _ _ hchunk] at h
  simp only [] at h
  split at h
  · cases h
  · rcases validateLoop_total segInfos _ hq indexData.GetAllChunkIndex with hv | hv
    · rw [hv] at h
      simp only [] at h
      split at h
      · cases h
      · split at h
        · cases h
        · split at h
          · rename_i e hdel
            have := DeleteSnapshotOnCurvefs_abort env fuel _ _ _ hdel
            rw [this] at h
            cases h
          · cases h
    · rw [hv] at h
      cases h


/-! ## Auxiliary facts on the stages: chunk index data -/

theorem insertChunkEntry_mem (index seq : Nat) :
    ∀ (m : List (Nat × Nat)) (e : Nat × Nat),
      e ∈ insertChunkEntry index seq m → e = (index, seq) ∨ e ∈ m := by
  intro m
  induction m with
  | nil =>
    intro e he
    simp only [insertChunkEntry, List.mem_singleton] at he
    exact Or.inl he
  | cons x rest ih =>
    intro e he
    unfold insertChunkEntry at he
    split at he
    · rcases List.mem_cons.mp he with h | h
      · exact Or.inl h
      · exact Or.inr h
    · split at he
      · exact Or.inr he
      · rcases List.mem_cons.mp he with h | h
        · exact Or.inr (h ▸ List.mem_cons_self _ _)
        · rcases ih e h with h1 | h1
          · exact Or.inl h1
          · exact Or.inr (List.mem_cons_of_mem _ h1)

theorem insertChunkEntry_subset (index seq : Nat) :
    ∀ (m : List (Nat × Nat)) (e : Nat × Nat), e ∈ m → e ∈ insertChunkEntry index seq m := by
  intro m
  induction m with
  | nil => intro e he; cases he
  | cons x rest ih =>
    intro e he
    unfold insertChunkEntry
    split
    · exact List.mem_cons_of_mem _ he
    · split
      · exact he
      · rcases List.mem_cons.mp he with h | h
        · exact h ▸ List.mem_cons_self _ _
        · exact List.mem_cons_of_mem _ (ih e h)

theorem insertChunkEntry_key (index seq : Nat) :
    ∀ (m : List (Nat × Nat)), index ∈ (insertChunkEntry index seq m).map Prod.fst := by
  intro m
  induction m with
  | nil => simp [insertChunkEntry]
  | cons x rest ih =>
    unfold insertChunkEntry
    split
    · simp
    · split
      · rename_i heq
        rw [List.map_cons, heq]
        exact List.mem_cons_self _ _
      · rw [List.map_cons]
        exact List.mem_cons_of_mem _ ih

theorem insertChunkEntry_new (index seq : Nat) :
    ∀ (m : List (Nat × Nat)), index ∉ m.map Prod.fst →
      (index, seq) ∈ insertChunkEntry index seq m := by
  intro m
  induction m with
  | nil => intro _; simp [insertChunkEntry]
  | cons x rest ih =>
    intro hnot
    unfold insertChunkEntry
    split
    · exact List.mem_cons_self _ _
    · split
      · rename_i heq
        exfalso
        apply hnot
        rw [List.map_cons, heq]
        exact List.mem_cons_self _ _
      · apply List.mem_cons_of_mem
        apply ih
        intro h
        apply hnot
        rw [List.map_cons]
        exact List.mem_cons_of_mem _ h

theorem insertChunkEntry_ordered (index seq : Nat) :
    ∀ (m : List (Nat × Nat)), (m.map Prod.fst).Pairwise (fun a b => a < b) →
      ((insertChunkEntry index seq m).map Prod.fst).Pairwise (fun a b => a < b) := by
  intro m
  induction m with
  | nil => intro _; simp [insertChunkEntry]
  | cons x rest ih =>
    intro hord
    rw [List.map_cons, List.pairwise_cons] at hord
    unfold insertChunkEntry
    split
    · rename_i hlt
      rw [List.map_cons, List.pairwise_cons]
      refine ⟨?_, by rw [List.map_cons, List.pairwise_cons]; exact hord⟩
      intro b hb
      rw [List.map_cons] at hb
      rcases List.mem_cons.mp hb with h | h
      · rw [h]
        exact hlt
      · exact Nat.lt_trans hlt (hord.1 b h)
    · split
      · rw [List.map_cons, List.pairwise_cons]
        exact hord
      · rename_i hnlt hne
        rw [List.map_cons, List.pairwise_cons]
        refine ⟨?_, ih hord.2⟩
        intro b hb
        rw [List.mem_map] at hb
        obtain ⟨e, he, heb⟩ := hb
        rcases insertChunkEntry_mem index seq rest e he with h | h
        · rw [← heb, h]
          show x.1 < index
          omega
        · rw [← heb]
          exact hord.1 e.1 (List.mem_map_of_mem _ h)

theorem pairwise_key_unique :
    ∀ (m : List (Nat × Nat)), m.Pairwise (fun a b => a.1 < b.1) →
      ∀ e1 ∈ m, ∀ e2 ∈ m, e1.1 = e2.1 → e1 = e2 := by
  intro m
  induction m with
  | nil => intro _ e1 h1; cases h1
  | cons x rest ih =>
    intro hpw e1 h1 e2 h2 heq
    rw [List.pairwise_cons] at hpw
    rcases List.mem_cons.mp h1 with ha | ha
    · rcases List.mem_cons.mp h2 with hb | hb
      · rw [ha, hb]
      · have := hpw.1 e2 hb
        rw [ha] at heq
        omega
    · rcases List.mem_cons.mp h2 with hb | hb
      · have := hpw.1 e1 ha
        rw [hb] at heq
        omega
      · exact ih hpw.2 e1 ha e2 hb heq

theorem Ordered_pairwise (d : ChunkIndexData) (hord : d.Ordered) :
    d.chunkMap.Pairwise (fun a b => a.1 < b.1) := by
  unfold ChunkIndexData.Ordered ChunkIndexData.GetAllChunkIndex at hord
  rw [List.pairwise_map] at hord
  exact hord

/-- In an ordered chunk map the entry of a chunk index is the one `GetChunkDataName`
finds. -/
theorem GetChunkDataName_iff (d : ChunkIndexData) (hord : d.Ordered) (k : Nat)
    (c : ChunkDataName) :
    d.GetChunkDataName k = some c ↔
      c.fileName_ = d.fileName_ ∧ c.chunkIndex_ = k ∧ (k, c.chunkSeqNum_) ∈ d.chunkMap := by
  unfold ChunkIndexData.GetChunkDataName
  constructor
  · intro h
    split at h
    · rename_i e hfind
      simp only [Option.some.injEq] at h
      subst h
      have hmem := List.mem_of_find?_eq_some hfind
      have hk := List.find?_some hfind
      simp only [beq_iff_eq] at hk
      refine ⟨rfl, rfl, ?_⟩
      show (k, e.2) ∈ d.chunkMap
      rw [← hk]
      exact hmem
    · cases h
  · rintro ⟨hf, hi, hmem⟩
    cases hfind : d.chunkMap.find? (fun e => e.1 == k) with
    | none =>
      rw [List.find?_eq_none] at hfind
      exact absurd (by simp) (hfind _ hmem)
    | some e =>
      simp only [Option.some.injEq]
      have hmem2 := List.mem_of_find?_eq_some hfind
      have hk := List.find?_some hfind
      simp only [beq_iff_eq] at hk
      have hsame : e = (k, c.chunkSeqNum_) :=
        pairwise_key_unique d.chunkMap (Ordered_pairwise d hord) e hmem2 _ hmem hk
      rw [hsame]
      cases c
      simp only [] at hf hi
      subst hf hi
      rfl


theorem putNames_nil (d : ChunkIndexData) : putNames d [] = d := rfl

theorem putNames_cons (d : ChunkIndexData) (c : ChunkDataName) (rest : List ChunkDataName) :
    putNames d (c :: rest) = putNames (d.PutChunkDataName c) rest := rfl

theorem putNames_append (d : ChunkIndexData) (a b : List ChunkDataName) :
    putNames d (a ++ b) = putNames (putNames d a) b := by
  unfold putNames
  rw [List.foldl_append]

theorem putNames_fileName : ∀ (names : List ChunkDataName) (d : ChunkIndexData),
    (putNames d names).fileName_ = d.fileName_ := by
  intro names
  induction names with
  | nil => intro d; rfl
  | cons c rest ih =>
    intro d
    rw [putNames_cons, ih]
    rfl

theorem PutChunkDataName_ordered (d : ChunkIndexData) (c : ChunkDataName)
    (hord : d.Ordered) : (d.PutChunkDataName c).Ordered :=
  insertChunkEntry_ordered c.chunkIndex_ c.chunkSeqNum_ d.chunkMap hord

theorem putNames_ordered : ∀ (names : List ChunkDataName) (d : ChunkIndexData),
    d.Ordered → (putNames d names).Ordered := by
  intro names
  induction names with
  | nil => intro d h; exact h
  | cons c rest ih =>
    intro d h
    rw [putNames_cons]
    exact ih _ (PutChunkDataName_ordered d c h)

/-- Every entry of an index after a series of `PutChunkDataName` was there before or is
the entry of one of the names. -/
theorem putNames_mem : ∀ (names : List ChunkDataName) (d : ChunkIndexData) (e : Nat × Nat),
    e ∈ (putNames d names).chunkMap →
      e ∈ d.chunkMap ∨ ∃ c ∈ names, e = (c.chunkIndex_, c.chunkSeqNum_) := by
  intro names
  induction names with
  | nil => intro d e h; exact Or.inl h
  | cons c rest ih =>
    intro d e h
    rw [putNames_cons] at h
    rcases ih _ e h with h1 | ⟨c1, hc1, he⟩
    · rcases insertChunkEntry_mem _ _ _ e h1 with h2 | h2
      · exact Or.inr ⟨c, List.mem_cons_self _ _, h2⟩
      · exact Or.inl h2
    · exact Or.inr ⟨c1, List.mem_cons_of_mem _ hc1, he⟩

theorem putNames_subset : ∀ (names : List ChunkDataName) (d : ChunkIndexData) (e : Nat × Nat),
    e ∈ d.chunkMap → e ∈ (putNames d names).chunkMap := by
  intro names
  induction names with
  | nil => intro d e h; exact h
  | cons c rest ih =>
    intro d e h
    rw [putNames_cons]
    exact ih _ e (insertChunkEntry_subset _ _ _ e h)

/-- The names of a series of `PutChunkDataName` whose chunk indices are new and differ
from each other all get their entry. -/
theorem putNames_complete : ∀ (names : List ChunkDataName) (d : ChunkIndexData),
    names.Pairwise (fun a b => a.chunkIndex_ ≠ b.chunkIndex_) →
    (∀ c ∈ names, c.chunkIndex_ ∉ d.GetAllChunkIndex) →
    ∀ c ∈ names, (c.chunkIndex_, c.chunkSeqNum_) ∈ (putNames d names).chunkMap := by
  intro names
  induction names with
  | nil => intro d _ _ c hc; cases hc
  | cons x rest ih =>
    intro d hpw hnew c hc
    rw [List.pairwise_cons] at hpw
    rw [putNames_cons]
    rcases List.mem_cons.mp hc with h | h
    · rw [h]
      apply putNames_subset
      exact insertChunkEntry_new _ _ _ (hnew x (List.mem_cons_self _ _))
    · apply ih _ hpw.2 _ c h
      intro c1 hc1 hkey
      unfold ChunkIndexData.GetAllChunkIndex ChunkIndexData.PutChunkDataName at hkey
      simp only [] at hkey
      rw [List.mem_map] at hkey
      obtain ⟨e, he, hek⟩ := hkey
      rcases insertChunkEntry_mem _ _ _ e he with h1 | h1
      · rw [h1] at hek
        exact hpw.1 c1 hc1 hek
      · apply hnew c1 (List.mem_cons_of_mem _ hc1)
        unfold ChunkIndexData.GetAllChunkIndex
        rw [List.mem_map]
        exact ⟨e, h1, hek⟩


/-! ## Auxiliary facts on the stages: `BuildChunkIndexData` -/

theorem sampled_zero (task : SnapshotTaskInfo) : task.sampled 0 = task := rfl

theorem sampled_sampled (task : SnapshotTaskInfo) (a b : Nat) :
    (task.sampled a).sampled b = task.sampled (a + b) := by
  unfold SnapshotTaskInfo.sampled
  simp only [Nat.add_assoc]

theorem IsCanceled_sampled (env : Env) (task : SnapshotTaskInfo) :
    (task.IsCanceled env).2 = task.sampled 1 := rfl

theorem slotNames_nil (env : Env) (info : SnapshotInfo) (i j : Nat) :
    slotNames env info i j [] = [] := rfl

theorem slotNames_cons (env : Env) (info : SnapshotInfo) (i j : Nat) (cid : ChunkIDInfo)
    (rest : List ChunkIDInfo) :
    slotNames env info i j (cid :: rest)
      = (specChunkName info i j (env.getChunkInfo cid).2.chunkSn).toList
          ++ slotNames env info i (j + 1) rest := by
  unfold slotNames
  rw [List.enumFrom_cons, List.filterMap_cons]
  cases specChunkName info i j (env.getChunkInfo cid).2.chunkSn <;> rfl

/-- The classification of the sequence numbers of a chunk does what the spec says. -/
theorem recordChunk_spec (info : SnapshotInfo) (i j : Nat) (chunkSn : List Nat)
    (indexData : ChunkIndexData) (hchunk : info.chunkSize ≠ 0) :
    recordChunk info i j chunkSn indexData
      = Except.ok (if chunkSn.length ≤ 2 then Flow.next else Flow.ret kErrCodeInternalError,
          putNames indexData (specChunkName info i j chunkSn).toList) := by
  unfold recordChunk specChunkName
  match chunkSn with
  | [] => rfl
  | [a] =>
    simp only []
    by_cases ha : a ≤ info.seqNum
    · rw [if_pos ha, if_pos ha, checkedDiv_ok _ _ hchunk]
      rfl
    · rw [if_neg ha, if_neg ha]
      rfl
  | [a, b] =>
    simp only []
    rw [checkedDiv_ok _ _ hchunk]
    rfl
  | a :: b :: c :: rest =>
    simp only [List.length_cons]
    rw [if_neg (by omega)]
    rfl

/-- The inner loop of `BuildChunkIndexData` when every `GetChunkInfo` succeeds and no
sample finds the cancel flag set: it records the names of the spec for the slots up to
the first chunk with more than two sequence numbers, and leaves with `InternalError` at
that chunk. -/
theorem buildChunkLoop_spec (env : Env) (info : SnapshotInfo) (i : Nat)
    (hchunk : info.chunkSize ≠ 0) :
    ∀ (cids : List ChunkIDInfo) (j : Nat) (indexData : ChunkIndexData)
      (task : SnapshotTaskInfo),
      (∀ cid ∈ cids, (env.getChunkInfo cid).1 = LibcurveRet.OK) →
      (∀ k, task.cancelSamples ≤ k → k < task.cancelSamples + cids.length →
        env.isCanceled k = false) →
      buildChunkLoop env info i j cids indexData task
        = Except.ok
            (if (cids.takeWhile (chunkSnOk env)).length = cids.length then Flow.next
              else Flow.ret kErrCodeInternalError,
             putNames indexData (slotNames env info i j (cids.takeWhile (chunkSnOk env))),
             task.sampled (cids.takeWhile (chunkSnOk env)).length) := by
  intro cids
  induction cids with
  | nil => intro j indexData task _ _; rfl
  | cons cid rest ih =>
    intro j indexData task hok hq
    unfold buildChunkLoop
    rw [if_neg (by simp [hok cid (List.mem_cons_self _ _)]),
      recordChunk_spec info i j _ indexData hchunk]
    by_cases hgood : (env.getChunkInfo cid).2.chunkSn.length ≤ 2
    · have htw : (cid :: rest).takeWhile (chunkSnOk env)
          = cid :: rest.takeWhile (chunkSnOk env) := by
        rw [List.takeWhile_cons_of_pos (by simp [chunkSnOk, hgood])]
      have hc : (task.IsCanceled env).1 = false := by
        rw [IsCanceled_fst]
        exact hq _ (Nat.le_refl _) (by simp)
      rw [if_pos hgood]
      simp only [hc, Bool.false_eq_true, if_false]
      have hq2 : ∀ k, (task.IsCanceled env).2.cancelSamples ≤ k →
          k < (task.IsCanceled env).2.cancelSamples + rest.length →
          env.isCanceled k = false := by
        intro k h1 h2
        have e : (task.IsCanceled env).2.cancelSamples = task.cancelSamples + 1 := rfl
        rw [e] at h1 h2
        apply hq k (by omega)
        simp only [List.length_cons]
        omega
      rw [ih (j + 1) _ _ (fun c h => hok c (List.mem_cons_of_mem _ h)) hq2]
      rw [htw, slotNames_cons, putNames_append, IsCanceled_sampled, sampled_sampled]
      simp only [List.length_cons, Nat.add_right_cancel_iff, Nat.add_comm 1]
    · have htw : (cid :: rest).takeWhile (chunkSnOk env) = [] := by
        rw [List.takeWhile_cons_of_neg (by simp [chunkSnOk, hgood])]
      have hnone : specChunkName info i j (env.getChunkInfo cid).2.chunkSn = none := by
        unfold specChunkName
        split
        · rename_i h
          rw [h] at hgood
          simp at hgood
        · rename_i h
          rw [h] at hgood
          simp at hgood
        · rfl
      rw [if_neg hgood, htw, hnone]
      simp only [List.length_nil, List.length_cons]
      rw [if_neg (by omega)]
      rfl


theorem takeWhile_of_length {α : Type} (p : α → Bool) :
    ∀ (l : List α), (l.takeWhile p).length = l.length → l.takeWhile p = l := by
  intro l
  induction l with
  | nil => intro _; rfl
  | cons x xs ih =>
    intro h
    rw [List.takeWhile_cons] at h ⊢
    split
    · rename_i hp
      rw [if_pos hp] at h
      simp only [List.length_cons, Nat.add_right_cancel_iff] at h
      rw [ih h]
    · rename_i hp
      rw [if_neg hp] at h
      simp at h

theorem enumFrom_takeWhile {α : Type} (p : α → Bool) :
    ∀ (l : List α) (j : Nat),
      (List.enumFrom j l).takeWhile (fun q => p q.2) = List.enumFrom j (l.takeWhile p) := by
  intro l
  induction l with
  | nil => intro j; rfl
  | cons x xs ih =>
    intro j
    rw [List.enumFrom_cons, List.takeWhile_cons, List.takeWhile_cons]
    by_cases hp : p x = true
    · rw [if_pos hp, if_pos hp, ih, List.enumFrom_cons]
    · rw [if_neg hp, if_neg hp]
      rfl

/-- The slots of an allocated segment up to the first chunk with more than two sequence
numbers. -/
theorem segSlots_takeWhile (env : Env) (info : SnapshotInfo) (i : Nat)
    (h : (env.getSnapshotSegmentInfo (i * info.segmentSize)).1 = LibcurveRet.OK) :
    (segSlots env info i).takeWhile (slotOk env)
      = (List.enumFrom 0
          ((env.getSnapshotSegmentInfo (i * info.segmentSize)).2.chunkvec.takeWhile
            (chunkSnOk env))).map (fun p => (i, p.1, p.2)) := by
  unfold segSlots
  rw [if_pos h, List.takeWhile_map, ← enumFrom_takeWhile]
  rfl

theorem segSlots_length (env : Env) (info : SnapshotInfo) (i : Nat)
    (h : (env.getSnapshotSegmentInfo (i * info.segmentSize)).1 = LibcurveRet.OK) :
    (segSlots env info i).length
      = (env.getSnapshotSegmentInfo (i * info.segmentSize)).2.chunkvec.length := by
  unfold segSlots
  rw [if_pos h, List.length_map, List.enumFrom_length]

theorem slotNames_eq (env : Env) (info : SnapshotInfo) (i : Nat) (cids : List ChunkIDInfo) :
    ((List.enumFrom 0 cids).map (fun p => ((i, p.1, p.2) : Nat × Nat × ChunkIDInfo))).filterMap
        (slotName env info)
      = slotNames env info i 0 cids := by
  rw [List.filterMap_map]
  rfl

theorem allSlots_cons (env : Env) (info : SnapshotInfo) (i : Nat) (rest : List Nat) :
    allSlots env info (i :: rest) = segSlots env info i ++ allSlots env info rest := by
  unfold allSlots
  rw [List.flatMap_cons]


/-- The outer loop of `BuildChunkIndexData` when every segment is answered `OK` or
`NOT_ALLOCATE`, every `GetChunkInfo` succeeds and no sample finds the cancel flag set:
it records the names of the spec for the slots up to the first chunk with more than two
sequence numbers, samples the flag once per such slot, and returns `InternalError` at
that chunk, `Success` if there is none. -/
theorem buildSegmentLoop_spec (env : Env) (info : SnapshotInfo)
    (hchunk : info.chunkSize ≠ 0) :
    ∀ (l : List Nat) (indexData : ChunkIndexData) (segInfos : List (Nat × SegmentInfo))
      (task : SnapshotTaskInfo),
      (∀ i ∈ l, (env.getSnapshotSegmentInfo (i * info.segmentSize)).1 = LibcurveRet.OK ∨
        (env.getSnapshotSegmentInfo (i * info.segmentSize)).1 = LibcurveRet.NOT_ALLOCATE) →
      (∀ s ∈ allSlots env info l, (env.getChunkInfo s.2.2).1 = LibcurveRet.OK) →
      (∀ k, task.cancelSamples ≤ k → k < task.cancelSamples + (allSlots env info l).length →
        env.isCanceled k = false) →
      ∃ segInfos1,
        buildSegmentLoop env info l indexData segInfos task
          = Except.ok
              (if ((allSlots env info l).takeWhile (slotOk env)).length
                    = (allSlots env info l).length then kErrCodeSuccess
                else kErrCodeInternalError,
               putNames indexData
                 (((allSlots env info l).takeWhile (slotOk env)).filterMap
                   (slotName env info)),
               segInfos1,
               task.sampled ((allSlots env info l).takeWhile (slotOk env)).length) ∧
        (((allSlots env info l).takeWhile (slotOk env)).length
            = (allSlots env info l).length →
          segInfos1 = segInfos ++ allocatedSegs env info l) := by
  intro l
  induction l with
  | nil =>
    intro indexData segInfos task _ _ _
    exact ⟨segInfos, rfl, fun _ => by simp [allocatedSegs]⟩
  | cons i rest ih =>
    intro indexData segInfos task hseg hchunks hq
    rw [allSlots_cons] at hchunks hq
    rw [allSlots_cons, List.takeWhile_append]
    rcases hseg i (List.mem_cons_self _ _) with hans | hans
    · -- the segment is allocated
      have hlen := segSlots_length env info i hans
      have htw := segSlots_takeWhile env info i hans
      have hcids : ∀ cid ∈ (env.getSnapshotSegmentInfo (i * info.segmentSize)).2.chunkvec,
          (env.getChunkInfo cid).1 = LibcurveRet.OK := by
        intro cid hcid
        obtain ⟨n, hn, hget⟩ := List.getElem_of_mem hcid
        have hmem : (i, n, cid) ∈ segSlots env info i := by
          unfold segSlots
          rw [if_pos hans, List.mem_map]
          refine ⟨(n, cid), ?_, rfl⟩
          rw [List.mem_iff_getElem]
          refine ⟨n, by rw [List.enumFrom_length]; exact hn, ?_⟩
          rw [List.getElem_enumFrom, hget, Nat.zero_add]
        exact hchunks (i, n, cid) (List.mem_append_left _ hmem)
      have hq1 : ∀ k, task.cancelSamples ≤ k →
          k < task.cancelSamples
            + (env.getSnapshotSegmentInfo (i * info.segmentSize)).2.chunkvec.length →
          env.isCanceled k = false := by
        intro k h1 h2
        apply hq k h1
        rw [List.length_append, hlen]
        omega
      have hloop := buildChunkLoop_spec env info i hchunk
        (env.getSnapshotSegmentInfo (i * info.segmentSize)).2.chunkvec 0 indexData task
        hcids hq1
      unfold buildSegmentLoop
      simp only [hans]
      rw [hloop]
      by_cases hgood : ((env.getSnapshotSegmentInfo (i * info.segmentSize)).2.chunkvec.takeWhile
          (chunkSnOk env)).length
            = (env.getSnapshotSegmentInfo (i * info.segmentSize)).2.chunkvec.length
      · have hall := takeWhile_of_length _ _ hgood
        have hgood2 : ((segSlots env info i).takeWhile (slotOk env)).length
            = (segSlots env info i).length := by
          rw [htw, List.length_map, List.enumFrom_length, hgood, hlen]
        have hq2 : ∀ k,
            (task.sampled ((env.getSnapshotSegmentInfo
              (i * info.segmentSize)).2.chunkvec.takeWhile (chunkSnOk env)).length).cancelSamples
              ≤ k →
            k < (task.sampled ((env.getSnapshotSegmentInfo
              (i * info.segmentSize)).2.chunkvec.takeWhile
                (chunkSnOk env)).length).cancelSamples + (allSlots env info rest).length →
            env.isCanceled k = false := by
          intro k h1 h2
          simp only [SnapshotTaskInfo.sampled, hgood] at h1 h2
          apply hq k (by omega)
          rw [List.length_append, hlen]
          omega
        obtain ⟨segInfos1, hrun, hsegs⟩ := ih
          (putNames indexData (slotNames env info i 0
            ((env.getSnapshotSegmentInfo (i * info.segmentSize)).2.chunkvec.takeWhile
              (chunkSnOk env))))
          (segInfos ++ [(i, (env.getSnapshotSegmentInfo (i * info.segmentSize)).2)])
          (task.sampled ((env.getSnapshotSegmentInfo
            (i * info.segmentSize)).2.chunkvec.takeWhile (chunkSnOk env)).length)
          (fun i1 h1 => hseg i1 (List.mem_cons_of_mem _ h1))
          (fun s hs => hchunks s (List.mem_append_right _ hs)) hq2
        rw [if_pos hgood, if_pos hgood2]
        simp only []
        refine ⟨segInfos1, ?_, ?_⟩
        · rw [hrun, List.filterMap_append, putNames_append, sampled_sampled]
          have hnames : (segSlots env info i).filterMap (slotName env info)
              = slotNames env info i 0
                  ((env.getSnapshotSegmentInfo (i * info.segmentSize)).2.chunkvec.takeWhile
                    (chunkSnOk env)) := by
            rw [← takeWhile_of_length _ _ hgood2, htw, slotNames_eq]
          rw [hnames]
          simp only [List.length_append, hlen, hgood, Nat.add_left_cancel_iff]
        · intro hfull
          rw [List.length_append, List.length_append, Nat.add_left_cancel_iff] at hfull
          rw [hsegs hfull]
          unfold allocatedSegs
          rw [List.filterMap_cons]
          simp only [hans, if_true, List.append_assoc, List.singleton_append]
      · have hbad2 : ¬ ((segSlots env info i).takeWhile (slotOk env)).length
            = (segSlots env info i).length := by
          rw [htw, List.length_map, List.enumFrom_length, hlen]
          exact hgood
        have hle : ((env.getSnapshotSegmentInfo (i * info.segmentSize)).2.chunkvec.takeWhile
            (chunkSnOk env)).length
            ≤ (env.getSnapshotSegmentInfo (i * info.segmentSize)).2.chunkvec.length :=
          (List.takeWhile_sublist (chunkSnOk env)).length_le
        rw [if_neg hgood, if_neg hbad2]
        simp only []
        refine ⟨segInfos ++ [(i, (env.getSnapshotSegmentInfo (i * info.segmentSize)).2)],
          ?_, ?_⟩
        · rw [htw, slotNames_eq, List.length_map, List.enumFrom_length, List.length_append,
            hlen, if_neg (by omega)]
        · intro hfull
          rw [htw, List.length_map, List.enumFrom_length, List.length_append, hlen] at hfull
          omega
    · -- the segment is not allocated
      have hempty : segSlots env info i = [] := by
        unfold segSlots
        rw [if_neg (by rw [hans]; decide)]
      rw [hempty] at hq ⊢
      simp only [List.takeWhile_nil, List.length_nil, if_true, List.nil_append] at hq ⊢
      obtain ⟨segInfos1, hrun, hsegs⟩ := ih indexData segInfos task
        (fun i1 h1 => hseg i1 (List.mem_cons_of_mem _ h1))
        (fun s hs => hchunks s (List.mem_append_right _ hs))
        (fun k h1 h2 => hq k h1 (by omega))
      unfold buildSegmentLoop
      simp only [hans]
      refine ⟨segInfos1, hrun, ?_⟩
      intro hfull
      rw [hsegs hfull]
      unfold allocatedSegs
      rw [List.filterMap_cons]
      simp only [hans]
      rfl


theorem slot_div_mod (q i j : Nat) (hj : j < q) :
    (i * q + j) / q = i ∧ (i * q + j) % q = j := by
  have hq : 0 < q := by omega
  constructor
  · rw [Nat.add_comm, Nat.add_mul_div_right _ _ hq, Nat.div_eq_of_lt hj, Nat.zero_add]
  · rw [Nat.add_comm, Nat.add_mul_mod_self_right, Nat.mod_eq_of_lt hj]

theorem mem_segSlots (env : Env) (info : SnapshotInfo) (i : Nat)
    (s : Nat × Nat × ChunkIDInfo) :
    s ∈ segSlots env info i ↔
      (env.getSnapshotSegmentInfo (i * info.segmentSize)).1 = LibcurveRet.OK ∧ s.1 = i ∧
        (env.getSnapshotSegmentInfo (i * info.segmentSize)).2.chunkvec[s.2.1]? = some s.2.2 := by
  unfold segSlots
  by_cases hans : (env.getSnapshotSegmentInfo (i * info.segmentSize)).1 = LibcurveRet.OK
  · rw [if_pos hans, List.mem_map]
    constructor
    · rintro ⟨p, hp, rfl⟩
      have := (List.mk_mem_enumFrom_iff_le_and_getElem?_sub (n := 0) (i := p.1) (x := p.2)
        (l := (env.getSnapshotSegmentInfo (i * info.segmentSize)).2.chunkvec)).mp hp
      exact ⟨hans, rfl, by simpa using this⟩
    · rintro ⟨_, hi, hget⟩
      refine ⟨(s.2.1, s.2.2), ?_, ?_⟩
      · rw [List.mk_mem_enumFrom_iff_le_and_getElem?_sub]
        exact ⟨Nat.zero_le _, by simpa using hget⟩
      · rw [← hi]
  · rw [if_neg hans]
    constructor
    · intro h
      cases h
    · rintro ⟨h, _⟩
      exact absurd h hans

theorem mem_allSlots (env : Env) (info : SnapshotInfo) (l : List Nat)
    (s : Nat × Nat × ChunkIDInfo) :
    s ∈ allSlots env info l ↔
      s.1 ∈ l ∧ (env.getSnapshotSegmentInfo (s.1 * info.segmentSize)).1 = LibcurveRet.OK ∧
        (env.getSnapshotSegmentInfo (s.1 * info.segmentSize)).2.chunkvec[s.2.1]?
          = some s.2.2 := by
  unfold allSlots
  rw [List.mem_flatMap]
  constructor
  · rintro ⟨i, hi, hs⟩
    rw [mem_segSlots] at hs
    obtain ⟨h1, h2, h3⟩ := hs
    rw [h2]
    exact ⟨hi, h1, h3⟩
  · rintro ⟨h1, h2, h3⟩
    exact ⟨s.1, h1, (mem_segSlots env info s.1 s).mpr ⟨h2, rfl, h3⟩⟩

theorem specChunkName_some (info : SnapshotInfo) (i j : Nat) (chunkSn : List Nat)
    (c : ChunkDataName) (h : specChunkName info i j chunkSn = some c) :
    c.fileName_ = info.fileName ∧
      c.chunkIndex_ = i * (info.segmentSize / info.chunkSize) + j := by
  unfold specChunkName at h
  split at h
  · simp only [Option.some.injEq] at h
    rw [← h]
    exact ⟨rfl, rfl⟩
  · split at h
    · simp only [Option.some.injEq] at h
      rw [← h]
      exact ⟨rfl, rfl⟩
    · cases h
  · cases h

/-- The names of a series of `PutChunkDataName` all get their entry if names with the
same chunk index have the same sequence number, in the list and in the map before. -/
theorem putNames_agree : ∀ (names : List ChunkDataName) (d : ChunkIndexData),
    (∀ a ∈ names, ∀ b ∈ names, a.chunkIndex_ = b.chunkIndex_ →
      a.chunkSeqNum_ = b.chunkSeqNum_) →
    (∀ c ∈ names, ∀ e ∈ d.chunkMap, e.1 = c.chunkIndex_ → e.2 = c.chunkSeqNum_) →
    ∀ c ∈ names, (c.chunkIndex_, c.chunkSeqNum_) ∈ (putNames d names).chunkMap := by
  intro names
  induction names with
  | nil => intro d _ _ c hc; cases hc
  | cons x rest ih =>
    intro d hagree hold c hc
    rw [putNames_cons]
    have hx : (x.chunkIndex_, x.chunkSeqNum_) ∈ (d.PutChunkDataName x).chunkMap := by
      by_cases hkey : x.chunkIndex_ ∈ d.chunkMap.map Prod.fst
      · rw [List.mem_map] at hkey
        obtain ⟨e, he, hek⟩ := hkey
        have hseq := hold x (List.mem_cons_self _ _) e he hek
        have : e = (x.chunkIndex_, x.chunkSeqNum_) := by
          rw [← hek, ← hseq]
        rw [← this]
        exact insertChunkEntry_subset _ _ _ e he
      · exact insertChunkEntry_new _ _ _ hkey
    rcases List.mem_cons.mp hc with h | h
    · rw [h]
      exact putNames_subset _ _ _ hx
    · apply ih _ (fun a ha b hb => hagree a (List.mem_cons_of_mem _ ha) b
        (List.mem_cons_of_mem _ hb)) _ c h
      intro c1 hc1 e he hek
      rcases insertChunkEntry_mem _ _ _ e he with h1 | h1
      · rw [h1] at hek ⊢
        exact hagree x (List.mem_cons_self _ _) c1 (List.mem_cons_of_mem _ hc1) hek
      · exact hold c1 (List.mem_cons_of_mem _ hc1) e h1 hek


/-- Whatever the classification of a chunk adds to the index has the chunk index of the
slot. -/
theorem recordChunk_entries (info : SnapshotInfo) (i j : Nat) (chunkSn : List Nat)
    (indexData : ChunkIndexData) (flow : Flow) (indexData1 : ChunkIndexData)
    (h : recordChunk info i j chunkSn indexData = Except.ok (flow, indexData1)) :
    ∀ e ∈ indexData1.chunkMap,
      e ∈ indexData.chunkMap ∨ e.1 = i * (info.segmentSize / info.chunkSize) + j := by
  unfold recordChunk at h
  split at h
  · split at h
    · cases h
    · rename_i q hdiv
      obtain ⟨_, hq⟩ := checkedDiv_eq _ _ _ hdiv
      simp only [Except.ok.injEq, Prod.mk.injEq] at h
      obtain ⟨_, h2⟩ := h
      subst h2 hq
      intro e he
      rcases insertChunkEntry_mem _ _ _ e he with h1 | h1
      · right
        rw [h1]
      · exact Or.inl h1
  · split at h
    · split at h
      · cases h
      · rename_i q hdiv
        obtain ⟨_, hq⟩ := checkedDiv_eq _ _ _ hdiv
        simp only [Except.ok.injEq, Prod.mk.injEq] at h
        obtain ⟨_, h2⟩ := h
        subst h2 hq
        intro e he
        rcases insertChunkEntry_mem _ _ _ e he with h1 | h1
        · right
          rw [h1]
        · exact Or.inl h1
    · simp only [Except.ok.injEq, Prod.mk.injEq] at h
      obtain ⟨_, h2⟩ := h
      subst h2
      exact fun e he => Or.inl he
  · simp only [Except.ok.injEq, Prod.mk.injEq] at h
    obtain ⟨_, h2⟩ := h
    subst h2
    exact fun e he => Or.inl he
  · simp only [Except.ok.injEq, Prod.mk.injEq] at h
    obtain ⟨_, h2⟩ := h
    subst h2
    exact fun e he => Or.inl he

/-- Every entry that a run of the inner loop of `BuildChunkIndexData` adds to the index
has the chunk index of a slot of the segment. -/
theorem buildChunkLoop_entries (env : Env) (info : SnapshotInfo) (i : Nat) :
    ∀ (cids : List ChunkIDInfo) (j : Nat) (indexData : ChunkIndexData)
      (task : SnapshotTaskInfo) (flow : Flow) (indexData1 : ChunkIndexData)
      (task1 : SnapshotTaskInfo),
      buildChunkLoop env info i j cids indexData task = Except.ok (flow, indexData1, task1) →
      ∀ e ∈ indexData1.chunkMap,
        e ∈ indexData.chunkMap ∨
        ∃ n, n < cids.length ∧ e.1 = i * (info.segmentSize / info.chunkSize) + (j + n) := by
  intro cids
  induction cids with
  | nil =>
    intro j indexData task flow indexData1 task1 h
    simp only [buildChunkLoop, Except.ok.injEq, Prod.mk.injEq] at h
    obtain ⟨_, h2, _⟩ := h
    subst h2
    exact fun e he => Or.inl he
  | cons cid rest ih =>
    intro j indexData task flow indexData1 task1 h
    unfold buildChunkLoop at h
    split at h
    · simp only [Except.ok.injEq, Prod.mk.injEq] at h
      obtain ⟨_, h2, _⟩ := h
      subst h2
      exact fun e he => Or.inl he
    · split at h
      · cases h
      · rename_i code idx1 hrec
        have hent := recordChunk_entries info i j _ indexData _ _ hrec
        simp only [Except.ok.injEq, Prod.mk.injEq] at h
        obtain ⟨_, h2, _⟩ := h
        subst h2
        intro e he
        rcases hent e he with h1 | h1
        · exact Or.inl h1
        · exact Or.inr ⟨0, by simp, h1⟩
      · rename_i idx1 hrec
        have hent := recordChunk_entries info i j _ indexData _ _ hrec
        have hone : ∀ e ∈ idx1.chunkMap, e ∈ indexData.chunkMap ∨
            ∃ n, n < (cid :: rest).length ∧
              e.1 = i * (info.segmentSize / info.chunkSize) + (j + n) := by
          intro e he
          rcases hent e he with h1 | h1
          · exact Or.inl h1
          · exact Or.inr ⟨0, by simp, h1⟩
        split at h
        · simp only [Except.ok.injEq, Prod.mk.injEq] at h
          obtain ⟨_, h2, _⟩ := h
          subst h2
          exact hone
        · intro e he
          rcases ih _ _ _ _ _ _ h e he with h1 | ⟨n, hn, hk⟩
          · exact hone e h1
          · refine Or.inr ⟨n + 1, by simp only [List.length_cons]; omega, ?_⟩
            rw [hk]
            omega

theorem allocatedSegs_append (env : Env) (info : SnapshotInfo) (a b : List Nat) :
    allocatedSegs env info (a ++ b) = allocatedSegs env info a ++ allocatedSegs env info b := by
  unfold allocatedSegs
  rw [List.filterMap_append]

/-- A run of the outer loop of `BuildChunkIndexData` that returns has visited a prefix of
the segments: `segInfos` has got the allocated ones among them, and every entry added to
the index has the chunk index of a slot of one of these. -/
theorem buildSegmentLoop_entries (env : Env) (info : SnapshotInfo) :
    ∀ (l : List Nat) (indexData : ChunkIndexData) (segInfos : List (Nat × SegmentInfo))
      (task : SnapshotTaskInfo) (code : ErrCode) (indexData1 : ChunkIndexData)
      (segInfos1 : List (Nat × SegmentInfo)) (task1 : SnapshotTaskInfo),
      buildSegmentLoop env info l indexData segInfos task
        = Except.ok (code, indexData1, segInfos1, task1) →
      ∃ pre, pre <+: l ∧ segInfos1 = segInfos ++ allocatedSegs env info pre ∧
        ∀ e ∈ indexData1.chunkMap, e ∈ indexData.chunkMap ∨
          ∃ i ∈ pre,
            (env.getSnapshotSegmentInfo (i * info.segmentSize)).1 = LibcurveRet.OK ∧
            ∃ j, j < (env.getSnapshotSegmentInfo (i * info.segmentSize)).2.chunkvec.length ∧
              e.1 = i * (info.segmentSize / info.chunkSize) + j := by
  intro l
  induction l with
  | nil =>
    intro indexData segInfos task code indexData1 segInfos1 task1 h
    simp only [buildSegmentLoop, Except.ok.injEq, Prod.mk.injEq] at h
    obtain ⟨_, h2, h3, _⟩ := h
    subst h2 h3
    exact ⟨[], List.prefix_refl _, by simp [allocatedSegs], fun e he => Or.inl he⟩
  | cons i rest ih =>
    intro indexData segInfos task code indexData1 segInfos1 task1 h
    unfold buildSegmentLoop at h
    split at h
    · rename_i hans
      have hone : allocatedSegs env info [i]
          = [(i, (env.getSnapshotSegmentInfo (i * info.segmentSize)).2)] := by
        simp [allocatedSegs, hans]
      simp only [] at h
      split at h
      · cases h
      · rename_i c idx1 t1 hloop
        have hent := buildChunkLoop_entries env info i _ _ _ _ _ _ _ hloop
        simp only [Except.ok.injEq, Prod.mk.injEq] at h
        obtain ⟨_, h2, h3, _⟩ := h
        subst h2 h3
        refine ⟨[i], ⟨rest, rfl⟩, by rw [hone], ?_⟩
        intro e he
        rcases hent e he with h1 | ⟨n, hn, hk⟩
        · exact Or.inl h1
        · exact Or.inr ⟨i, List.mem_singleton.mpr rfl, hans, n, hn, by rw [hk, Nat.zero_add]⟩
      · rename_i idx1 t1 hloop
        have hent := buildChunkLoop_entries env info i _ _ _ _ _ _ _ hloop
        obtain ⟨pre, hpre, hsegs, hall⟩ := ih _ _ _ _ _ _ _ h
        refine ⟨i :: pre, ?_, ?_, ?_⟩
        · obtain ⟨tl, htl⟩ := hpre
          exact ⟨tl, by rw [← htl]; rfl⟩
        · rw [hsegs, List.append_assoc, ← hone, ← allocatedSegs_append]
          rfl
        · intro e he
          rcases hall e he with h1 | ⟨i1, hi1, hrest⟩
          · rcases hent e h1 with h2 | ⟨n, hn, hk⟩
            · exact Or.inl h2
            · exact Or.inr ⟨i, List.mem_cons_self _ _, hans, n, hn,
                by rw [hk, Nat.zero_add]⟩
          · exact Or.inr ⟨i1, List.mem_cons_of_mem _ hi1, hrest⟩
    · rename_i hans
      have hone : allocatedSegs env info [i] = [] := by
        simp [allocatedSegs, hans]
      obtain ⟨pre, hpre, hsegs, hall⟩ := ih _ _ _ _ _ _ _ h
      refine ⟨i :: pre, ?_, ?_, ?_⟩
      · obtain ⟨tl, htl⟩ := hpre
        exact ⟨tl, by rw [← htl]; rfl⟩
      · have : i :: pre = [i] ++ pre := rfl
        rw [hsegs, this, allocatedSegs_append, hone, List.nil_append]
      · intro e he
        rcases hall e he with h1 | ⟨i1, hi1, hrest⟩
        · exact Or.inl h1
        · exact Or.inr ⟨i1, List.mem_cons_of_mem _ hi1, hrest⟩
    · simp only [Except.ok.injEq, Prod.mk.injEq] at h
      obtain ⟨_, h2, h3, _⟩ := h
      subst h2 h3
      exact ⟨[], List.nil_prefix, by simp [allocatedSegs], fun e he => Or.inl he⟩

/-- The segment map finds an allocated segment of the list under its number. -/
theorem find_allocatedSegs (env : Env) (info : SnapshotInfo) (i : Nat)
    (hans : (env.getSnapshotSegmentInfo (i * info.segmentSize)).1 = LibcurveRet.OK) :
    ∀ (l : List Nat), i ∈ l →
      (allocatedSegs env info l).find? (fun e => e.1 == i)
        = some (i, (env.getSnapshotSegmentInfo (i * info.segmentSize)).2) := by
  intro l
  induction l with
  | nil => intro h; cases h
  | cons x rest ih =>
    intro hmem
    unfold allocatedSegs
    rw [List.filterMap_cons]
    by_cases hx : x = i
    · subst hx
      simp only [hans, if_true]
      rw [List.find?_cons_of_pos _ (by simp)]
    · have hrest : i ∈ rest := by
        rcases List.mem_cons.mp hmem with h | h
        · exact absurd h.symm hx
        · exact h
      have ih2 := ih hrest
      unfold allocatedSegs at ih2
      split
      · exact ih2
      · rename_i b hb
        split at hb
        · simp only [Option.some.injEq] at hb
          rw [← hb, List.find?_cons_of_neg _ (by simpa using hx)]
          exact ih2
        · cases hb


/-! ## Claims on the stage functions -/

/-- C26. `DeleteSnapshotOnCurvefs` as a function of the responses it receives. If the
upstream delete answers anything other than `OK`, `NOTEXIST` or `DELETING`, it returns
`InternalError` and has not polled (the clock has advanced by the delete call alone).
Otherwise, if the first `n` polls answer `OK` with status `Deleting` and the fuel of the
model exceeds `n`, the poll after them decides: `Success` if it answers `NOTEXIST`, or
`OK` with a status other than `Deleting`; `InternalError` if it answers any other code;
in both cases exactly `n + 1` polls have been made. While every answer is `OK` with
status `Deleting` the function does not return. -/
theorem C26_delete_snapshot_on_curvefs (env : Env) (fuel : Nat) (info : SnapshotInfo)
    (w : World) :
    (env.deleteSnapshot w.clock ≠ LibcurveRet.OK →
      env.deleteSnapshot w.clock ≠ LibcurveRet.NOTEXIST →
      env.deleteSnapshot w.clock ≠ LibcurveRet.DELETING →
      DeleteSnapshotOnCurvefs env fuel info w
        = Except.ok (kErrCodeInternalError,
            { w with clock := w.clock + 1,
                     calls := w.calls ++
                       [Call.ClientDeleteSnapshot info.fileName info.user info.seqNum] })) ∧
    ((env.deleteSnapshot w.clock = LibcurveRet.OK ∨
        env.deleteSnapshot w.clock = LibcurveRet.NOTEXIST ∨
        env.deleteSnapshot w.clock = LibcurveRet.DELETING) →
      (∀ n, n < fuel →
        (∀ k, k < n → env.checkSnapShotStatus (w.clock + 1 + k)
          = (LibcurveRet.OK, FileStatus.Deleting)) →
        (((env.checkSnapShotStatus (w.clock + 1 + n)).1 = LibcurveRet.NOTEXIST ∨
            ((env.checkSnapShotStatus (w.clock + 1 + n)).1 = LibcurveRet.OK ∧
              (env.checkSnapShotStatus (w.clock + 1 + n)).2 ≠ FileStatus.Deleting)) →
          DeleteSnapshotOnCurvefs env fuel info w
            = Except.ok (kErrCodeSuccess,
                { w with clock := w.clock + 1 + n + 1,
                         calls := w.calls ++
                           [Call.ClientDeleteSnapshot info.fileName info.user
                             info.seqNum] })) ∧
        ((env.checkSnapShotStatus (w.clock + 1 + n)).1 ≠ LibcurveRet.NOTEXIST →
          (env.checkSnapShotStatus (w.clock + 1 + n)).1 ≠ LibcurveRet.OK →
          DeleteSnapshotOnCurvefs env fuel info w
            = Except.ok (kErrCodeInternalError,
                { w with clock := w.clock + 1 + n + 1,
                         calls := w.calls ++
                           [Call.ClientDeleteSnapshot info.fileName info.user
                             info.seqNum] }))) ∧
      ((∀ k, k < fuel → env.checkSnapShotStatus (w.clock + 1 + k)
          = (LibcurveRet.OK, FileStatus.Deleting)) →
        DeleteSnapshotOnCurvefs env fuel info w = Except.error Abort.pollOutOfFuel)) := by
  refine ⟨?_, ?_⟩
  · intro h1 h2 h3
    unfold DeleteSnapshotOnCurvefs
    simp only []
    rw [if_pos ⟨h1, h2, h3⟩]
  · intro hok
    have hcond : ¬ (env.deleteSnapshot w.clock ≠ LibcurveRet.OK ∧
        env.deleteSnapshot w.clock ≠ LibcurveRet.NOTEXIST ∧
        env.deleteSnapshot w.clock ≠ LibcurveRet.DELETING) := by
      rintro ⟨h1, h2, h3⟩
      rcases hok with h | h | h
      · exact h1 h
      · exact h2 h
      · exact h3 h
    refine ⟨?_, ?_⟩
    · intro n hn hall
      have hgo := pollSnapShotStatus_goes_on env n fuel
        { w with clock := w.clock + 1,
                 calls := w.calls ++
                   [Call.ClientDeleteSnapshot info.fileName info.user info.seqNum] } hn hall
      obtain ⟨f, hf⟩ : ∃ f, fuel - n = f + 1 := ⟨fuel - n - 1, by omega⟩
      refine ⟨?_, ?_⟩
      · intro hans
        unfold DeleteSnapshotOnCurvefs
        simp only []
        rw [if_neg hcond, hgo, hf, pollSnapShotStatus]
        simp only []
        rcases hans with h | ⟨h, h2⟩
        · rw [h]
        · rw [h]
          simp only []
          rw [if_pos h2]
      · intro hne1 hne2
        unfold DeleteSnapshotOnCurvefs
        simp only []
        rw [if_neg hcond, hgo, hf, pollSnapShotStatus]
        simp only []
    · intro hall
      unfold DeleteSnapshotOnCurvefs
      simp only []
      rw [if_neg hcond]
      exact pollSnapShotStatus_out_of_fuel env fuel _ hall

/-- Witness of C26: the upstream delete answers `OK`, two polls answer `OK` with status
`Deleting`, the third answers `NOTEXIST`: `Success` after three polls. With `AUTHFAIL`
as third answer: `InternalError` after three polls. -/
theorem C26_delete_snapshot_on_curvefs_witness :
    DeleteSnapshotOnCurvefs (pollEnv 3 (LibcurveRet.NOTEXIST, FileStatus.Created)) 5
        (pendingInfo "id1") (worldOf [])
      = Except.ok (kErrCodeSuccess,
          { worldOf [] with clock := 4,
                            calls := [Call.ClientDeleteSnapshot "/a" "u" 0] }) ∧
    DeleteSnapshotOnCurvefs (pollEnv 3 (LibcurveRet.AUTHFAIL, FileStatus.Created)) 5
        (pendingInfo "id1") (worldOf [])
      = Except.ok (kErrCodeInternalError,
          { worldOf [] with clock := 4,
                            calls := [Call.ClientDeleteSnapshot "/a" "u" 0] }) :=
  ⟨((C26_delete_snapshot_on_curvefs (pollEnv 3 (LibcurveRet.NOTEXIST, FileStatus.Created)) 5
      (pendingInfo "id1") (worldOf [])).2 (Or.inl rfl)).1 2 (by decide)
      (fun k hk => by
        have hk3 : (worldOf []).clock + 1 + k < 3 := by
          show 0 + 1 + k < 3
          omega
        show (if (worldOf []).clock + 1 + k < 3 then (LibcurveRet.OK, FileStatus.Deleting)
          else (LibcurveRet.NOTEXIST, FileStatus.Created)) = _
        rw [if_pos hk3]) |>.1 (Or.inl rfl),
   ((C26_delete_snapshot_on_curvefs (pollEnv 3 (LibcurveRet.AUTHFAIL, FileStatus.Created)) 5
      (pendingInfo "id1") (worldOf [])).2 (Or.inl rfl)).1 2 (by decide)
      (fun k hk => by
        have hk3 : (worldOf []).clock + 1 + k < 3 := by
          show 0 + 1 + k < 3
          omega
        show (if (worldOf []).clock + 1 + k < 3 then (LibcurveRet.OK, FileStatus.Deleting)
          else (LibcurveRet.AUTHFAIL, FileStatus.Created)) = _
        rw [if_pos hk3]) |>.2 (by decide) (by decide)⟩


/-- The loop of `BuildSnapshotMap` appends the loads of the peers that succeed and makes
one call per peer. -/
theorem buildSnapshotMapLoop_loads (env : Env) (seqNum : Nat) :
    ∀ (l : List SnapshotInfo) (m : FileSnapMap) (w : World),
      buildSnapshotMapLoop env seqNum l m w
        = (⟨m.maps ++ peerLoads env w.dataStore seqNum w.clock l⟩,
           { w with clock := w.clock + (l.filter (fun s => decide (s.seqNum ≠ seqNum))).length }) := by
  intro l
  induction l with
  | nil =>
    intro m w
    simp [buildSnapshotMapLoop, peerLoads]
  | cons snap rest ih =>
    intro m w
    unfold buildSnapshotMapLoop
    by_cases hs : snap.seqNum ≠ seqNum
    · have hf : (snap :: rest).filter (fun s => decide (s.seqNum ≠ seqNum))
          = snap :: rest.filter (fun s => decide (s.seqNum ≠ seqNum)) := by
        rw [List.filter_cons_of_pos (by simpa using hs)]
      rw [if_pos hs]
      cases hload : w.dataStore.GetChunkIndexData ⟨snap.fileName, snap.seqNum⟩
          (env.dataRet w.clock) with
      | none =>
        have h1 : (w.GetChunkIndexData env ⟨snap.fileName, snap.seqNum⟩).1 = none := hload
        simp only [h1]
        rw [ih]
        simp only [World.GetChunkIndexData, peerLoads, hf, List.enumFrom_cons,
          List.filterMap_cons, hload, List.length_cons]
        refine Prod.ext rfl ?_
        simp only []
        congr 1
        omega
      | some idx =>
        have h1 : (w.GetChunkIndexData env ⟨snap.fileName, snap.seqNum⟩).1 = some idx := hload
        simp only [h1]
        rw [ih]
        simp only [World.GetChunkIndexData, peerLoads, hf, List.enumFrom_cons,
          List.filterMap_cons, hload, List.length_cons, List.append_assoc,
          List.singleton_append]
        refine Prod.ext rfl ?_
        simp only []
        congr 1
        omega
    · have hf : (snap :: rest).filter (fun s => decide (s.seqNum ≠ seqNum))
          = rest.filter (fun s => decide (s.seqNum ≠ seqNum)) := by
        rw [List.filter_cons_of_neg (by simpa using hs)]
      rw [if_neg hs, ih]
      simp only [peerLoads, hf]

/-- C27. `BuildSnapshotMap` always returns `Success`, and the `FileSnapMap` it produces
consists of exactly the chunk index data of those snapshots in the list of the file in
the metadata store whose sequence number differs from the given one and whose
`GetChunkIndexData` call succeeds, in list order (`peerLoads`, one call per such
snapshot, at consecutive ticks): a peer whose index fails to load is skipped and goes
on to the next, and a snapshot with the given sequence number is never asked for nor
included. The stores are left as they were. -/
theorem C27_build_snapshot_map (env : Env) (fileName : String) (seqNum : Nat) (w : World) :
    (BuildSnapshotMap env fileName seqNum w).1 = kErrCodeSuccess ∧
    (BuildSnapshotMap env fileName seqNum w).2.1.maps
      = peerLoads env w.dataStore seqNum w.clock (w.metaStore.GetSnapshotList fileName) ∧
    (BuildSnapshotMap env fileName seqNum w).2.2
      = { w with clock := w.clock +
            ((w.metaStore.GetSnapshotList fileName).filter
              (fun s => decide (s.seqNum ≠ seqNum))).length } ∧
    (∀ indexData ∈ (BuildSnapshotMap env fileName seqNum w).2.1.maps,
      ∃ snap ∈ w.metaStore.GetSnapshotList fileName, snap.seqNum ≠ seqNum ∧
        ∃ k, w.clock ≤ k ∧ ¬ env.dataRet k < 0 ∧
          w.dataStore.GetChunkIndexData ⟨snap.fileName, snap.seqNum⟩ (env.dataRet k)
            = some indexData) := by
  have hloop := buildSnapshotMapLoop_loads env seqNum (w.metaStore.GetSnapshotList fileName)
    ⟨[]⟩ w
  have hmaps : (BuildSnapshotMap env fileName seqNum w).2.1.maps
      = peerLoads env w.dataStore seqNum w.clock (w.metaStore.GetSnapshotList fileName) := by
    unfold BuildSnapshotMap
    simp only []
    rw [hloop]
    simp
  refine ⟨rfl, hmaps, ?_, ?_⟩
  · unfold BuildSnapshotMap
    simp only []
    rw [hloop]
  · intro indexData hmem
    rw [hmaps] at hmem
    unfold peerLoads at hmem
    rw [List.mem_filterMap] at hmem
    obtain ⟨p, hp, hload⟩ := hmem
    have hp2 := List.mem_enumFrom hp
    have hin : p.2 ∈ (w.metaStore.GetSnapshotList fileName).filter
        (fun s => decide (s.seqNum ≠ seqNum)) := by
      rw [hp2.2.2]
      apply List.getElem_mem
    rw [List.mem_filter] at hin
    refine ⟨p.2, hin.1, by simpa using hin.2, p.1, hp2.1, ?_, hload⟩
    intro hneg
    unfold DataStore.GetChunkIndexData at hload
    rw [if_pos hneg] at hload
    cases hload


/-- Witness of C27: the map built for `s2` (sequence number 10) in `threeWorld` when the
load of the index of `s3` (the second call, tick 1) fails: the index of `s1` alone, after
two calls. -/
theorem C27_build_snapshot_map_witness :
    (BuildSnapshotMap (dataFailsAt 1) "/a" 10 threeWorld).1 = kErrCodeSuccess ∧
    (BuildSnapshotMap (dataFailsAt 1) "/a" 10 threeWorld).2.1.maps
      = peerLoads (dataFailsAt 1) threeWorld.dataStore 10 threeWorld.clock
          (threeWorld.metaStore.GetSnapshotList "/a") ∧
    peerLoads (dataFailsAt 1) threeWorld.dataStore 10 threeWorld.clock
        (threeWorld.metaStore.GetSnapshotList "/a") = [⟨"/a", [(7, 3)]⟩] ∧
    peerLoads (quietEnv 10) threeWorld.dataStore 10 threeWorld.clock
        (threeWorld.metaStore.GetSnapshotList "/a") = [⟨"/a", [(7, 3)]⟩, ⟨"/a", [(1, 6)]⟩] ∧
    (BuildSnapshotMap (dataFailsAt 1) "/a" 10 threeWorld).2.2.clock = 2 :=
  ⟨(C27_build_snapshot_map (dataFailsAt 1) "/a" 10 threeWorld).1,
    (C27_build_snapshot_map (dataFailsAt 1) "/a" 10 threeWorld).2.1,
    by decide, by decide, by decide⟩


/-- A negative result of the tracker is the result of one of the chunk transfers. -/
theorem settleOne_result (env : Env) (tr : TaskTracker) (w : World)
    (h : tr.result < 0 → ∃ k, env.transferRet k = tr.result) :
    (settleOne env tr w).1.result < 0 →
      ∃ k, env.transferRet k = (settleOne env tr w).1.result := by
  unfold settleOne
  split
  · exact h
  · simp only []
    split
    · exact h
    · split
      · intro _
        exact ⟨w.clock, rfl⟩
      · exact h

theorem settleN_result (env : Env) : ∀ (n : Nat) (tr : TaskTracker) (w : World),
    (tr.result < 0 → ∃ k, env.transferRet k = tr.result) →
    (settleN env n tr w).1.result < 0 →
      ∃ k, env.transferRet k = (settleN env n tr w).1.result := by
  intro n
  induction n with
  | zero => intro tr w h; exact h
  | succ n ih =>
    intro tr w h
    unfold settleN
    exact ih _ _ (settleOne_result env tr w h)

theorem submitTransfer_result (indexData : ChunkIndexData)
    (segInfos : List (Nat × SegmentInfo)) (filter : ChunkDataName → Bool)
    (cps chunkIndex : Nat) (tr : TaskTracker) (w : World) :
    (submitTransfer indexData segInfos filter cps chunkIndex tr w).1.result = tr.result := by
  unfold submitTransfer
  simp only []
  split
  · split <;> rfl
  · rfl

theorem observeTracker_result (core : SnapshotCoreImpl) (env : Env) (tr : TaskTracker)
    (w : World) (h : tr.result < 0 → ∃ k, env.transferRet k = tr.result) :
    (observeTracker core env tr w).1.result < 0 →
      ∃ k, env.transferRet k = (observeTracker core env tr w).1.result := by
  unfold observeTracker
  split
  · exact settleN_result env _ _ _ (settleN_result env _ _ _ h)
  · exact settleN_result env _ _ _ h

/-- The transfer loop leaves the function with the negative result of a chunk transfer
or, after a cancel, with `Success`; when it runs to its end, a negative result of the
tracker is the result of a chunk transfer. -/
theorem transferLoop_result (core : SnapshotCoreImpl) (env : Env) (indexData : ChunkIndexData)
    (segInfos : List (Nat × SegmentInfo)) (filter : ChunkDataName → Bool) (cps total : Nat) :
    ∀ (l : List Nat) (index : Nat) (tr : TaskTracker) (t : SnapshotTaskInfo) (w : World),
      (tr.result < 0 → ∃ k, env.transferRet k = tr.result) →
      (∀ code,
        (transferLoop core env indexData segInfos filter cps total l index tr t w).1
          = Flow.ret code →
        code = kErrCodeSuccess ∨
          ∃ k, env.transferRet k < 0 ∧ code = ErrCode.passThrough (env.transferRet k)) ∧
      ((transferLoop core env indexData segInfos filter cps total l index tr t w).2.1.result
          < 0 →
        ∃ k, env.transferRet k
          = (transferLoop core env indexData segInfos filter cps total l index tr t
              w).2.1.result) := by
  intro l
  induction l with
  | nil =>
    intro index tr t w h
    refine ⟨fun code hc => ?_, h⟩
    simp [transferLoop] at hc
  | cons ci rest ih =>
    intro index tr t w h
    have hobs := observeTracker_result core env
      (submitTransfer indexData segInfos filter cps ci tr w).1
      (submitTransfer indexData segInfos filter cps ci tr w).2
      (by rw [submitTransfer_result]; exact h)
    unfold transferLoop
    simp only []
    split
    · rename_i hneg
      refine ⟨fun code hc => ?_, hobs⟩
      simp only [Flow.ret.injEq] at hc
      obtain ⟨k, hk⟩ := hobs hneg
      right
      refine ⟨k, ?_, ?_⟩
      · rw [hk]
        exact hneg
      · rw [hk]
        exact hc.symm
    · split
      · refine ⟨fun code hc => ?_, hobs⟩
        simp only [Flow.ret.injEq] at hc
        exact Or.inl hc.symm
      · exact ih _ _ _ _ hobs

/-- With a chunk size other than 0 and aligned sizes, `TransferSnapshotData` returns
`Success`, `InternalError` or the negative result of a chunk transfer. -/
theorem TransferSnapshotData_result (core : SnapshotCoreImpl) (env : Env) (fuel : Nat)
    (indexData : ChunkIndexData) (info : SnapshotInfo) (segInfos : List (Nat × SegmentInfo))
    (filter : ChunkDataName → Bool) (t : SnapshotTaskInfo) (w : World)
    (hchunk : info.chunkSize ≠ 0)
    (hcond : ¬ (core.chunkSplitSize_ = 0 ∨ info.chunkSize % core.chunkSplitSize_ ≠ 0))
    (ret : ErrCode) (t1 : SnapshotTaskInfo) (w1 : World)
    (h : TransferSnapshotData core env fuel indexData info segInfos filter t w
      = Except.ok (ret, t1, w1)) :
    ret = kErrCodeSuccess ∨ ret = kErrCodeInternalError ∨
      ∃ k, env.transferRet k < 0 ∧ ret = ErrCode.passThrough (env.transferRet k) := by
  unfold TransferSnapshotData at h
  rw [checkedDiv_ok _ _ hchunk] at h
  simp only [] at h
  rw [if_neg hcond] at h
  split at h
  · cases h
  · rename_i code hval
    simp only [Except.ok.injEq, Prod.mk.injEq] at h
    rw [← h.1]
    exact Or.inr (Or.inl (validateLoop_code _ _ _ _ hval))
  · have hloop := transferLoop_result core env indexData segInfos filter
      (info.segmentSize / info.chunkSize) indexData.GetAllChunkIndex.length
      indexData.GetAllChunkIndex 0 ⟨[], 0⟩ t w (fun h0 => absurd h0 (by decide))
    split at h
    · rename_i code tr t2 w2 heq
      simp only [Except.ok.injEq, Prod.mk.injEq] at h
      rw [← h.1]
      rcases hloop.1 code (by rw [heq]) with hc | hc
      · exact Or.inl hc
      · exact Or.inr (Or.inr hc)
    · rename_i tr t2 w2 heq
      rw [heq] at hloop
      have hwait := settleN_result env tr.outstanding.length tr w2 hloop.2
      split at h
      · rename_i hres
        simp only [Except.ok.injEq, Prod.mk.injEq] at h
        rw [← h.1]
        obtain ⟨k, hk⟩ := hwait hres
        right
        right
        refine ⟨k, ?_, ?_⟩
        · rw [hk]
          exact hres
        · rw [hk]
          rfl
      · split at h
        · cases h
        · rename_i ret2 w3 hdel
          simp only [Except.ok.injEq, Prod.mk.injEq] at h
          rw [← h.1]
          rcases (DeleteSnapshotOnCurvefs_world env fuel _ _ _ _ hdel).2.2.2.2 with hc | hc
          · exact Or.inl hc
          · exact Or.inr (Or.inl hc)


/-- C23, as the code has it. For a snapshot whose chunk size is not 0: if
`chunkSplitSize_` is 0 or the chunk size is not a multiple of `chunkSplitSize_`,
`TransferSnapshotData` returns `ChunkSizeNotAligned`, and the task record and the world
are the ones it was called with: no transfer task has been submitted, the progress has
not changed and `DeleteSnapshotOnCurvefs` has not been called. Otherwise the call passes
the alignment check and every return is `Success`, `InternalError` or the negative
result of a chunk transfer, which `return ret` hands back unchanged. So the integer the
call returns is the one of `kErrCodeChunkSizeNotAligned` only if the sizes are not
aligned or a chunk transfer has failed with that very integer (`value` gives the
integers of the constants, the ones of `kErrCodeSuccess` and `kErrCodeInternalError`
being other than the one of `kErrCodeChunkSizeNotAligned`); when no chunk transfer
answers that integer, the call returns it if and only if the sizes are not aligned. -/
theorem C23_chunk_size_not_aligned (core : SnapshotCoreImpl) (env : Env) (fuel : Nat)
    (indexData : ChunkIndexData) (info : SnapshotInfo) (segInfos : List (Nat × SegmentInfo))
    (filter : ChunkDataName → Bool) (t : SnapshotTaskInfo) (w : World)
    (value : ErrCode → Int)
    (hchunk : info.chunkSize ≠ 0)
    (hv1 : value ErrCode.Success ≠ value ErrCode.ChunkSizeNotAligned)
    (hv2 : value ErrCode.InternalError ≠ value ErrCode.ChunkSizeNotAligned) :
    ((core.chunkSplitSize_ = 0 ∨ info.chunkSize % core.chunkSplitSize_ ≠ 0) →
      TransferSnapshotData core env fuel indexData info segInfos filter t w
        = Except.ok (ErrCode.ChunkSizeNotAligned, t, w)) ∧
    (¬ (core.chunkSplitSize_ = 0 ∨ info.chunkSize % core.chunkSplitSize_ ≠ 0) →
      ∀ ret t1 w1, TransferSnapshotData core env fuel indexData info segInfos filter t w
          = Except.ok (ret, t1, w1) →
        ret = kErrCodeSuccess ∨ ret = kErrCodeInternalError ∨
          ∃ k, env.transferRet k < 0 ∧ ret = ErrCode.passThrough (env.transferRet k)) ∧
    (∀ ret t1 w1, TransferSnapshotData core env fuel indexData info segInfos filter t w
        = Except.ok (ret, t1, w1) →
      ret.toInt value = value ErrCode.ChunkSizeNotAligned →
      (core.chunkSplitSize_ = 0 ∨ info.chunkSize % core.chunkSplitSize_ ≠ 0) ∨
        ∃ k, env.transferRet k = value ErrCode.ChunkSizeNotAligned) ∧
    ((∀ k, env.transferRet k ≠ value ErrCode.ChunkSizeNotAligned) →
      ((∃ ret t1 w1, TransferSnapshotData core env fuel indexData info segInfos filter t w
          = Except.ok (ret, t1, w1) ∧
          ret.toInt value = value ErrCode.ChunkSizeNotAligned) ↔
        (core.chunkSplitSize_ = 0 ∨ info.chunkSize % core.chunkSplitSize_ ≠ 0))) := by
  have hyes : (core.chunkSplitSize_ = 0 ∨ info.chunkSize % core.chunkSplitSize_ ≠ 0) →
      TransferSnapshotData core env fuel indexData info segInfos filter t w
        = Except.ok (ErrCode.ChunkSizeNotAligned, t, w) := by
    intro hcond
    unfold TransferSnapshotData
    rw [checkedDiv_ok _ _ hchunk]
    simp only []
    rw [if_pos hcond]
  have hno := fun hcond => TransferSnapshotData_result core env fuel indexData info segInfos
    filter t w hchunk hcond
  have hint : ∀ ret t1 w1,
      TransferSnapshotData core env fuel indexData info segInfos filter t w
        = Except.ok (ret, t1, w1) →
      ret.toInt value = value ErrCode.ChunkSizeNotAligned →
      (core.chunkSplitSize_ = 0 ∨ info.chunkSize % core.chunkSplitSize_ ≠ 0) ∨
        ∃ k, env.transferRet k = value ErrCode.ChunkSizeNotAligned := by
    intro ret t1 w1 h hval
    by_cases hcond : core.chunkSplitSize_ = 0 ∨ info.chunkSize % core.chunkSplitSize_ ≠ 0
    · exact Or.inl hcond
    · right
      rcases hno hcond ret t1 w1 h with hc | hc | ⟨k, _, hc⟩
      · rw [hc] at hval
        exact absurd hval hv1
      · rw [hc] at hval
        exact absurd hval hv2
      · rw [hc] at hval
        exact ⟨k, hval⟩
  refine ⟨hyes, hno, hint, fun hnone => ⟨?_, fun hcond => ⟨_, t, w, hyes hcond, rfl⟩⟩⟩
  rintro ⟨ret, t1, w1, h, hval⟩
  rcases hint ret t1 w1 h hval with hc | ⟨k, hk⟩
  · exact hc
  · exact absurd hk (hnone k)

/-- Witness of C23: with chunk size 16 and `chunkSplitSize_` 0 the call returns
`ChunkSizeNotAligned` and leaves task and world as they were. -/
theorem C23_chunk_size_not_aligned_witness :
    (snapOf "s1" 5 Status.pending).chunkSize ≠ 0 ∧
    sampleCodes ErrCode.Success ≠ sampleCodes ErrCode.ChunkSizeNotAligned ∧
    sampleCodes ErrCode.InternalError ≠ sampleCodes ErrCode.ChunkSizeNotAligned ∧
    TransferSnapshotData zeroSplitCore (quietEnv 10) 5 ⟨"/a", [(7, 3)]⟩
        (snapOf "s1" 5 Status.pending) [] (fun _ => false)
        (taskOf (snapOf "s1" 5 Status.pending)) (worldOf [])
      = Except.ok (ErrCode.ChunkSizeNotAligned, taskOf (snapOf "s1" 5 Status.pending),
          worldOf []) :=
  ⟨by decide, by decide, by decide,
   (C23_chunk_size_not_aligned zeroSplitCore (quietEnv 10) 5 ⟨"/a", [(7, 3)]⟩
    (snapOf "s1" 5 Status.pending) [] (fun _ => false)
    (taskOf (snapOf "s1" 5 Status.pending)) (worldOf []) sampleCodes
    (by decide) (by decide) (by decide)).1 (Or.inl rfl)⟩

/-- Counterexample to C23 as stated, in both directions. First, `chunkSplitSize_` is 0
and so is the chunk size of the snapshot: the quotient `segmentSize / chunkSize` of
line 576 is taken before the check of line 579, so the call divides by zero and does
not return `ChunkSizeNotAligned`. Second, the sizes are aligned (chunk size 16, split
size 4) and the transfer of the one chunk of the index fails with a negative integer
`v`: the call hands `v` back, and `v` may be any negative integer, the one of
`kErrCodeChunkSizeNotAligned` included. -/
theorem C23_chunk_size_not_aligned_counterexample :
    (zeroSplitCore.chunkSplitSize_ = 0 ∧ zeroChunkInfo.chunkSize = 0 ∧
      TransferSnapshotData zeroSplitCore (quietEnv 10) 5 ⟨"/a", []⟩ zeroChunkInfo []
          (fun _ => false) (taskOf zeroChunkInfo) (worldOf [])
        = Except.error Abort.divisionByZero) ∧
    (pipeCore.chunkSplitSize_ ≠ 0 ∧
      (snapOf "id1" 10 Status.pending).chunkSize % pipeCore.chunkSplitSize_ = 0 ∧
      ∀ (value : ErrCode → Int), value ErrCode.ChunkSizeNotAligned < 0 →
        ∃ ret t1 w1,
          TransferSnapshotData pipeCore (transferFailsEnv (value ErrCode.ChunkSizeNotAligned))
              5 ⟨"/a", [(2, 10)]⟩ (snapOf "id1" 10 Status.pending) twoSegments
              (fun _ => false) (taskOf (snapOf "id1" 10 Status.pending))
              (worldOf [snapOf "id1" 10 Status.pending])
            = Except.ok (ret, t1, w1) ∧
          ret.toInt value = value ErrCode.ChunkSizeNotAligned) := by
  refine ⟨⟨rfl, rfl, rfl⟩, by decide, by decide, ?_⟩
  intro value hv
  have h : ∃ t1 w1,
      TransferSnapshotData pipeCore (transferFailsEnv (value ErrCode.ChunkSizeNotAligned))
          5 ⟨"/a", [(2, 10)]⟩ (snapOf "id1" 10 Status.pending) twoSegments
          (fun _ => false) (taskOf (snapOf "id1" 10 Status.pending))
          (worldOf [snapOf "id1" 10 Status.pending])
        = Except.ok (ErrCode.passThrough (value ErrCode.ChunkSizeNotAligned), t1, w1) := by
    simp [TransferSnapshotData, checkedDiv, pipeCore, snapOf, validateLoop, twoSegments,
      checkedMod, ChunkIndexData.GetAllChunkIndex, transferLoop, submitTransfer,
      observeTracker, TaskTracker.progressAlone, TaskTracker.Wait, settleN, settleOne,
      transferFailsEnv, quietEnv, SnapshotTaskInfo.IsCanceled, SnapshotTaskInfo.SetProgress,
      taskOf, worldOf, hv, World.abandon]
  obtain ⟨t1, w1, h⟩ := h
  exact ⟨_, t1, w1, h, rfl⟩



/-- C25. Dedup on upload: in every run of `TransferSnapshotData` that returns a
non-negative result and in which no sample of the cancel flag taken by the run finds it
set, the calls issued are the `PushTask` calls followed by the upstream delete, and the
chunks handed to the worker pool are exactly the chunk names of the index for which the
filter is false, one per chunk index and in the order of the chunk indices (without
repetition, the chunk indices of an index being distinct); a chunk the filter holds of is
never handed over. In the create pipeline the filter is the `FileSnapMap` loaded by
`BuildSnapshotMap`: no run of stages 3 to 5 hands over a chunk that this map holds. -/
theorem C25_dedup_on_upload (core : SnapshotCoreImpl) (env : Env) (fuel : Nat)
    (indexData : ChunkIndexData) (info : SnapshotInfo) (segInfos : List (Nat × SegmentInfo))
    (filter : ChunkDataName → Bool) (t : SnapshotTaskInfo) (w : World)
    (ret : ErrCode) (t1 : SnapshotTaskInfo) (w1 : World)
    (hrun : TransferSnapshotData core env fuel indexData info segInfos filter t w
      = Except.ok (ret, t1, w1))
    (hok : ret.isNegative = false)
    (hunc : ∀ k, t.cancelSamples ≤ k → k < t1.cancelSamples → env.isCanceled k = false) :
    (∃ new, w1.calls = w.calls ++ new ++
          [Call.ClientDeleteSnapshot info.fileName info.user info.seqNum] ∧
      (∀ c ∈ new, c.isPushTask = true) ∧
      new.filterMap Call.pushedName
        = (indexData.GetAllChunkIndex.map indexData.nameAt).filter (fun c => !filter c) ∧
      (indexData.GetAllChunkIndex.Nodup → (new.filterMap Call.pushedName).Nodup) ∧
      (∀ name cid, filter name = true → Call.PushTask name cid ∉ new)) ∧
    (∀ (fuel2 : Nat) (segInfos2 : List (Nat × SegmentInfo)) (t0 : SnapshotTaskInfo)
        (w0 : World) (x : PipelineExit) (t2 : SnapshotTaskInfo) (w2 : World),
      createTransfer core env fuel2 indexData segInfos2 t0 w0 = Except.ok (x, t2, w2) →
      ∀ name cid, Call.PushTask name cid ∈ w2.calls → Call.PushTask name cid ∉ w0.calls →
        (BuildSnapshotMap env t0.fileName_ t0.snapshotInfo.seqNum w0).2.1.IsExistChunk name
          = false) := by
  refine ⟨?_, ?_⟩
  · obtain ⟨done, new, tail, _, hcalls, hpush, hnames, _, hfull⟩ :=
      TransferSnapshotData_pushes core env fuel _ _ _ _ _ _ _ _ _ hrun
    obtain ⟨hdone, htail⟩ := hfull hok hunc
    subst hdone htail
    refine ⟨new, hcalls, hpush, hnames, ?_, ?_⟩
    · intro hnd
      rw [hnames]
      apply List.Nodup.filter
      apply List.Nodup.map_on _ hnd
      intro a ha b hb hab
      rw [← nameAt_chunkIndex indexData a ha, ← nameAt_chunkIndex indexData b hb, hab]
    · intro name cid hf hmem
      have hn : name ∈ new.filterMap Call.pushedName := by
        rw [List.mem_filterMap]
        exact ⟨_, hmem, rfl⟩
      rw [hnames, List.mem_filter] at hn
      simp [hf] at hn
  · intro fuel2 segInfos2 t0 w0 x t2 w2 h name cid hmem hnot
    rcases createTransfer_pushes core env fuel2 indexData segInfos2 t0 w0 x t2 w2 h name cid
        hmem with h1 | h1
    · exact absurd h1 hnot
    · exact h1.2.2

/-- Witness of C25: the index names `(/a, 10, 2)` and `(/a, 3, 7)`, the `FileSnapMap`
holds `(/a, 3, 7)`: the chunk `(/a, 10, 2)` alone is handed to the worker pool, then the
upstream snapshot is deleted. -/
theorem C25_dedup_on_upload_witness :
    uploadRun = Except.ok (kErrCodeSuccess, stageTaskD uploadRun, stageWorldD uploadRun) ∧
    (∃ new, (stageWorldD uploadRun).calls
        = (worldOf [snapOf "id1" 10 Status.pending]).calls ++ new ++
          [Call.ClientDeleteSnapshot (snapOf "id1" 10 Status.pending).fileName
            (snapOf "id1" 10 Status.pending).user (snapOf "id1" 10 Status.pending).seqNum] ∧
      (∀ c ∈ new, c.isPushTask = true) ∧
      new.filterMap Call.pushedName
        = ((ChunkIndexData.mk "/a" [(2, 10), (7, 3)]).GetAllChunkIndex.map
            (ChunkIndexData.mk "/a" [(2, 10), (7, 3)]).nameAt).filter
            (fun c => !(fun name => FileSnapMap.IsExistChunk ⟨[⟨"/a", [(7, 3)]⟩]⟩ name) c) ∧
      ((ChunkIndexData.mk "/a" [(2, 10), (7, 3)]).GetAllChunkIndex.Nodup →
        (new.filterMap Call.pushedName).Nodup) ∧
      (∀ name cid,
        (fun name => FileSnapMap.IsExistChunk ⟨[⟨"/a", [(7, 3)]⟩]⟩ name) name = true →
        Call.PushTask name cid ∉ new)) ∧
    (stageWorldD uploadRun).calls
      = [Call.PushTask ⟨"/a", 10, 2⟩ ⟨2, 1, 1⟩, Call.ClientDeleteSnapshot "/a" "u" 10] :=
  ⟨rfl,
    (C25_dedup_on_upload pipeCore (quietEnv 10) 5 ⟨"/a", [(2, 10), (7, 3)]⟩
      (snapOf "id1" 10 Status.pending) twoSegments
      (fun name => FileSnapMap.IsExistChunk ⟨[⟨"/a", [(7, 3)]⟩]⟩ name)
      (taskOf (snapOf "id1" 10 Status.pending)) (worldOf [snapOf "id1" 10 Status.pending])
      kErrCodeSuccess (stageTaskD uploadRun) (stageWorldD uploadRun) rfl rfl
      (fun _ _ _ => rfl)).1,
    by decide⟩


/-- C29. Division safety: for every snapshot info with `segmentSize > 0` and
`0 < chunkSize ≤ segmentSize`, `BuildChunkIndexData` and `BuildSegmentInfo` return
(`fileLength / segmentSize` and `segmentSize / chunkSize` have a divisor other than 0),
`TransferSnapshotData` does not divide by zero (`chunkPerSegment = segmentSize /
chunkSize` is not 0, and it is the divisor of `chunkIndex / chunkPerSegment` and
`chunkIndex % chunkPerSegment`), and the remainder `chunkSize % chunkSplitSize_` is taken
only behind the test `0 == chunkSplitSize_`. That test is the only one the code performs
itself: with `segmentSize = 0` the two builders divide by zero, and so do the
classification of a written chunk and `TransferSnapshotData` with `chunkSize = 0`, and the
validation of a chunk index with `chunkPerSegment = 0`. -/
theorem C29_division_safety (info : SnapshotInfo) (hseg : 0 < info.segmentSize)
    (hchunk : 0 < info.chunkSize) (hle : info.chunkSize ≤ info.segmentSize) :
    (∀ (env : Env) (task : SnapshotTaskInfo),
      ∃ r, BuildChunkIndexData env info task = Except.ok r) ∧
    (∀ env : Env, ∃ r, BuildSegmentInfo env info = Except.ok r) ∧
    (∀ (core : SnapshotCoreImpl) (env : Env) (fuel : Nat) (indexData : ChunkIndexData)
        (segInfos : List (Nat × SegmentInfo)) (filter : ChunkDataName → Bool)
        (t : SnapshotTaskInfo) (w : World),
      TransferSnapshotData core env fuel indexData info segInfos filter t w
        ≠ Except.error Abort.divisionByZero) ∧
    info.segmentSize / info.chunkSize ≠ 0 ∧
    (∀ core : SnapshotCoreImpl,
      chunkSizeNotAligned core info.chunkSize
        = Except.ok (decide (core.chunkSplitSize_ = 0 ∨
            info.chunkSize % core.chunkSplitSize_ ≠ 0))) ∧
    (∀ (env : Env) (task : SnapshotTaskInfo) (info0 : SnapshotInfo),
      info0.segmentSize = 0 →
      BuildChunkIndexData env info0 task = Except.error Abort.divisionByZero ∧
      BuildSegmentInfo env info0 = Except.error Abort.divisionByZero) ∧
    (∀ (info0 : SnapshotInfo) (i j a b : Nat) (indexData : ChunkIndexData),
      info0.chunkSize = 0 →
      recordChunk info0 i j [a, b] indexData = Except.error Abort.divisionByZero) ∧
    (∀ (core : SnapshotCoreImpl) (env : Env) (fuel : Nat) (indexData : ChunkIndexData)
        (info0 : SnapshotInfo) (segInfos : List (Nat × SegmentInfo))
        (filter : ChunkDataName → Bool) (t : SnapshotTaskInfo) (w : World),
      info0.chunkSize = 0 →
      TransferSnapshotData core env fuel indexData info0 segInfos filter t w
        = Except.error Abort.divisionByZero) ∧
    (∀ (segInfos : List (Nat × SegmentInfo)) (ci : Nat) (rest : List Nat),
      validateLoop segInfos 0 (ci :: rest) = Except.error Abort.divisionByZero) := by
  have hc0 : info.chunkSize ≠ 0 := by omega
  have hs0 : info.segmentSize ≠ 0 := by omega
  have hq : info.segmentSize / info.chunkSize ≠ 0 := by
    have := Nat.div_pos hle hchunk
    omega
  refine ⟨?_, ?_, ?_, hq, ?_, ?_, ?_, ?_, ?_⟩
  · intro env task
    unfold BuildChunkIndexData
    rw [checkedDiv_ok _ _ hs0]
    exact buildSegmentLoop_returns env info hc0 _ _ _ _
  · intro env
    unfold BuildSegmentInfo
    rw [checkedDiv_ok _ _ hs0]
    exact ⟨_, rfl⟩
  · intro core env fuel indexData segInfos filter t w
    exact TransferSnapshotData_no_division_by_zero core env fuel indexData info segInfos
      filter t w hq
  · intro core
    unfold chunkSizeNotAligned
    by_cases h0 : core.chunkSplitSize_ = 0
    · rw [if_pos h0]
      simp [h0]
    · rw [if_neg h0, checkedMod_ok _ _ h0]
      simp [h0]
  · intro env task info0 h0
    unfold BuildChunkIndexData BuildSegmentInfo checkedDiv
    rw [if_pos h0]
    exact ⟨rfl, rfl⟩
  · intro info0 i j a b indexData h0
    unfold recordChunk checkedDiv
    simp only []
    rw [if_pos h0]
  · intro core env fuel indexData info0 segInfos filter t w h0
    unfold TransferSnapshotData checkedDiv
    rw [if_pos h0]
  · intro segInfos ci rest
    unfold validateLoop checkedDiv
    rw [if_pos rfl]

/-- Witness of C29: the sizes of the volume of `quietEnv` (segment size 64, chunk size
16). -/
theorem C29_division_safety_witness :
    (∃ r, BuildChunkIndexData (quietEnv 10) (snapOf "s1" 5 Status.pending)
        (taskOf (snapOf "s1" 5 Status.pending)) = Except.ok r) ∧
    (snapOf "s1" 5 Status.pending).segmentSize / (snapOf "s1" 5 Status.pending).chunkSize
      ≠ 0 ∧
    TransferSnapshotData zeroSplitCore (quietEnv 10) 5 ⟨"/a", [(7, 3)]⟩
        (snapOf "s1" 5 Status.pending) twoSegments (fun _ => false)
        (taskOf (snapOf "s1" 5 Status.pending)) (worldOf [])
      ≠ Except.error Abort.divisionByZero :=
  have h := C29_division_safety (snapOf "s1" 5 Status.pending) (by decide) (by decide)
    (by decide)
  ⟨h.1 (quietEnv 10) (taskOf (snapOf "s1" 5 Status.pending)), h.2.2.2.1,
    h.2.2.1 zeroSplitCore (quietEnv 10) 5 ⟨"/a", [(7, 3)]⟩ twoSegments (fun _ => false)
      (taskOf (snapOf "s1" 5 Status.pending)) (worldOf [])⟩


/-- C22, as the code has it. Chunk index construction. Let the sizes be other than 0, let
every segment below `fileLength / segmentSize` be answered `OK` or `NOT_ALLOCATE`, every
`GetChunkInfo` of a chunk of an allocated segment succeed, no sample of the cancel flag
that the run takes find it set, and let the `chunkvec` of every allocated segment hold
at most `segmentSize / chunkSize` chunks. If every chunk has at most two sequence
numbers, `BuildChunkIndexData` returns `Success`; `segInfos` holds exactly the allocated
segments; for each allocated segment `i` and each slot `j` the index holds at
`chunkIndex = i * (segmentSize / chunkSize) + j` exactly what the spec records for the
sequence numbers of the chunk (`specChunkName`: the smaller of two, the only one if it
is at most `seqNum`, nothing otherwise); and the index has no other entry, so segments
answered `NOT_ALLOCATE` contribute none. If some chunk has more than two sequence
numbers, it returns `InternalError` as soon as it gets to the first such chunk: it has
sampled the cancel flag once for each slot before that chunk and has recorded nothing
after it. -/
theorem C22_chunk_index_construction (env : Env) (info : SnapshotInfo)
    (task : SnapshotTaskInfo)
    (hseg : info.segmentSize ≠ 0) (hchunk : info.chunkSize ≠ 0)
    (hsegs : ∀ i, i < info.fileLength / info.segmentSize →
      (env.getSnapshotSegmentInfo (i * info.segmentSize)).1 = LibcurveRet.OK ∨
      (env.getSnapshotSegmentInfo (i * info.segmentSize)).1 = LibcurveRet.NOT_ALLOCATE)
    (hchunks : ∀ s ∈ allSlots env info (List.range (info.fileLength / info.segmentSize)),
      (env.getChunkInfo s.2.2).1 = LibcurveRet.OK)
    (hunc : ∀ k, task.cancelSamples ≤ k →
      k < task.cancelSamples
        + (allSlots env info (List.range (info.fileLength / info.segmentSize))).length →
      env.isCanceled k = false)
    (hfit : ∀ i, i < info.fileLength / info.segmentSize →
      (env.getSnapshotSegmentInfo (i * info.segmentSize)).1 = LibcurveRet.OK →
      (env.getSnapshotSegmentInfo (i * info.segmentSize)).2.chunkvec.length
        ≤ info.segmentSize / info.chunkSize) :
    ((∀ s ∈ allSlots env info (List.range (info.fileLength / info.segmentSize)),
        (env.getChunkInfo s.2.2).2.chunkSn.length ≤ 2) →
      ∃ indexData task1,
        BuildChunkIndexData env info task
          = Except.ok (kErrCodeSuccess, indexData,
              allocatedSegs env info (List.range (info.fileLength / info.segmentSize)),
              task1) ∧
        indexData.fileName_ = info.fileName ∧
        (∀ i j cid, i < info.fileLength / info.segmentSize →
          (env.getSnapshotSegmentInfo (i * info.segmentSize)).1 = LibcurveRet.OK →
          (env.getSnapshotSegmentInfo (i * info.segmentSize)).2.chunkvec[j]? = some cid →
          indexData.GetChunkDataName (i * (info.segmentSize / info.chunkSize) + j)
            = specChunkName info i j (env.getChunkInfo cid).2.chunkSn) ∧
        (∀ k ∈ indexData.GetAllChunkIndex, ∃ i j cid,
          i < info.fileLength / info.segmentSize ∧
          (env.getSnapshotSegmentInfo (i * info.segmentSize)).1 = LibcurveRet.OK ∧
          (env.getSnapshotSegmentInfo (i * info.segmentSize)).2.chunkvec[j]? = some cid ∧
          k = i * (info.segmentSize / info.chunkSize) + j)) ∧
    ((∃ s ∈ allSlots env info (List.range (info.fileLength / info.segmentSize)),
        2 < (env.getChunkInfo s.2.2).2.chunkSn.length) →
      ∃ indexData segInfos task1,
        BuildChunkIndexData env info task
          = Except.ok (kErrCodeInternalError, indexData, segInfos, task1) ∧
        task1.cancelSamples = task.cancelSamples +
          ((allSlots env info (List.range (info.fileLength / info.segmentSize))).takeWhile
            (slotOk env)).length ∧
        indexData = putNames ⟨info.fileName, []⟩
          (((allSlots env info (List.range (info.fileLength / info.segmentSize))).takeWhile
            (slotOk env)).filterMap (slotName env info))) := by
  obtain ⟨segInfos1, hrun, hsegInfos⟩ := buildSegmentLoop_spec env info hchunk
    (List.range (info.fileLength / info.segmentSize)) ⟨info.fileName, []⟩ [] task
    (fun i hi => hsegs i (List.mem_range.mp hi)) hchunks hunc
  have hbuild : BuildChunkIndexData env info task
      = buildSegmentLoop env info (List.range (info.fileLength / info.segmentSize))
          ⟨info.fileName, []⟩ [] task := by
    unfold BuildChunkIndexData
    rw [checkedDiv_ok _ _ hseg]
  refine ⟨?_, ?_⟩
  · intro hgood
    have hall : (allSlots env info (List.range (info.fileLength / info.segmentSize))).takeWhile
        (slotOk env)
        = allSlots env info (List.range (info.fileLength / info.segmentSize)) := by
      rw [List.takeWhile_eq_self_iff]
      intro s hs
      simpa [slotOk, chunkSnOk] using hgood s hs
    rw [hall] at hrun hsegInfos
    rw [if_pos rfl] at hrun
    have hsegs1 := hsegInfos rfl
    rw [List.nil_append] at hsegs1
    rw [hsegs1] at hrun
    -- the slots and their names
    have hkey : ∀ s ∈ allSlots env info (List.range (info.fileLength / info.segmentSize)),
        ∀ c, slotName env info s = some c →
        c.chunkIndex_ / (info.segmentSize / info.chunkSize) = s.1 ∧
        c.chunkIndex_ % (info.segmentSize / info.chunkSize) = s.2.1 := by
      intro s hs c hc
      rw [mem_allSlots] at hs
      obtain ⟨h1, h2, h3⟩ := hs
      have hlt : s.2.1 < (env.getSnapshotSegmentInfo
          (s.1 * info.segmentSize)).2.chunkvec.length := by
        by_contra hge
        rw [List.getElem?_eq_none (by omega)] at h3
        cases h3
      have hfit1 := hfit s.1 (List.mem_range.mp h1) h2
      rw [(specChunkName_some info _ _ _ c hc).2]
      exact slot_div_mod _ _ _ (by omega)
    have hsame : ∀ s ∈ allSlots env info (List.range (info.fileLength / info.segmentSize)),
        ∀ t ∈ allSlots env info (List.range (info.fileLength / info.segmentSize)),
        ∀ c1 c2, slotName env info s = some c1 → slotName env info t = some c2 →
        c1.chunkIndex_ = c2.chunkIndex_ → s = t := by
      intro s hs t ht c1 c2 h1 h2 heq
      obtain ⟨hs1, hs2⟩ := hkey s hs c1 h1
      obtain ⟨ht1, ht2⟩ := hkey t ht c2 h2
      rw [heq] at hs1 hs2
      have e1 : s.1 = t.1 := by rw [← hs1, ← ht1]
      have e2 : s.2.1 = t.2.1 := by rw [← hs2, ← ht2]
      rw [mem_allSlots] at hs ht
      have e3 : s.2.2 = t.2.2 := by
        have h3 := hs.2.2
        rw [e1, e2, ht.2.2] at h3
        simp only [Option.some.injEq] at h3
        exact h3.symm
      exact Prod.ext e1 (Prod.ext e2 e3)
    have hord : (putNames ⟨info.fileName, []⟩
        ((allSlots env info (List.range (info.fileLength / info.segmentSize))).filterMap
          (slotName env info))).Ordered :=
      putNames_ordered _ _ List.Pairwise.nil
    have hfile := putNames_fileName
      ((allSlots env info (List.range (info.fileLength / info.segmentSize))).filterMap
        (slotName env info)) ⟨info.fileName, []⟩
    refine ⟨_, _, hbuild.trans hrun, hfile, ?_, ?_⟩
    · intro i j cid hi hans hget
      have hs : ((i, j, cid) : Nat × Nat × ChunkIDInfo)
          ∈ allSlots env info (List.range (info.fileLength / info.segmentSize)) := by
        rw [mem_allSlots]
        exact ⟨List.mem_range.mpr hi, hans, hget⟩
      cases hspec : specChunkName info i j (env.getChunkInfo cid).2.chunkSn with
      | some c =>
        have hc := specChunkName_some info i j _ c hspec
        rw [GetChunkDataName_iff _ hord]
        refine ⟨by rw [hfile]; exact hc.1, hc.2, ?_⟩
        rw [← hc.2]
        apply putNames_agree
        · intro a ha b hb hab
          rw [List.mem_filterMap] at ha hb
          obtain ⟨s, hs1, hs2⟩ := ha
          obtain ⟨t, ht1, ht2⟩ := hb
          have hst := hsame s hs1 t ht1 a b hs2 ht2 hab
          rw [hst, ht2] at hs2
          simp only [Option.some.injEq] at hs2
          rw [hs2]
        · intro c1 _ e he
          cases he
        · rw [List.mem_filterMap]
          exact ⟨(i, j, cid), hs, hspec⟩
      | none =>
        cases hget2 : (putNames ⟨info.fileName, []⟩
            ((allSlots env info (List.range (info.fileLength / info.segmentSize))).filterMap
              (slotName env info))).GetChunkDataName
            (i * (info.segmentSize / info.chunkSize) + j) with
        | none => rfl
        | some c =>
          exfalso
          rw [GetChunkDataName_iff _ hord] at hget2
          rcases putNames_mem _ _ _ hget2.2.2 with h1 | ⟨c1, hc1, he⟩
          · cases h1
          · rw [List.mem_filterMap] at hc1
            obtain ⟨t, ht1, ht2⟩ := hc1
            obtain ⟨hk1, hk2⟩ := hkey t ht1 c1 ht2
            have hidx : c1.chunkIndex_ = i * (info.segmentSize / info.chunkSize) + j := by
              have := congrArg Prod.fst he
              exact this.symm
            have hlt : j < (env.getSnapshotSegmentInfo
                (i * info.segmentSize)).2.chunkvec.length := by
              by_contra hge
              rw [List.getElem?_eq_none (by omega)] at hget
              cases hget
            have hfit1 := hfit i hi hans
            obtain ⟨hd, hm⟩ := slot_div_mod (info.segmentSize / info.chunkSize) i j (by omega)
            rw [hidx, hd] at hk1
            rw [hidx, hm] at hk2
            have ht3 := (mem_allSlots env info _ t).mp ht1
            have hcid : t.2.2 = cid := by
              have h3 := ht3.2.2
              rw [← hk1, ← hk2, hget] at h3
              simp only [Option.some.injEq] at h3
              exact h3.symm
            have ht : t = (i, j, cid) := Prod.ext hk1.symm (Prod.ext hk2.symm hcid)
            rw [ht] at ht2
            have : slotName env info (i, j, cid)
                = specChunkName info i j (env.getChunkInfo cid).2.chunkSn := rfl
            rw [this, hspec] at ht2
            cases ht2
    · intro k hk
      unfold ChunkIndexData.GetAllChunkIndex at hk
      rw [List.mem_map] at hk
      obtain ⟨e, he, hek⟩ := hk
      rcases putNames_mem _ _ _ he with h1 | ⟨c1, hc1, he1⟩
      · cases h1
      · rw [List.mem_filterMap] at hc1
        obtain ⟨t, ht1, ht2⟩ := hc1
        have ht3 := (mem_allSlots env info _ t).mp ht1
        refine ⟨t.1, t.2.1, t.2.2, List.mem_range.mp ht3.1, ht3.2.1, ht3.2.2, ?_⟩
        rw [← hek, he1]
        exact (specChunkName_some info _ _ _ c1 ht2).2
  · rintro ⟨s, hs, hbad⟩
    have hne : ((allSlots env info (List.range (info.fileLength / info.segmentSize))).takeWhile
        (slotOk env)).length
        ≠ (allSlots env info (List.range (info.fileLength / info.segmentSize))).length := by
      intro heq
      have hall := takeWhile_of_length _ _ heq
      rw [List.takeWhile_eq_self_iff] at hall
      have := hall s hs
      simp only [slotOk, chunkSnOk, decide_eq_true_eq] at this
      omega
    rw [if_neg hne] at hrun
    exact ⟨_, _, _, hbuild.trans hrun, rfl, rfl⟩


/-- Witness of C22: the volume of `twoChunkEnv` (two segments of four chunks, chunk 2
written at sequence number 10 and chunk 7 at sequence number 3) and a snapshot with
sequence number 10: the index holds `(/a, 10, 2)` and `(/a, 3, 7)`. -/
theorem C22_chunk_index_construction_witness :
    (∃ indexData task1,
      BuildChunkIndexData twoChunkEnv (snapOf "id1" 10 Status.pending)
          (taskOf (snapOf "id1" 10 Status.pending))
        = Except.ok (kErrCodeSuccess, indexData,
            allocatedSegs twoChunkEnv (snapOf "id1" 10 Status.pending)
              (List.range ((snapOf "id1" 10 Status.pending).fileLength /
                (snapOf "id1" 10 Status.pending).segmentSize)),
            task1) ∧
      indexData.fileName_ = (snapOf "id1" 10 Status.pending).fileName ∧
      (∀ i j cid, i < (snapOf "id1" 10 Status.pending).fileLength /
            (snapOf "id1" 10 Status.pending).segmentSize →
        (twoChunkEnv.getSnapshotSegmentInfo
          (i * (snapOf "id1" 10 Status.pending).segmentSize)).1 = LibcurveRet.OK →
        (twoChunkEnv.getSnapshotSegmentInfo
          (i * (snapOf "id1" 10 Status.pending).segmentSize)).2.chunkvec[j]? = some cid →
        indexData.GetChunkDataName
            (i * ((snapOf "id1" 10 Status.pending).segmentSize /
              (snapOf "id1" 10 Status.pending).chunkSize) + j)
          = specChunkName (snapOf "id1" 10 Status.pending) i j
              (twoChunkEnv.getChunkInfo cid).2.chunkSn) ∧
      (∀ k ∈ indexData.GetAllChunkIndex, ∃ i j cid,
        i < (snapOf "id1" 10 Status.pending).fileLength /
            (snapOf "id1" 10 Status.pending).segmentSize ∧
        (twoChunkEnv.getSnapshotSegmentInfo
          (i * (snapOf "id1" 10 Status.pending).segmentSize)).1 = LibcurveRet.OK ∧
        (twoChunkEnv.getSnapshotSegmentInfo
          (i * (snapOf "id1" 10 Status.pending).segmentSize)).2.chunkvec[j]? = some cid ∧
        k = i * ((snapOf "id1" 10 Status.pending).segmentSize /
              (snapOf "id1" 10 Status.pending).chunkSize) + j)) ∧
    builtCode (BuildChunkIndexData twoChunkEnv (snapOf "id1" 10 Status.pending)
        (taskOf (snapOf "id1" 10 Status.pending))) = some kErrCodeSuccess ∧
    builtIndexD (BuildChunkIndexData twoChunkEnv (snapOf "id1" 10 Status.pending)
        (taskOf (snapOf "id1" 10 Status.pending))) = ⟨"/a", [(2, 10), (7, 3)]⟩ :=
  ⟨(C22_chunk_index_construction twoChunkEnv (snapOf "id1" 10 Status.pending)
      (taskOf (snapOf "id1" 10 Status.pending)) (by decide) (by decide)
      (fun _ _ => Or.inl rfl) (fun _ _ => rfl) (fun _ _ _ => rfl)
      (fun _ _ _ => Nat.le_refl 4)).1 (by decide),
    by decide, by decide⟩

/-- Counterexample to C22 as stated: in `crowdedEnv` every client call succeeds and
nobody cancels, and `BuildChunkIndexData` returns `Success`. Slot 0 of the allocated
segment 1 holds chunk 10, whose only sequence number 5 is at most the sequence number 10
of the snapshot, and its chunk index is `1 * (64 / 16) + 0 = 4`; the claim has the index
contain `ChunkDataName(/a, 5, 4)`. But slot 4 of segment 0 has the same chunk index, and
the index maps chunk index 4 to the sequence number 3 of that slot: it does not contain
`ChunkDataName(/a, 5, 4)`. -/
theorem C22_chunk_index_construction_counterexample :
    builtCode (BuildChunkIndexData crowdedEnv (snapOf "id1" 10 Status.pending)
        (taskOf (snapOf "id1" 10 Status.pending))) = some kErrCodeSuccess ∧
    (crowdedEnv.getSnapshotSegmentInfo (1 * (snapOf "id1" 10 Status.pending).segmentSize)).1
      = LibcurveRet.OK ∧
    (crowdedEnv.getSnapshotSegmentInfo
      (1 * (snapOf "id1" 10 Status.pending).segmentSize)).2.chunkvec[0]? = some ⟨10, 1, 1⟩ ∧
    crowdedEnv.getChunkInfo ⟨10, 1, 1⟩ = (LibcurveRet.OK, ⟨[5]⟩) ∧
    5 ≤ (snapOf "id1" 10 Status.pending).seqNum ∧
    1 * ((snapOf "id1" 10 Status.pending).segmentSize /
      (snapOf "id1" 10 Status.pending).chunkSize) + 0 = 4 ∧
    (builtIndexD (BuildChunkIndexData crowdedEnv (snapOf "id1" 10 Status.pending)
        (taskOf (snapOf "id1" 10 Status.pending)))).GetChunkDataName 4
      = some ⟨"/a", 3, 4⟩ ∧
    (builtIndexD (BuildChunkIndexData crowdedEnv (snapOf "id1" 10 Status.pending)
        (taskOf (snapOf "id1" 10 Status.pending)))).IsExistChunkDataName ⟨"/a", 5, 4⟩
      = false := by
  decide


/-- C28. Build and validation agree. If the `chunkvec` of every allocated segment holds at
most `segmentSize / chunkSize` chunks, then distinct (segment, slot) pairs receive
distinct chunk indices, and for every run of `BuildChunkIndexData` that returns (the
uncancelled successful runs among them) every chunk index of the produced index passes
the validation of `TransferSnapshotData` against the `segInfos` produced by the same
run: it is the chunk index `i * (segmentSize / chunkSize) + j` of a slot `j` of an
allocated segment `i`, its segment number `chunkIndex / chunkPerSegment` is `i`, found
in `segInfos`, and its slot `chunkIndex % chunkPerSegment` is `j`, below the size of the
`chunkvec`; so the validation loop passes and its `InternalError` cannot occur. -/
theorem C28_build_and_validation_agree (env : Env) (info : SnapshotInfo)
    (task : SnapshotTaskInfo) (code : ErrCode) (indexData : ChunkIndexData)
    (segInfos : List (Nat × SegmentInfo)) (task1 : SnapshotTaskInfo)
    (hfit : ∀ i, i < info.fileLength / info.segmentSize →
      (env.getSnapshotSegmentInfo (i * info.segmentSize)).1 = LibcurveRet.OK →
      (env.getSnapshotSegmentInfo (i * info.segmentSize)).2.chunkvec.length
        ≤ info.segmentSize / info.chunkSize)
    (hrun : BuildChunkIndexData env info task
      = Except.ok (code, indexData, segInfos, task1)) :
    (∀ s ∈ allSlots env info (List.range (info.fileLength / info.segmentSize)),
      ∀ t ∈ allSlots env info (List.range (info.fileLength / info.segmentSize)),
      s.1 * (info.segmentSize / info.chunkSize) + s.2.1
        = t.1 * (info.segmentSize / info.chunkSize) + t.2.1 →
      s.1 = t.1 ∧ s.2.1 = t.2.1) ∧
    (∀ k ∈ indexData.GetAllChunkIndex, ∃ i j,
      i < info.fileLength / info.segmentSize ∧
      (env.getSnapshotSegmentInfo (i * info.segmentSize)).1 = LibcurveRet.OK ∧
      j < (env.getSnapshotSegmentInfo (i * info.segmentSize)).2.chunkvec.length ∧
      k = i * (info.segmentSize / info.chunkSize) + j ∧
      k / (info.segmentSize / info.chunkSize) = i ∧
      k % (info.segmentSize / info.chunkSize) = j ∧
      segInfos.find? (fun e => e.1 == k / (info.segmentSize / info.chunkSize))
        = some (i, (env.getSnapshotSegmentInfo (i * info.segmentSize)).2)) ∧
    validateLoop segInfos (info.segmentSize / info.chunkSize) indexData.GetAllChunkIndex
      = Except.ok Flow.next := by
  have hslot : ∀ s ∈ allSlots env info (List.range (info.fileLength / info.segmentSize)),
      s.2.1 < info.segmentSize / info.chunkSize := by
    intro s hs
    rw [mem_allSlots] at hs
    obtain ⟨h1, h2, h3⟩ := hs
    have hlt : s.2.1 < (env.getSnapshotSegmentInfo
        (s.1 * info.segmentSize)).2.chunkvec.length := by
      by_contra hge
      rw [List.getElem?_eq_none (by omega)] at h3
      cases h3
    have := hfit s.1 (List.mem_range.mp h1) h2
    omega
  have hkeys : ∀ k ∈ indexData.GetAllChunkIndex, ∃ i j,
      i < info.fileLength / info.segmentSize ∧
      (env.getSnapshotSegmentInfo (i * info.segmentSize)).1 = LibcurveRet.OK ∧
      j < (env.getSnapshotSegmentInfo (i * info.segmentSize)).2.chunkvec.length ∧
      k = i * (info.segmentSize / info.chunkSize) + j ∧
      k / (info.segmentSize / info.chunkSize) = i ∧
      k % (info.segmentSize / info.chunkSize) = j ∧
      segInfos.find? (fun e => e.1 == k / (info.segmentSize / info.chunkSize))
        = some (i, (env.getSnapshotSegmentInfo (i * info.segmentSize)).2) := by
    intro k hk
    unfold BuildChunkIndexData at hrun
    split at hrun
    · cases hrun
    · rename_i n hdiv
      obtain ⟨_, hn⟩ := checkedDiv_eq _ _ _ hdiv
      subst hn
      obtain ⟨pre, hpre, hsegs, hall⟩ := buildSegmentLoop_entries env info _ _ _ _ _ _ _ _ hrun
      unfold ChunkIndexData.GetAllChunkIndex at hk
      rw [List.mem_map] at hk
      obtain ⟨e, he, hek⟩ := hk
      rcases hall e he with h1 | ⟨i, hi, hans, j, hj, hkey⟩
      · cases h1
      · have hin : i < info.fileLength / info.segmentSize :=
          List.mem_range.mp (hpre.subset hi)
        have hfit1 := hfit i hin hans
        obtain ⟨hd, hm⟩ := slot_div_mod (info.segmentSize / info.chunkSize) i j (by omega)
        rw [hek] at hkey
        refine ⟨i, j, hin, hans, hj, hkey, by rw [hkey]; exact hd, by rw [hkey]; exact hm, ?_⟩
        rw [hsegs, List.nil_append, hkey, hd]
        exact find_allocatedSegs env info i hans pre hi
  refine ⟨?_, hkeys, ?_⟩
  · intro s hs t ht heq
    obtain ⟨hd1, hm1⟩ := slot_div_mod _ s.1 s.2.1 (hslot s hs)
    obtain ⟨hd2, hm2⟩ := slot_div_mod _ t.1 t.2.1 (hslot t ht)
    rw [heq] at hd1 hm1
    exact ⟨by rw [← hd1, hd2], by rw [← hm1, hm2]⟩
  · by_cases hq : info.segmentSize / info.chunkSize = 0
    · have hnil : indexData.GetAllChunkIndex = [] := by
        cases hl : indexData.GetAllChunkIndex with
        | nil => rfl
        | cons k rest =>
          exfalso
          obtain ⟨i, j, hin, hans, hj, _⟩ := hkeys k (by rw [hl]; exact List.mem_cons_self _ _)
          have := hfit i hin hans
          omega
      rw [hnil]
      rfl
    · rw [validateLoop_pass segInfos _ hq]
      intro ci hci
      obtain ⟨i, j, hin, hans, hj, hkey, hd, hm, hfind⟩ := hkeys ci hci
      exact ⟨_, hfind, by rw [hm]; exact hj⟩

/-- Witness of C28: the run of `BuildChunkIndexData` on the volume of `twoChunkEnv`; the
chunk indices 2 and 7 of its index map to slot 2 of segment 0 and to slot 3 of segment 1,
and the validation passes. -/
theorem C28_build_and_validation_agree_witness :
    builtIndexD (BuildChunkIndexData twoChunkEnv (snapOf "id1" 10 Status.pending)
        (taskOf (snapOf "id1" 10 Status.pending))) = ⟨"/a", [(2, 10), (7, 3)]⟩ ∧
    validateLoop twoSegments
        ((snapOf "id1" 10 Status.pending).segmentSize /
          (snapOf "id1" 10 Status.pending).chunkSize)
        (ChunkIndexData.mk "/a" [(2, 10), (7, 3)]).GetAllChunkIndex
      = Except.ok Flow.next :=
  ⟨by decide,
    (C28_build_and_validation_agree twoChunkEnv (snapOf "id1" 10 Status.pending)
      (taskOf (snapOf "id1" 10 Status.pending)) kErrCodeSuccess ⟨"/a", [(2, 10), (7, 3)]⟩
      twoSegments
      ((taskOf (snapOf "id1" 10 Status.pending)).sampled 8)
      (fun _ _ _ => Nat.le_refl 4) rfl).2.2⟩


/-! ## Auxiliary facts on the name lock -/

theorem CreateSnapshotPre_createAfterList (core : SnapshotCoreImpl) (m : MetaStore)
    (ans : CreateAnswers) (file user snapshotName : String) (snapInfo : SnapshotInfo) :
    createAfterList core (m.GetSnapshotList file) m ans file user snapshotName snapInfo
      = CreateSnapshotPre core m ans file user snapshotName snapInfo := rfl

theorem moved_pc_self (s : LockState) (tid : Bool) (next : PrePc) :
    (s.moved tid next).pc tid = next := by
  unfold LockState.moved
  simp

theorem moved_pc_other (s : LockState) (tid : Bool) (next : PrePc) :
    (s.moved tid next).pc (!tid) = s.pc (!tid) := by
  unfold LockState.moved
  simp only []
  rw [Function.update_noteq]
  cases tid <;> decide

theorem moved_pc_other2 (s : LockState) (tid : Bool) (next : PrePc) :
    (s.moved (!tid) next).pc tid = s.pc tid := by
  unfold LockState.moved
  simp only []
  rw [Function.update_noteq]
  cases tid <;> decide

theorem stepCall_start (core : SnapshotCoreImpl) (c : CreateCall) (tid : Bool)
    (s : LockState) (h : s.pc tid = PrePc.start) (hfree : c.file ∉ s.held) :
    stepCall core c tid s
      = some (LockState.moved { s with held := c.file :: s.held } tid PrePc.locked) := by
  unfold stepCall
  rw [h]
  simp only []
  rw [if_neg hfree]

theorem stepCall_blocked (core : SnapshotCoreImpl) (c : CreateCall) (tid : Bool)
    (s : LockState) (h : s.pc tid = PrePc.start) (hheld : c.file ∈ s.held) :
    stepCall core c tid s = none := by
  unfold stepCall
  rw [h]
  simp only []
  rw [if_pos hheld]

theorem stepCall_locked (core : SnapshotCoreImpl) (c : CreateCall) (tid : Bool)
    (s : LockState) (h : s.pc tid = PrePc.locked) :
    stepCall core c tid s
      = some (s.moved tid (PrePc.listed (s.metaStore.GetSnapshotList c.file))) := by
  unfold stepCall
  rw [h]

theorem stepCall_listed (core : SnapshotCoreImpl) (c : CreateCall) (tid : Bool)
    (s : LockState) (fileInfo : List SnapshotInfo) (h : s.pc tid = PrePc.listed fileInfo) :
    stepCall core c tid s
      = some (LockState.moved
          { s with metaStore := (createAfterList core fileInfo s.metaStore c.ans c.file c.user
              c.snapshotName c.snapInfo).metaStore } tid
          (PrePc.returning
            (createAfterList core fileInfo s.metaStore c.ans c.file c.user c.snapshotName
              c.snapInfo).ret
            (createAfterList core fileInfo s.metaStore c.ans c.file c.user c.snapshotName
              c.snapInfo).snapInfo)) := by
  unfold stepCall
  rw [h]

theorem stepCall_returning (core : SnapshotCoreImpl) (c : CreateCall) (tid : Bool)
    (s : LockState) (ret : ErrCode) (snapInfo : SnapshotInfo)
    (h : s.pc tid = PrePc.returning ret snapInfo) :
    stepCall core c tid s
      = some (LockState.moved { s with held := s.held.erase c.file } tid
          (PrePc.done ret snapInfo)) := by
  unfold stepCall
  rw [h]

theorem stepCall_done (core : SnapshotCoreImpl) (c : CreateCall) (tid : Bool)
    (s : LockState) (ret : ErrCode) (snapInfo : SnapshotInfo)
    (h : s.pc tid = PrePc.done ret snapInfo) :
    stepCall core c tid s = none := by
  unfold stepCall
  rw [h]

theorem Serial_bothStart (core : SnapshotCoreImpl) (calls : Bool → CreateCall)
    (m : MetaStore) : Serial core calls m (bothStart m) :=
  ⟨true, Phase.p0, Phase.p0, fun h => absurd rfl h, rfl, rfl, rfl, rfl⟩


/-- A step of the call that runs first keeps the state serial. -/
theorem Serial_step_first (core : SnapshotCoreImpl) (calls : Bool → CreateCall)
    (m : MetaStore) (s : LockState) (first : Bool) (p q : Phase)
    (hpq : q ≠ Phase.p0 → p = Phase.p4)
    (h1 : s.pc first = phasePc core (calls first) m p)
    (h2 : s.pc (!first)
      = phasePc core (calls (!first)) (phaseStore core (calls first) m Phase.p4) q)
    (h3 : s.metaStore
      = (if q = Phase.p0 then phaseStore core (calls first) m p
         else phaseStore core (calls (!first)) (phaseStore core (calls first) m Phase.p4) q))
    (h4 : s.held = (if p.holds = true ∨ q.holds = true then [(calls first).file] else [])) :
    Serial core calls m ((stepCall core (calls first) first s).getD s) := by
  by_cases hp4 : p = Phase.p4
  · subst hp4
    rw [stepCall_done core (calls first) first s _ _ h1]
    exact ⟨first, Phase.p4, q, hpq, h1, h2, h3, h4⟩
  · have hq : q = Phase.p0 := by
      by_contra h
      exact hp4 (hpq h)
    subst hq
    rw [if_pos rfl] at h3
    cases p with
    | p0 =>
      have hheld : s.held = [] := by
        rw [h4]
        simp [Phase.holds]
      rw [stepCall_start core (calls first) first s h1 (by rw [hheld]; simp)]
      refine ⟨first, Phase.p1, Phase.p0, fun h => absurd rfl h, moved_pc_self _ _ _,
        (moved_pc_other _ _ _).trans h2, ?_, ?_⟩
      · rw [if_pos rfl]
        exact h3
      · show (calls first).file :: s.held = _
        rw [hheld]
        simp [Phase.holds]
    | p1 =>
      rw [stepCall_locked core (calls first) first s h1]
      refine ⟨first, Phase.p2, Phase.p0, fun h => absurd rfl h, ?_,
        (moved_pc_other _ _ _).trans h2, ?_, ?_⟩
      · show (s.moved first _).pc first = _
        rw [moved_pc_self, h3]
        rfl
      · rw [if_pos rfl]
        exact h3
      · show s.held = _
        rw [h4]
        simp [Phase.holds]
    | p2 =>
      rw [stepCall_listed core (calls first) first s _ h1]
      have hstore : s.metaStore = m := h3
      refine ⟨first, Phase.p3, Phase.p0, fun h => absurd rfl h, ?_,
        (moved_pc_other _ _ _).trans h2, ?_, ?_⟩
      · show (LockState.moved _ first _).pc first = _
        rw [moved_pc_self, hstore, CreateSnapshotPre_createAfterList]
        rfl
      · rw [if_pos rfl]
        show (createAfterList core _ s.metaStore _ _ _ _ _).metaStore = _
        rw [hstore, CreateSnapshotPre_createAfterList]
        rfl
      · show s.held = _
        rw [h4]
        simp [Phase.holds]
    | p3 =>
      rw [stepCall_returning core (calls first) first s _ _ h1]
      refine ⟨first, Phase.p4, Phase.p0, fun h => absurd rfl h, ?_,
        (moved_pc_other _ _ _).trans h2, ?_, ?_⟩
      · show (LockState.moved _ first _).pc first = _
        rw [moved_pc_self]
        rfl
      · rw [if_pos rfl]
        exact h3
      · show s.held.erase (calls first).file = _
        rw [h4]
        simp [Phase.holds]
    | p4 => exact absurd rfl hp4


/-- A step of the call that runs second keeps the state serial: until the first call
has released the name lock the second one is blocked, unless it acquires the lock
before the first call started, in which case the two calls swap places. -/
theorem Serial_step_second (core : SnapshotCoreImpl) (calls : Bool → CreateCall)
    (m : MetaStore) (s : LockState) (first : Bool) (p q : Phase)
    (hfile : (calls first).file = (calls (!first)).file)
    (hpq : q ≠ Phase.p0 → p = Phase.p4)
    (h1 : s.pc first = phasePc core (calls first) m p)
    (h2 : s.pc (!first)
      = phasePc core (calls (!first)) (phaseStore core (calls first) m Phase.p4) q)
    (h3 : s.metaStore
      = (if q = Phase.p0 then phaseStore core (calls first) m p
         else phaseStore core (calls (!first)) (phaseStore core (calls first) m Phase.p4) q))
    (h4 : s.held = (if p.holds = true ∨ q.holds = true then [(calls first).file] else [])) :
    Serial core calls m ((stepCall core (calls (!first)) (!first) s).getD s) := by
  cases q with
  | p0 =>
    rw [if_pos rfl] at h3
    by_cases hold : p.holds = true
    · have hheld : s.held = [(calls first).file] := by
        rw [h4, if_pos (Or.inl hold)]
      rw [stepCall_blocked core (calls (!first)) (!first) s h2
        (by rw [hheld, hfile]; exact List.mem_singleton.mpr rfl)]
      exact ⟨first, p, Phase.p0, hpq, h1, h2, by rw [if_pos rfl]; exact h3, h4⟩
    · have hheld : s.held = [] := by
        rw [h4, if_neg]
        intro h
        cases h with
        | inl h => exact hold h
        | inr h => exact absurd h (by decide)
      rw [stepCall_start core (calls (!first)) (!first) s h2 (by rw [hheld]; simp)]
      cases p with
      | p0 =>
        refine ⟨!first, Phase.p1, Phase.p0, fun h => absurd rfl h, ?_, ?_, ?_, ?_⟩
        · show (LockState.moved _ (!first) _).pc (!first) = _
          rw [moved_pc_self]
          rfl
        · show (LockState.moved _ (!first) _).pc (!(!first)) = _
          rw [moved_pc_other]
          show s.pc (!(!first)) = _
          rw [Bool.not_not, h1]
          rfl
        · rw [if_pos rfl]
          exact h3
        · show (calls (!first)).file :: s.held = _
          rw [hheld]
          simp [Phase.holds]
      | p1 => exact absurd rfl hold
      | p2 => exact absurd rfl hold
      | p3 => exact absurd rfl hold
      | p4 =>
        refine ⟨first, Phase.p4, Phase.p1, fun _ => rfl, ?_, ?_, ?_, ?_⟩
        · show (LockState.moved _ (!first) _).pc first = _
          rw [moved_pc_other2]
          exact h1
        · show (LockState.moved _ (!first) _).pc (!first) = _
          rw [moved_pc_self]
          rfl
        · rw [if_neg (by decide)]
          exact h3
        · show (calls (!first)).file :: s.held = _
          rw [hheld, ← hfile]
          simp [Phase.holds]
  | p1 =>
    have hp : p = Phase.p4 := hpq (by decide)
    subst hp
    rw [if_neg (by decide)] at h3
    rw [stepCall_locked core (calls (!first)) (!first) s h2]
    refine ⟨first, Phase.p4, Phase.p2, fun _ => rfl, ?_, ?_, ?_, ?_⟩
    · show (LockState.moved _ (!first) _).pc first = _
      rw [moved_pc_other2]
      exact h1
    · show (LockState.moved _ (!first) _).pc (!first) = _
      rw [moved_pc_self, h3]
      rfl
    · rw [if_neg (by decide)]
      exact h3
    · show s.held = _
      rw [h4]
      simp [Phase.holds]
  | p2 =>
    have hp : p = Phase.p4 := hpq (by decide)
    subst hp
    rw [if_neg (by decide)] at h3
    have hstore : s.metaStore = phaseStore core (calls first) m Phase.p4 := h3
    rw [stepCall_listed core (calls (!first)) (!first) s _ h2]
    refine ⟨first, Phase.p4, Phase.p3, fun _ => rfl, ?_, ?_, ?_, ?_⟩
    · show (LockState.moved _ (!first) _).pc first = _
      rw [moved_pc_other2]
      exact h1
    · show (LockState.moved _ (!first) _).pc (!first) = _
      rw [moved_pc_self, hstore, CreateSnapshotPre_createAfterList]
      rfl
    · rw [if_neg (by decide)]
      show (createAfterList core _ s.metaStore _ _ _ _ _).metaStore = _
      rw [hstore, CreateSnapshotPre_createAfterList]
      rfl
    · show s.held = _
      rw [h4]
      simp [Phase.holds]
  | p3 =>
    have hp : p = Phase.p4 := hpq (by decide)
    subst hp
    rw [if_neg (by decide)] at h3
    rw [stepCall_returning core (calls (!first)) (!first) s _ _ h2]
    refine ⟨first, Phase.p4, Phase.p4, fun _ => rfl, ?_, ?_, ?_, ?_⟩
    · show (LockState.moved _ (!first) _).pc first = _
      rw [moved_pc_other2]
      exact h1
    · show (LockState.moved _ (!first) _).pc (!first) = _
      rw [moved_pc_self]
      rfl
    · rw [if_neg (by decide)]
      exact h3
    · show s.held.erase (calls (!first)).file = _
      rw [h4, ← hfile]
      simp [Phase.holds]
  | p4 =>
    rw [stepCall_done core (calls (!first)) (!first) s _ _ h2]
    exact ⟨first, p, Phase.p4, hpq, h1, h2, h3, h4⟩

/-- Every step of either call keeps the state serial. -/
theorem Serial_step (core : SnapshotCoreImpl) (calls : Bool → CreateCall)
    (hfile : (calls true).file = (calls false).file) (m : MetaStore) (s : LockState)
    (tid : Bool) (h : Serial core calls m s) :
    Serial core calls m ((stepCall core (calls tid) tid s).getD s) := by
  obtain ⟨first, p, q, hpq, h1, h2, h3, h4⟩ := h
  have hfile2 : (calls first).file = (calls (!first)).file := by
    cases first
    · exact hfile.symm
    · exact hfile
  by_cases ht : tid = first
  · subst ht
    exact Serial_step_first core calls m s tid p q hpq h1 h2 h3 h4
  · have ht2 : tid = !first := by
      cases tid <;> cases first <;> simp_all
    subst ht2
    exact Serial_step_second core calls m s first p q hfile2 hpq h1 h2 h3 h4

/-- Every state reached from the initial one by a schedule is serial. -/
theorem Serial_runSchedule (core : SnapshotCoreImpl) (calls : Bool → CreateCall)
    (hfile : (calls true).file = (calls false).file) (m : MetaStore) (sched : List Bool)
    (s : LockState) (h : Serial core calls m s) :
    Serial core calls m (runSchedule core calls s sched) := by
  induction sched generalizing s with
  | nil => exact h
  | cons tid rest ih =>
    show Serial core calls m
      (runSchedule core calls ((stepCall core (calls tid) tid s).getD s) rest)
    exact ih _ (Serial_step core calls hfile m s tid h)


theorem phasePc_inside (core : SnapshotCoreImpl) (c : CreateCall) (m0 : MetaStore)
    (p : Phase) : (phasePc core c m0 p).inside = p.holds := by
  cases p <;> rfl

theorem phasePc_done (core : SnapshotCoreImpl) (c : CreateCall) (m0 : MetaStore)
    (p : Phase) (ret : ErrCode) (snapInfo : SnapshotInfo)
    (h : phasePc core c m0 p = PrePc.done ret snapInfo) : p = Phase.p4 := by
  cases p with
  | p0 => exact PrePc.noConfusion h
  | p1 => exact PrePc.noConfusion h
  | p2 => exact PrePc.noConfusion h
  | p3 => exact PrePc.noConfusion h
  | p4 => rfl

theorem phaseStore_SnapshotCap (core : SnapshotCoreImpl) (c : CreateCall) (m0 : MetaStore)
    (p : Phase) (h : SnapshotCap core m0) : SnapshotCap core (phaseStore core c m0 p) := by
  cases p with
  | p0 => exact h
  | p1 => exact h
  | p2 => exact h
  | p3 => exact CreateSnapshotPre_SnapshotCap core m0 _ _ _ _ _ h
  | p4 => exact CreateSnapshotPre_SnapshotCap core m0 _ _ _ _ _ h

/-- In a serial state at most one call is inside the scope of its guard, the lock is
held exactly while one is, and the store keeps the cap. -/
theorem Serial_facts (core : SnapshotCoreImpl) (calls : Bool → CreateCall)
    (hfile : (calls true).file = (calls false).file) (m : MetaStore) (s : LockState)
    (h : Serial core calls m s) :
    ((s.pc true).inside = false ∨ (s.pc false).inside = false) ∧
    s.held = (if (s.pc true).inside = true ∨ (s.pc false).inside = true
      then [(calls true).file] else []) ∧
    (SnapshotCap core m → SnapshotCap core s.metaStore) := by
  obtain ⟨first, p, q, hpq, h1, h2, h3, h4⟩ := h
  have i1 : (s.pc first).inside = p.holds := by rw [h1, phasePc_inside]
  have i2 : (s.pc (!first)).inside = q.holds := by rw [h2, phasePc_inside]
  have hex : p.holds = false ∨ q.holds = false := by
    by_cases hq : q = Phase.p0
    · right; rw [hq]; rfl
    · left; rw [hpq hq]; rfl
  have hcap : SnapshotCap core m → SnapshotCap core s.metaStore := by
    intro hm
    rw [h3]
    split
    · exact phaseStore_SnapshotCap core _ m p hm
    · exact phaseStore_SnapshotCap core _ _ q (phaseStore_SnapshotCap core _ m Phase.p4 hm)
  cases first with
  | true =>
    have i2b : (s.pc false).inside = q.holds := i2
    refine ⟨?_, ?_, hcap⟩
    · rw [i1, i2b]; exact hex
    · rw [i1, i2b]; exact h4
  | false =>
    have i2b : (s.pc true).inside = q.holds := i2
    refine ⟨?_, ?_, hcap⟩
    · rw [i1, i2b]; exact hex.symm
    · rw [i1, i2b, h4, hfile]
      by_cases a : p.holds = true <;> by_cases b : q.holds = true <;> simp [a, b]

/-- In a serial state in which both calls have returned, the return values and the
store are those of the two calls run one after the other. -/
theorem Serial_done (core : SnapshotCoreImpl) (calls : Bool → CreateCall) (m : MetaStore)
    (s : LockState) (h : Serial core calls m s)
    (r1 r2 : ErrCode) (o1 o2 : SnapshotInfo)
    (hd1 : s.pc true = PrePc.done r1 o1) (hd2 : s.pc false = PrePc.done r2 o2) :
    ∃ first : Bool,
      s.pc first
        = PrePc.done
            (CreateSnapshotPre core m (calls first).ans (calls first).file (calls first).user
              (calls first).snapshotName (calls first).snapInfo).ret
            (CreateSnapshotPre core m (calls first).ans (calls first).file (calls first).user
              (calls first).snapshotName (calls first).snapInfo).snapInfo ∧
      s.pc (!first)
        = PrePc.done
            (CreateSnapshotPre core
              (CreateSnapshotPre core m (calls first).ans (calls first).file
                (calls first).user (calls first).snapshotName
                (calls first).snapInfo).metaStore
              (calls (!first)).ans (calls (!first)).file (calls (!first)).user
              (calls (!first)).snapshotName (calls (!first)).snapInfo).ret
            (CreateSnapshotPre core
              (CreateSnapshotPre core m (calls first).ans (calls first).file
                (calls first).user (calls first).snapshotName
                (calls first).snapInfo).metaStore
              (calls (!first)).ans (calls (!first)).file (calls (!first)).user
              (calls (!first)).snapshotName (calls (!first)).snapInfo).snapInfo ∧
      s.metaStore = runCreateSnapshotPre core m [calls first, calls (!first)] := by
  obtain ⟨first, p, q, _, h1, h2, h3, _⟩ := h
  have hd : (∃ r o, s.pc first = PrePc.done r o) ∧ (∃ r o, s.pc (!first) = PrePc.done r o) := by
    cases first
    · exact ⟨⟨r2, o2, hd2⟩, ⟨r1, o1, hd1⟩⟩
    · exact ⟨⟨r1, o1, hd1⟩, ⟨r2, o2, hd2⟩⟩
  obtain ⟨⟨ra, oa, ha⟩, ⟨rb, ob, hb⟩⟩ := hd
  have hp : p = Phase.p4 := phasePc_done core _ _ p ra oa (h1.symm.trans ha)
  have hq : q = Phase.p4 := phasePc_done core _ _ q rb ob (h2.symm.trans hb)
  subst hp
  subst hq
  exact ⟨first, h1, h2, h3⟩


theorem runSchedule_cons (core : SnapshotCoreImpl) (calls : Bool → CreateCall)
    (s : LockState) (tid : Bool) (rest : List Bool) :
    runSchedule core calls s (tid :: rest)
      = runSchedule core calls ((stepCall core (calls tid) tid s).getD s) rest := rfl

theorem runSchedule_append (core : SnapshotCoreImpl) (calls : Bool → CreateCall)
    (a b : List Bool) (s : LockState) :
    runSchedule core calls s (a ++ b)
      = runSchedule core calls (runSchedule core calls s a) b := by
  induction a generalizing s with
  | nil => rfl
  | cons tid rest ih =>
    rw [List.cons_append, runSchedule_cons, runSchedule_cons, ih]

theorem isDone_inside (pc : PrePc) (h : pc.isDone = true) : pc.inside = false := by
  cases pc with
  | start => rfl
  | locked => exact absurd h (by decide)
  | listed fileInfo => exact absurd h (by simp [PrePc.isDone])
  | returning ret snapInfo => exact absurd h (by simp [PrePc.isDone])
  | done ret snapInfo => rfl

theorem isDone_cases (pc : PrePc) (h : pc.isDone = true) :
    ∃ ret snapInfo, pc = PrePc.done ret snapInfo := by
  cases pc with
  | start => exact absurd h (by decide)
  | locked => exact absurd h (by decide)
  | listed fileInfo => exact absurd h (by simp [PrePc.isDone])
  | returning ret snapInfo => exact absurd h (by simp [PrePc.isDone])
  | done ret snapInfo => exact ⟨ret, snapInfo, rfl⟩

/-- A step of one call leaves the place of the other call as it is. -/
theorem stepCall_pc_other (core : SnapshotCoreImpl) (c : CreateCall) (tid : Bool)
    (s : LockState) : ((stepCall core c tid s).getD s).pc (!tid) = s.pc (!tid) := by
  cases hpc : s.pc tid with
  | start =>
    by_cases hh : c.file ∈ s.held
    · rw [stepCall_blocked core c tid s hpc hh]
      rfl
    · rw [stepCall_start core c tid s hpc hh]
      exact moved_pc_other _ _ _
  | locked =>
    rw [stepCall_locked core c tid s hpc]
    exact moved_pc_other _ _ _
  | listed fileInfo =>
    rw [stepCall_listed core c tid s fileInfo hpc]
    exact moved_pc_other _ _ _
  | returning ret snapInfo =>
    rw [stepCall_returning core c tid s ret snapInfo hpc]
    exact moved_pc_other _ _ _
  | done ret snapInfo =>
    rw [stepCall_done core c tid s ret snapInfo hpc]
    rfl

/-- A call that has returned stays returned under every schedule. -/
theorem runSchedule_done_stays (core : SnapshotCoreImpl) (calls : Bool → CreateCall)
    (tid : Bool) (l : List Bool) (s : LockState) (h : (s.pc tid).isDone = true) :
    ((runSchedule core calls s l).pc tid).isDone = true := by
  induction l generalizing s with
  | nil => exact h
  | cons u rest ih =>
    rw [runSchedule_cons]
    apply ih
    by_cases hu : u = tid
    · subst hu
      obtain ⟨ret, snapInfo, hpc⟩ := isDone_cases _ h
      rw [stepCall_done core (calls u) u s ret snapInfo hpc]
      exact h
    · have hu2 : tid = !u := by
        cases tid <;> cases u <;> simp_all
      subst hu2
      rw [stepCall_pc_other]
      exact h

theorem runSchedule_returning (core : SnapshotCoreImpl) (calls : Bool → CreateCall)
    (tid : Bool) (l : List Bool) (s : LockState) (ret : ErrCode) (snapInfo : SnapshotInfo)
    (h : s.pc tid = PrePc.returning ret snapInfo) :
    ((runSchedule core calls s (tid :: l)).pc tid).isDone = true := by
  rw [runSchedule_cons, stepCall_returning core (calls tid) tid s ret snapInfo h]
  apply runSchedule_done_stays
  show ((LockState.moved _ tid _).pc tid).isDone = true
  rw [moved_pc_self]
  rfl

theorem runSchedule_listed (core : SnapshotCoreImpl) (calls : Bool → CreateCall)
    (tid : Bool) (l : List Bool) (s : LockState) (fileInfo : List SnapshotInfo)
    (h : s.pc tid = PrePc.listed fileInfo) :
    ((runSchedule core calls s (tid :: tid :: l)).pc tid).isDone = true := by
  rw [runSchedule_cons, stepCall_listed core (calls tid) tid s fileInfo h]
  exact runSchedule_returning core calls tid l _ _ _ (moved_pc_self _ _ _)

theorem runSchedule_locked (core : SnapshotCoreImpl) (calls : Bool → CreateCall)
    (tid : Bool) (l : List Bool) (s : LockState) (h : s.pc tid = PrePc.locked) :
    ((runSchedule core calls s (tid :: tid :: tid :: l)).pc tid).isDone = true := by
  rw [runSchedule_cons, stepCall_locked core (calls tid) tid s h]
  exact runSchedule_listed core calls tid l _ _ (moved_pc_self _ _ _)

/-- Four steps bring a call to its return, unless it waits for the lock. -/
theorem runSchedule_four (core : SnapshotCoreImpl) (calls : Bool → CreateCall)
    (tid : Bool) (s : LockState)
    (h : s.pc tid = PrePc.start → (calls tid).file ∉ s.held) :
    ((runSchedule core calls s [tid, tid, tid, tid]).pc tid).isDone = true := by
  cases hpc : s.pc tid with
  | start =>
    rw [runSchedule_cons, stepCall_start core (calls tid) tid s hpc (h hpc)]
    exact runSchedule_locked core calls tid [] _ (moved_pc_self _ _ _)
  | locked => exact runSchedule_locked core calls tid [tid] s hpc
  | listed fileInfo => exact runSchedule_listed core calls tid [tid, tid] s fileInfo hpc
  | returning ret snapInfo =>
    exact runSchedule_returning core calls tid [tid, tid, tid] s ret snapInfo hpc
  | done ret snapInfo =>
    apply runSchedule_done_stays
    rw [hpc]
    rfl

/-- After four steps a call has returned or still waits for the lock: it is not inside
the scope of its guard. -/
theorem runSchedule_four_outside (core : SnapshotCoreImpl) (calls : Bool → CreateCall)
    (tid : Bool) (s : LockState) :
    ((runSchedule core calls s [tid, tid, tid, tid]).pc tid).inside = false := by
  by_cases hb : s.pc tid = PrePc.start ∧ (calls tid).file ∈ s.held
  · have hstep : (stepCall core (calls tid) tid s).getD s = s := by
      rw [stepCall_blocked core (calls tid) tid s hb.1 hb.2]
      rfl
    rw [runSchedule_cons, hstep, runSchedule_cons, hstep, runSchedule_cons, hstep,
      runSchedule_cons, hstep]
    show (s.pc tid).inside = false
    rw [hb.1]
    rfl
  · apply isDone_inside
    apply runSchedule_four
    intro hpc hheld
    exact hb ⟨hpc, hheld⟩

/-- In a serial state the lock is free when no call is inside the scope of its
guard. -/
theorem Serial_free (core : SnapshotCoreImpl) (calls : Bool → CreateCall)
    (hfile : (calls true).file = (calls false).file) (m : MetaStore) (s : LockState)
    (h : Serial core calls m s) (h1 : (s.pc true).inside = false)
    (h2 : (s.pc false).inside = false) : s.held = [] := by
  rw [(Serial_facts core calls hfile m s h).2.1, h1, h2]
  simp

/-- From a serial state both calls return when each is let move four times, the call
`true` before and after the call `false`. -/
theorem Serial_drain (core : SnapshotCoreImpl) (calls : Bool → CreateCall)
    (hfile : (calls true).file = (calls false).file) (m : MetaStore) (s : LockState)
    (h : Serial core calls m s) :
    ((runSchedule core calls s drainSchedule).pc true).isDone = true ∧
    ((runSchedule core calls s drainSchedule).pc false).isDone = true := by
  have hsplit : drainSchedule
      = [true, true, true, true] ++ ([false, false, false, false] ++ [true, true, true, true]) :=
    rfl
  rw [hsplit, runSchedule_append, runSchedule_append]
  have hs1 : Serial core calls m (runSchedule core calls s [true, true, true, true]) :=
    Serial_runSchedule core calls hfile m _ s h
  have ht1 := runSchedule_four_outside core calls true s
  have hf2 : ((runSchedule core calls (runSchedule core calls s [true, true, true, true])
      [false, false, false, false]).pc false).isDone = true := by
    apply runSchedule_four
    intro hpc
    rw [Serial_free core calls hfile m _ hs1 ht1 (by rw [hpc]; rfl)]
    exact List.not_mem_nil _
  have hs2 : Serial core calls m
      (runSchedule core calls (runSchedule core calls s [true, true, true, true])
        [false, false, false, false]) :=
    Serial_runSchedule core calls hfile m _ _ hs1
  refine ⟨?_, runSchedule_done_stays core calls false _ _ hf2⟩
  apply runSchedule_four
  intro hpc
  rw [Serial_free core calls hfile m _ hs2 (by rw [hpc]; rfl) (isDone_inside _ hf2)]
  exact List.not_mem_nil _


/-! ## Claim on the name lock -/

/-- C21. Per-volume mutual exclusion of `CreateSnapshotPre` under the name lock, for two
calls on the same file, any arguments and answers, any initial store and any schedule
of their steps. After the schedule: at most one of the calls is inside the scope of
its guard; the lock of the file is held exactly while one of them is, so it is
released on every return path; a store that kept the limit `maxSnapshotLimit_` still
keeps it, so the two calls never both pass the count check and push the volume over
the limit; when both calls have returned, their return codes, their out
parameters and the store are those of the two calls run one after the other, in one
of the two orders; and both calls do return once each is let move four more times
(`drainSchedule`), neither waits for the lock for ever. -/
theorem C21_create_pre_serialized (core : SnapshotCoreImpl) (calls : Bool → CreateCall)
    (hfile : (calls true).file = (calls false).file) (m : MetaStore) (sched : List Bool) :
    (((runSchedule core calls (bothStart m) sched).pc true).inside = false ∨
      ((runSchedule core calls (bothStart m) sched).pc false).inside = false) ∧
    (runSchedule core calls (bothStart m) sched).held
      = (if ((runSchedule core calls (bothStart m) sched).pc true).inside = true ∨
            ((runSchedule core calls (bothStart m) sched).pc false).inside = true
         then [(calls true).file] else []) ∧
    (SnapshotCap core m → SnapshotCap core (runSchedule core calls (bothStart m) sched).metaStore) ∧
    (∀ (r1 r2 : ErrCode) (o1 o2 : SnapshotInfo),
      (runSchedule core calls (bothStart m) sched).pc true = PrePc.done r1 o1 →
      (runSchedule core calls (bothStart m) sched).pc false = PrePc.done r2 o2 →
      ∃ first : Bool,
        (runSchedule core calls (bothStart m) sched).pc first
          = PrePc.done
              (CreateSnapshotPre core m (calls first).ans (calls first).file
                (calls first).user (calls first).snapshotName (calls first).snapInfo).ret
              (CreateSnapshotPre core m (calls first).ans (calls first).file
                (calls first).user (calls first).snapshotName
                (calls first).snapInfo).snapInfo ∧
        (runSchedule core calls (bothStart m) sched).pc (!first)
          = PrePc.done
              (CreateSnapshotPre core
                (CreateSnapshotPre core m (calls first).ans (calls first).file
                  (calls first).user (calls first).snapshotName
                  (calls first).snapInfo).metaStore
                (calls (!first)).ans (calls (!first)).file (calls (!first)).user
                (calls (!first)).snapshotName (calls (!first)).snapInfo).ret
              (CreateSnapshotPre core
                (CreateSnapshotPre core m (calls first).ans (calls first).file
                  (calls first).user (calls first).snapshotName
                  (calls first).snapInfo).metaStore
                (calls (!first)).ans (calls (!first)).file (calls (!first)).user
                (calls (!first)).snapshotName (calls (!first)).snapInfo).snapInfo ∧
        (runSchedule core calls (bothStart m) sched).metaStore
          = runCreateSnapshotPre core m [calls first, calls (!first)]) ∧
    ((runSchedule core calls (bothStart m) (sched ++ drainSchedule)).pc true).isDone = true ∧
    ((runSchedule core calls (bothStart m) (sched ++ drainSchedule)).pc false).isDone = true := by
  have hs : Serial core calls m (runSchedule core calls (bothStart m) sched) :=
    Serial_runSchedule core calls hfile m sched _ (Serial_bothStart core calls m)
  obtain ⟨hex, hheld, hcap⟩ := Serial_facts core calls hfile m _ hs
  rw [runSchedule_append]
  exact ⟨hex, hheld, hcap, fun r1 r2 o1 o2 hd1 hd2 =>
    Serial_done core calls m _ hs r1 r2 o1 o2 hd1 hd2,
    Serial_drain core calls hfile m _ hs⟩

/-- Witness of C21: two calls on `/a`, which holds one snapshot, limit 2, the calls
taking turns. The call `true` gets the lock first and succeeds, the call `false` is
refused with `SnapshotCountReachLimit`; the store holds two records of `/a` and no
lock is held. -/
theorem C21_create_pre_serialized_witness :
    (twoCalls true).file = (twoCalls false).file ∧
    SnapshotCap pipeCore oneSnapStore ∧
    (∃ o1 : SnapshotInfo,
      (runSchedule pipeCore twoCalls (bothStart oneSnapStore) turnsSchedule).pc true
        = PrePc.done kErrCodeSuccess o1) ∧
    (∃ o2 : SnapshotInfo,
      (runSchedule pipeCore twoCalls (bothStart oneSnapStore) turnsSchedule).pc false
        = PrePc.done kErrCodeSnapshotCountReachLimit o2) ∧
    (runSchedule pipeCore twoCalls (bothStart oneSnapStore) turnsSchedule).held = [] ∧
    ((runSchedule pipeCore twoCalls (bothStart oneSnapStore) turnsSchedule).metaStore.GetSnapshotList
      "/a").length = 2 ∧
    SnapshotCap pipeCore
      (runSchedule pipeCore twoCalls (bothStart oneSnapStore) turnsSchedule).metaStore ∧
    (∃ first : Bool,
      (runSchedule pipeCore twoCalls (bothStart oneSnapStore) turnsSchedule).metaStore
        = runCreateSnapshotPre pipeCore oneSnapStore [twoCalls first, twoCalls (!first)]) :=
  ⟨rfl, fun _ => le_trans (List.length_filter_le _ _) (by decide),
   ⟨_, rfl⟩, ⟨_, rfl⟩, rfl, by decide,
   (C21_create_pre_serialized pipeCore twoCalls rfl oneSnapStore turnsSchedule).2.2.1
     (fun _ => le_trans (List.length_filter_le _ _) (by decide)),
   ((C21_create_pre_serialized pipeCore twoCalls rfl oneSnapStore turnsSchedule).2.2.2.1
     _ _ _ _ rfl rfl).imp (fun _ h => h.2.2)⟩


/-! ## Auxiliary facts on the places of the create pipeline -/

/-- A run that comes to a place is, from there on, the rest of the function from that
place. -/
theorem CreateReach_rest (core : SnapshotCoreImpl) (env : Env) (fuel : Nat)
    (t : SnapshotTaskInfo) (w : World) (p : CreatePlace) (t0 : SnapshotTaskInfo) (w0 : World)
    (h : CreateReach core env fuel t w p t0 w0) :
    HandleCreateSnapshotTask core env fuel t w = p.rest core env fuel t0 w0 := by
  induction h with
  | fresh hseq hneg =>
    unfold HandleCreateSnapshotTask
    rw [if_pos hseq]
    simp only [hneg, Bool.false_eq_true, if_false]
    rfl
  | resumed hseq =>
    unfold HandleCreateSnapshotTask
    rw [if_neg hseq]
    rfl
  | unseen1 e t0 w0 _ hflag ih =>
    rw [ih]
    show createAfterSnapshot core env fuel e t0 w0 = _
    unfold createAfterSnapshot
    simp only [hflag, Bool.false_eq_true, if_false]
    rfl
  | loaded t0 w0 indexData ret segInfos _ hget hseg hneg ih =>
    rw [ih]
    show createIndex core env fuel true t0 w0 = _
    unfold createIndex
    simp only [if_true, hget, hseg, hneg, Bool.false_eq_true, if_false]
    rfl
  | built t0 w0 ret indexData segInfos t1 _ hbuild hneg hput ih =>
    rw [ih]
    show createIndex core env fuel false t0 w0 = _
    unfold createIndex
    simp only [Bool.false_eq_true, if_false, hbuild, hneg, hput]
    rfl
  | unseen2 indexData segInfos t0 w0 _ hflag ih =>
    rw [ih]
    show createAfterIndex core env fuel indexData segInfos t0 w0 = _
    unfold createAfterIndex
    simp only [hflag, Bool.false_eq_true, if_false]
    rfl
  | transferred indexData segInfos t0 w0 ret t2 w2 _ hmap htr hneg ih =>
    rw [ih]
    show createTransfer core env fuel indexData segInfos t0 w0 = _
    unfold createTransfer
    simp only [hmap, Bool.false_eq_true, if_false, htr, hneg]
    rfl
  | unseen3 indexData fileSnapshotMap t0 w0 _ hflag ih =>
    rw [ih]
    show (if (t0.IsCanceled env).1 then _ else _) = _
    simp only [hflag, Bool.false_eq_true, if_false]
    rfl


/-- A run in which a stage returns a negative result leaves through the error handler,
called with the task record and the world of that moment. -/
theorem CreateFails_run (core : SnapshotCoreImpl) (env : Env) (fuel : Nat)
    (t : SnapshotTaskInfo) (w : World) (tF : SnapshotTaskInfo) (wF : World)
    (h : CreateFails core env fuel t w tF wF) :
    HandleCreateSnapshotTask core env fuel t w
      = Except.ok (PipelineExit.error, HandleCreateSnapshotError env tF wF) := by
  induction h with
  | snapshot hseq hneg =>
    unfold HandleCreateSnapshotTask
    rw [if_pos hseq]
    simp only [hneg, if_true]
  | load t0 w0 hreach hget =>
    rw [CreateReach_rest core env fuel t w _ t0 w0 hreach]
    show createIndex core env fuel true t0 w0 = _
    unfold createIndex
    simp only [if_true, hget]
  | segments t0 w0 indexData ret segInfos hreach hget hseg hneg =>
    rw [CreateReach_rest core env fuel t w _ t0 w0 hreach]
    show createIndex core env fuel true t0 w0 = _
    unfold createIndex
    simp only [if_true, hget, hseg, hneg]
  | build t0 w0 ret indexData segInfos t1 hreach hbuild hneg =>
    rw [CreateReach_rest core env fuel t w _ t0 w0 hreach]
    show createIndex core env fuel false t0 w0 = _
    unfold createIndex
    simp only [Bool.false_eq_true, if_false, hbuild, hneg, if_true]
  | put t0 w0 ret indexData segInfos t1 hreach hbuild hneg hput =>
    rw [CreateReach_rest core env fuel t w _ t0 w0 hreach]
    show createIndex core env fuel false t0 w0 = _
    unfold createIndex
    simp only [Bool.false_eq_true, if_false, hbuild, hneg, hput, if_true]
  | map indexData segInfos t0 w0 hreach hmap =>
    rw [CreateReach_rest core env fuel t w _ t0 w0 hreach]
    show createTransfer core env fuel indexData segInfos t0 w0 = _
    unfold createTransfer
    simp only [hmap, if_true]
  | transfer indexData segInfos t0 w0 ret t2 w2 hreach hmap htr hneg =>
    rw [CreateReach_rest core env fuel t w _ t0 w0 hreach]
    show createTransfer core env fuel indexData segInfos t0 w0 = _
    unfold createTransfer
    simp only [hmap, Bool.false_eq_true, if_false, htr, hneg, if_true]
  | update t0 w0 hreach hret =>
    rw [CreateReach_rest core env fuel t w _ t0 w0 hreach]
    show Except.ok (createFinalize env t0 w0) = _
    unfold createFinalize
    simp only [hret, if_true]


/-- `DeleteSnapshotOnCurvefs` returns `Success` after `n + 1` polls when the volume
client deletes the upstream snapshot and the fuel exceeds `n`. -/
theorem DeleteSnapshotOnCurvefs_success (env : Env) (fuel : Nat) (info : SnapshotInfo)
    (w : World) (n : Nat) (hn : n < fuel) (h : env.deletesSnapshotAt w.clock n) :
    DeleteSnapshotOnCurvefs env fuel info w
      = Except.ok (kErrCodeSuccess,
          { w with clock := w.clock + 1 + n + 1,
                   calls := w.calls ++
                     [Call.ClientDeleteSnapshot info.fileName info.user info.seqNum] }) := by
  obtain ⟨hok, hall, hans⟩ := h
  have hcond : ¬ (env.deleteSnapshot w.clock ≠ LibcurveRet.OK ∧
      env.deleteSnapshot w.clock ≠ LibcurveRet.NOTEXIST ∧
      env.deleteSnapshot w.clock ≠ LibcurveRet.DELETING) := by
    rintro ⟨h1, h2, h3⟩
    rcases hok with h | h | h
    · exact h1 h
    · exact h2 h
    · exact h3 h
  have hgo := pollSnapShotStatus_goes_on env n fuel
    { w with clock := w.clock + 1,
             calls := w.calls ++
               [Call.ClientDeleteSnapshot info.fileName info.user info.seqNum] } hn hall
  obtain ⟨f, hf⟩ : ∃ f, fuel - n = f + 1 := ⟨fuel - n - 1, by omega⟩
  unfold DeleteSnapshotOnCurvefs
  simp only []
  rw [if_neg hcond, hgo, hf, pollSnapShotStatus]
  simp only []
  rcases hans with h | ⟨h, h2⟩
  · rw [h]
  · rw [h]
    simp only []
    rw [if_pos h2]

/-- Rollback-1 runs to its end when the volume client deletes the upstream snapshot and
the metadata store deletes the record. -/
theorem CancelAfterCreateSnapshotOnCurvefs_success (env : Env) (fuel : Nat)
    (task : SnapshotTaskInfo) (w : World) (n : Nat) (hn : n < fuel)
    (hclient : env.deletesSnapshotAt w.clock n)
    (hrecord : ¬ env.metaRet (w.clock + 1 + n + 1) < 0) :
    ∃ w1, CancelAfterCreateSnapshotOnCurvefs env fuel task w
      = Except.ok (PipelineExit.canceled, task.Finish, w1) := by
  unfold CancelAfterCreateSnapshotOnCurvefs
  rw [DeleteSnapshotOnCurvefs_success env fuel task.snapshotInfo w n hn hclient]
  simp only [ErrCode.isNegative, Bool.false_eq_true, if_false]
  unfold HandleClearSnapshotOnMateStore
  simp only [World_DeleteSnapshot_fst]
  rw [if_neg hrecord]
  exact ⟨_, rfl⟩

/-- Rollback-2 runs to its end when the data store deletes the chunk index, the volume
client deletes the upstream snapshot and the metadata store deletes the record. -/
theorem CancelAfterCreateChunkIndexData_success (env : Env) (fuel : Nat)
    (task : SnapshotTaskInfo) (w : World) (n : Nat) (hn : n < fuel)
    (hindex : ¬ env.dataRet w.clock < 0)
    (hclient : env.deletesSnapshotAt (w.clock + 1) n)
    (hrecord : ¬ env.metaRet (w.clock + 1 + 1 + n + 1) < 0) :
    ∃ w1, CancelAfterCreateChunkIndexData env fuel task w
      = Except.ok (PipelineExit.canceled, task.Finish, w1) := by
  unfold CancelAfterCreateChunkIndexData
  simp only [World_DeleteChunkIndexData_fst]
  rw [if_neg hindex]
  exact CancelAfterCreateSnapshotOnCurvefs_success env fuel task _ n hn hclient hrecord

/-- The progress of the task at cancellation point 2 is 6. -/
theorem CreateReach_point2_progress (core : SnapshotCoreImpl) (env : Env) (fuel : Nat)
    (t : SnapshotTaskInfo) (w : World) (indexData : ChunkIndexData)
    (segInfos : List (Nat × SegmentInfo)) (t0 : SnapshotTaskInfo) (w0 : World)
    (h : CreateReach core env fuel t w (CreatePlace.point2 indexData segInfos) t0 w0) :
    t0.progress_ = kProgressBuildChunkIndexDataComplete := by
  cases h <;> rfl


/-- `CreateSnapshotOnCurvefs` returns `Success` when its three calls succeed. -/
theorem CreateSnapshotOnCurvefs_success (env : Env) (fileName : String)
    (t : SnapshotTaskInfo) (w : World)
    (h1 : (env.createSnapshot w.clock).1 = LibcurveRet.OK ∨
      (env.createSnapshot w.clock).1 = LibcurveRet.UNDER_SNAPSHOT)
    (h2 : (env.getSnapshot (w.clock + 1)).1 = LibcurveRet.OK)
    (h3 : ¬ env.metaRet (w.clock + 1 + 1) < 0) :
    (CreateSnapshotOnCurvefs env fileName t w).1 = kErrCodeSuccess := by
  have hc1 : ¬ ((env.createSnapshot w.clock).1 ≠ LibcurveRet.OK ∧
      (env.createSnapshot w.clock).1 ≠ LibcurveRet.UNDER_SNAPSHOT) := by
    rintro ⟨a, b⟩
    rcases h1 with h | h
    · exact a h
    · exact b h
  unfold CreateSnapshotOnCurvefs
  simp only []
  rw [if_neg hc1, if_neg (by rw [h2]; exact fun h => h rfl)]
  simp only [World_UpdateSnapshot_fst]
  rw [if_neg h3]

/-- The task record a place is reached with holds the snapshot info of the stages and
the file name of the task. -/
theorem CreateReach_info (core : SnapshotCoreImpl) (env : Env) (fuel : Nat)
    (t : SnapshotTaskInfo) (w : World) (p : CreatePlace) (t0 : SnapshotTaskInfo) (w0 : World)
    (h : CreateReach core env fuel t w p t0 w0) :
    t0.snapshotInfo = stageInfo env t w ∧ t0.fileName_ = t.fileName_ := by
  induction h with
  | fresh hseq hneg =>
    refine ⟨?_, (CreateSnapshotOnCurvefs_ok env t.fileName_ t w hneg).2.2.1⟩
    unfold stageInfo
    rw [if_pos hseq]
  | resumed hseq =>
    refine ⟨?_, rfl⟩
    unfold stageInfo
    rw [if_neg hseq]
  | unseen1 e t0 w0 _ _ ih => exact ih
  | loaded t0 w0 indexData ret segInfos _ _ _ _ ih => exact ih
  | built t0 w0 ret indexData segInfos t1 _ hbuild _ _ ih =>
    obtain ⟨n, _, ht⟩ := BuildChunkIndexData_task env _ _ _ _ _ _ hbuild
    subst ht
    exact ih
  | unseen2 indexData segInfos t0 w0 _ _ ih => exact ih
  | transferred indexData segInfos t0 w0 ret t2 w2 _ _ htr _ ih =>
    obtain ⟨hk, _⟩ := TransferSnapshotData_facts core env fuel _ _ _ _ _ _ _ _ _ htr
    exact ⟨hk.1.trans ih.1, hk.2.2.1.trans ih.2⟩
  | unseen3 indexData fileSnapshotMap t0 w0 _ _ ih => exact ih


/-- `BuildChunkIndexData` returns `Success` when the sizes are not 0, every segment is
answered `OK` or `NOT_ALLOCATE`, every `GetChunkInfo` succeeds with at most two
sequence numbers and no sample finds the cancel flag set. -/
theorem BuildChunkIndexData_success (env : Env) (info : SnapshotInfo)
    (task : SnapshotTaskInfo) (hseg : info.segmentSize ≠ 0) (hchunk : info.chunkSize ≠ 0)
    (hsegs : ∀ offset, (env.getSnapshotSegmentInfo offset).1 = LibcurveRet.OK ∨
      (env.getSnapshotSegmentInfo offset).1 = LibcurveRet.NOT_ALLOCATE)
    (hchunks : ∀ cidInfo, (env.getChunkInfo cidInfo).1 = LibcurveRet.OK)
    (htwo : ∀ cidInfo, (env.getChunkInfo cidInfo).2.chunkSn.length ≤ 2)
    (hflag : ∀ k, env.isCanceled k = false) :
    ∃ indexData segInfos task1,
      BuildChunkIndexData env info task
        = Except.ok (kErrCodeSuccess, indexData, segInfos, task1) := by
  unfold BuildChunkIndexData
  rw [checkedDiv_ok _ _ hseg]
  simp only []
  obtain ⟨segInfos1, hrun, _⟩ := buildSegmentLoop_spec env info hchunk
    (List.range (info.fileLength / info.segmentSize)) ⟨info.fileName, []⟩ [] task
    (fun i _ => hsegs _) (fun s _ => hchunks _) (fun k _ _ => hflag k)
  have hall : (allSlots env info (List.range (info.fileLength / info.segmentSize))).takeWhile
      (slotOk env)
      = allSlots env info (List.range (info.fileLength / info.segmentSize)) := by
    rw [List.takeWhile_eq_self_iff]
    intro s _
    simp [slotOk, chunkSnOk, htwo]
  rw [hrun, hall, if_pos rfl]
  exact ⟨_, _, _, rfl⟩

/-- The index `BuildChunkIndexData` returns passes the validation of
`TransferSnapshotData` against the segments it returns, when no segment holds more
chunks than `segmentSize / chunkSize`. -/
theorem built_index_validates (env : Env) (info : SnapshotInfo)
    (task : SnapshotTaskInfo) (code : ErrCode) (indexData : ChunkIndexData)
    (segInfos : List (Nat × SegmentInfo)) (task1 : SnapshotTaskInfo)
    (hfit : ∀ i, i < info.fileLength / info.segmentSize →
      (env.getSnapshotSegmentInfo (i * info.segmentSize)).1 = LibcurveRet.OK →
      (env.getSnapshotSegmentInfo (i * info.segmentSize)).2.chunkvec.length
        ≤ info.segmentSize / info.chunkSize)
    (hrun : BuildChunkIndexData env info task
      = Except.ok (code, indexData, segInfos, task1)) :
    validateLoop segInfos (info.segmentSize / info.chunkSize) indexData.GetAllChunkIndex
      = Except.ok Flow.next := by
  have hkeys : ∀ k ∈ indexData.GetAllChunkIndex, ∃ i j,
      i < info.fileLength / info.segmentSize ∧
      (env.getSnapshotSegmentInfo (i * info.segmentSize)).1 = LibcurveRet.OK ∧
      j < (env.getSnapshotSegmentInfo (i * info.segmentSize)).2.chunkvec.length ∧
      k % (info.segmentSize / info.chunkSize) = j ∧
      segInfos.find? (fun e => e.1 == k / (info.segmentSize / info.chunkSize))
        = some (i, (env.getSnapshotSegmentInfo (i * info.segmentSize)).2) := by
    intro k hk
    unfold BuildChunkIndexData at hrun
    split at hrun
    · cases hrun
    · rename_i n hdiv
      obtain ⟨_, hn⟩ := checkedDiv_eq _ _ _ hdiv
      subst hn
      obtain ⟨pre, hpre, hsegs, hall⟩ := buildSegmentLoop_entries env info _ _ _ _ _ _ _ _ hrun
      unfold ChunkIndexData.GetAllChunkIndex at hk
      rw [List.mem_map] at hk
      obtain ⟨e, he, hek⟩ := hk
      rcases hall e he with h1 | ⟨i, hi, hans, j, hj, hkey⟩
      · cases h1
      · have hin : i < info.fileLength / info.segmentSize :=
          List.mem_range.mp (hpre.subset hi)
        have hfit1 := hfit i hin hans
        obtain ⟨hd, hm⟩ := slot_div_mod (info.segmentSize / info.chunkSize) i j (by omega)
        rw [hek] at hkey
        refine ⟨i, j, hin, hans, hj, by rw [hkey]; exact hm, ?_⟩
        rw [hsegs, List.nil_append, hkey, hd]
        exact find_allocatedSegs env info i hans pre hi
  by_cases hq : info.segmentSize / info.chunkSize = 0
  · have hnil : indexData.GetAllChunkIndex = [] := by
      cases hl : indexData.GetAllChunkIndex with
      | nil => rfl
      | cons k rest =>
        exfalso
        obtain ⟨i, j, hin, hans, hj, _⟩ := hkeys k (by rw [hl]; exact List.mem_cons_self _ _)
        have := hfit i hin hans
        omega
    rw [hnil]
    rfl
  · rw [validateLoop_pass segInfos _ hq]
    intro ci hci
    obtain ⟨i, j, hin, hans, hj, hm, hfind⟩ := hkeys ci hci
    exact ⟨_, hfind, by rw [hm]; exact hj⟩

/-- The loop of `BuildSegmentInfo` returns `Success` with the allocated segments when
every segment is answered `OK` or `NOT_ALLOCATE`. -/
theorem buildSegmentInfoLoop_success (env : Env) (info : SnapshotInfo)
    (hsegs : ∀ offset, (env.getSnapshotSegmentInfo offset).1 = LibcurveRet.OK ∨
      (env.getSnapshotSegmentInfo offset).1 = LibcurveRet.NOT_ALLOCATE) :
    ∀ (l : List Nat) (segInfos : List (Nat × SegmentInfo)),
      buildSegmentInfoLoop env info l segInfos
        = (kErrCodeSuccess, segInfos ++ allocatedSegs env info l) := by
  intro l
  induction l with
  | nil =>
    intro segInfos
    simp [buildSegmentInfoLoop, allocatedSegs]
  | cons i rest ih =>
    intro segInfos
    unfold buildSegmentInfoLoop allocatedSegs
    rw [List.filterMap_cons]
    rcases hsegs (i * info.segmentSize) with h | h
    · simp only [h, if_true]
      rw [ih]
      unfold allocatedSegs
      simp
    · simp only [h]
      rw [ih]
      unfold allocatedSegs
      simp

theorem BuildSegmentInfo_success (env : Env) (info : SnapshotInfo)
    (hseg : info.segmentSize ≠ 0)
    (hsegs : ∀ offset, (env.getSnapshotSegmentInfo offset).1 = LibcurveRet.OK ∨
      (env.getSnapshotSegmentInfo offset).1 = LibcurveRet.NOT_ALLOCATE) :
    BuildSegmentInfo env info
      = Except.ok (kErrCodeSuccess,
          allocatedSegs env info (List.range (info.fileLength / info.segmentSize))) := by
  unfold BuildSegmentInfo
  rw [checkedDiv_ok _ _ hseg]
  simp only []
  rw [buildSegmentInfoLoop_success env info hsegs]
  rfl


/-- The transfer loop runs to its end when no chunk transfer fails and no sample finds
the cancel flag set. -/
theorem transferLoop_next (core : SnapshotCoreImpl) (env : Env) (indexData : ChunkIndexData)
    (segInfos : List (Nat × SegmentInfo)) (filter : ChunkDataName → Bool) (cps total : Nat)
    (htr : ∀ k, ¬ env.transferRet k < 0) (hflag : ∀ k, env.isCanceled k = false) :
    ∀ (l : List Nat) (index : Nat) (tr : TaskTracker) (t : SnapshotTaskInfo) (w : World),
      (tr.result < 0 → ∃ k, env.transferRet k = tr.result) →
      (transferLoop core env indexData segInfos filter cps total l index tr t w).1
        = Flow.next := by
  intro l
  induction l with
  | nil => intro index tr t w _; rfl
  | cons ci rest ih =>
    intro index tr t w h
    have hobs := observeTracker_result core env
      (submitTransfer indexData segInfos filter cps ci tr w).1
      (submitTransfer indexData segInfos filter cps ci tr w).2
      (by rw [submitTransfer_result]; exact h)
    have hnot : ¬ (observeTracker core env
        (submitTransfer indexData segInfos filter cps ci tr w).1
        (submitTransfer indexData segInfos filter cps ci tr w).2).1.result < 0 := by
      intro hneg
      obtain ⟨k, hk⟩ := hobs hneg
      exact htr k (by rw [hk]; exact hneg)
    unfold transferLoop
    simp only []
    rw [if_neg hnot]
    simp only [IsCanceled_fst, hflag, Bool.false_eq_true, if_false]
    exact ih _ _ _ _ hobs

/-- `TransferSnapshotData` returns `Success` when the sizes are aligned, the index passes
the validation, no chunk transfer fails, no sample finds the cancel flag set and the
volume client deletes the upstream snapshot. -/
theorem TransferSnapshotData_success (core : SnapshotCoreImpl) (env : Env) (fuel : Nat)
    (indexData : ChunkIndexData) (info : SnapshotInfo) (segInfos : List (Nat × SegmentInfo))
    (filter : ChunkDataName → Bool) (t : SnapshotTaskInfo) (w : World)
    (hchunk : info.chunkSize ≠ 0)
    (hcond : ¬ (core.chunkSplitSize_ = 0 ∨ info.chunkSize % core.chunkSplitSize_ ≠ 0))
    (hvalid : validateLoop segInfos (info.segmentSize / info.chunkSize)
      indexData.GetAllChunkIndex = Except.ok Flow.next)
    (htr : ∀ k, ¬ env.transferRet k < 0) (hflag : ∀ k, env.isCanceled k = false)
    (hdel : ∀ c, ∃ n, n < fuel ∧ env.deletesSnapshotAt c n) :
    ∃ t1 w1, TransferSnapshotData core env fuel indexData info segInfos filter t w
      = Except.ok (kErrCodeSuccess, t1, w1) := by
  have hnext := transferLoop_next core env indexData segInfos filter
    (info.segmentSize / info.chunkSize) indexData.GetAllChunkIndex.length htr hflag
    indexData.GetAllChunkIndex 0 ⟨[], 0⟩ t w (fun h0 => absurd h0 (by decide))
  have hres := (transferLoop_result core env indexData segInfos filter
    (info.segmentSize / info.chunkSize) indexData.GetAllChunkIndex.length
    indexData.GetAllChunkIndex 0 ⟨[], 0⟩ t w (fun h0 => absurd h0 (by decide))).2
  unfold TransferSnapshotData
  rw [checkedDiv_ok _ _ hchunk]
  simp only []
  rw [if_neg hcond, hvalid]
  simp only []
  split
  · rename_i code tr t2 w2 heq
    rw [heq] at hnext
    cases hnext
  · rename_i tr t2 w2 heq
    rw [heq] at hres
    have hwait : ¬ (TaskTracker.Wait env tr w2).1.result < 0 := by
      intro hneg
      obtain ⟨k, hk⟩ := settleN_result env tr.outstanding.length tr w2 hres hneg
      exact htr k (by rw [hk]; exact hneg)
    rw [if_neg hwait]
    obtain ⟨n, hn, hd⟩ := hdel
      ((TaskTracker.Wait env tr w2).2.abandon (TaskTracker.Wait env tr w2).1).clock
    rw [DeleteSnapshotOnCurvefs_success env fuel info _ n hn hd]
    exact ⟨_, _, rfl⟩

/-- Stage 5 leaves through the success path when the metadata store takes the
update. -/
theorem createFinalize_done (env : Env) (task : SnapshotTaskInfo) (w : World)
    (hmeta : ¬ env.metaRet w.clock < 0) :
    ∃ t1 w1, createFinalize env task w = (PipelineExit.done, t1, w1) := by
  unfold createFinalize
  simp only [World_UpdateSnapshot_fst]
  rw [if_neg hmeta]
  exact ⟨_, _, rfl⟩

/-- From cancellation point 2 on the run leaves through the success path, when the
index passes the validation against the segments, the sizes are aligned, every call
succeeds and no sample finds the cancel flag set. -/
theorem CreateReach_point2_done (core : SnapshotCoreImpl) (env : Env) (fuel : Nat)
    (t : SnapshotTaskInfo) (w : World) (indexData : ChunkIndexData)
    (segInfos : List (Nat × SegmentInfo)) (t0 : SnapshotTaskInfo) (w0 : World)
    (hreach : CreateReach core env fuel t w (CreatePlace.point2 indexData segInfos) t0 w0)
    (hcalls : env.AllSucceed fuel) (hflag : ∀ k, env.isCanceled k = false)
    (hchunk : (stageInfo env t w).chunkSize ≠ 0)
    (hcond : ¬ (core.chunkSplitSize_ = 0 ∨
      (stageInfo env t w).chunkSize % core.chunkSplitSize_ ≠ 0))
    (hvalid : validateLoop segInfos
      ((stageInfo env t w).segmentSize / (stageInfo env t w).chunkSize)
      indexData.GetAllChunkIndex = Except.ok Flow.next) :
    ∃ t1 w1, HandleCreateSnapshotTask core env fuel t w
      = Except.ok (PipelineExit.done, t1, w1) := by
  have h3 := CreateReach.unseen2 indexData segInfos t0 w0 hreach
    (by rw [IsCanceled_fst]; exact hflag _)
  have hinfo := (CreateReach_info core env fuel t w _ _ _ h3).1
  obtain ⟨t2, w2, htr⟩ := TransferSnapshotData_success core env fuel indexData
    ((t0.IsCanceled env).2.SetProgress kProgressBuildSnapshotMapComplete).snapshotInfo
    segInfos
    (fun name =>
      (BuildSnapshotMap env (t0.IsCanceled env).2.fileName_
        (t0.IsCanceled env).2.snapshotInfo.seqNum w0).2.1.IsExistChunk name)
    ((t0.IsCanceled env).2.SetProgress kProgressBuildSnapshotMapComplete)
    (BuildSnapshotMap env (t0.IsCanceled env).2.fileName_
      (t0.IsCanceled env).2.snapshotInfo.seqNum w0).2.2
    (by rw [SetProgress_snapshotInfo, hinfo]; exact hchunk)
    (by rw [SetProgress_snapshotInfo, hinfo]; exact hcond)
    (by rw [SetProgress_snapshotInfo, hinfo]; exact hvalid)
    hcalls.transferRet hflag hcalls.deleteSnapshot
  have h4 := CreateReach.transferred indexData segInfos _ _ _ t2 w2 h3 rfl htr rfl
  have h5 := CreateReach.unseen3 _ _ _ _ h4 (by rw [IsCanceled_fst]; exact hflag _)
  obtain ⟨t1, w1, hfin⟩ := createFinalize_done env
    ((t2.SetProgress kProgressTransferSnapshotDataComplete).IsCanceled env).2 w2
    (hcalls.metaRet _)
  refine ⟨t1, w1, ?_⟩
  rw [CreateReach_rest core env fuel t w _ _ _ h5]
  show Except.ok (createFinalize env _ w2) = _
  rw [hfin]


/-- A data store that holds an index under a key returns it. -/
theorem exist_GetChunkIndexData (d : DataStore) (name : ChunkIndexDataName)
    (h : d.ChunkIndexDataExist name = true) :
    ∃ indexData, d.GetChunkIndexData name 0 = some indexData := by
  unfold DataStore.ChunkIndexDataExist at h
  unfold DataStore.GetChunkIndexData
  rw [if_neg (by decide)]
  cases hf : d.indexData.find? (fun e => e.1 == name) with
  | none =>
    rw [List.find?_eq_none] at hf
    rw [List.any_eq_true] at h
    obtain ⟨e, he, hp⟩ := h
    exact absurd hp (hf e he)
  | some e => exact ⟨e.2, rfl⟩

/-- An index whose chunk indices name slots of allocated segments passes the validation
of `TransferSnapshotData` against the segments `BuildSegmentInfo` returns. -/
theorem stored_index_validates (env : Env) (info : SnapshotInfo) (indexData : ChunkIndexData)
    (h : ∀ ci ∈ indexData.GetAllChunkIndex, ∃ i j,
      i < info.fileLength / info.segmentSize ∧
      (env.getSnapshotSegmentInfo (i * info.segmentSize)).1 = LibcurveRet.OK ∧
      j < (env.getSnapshotSegmentInfo (i * info.segmentSize)).2.chunkvec.length ∧
      j < info.segmentSize / info.chunkSize ∧
      ci = i * (info.segmentSize / info.chunkSize) + j) :
    validateLoop (allocatedSegs env info (List.range (info.fileLength / info.segmentSize)))
      (info.segmentSize / info.chunkSize) indexData.GetAllChunkIndex = Except.ok Flow.next := by
  by_cases hq : info.segmentSize / info.chunkSize = 0
  · have hnil : indexData.GetAllChunkIndex = [] := by
      cases hl : indexData.GetAllChunkIndex with
      | nil => rfl
      | cons k rest =>
        exfalso
        obtain ⟨i, j, _, _, _, hj, _⟩ := h k (by rw [hl]; exact List.mem_cons_self _ _)
        omega
    rw [hnil]
    rfl
  · rw [validateLoop_pass _ _ hq]
    intro ci hci
    obtain ⟨i, j, hin, hans, hj, hjq, hkey⟩ := h ci hci
    obtain ⟨hd, hm⟩ := slot_div_mod (info.segmentSize / info.chunkSize) i j hjq
    refine ⟨(i, (env.getSnapshotSegmentInfo (i * info.segmentSize)).2), ?_, ?_⟩
    · rw [hkey, hd]
      exact find_allocatedSegs env info i hans _ (List.mem_range.mpr hin)
    · rw [hkey, hm]
      exact hj

/-- From the beginning of stage 2 on, a run that builds the index leaves through the
success path when every call succeeds, no sample finds the cancel flag set, the sizes
are not 0 and aligned, every chunk has at most two sequence numbers and no segment
holds more chunks than `segmentSize / chunkSize`. -/
theorem CreateReach_build_done (core : SnapshotCoreImpl) (env : Env) (fuel : Nat)
    (t : SnapshotTaskInfo) (w : World) (t0 : SnapshotTaskInfo) (w0 : World)
    (hreach : CreateReach core env fuel t w (CreatePlace.stage2 false) t0 w0)
    (hcalls : env.AllSucceed fuel) (hflag : ∀ k, env.isCanceled k = false)
    (htwo : ∀ cidInfo, (env.getChunkInfo cidInfo).2.chunkSn.length ≤ 2)
    (hseg : (stageInfo env t w).segmentSize ≠ 0)
    (hchunk : (stageInfo env t w).chunkSize ≠ 0)
    (hcond : ¬ (core.chunkSplitSize_ = 0 ∨
      (stageInfo env t w).chunkSize % core.chunkSplitSize_ ≠ 0))
    (hfit : ∀ i, i < (stageInfo env t w).fileLength / (stageInfo env t w).segmentSize →
      (env.getSnapshotSegmentInfo (i * (stageInfo env t w).segmentSize)).1 = LibcurveRet.OK →
      (env.getSnapshotSegmentInfo (i * (stageInfo env t w).segmentSize)).2.chunkvec.length
        ≤ (stageInfo env t w).segmentSize / (stageInfo env t w).chunkSize) :
    ∃ t1 w1, HandleCreateSnapshotTask core env fuel t w
      = Except.ok (PipelineExit.done, t1, w1) := by
  have hinfo := (CreateReach_info core env fuel t w _ _ _ hreach).1
  obtain ⟨indexData, segInfos, tb, hb⟩ := BuildChunkIndexData_success env t0.snapshotInfo t0
    (by rw [hinfo]; exact hseg) (by rw [hinfo]; exact hchunk)
    hcalls.segmentInfo hcalls.chunkInfo htwo hflag
  have hvalid := built_index_validates env t0.snapshotInfo t0 _ indexData segInfos tb
    (by rw [hinfo]; exact hfit) hb
  rw [hinfo] at hvalid
  have h2 := CreateReach.built t0 w0 _ indexData segInfos tb hreach hb rfl
    (by rw [World_PutChunkIndexData_fst]; exact hcalls.dataRet _)
  exact CreateReach_point2_done core env fuel t w indexData segInfos _ _ h2 hcalls hflag
    hchunk hcond hvalid

/-- From the beginning of stage 2 on, a run that loads a stored index leaves through
the success path when every call succeeds, no sample finds the cancel flag set, the
sizes are not 0 and aligned, and the chunk indices of the stored index name slots of
allocated segments. -/
theorem CreateReach_load_done (core : SnapshotCoreImpl) (env : Env) (fuel : Nat)
    (t : SnapshotTaskInfo) (w : World) (t0 : SnapshotTaskInfo) (w0 : World)
    (indexData : ChunkIndexData)
    (hreach : CreateReach core env fuel t w (CreatePlace.stage2 true) t0 w0)
    (hget : w0.dataStore.GetChunkIndexData ⟨t0.fileName_, t0.snapshotInfo.seqNum⟩ 0
      = some indexData)
    (hcalls : env.AllSucceed fuel) (hflag : ∀ k, env.isCanceled k = false)
    (hseg : (stageInfo env t w).segmentSize ≠ 0)
    (hchunk : (stageInfo env t w).chunkSize ≠ 0)
    (hcond : ¬ (core.chunkSplitSize_ = 0 ∨
      (stageInfo env t w).chunkSize % core.chunkSplitSize_ ≠ 0))
    (hstored : ∀ ci ∈ indexData.GetAllChunkIndex, ∃ i j,
      i < (stageInfo env t w).fileLength / (stageInfo env t w).segmentSize ∧
      (env.getSnapshotSegmentInfo (i * (stageInfo env t w).segmentSize)).1 = LibcurveRet.OK ∧
      j < (env.getSnapshotSegmentInfo
        (i * (stageInfo env t w).segmentSize)).2.chunkvec.length ∧
      j < (stageInfo env t w).segmentSize / (stageInfo env t w).chunkSize ∧
      ci = i * ((stageInfo env t w).segmentSize / (stageInfo env t w).chunkSize) + j) :
    ∃ t1 w1, HandleCreateSnapshotTask core env fuel t w
      = Except.ok (PipelineExit.done, t1, w1) := by
  have hinfo := (CreateReach_info core env fuel t w _ _ _ hreach).1
  have hload : (w0.GetChunkIndexData env ⟨t0.fileName_, t0.snapshotInfo.seqNum⟩).1
      = some indexData := by
    show w0.dataStore.GetChunkIndexData _ (env.dataRet w0.clock) = _
    rw [GetChunkIndexData_ok _ _ _ (hcalls.dataRet _)]
    exact hget
  have hsegs := BuildSegmentInfo_success env
    (t0.SetProgress kProgressBuildChunkIndexDataComplete).snapshotInfo
    (by rw [SetProgress_snapshotInfo, hinfo]; exact hseg) hcalls.segmentInfo
  have h2 := CreateReach.loaded t0 w0 indexData _ _ hreach hload hsegs rfl
  have hvalid := stored_index_validates env (stageInfo env t w) indexData hstored
  rw [SetProgress_snapshotInfo, hinfo] at h2
  exact CreateReach_point2_done core env fuel t w indexData _ _ _ h2 hcalls hflag
    hchunk hcond hvalid


/-- A cancellation point whose sample of the flag is true enters its rollback chain:
from there on the run is the chain. -/
theorem CreateReach_seen (core : SnapshotCoreImpl) (env : Env) (fuel : Nat)
    (t : SnapshotTaskInfo) (w : World) (p : CreatePlace) (t0 : SnapshotTaskInfo) (w0 : World)
    (chain : Except Abort (PipelineExit × SnapshotTaskInfo × World))
    (hreach : CreateReach core env fuel t w p t0 w0)
    (hchain : p.rollback env fuel t0 w0 = some chain)
    (hseen : env.isCanceled t0.cancelSamples = true) :
    HandleCreateSnapshotTask core env fuel t w = chain := by
  rw [CreateReach_rest core env fuel t w p t0 w0 hreach]
  cases p with
  | point1 e =>
    simp only [CreatePlace.rollback, Option.some.injEq] at hchain
    rw [← hchain]
    show createAfterSnapshot core env fuel e t0 w0 = _
    unfold createAfterSnapshot
    simp only []
    rw [if_pos (by rw [IsCanceled_fst]; exact hseen)]
  | stage2 e => simp [CreatePlace.rollback] at hchain
  | point2 indexData segInfos =>
    simp only [CreatePlace.rollback, Option.some.injEq] at hchain
    rw [← hchain]
    show createAfterIndex core env fuel indexData segInfos t0 w0 = _
    unfold createAfterIndex
    rw [if_pos (by rw [IsCanceled_fst]; exact hseen)]
  | stage3 indexData segInfos => simp [CreatePlace.rollback] at hchain
  | point3 indexData fileSnapshotMap =>
    simp only [CreatePlace.rollback, Option.some.injEq] at hchain
    rw [← hchain]
    show (if (t0.IsCanceled env).1 then _ else _) = _
    rw [if_pos (by rw [IsCanceled_fst]; exact hseen)]
  | stage5 => simp [CreatePlace.rollback] at hchain

theorem HandleClearSnapshotOnMateStore_samples (env : Env) (task : SnapshotTaskInfo)
    (w : World) :
    (HandleClearSnapshotOnMateStore env task w).2.1.cancelSamples = task.cancelSamples := by
  unfold HandleClearSnapshotOnMateStore
  simp only []
  split <;> rfl

theorem CancelAfterCreateSnapshotOnCurvefs_samples (env : Env) (fuel : Nat)
    (task : SnapshotTaskInfo) (w : World) (x : PipelineExit) (t1 : SnapshotTaskInfo)
    (w1 : World)
    (h : CancelAfterCreateSnapshotOnCurvefs env fuel task w = Except.ok (x, t1, w1)) :
    t1.cancelSamples = task.cancelSamples := by
  unfold CancelAfterCreateSnapshotOnCurvefs at h
  split at h
  · cases h
  · split at h
    · simp only [Except.ok.injEq, Prod.mk.injEq] at h
      exact (congrArg (fun r => r.1.cancelSamples) h.2).symm
    · rename_i ret w2 _ _
      simp only [Except.ok.injEq] at h
      have hs := HandleClearSnapshotOnMateStore_samples env task w2
      rw [h] at hs
      exact hs

theorem CancelAfterCreateChunkIndexData_samples (env : Env) (fuel : Nat)
    (task : SnapshotTaskInfo) (w : World) (x : PipelineExit) (t1 : SnapshotTaskInfo)
    (w1 : World)
    (h : CancelAfterCreateChunkIndexData env fuel task w = Except.ok (x, t1, w1)) :
    t1.cancelSamples = task.cancelSamples := by
  unfold CancelAfterCreateChunkIndexData at h
  simp only [] at h
  split at h
  · simp only [Except.ok.injEq, Prod.mk.injEq] at h
    exact (congrArg (fun r => r.1.cancelSamples) h.2).symm
  · exact CancelAfterCreateSnapshotOnCurvefs_samples env fuel task _ x t1 w1 h

theorem cancelTransferLoop_samples (env : Env) (indexData : ChunkIndexData)
    (fileSnapshotMap : FileSnapMap) :
    ∀ (l : List Nat) (task : SnapshotTaskInfo) (w : World),
      (cancelTransferLoop env indexData fileSnapshotMap l task w).2.1.cancelSamples
        = task.cancelSamples := by
  intro l
  induction l with
  | nil => intro task w; rfl
  | cons ci rest ih =>
    intro task w
    unfold cancelTransferLoop
    simp only []
    split
    · split
      · rfl
      · exact ih _ _
    · exact ih _ _

theorem CancelAfterTransferSnapshotData_samples (env : Env) (fuel : Nat)
    (task : SnapshotTaskInfo) (indexData : ChunkIndexData) (fileSnapshotMap : FileSnapMap)
    (w : World) (x : PipelineExit) (t1 : SnapshotTaskInfo) (w1 : World)
    (h : CancelAfterTransferSnapshotData env fuel task indexData fileSnapshotMap w
      = Except.ok (x, t1, w1)) :
    t1.cancelSamples = task.cancelSamples := by
  have hs := cancelTransferLoop_samples env indexData fileSnapshotMap
    indexData.GetAllChunkIndex task w
  unfold CancelAfterTransferSnapshotData at h
  split at h
  · rename_i c t2 w2 heq
    rw [heq] at hs
    simp only [Except.ok.injEq, Prod.mk.injEq] at h
    rw [← h.2.1]
    exact hs
  · rename_i t2 w2 heq
    rw [heq] at hs
    rw [CancelAfterCreateChunkIndexData_samples env fuel t2 w2 x t1 w1 h]
    exact hs

/-- The rollback chain of a cancellation point takes no sample of the flag: the task it
returns with has taken one sample more than the task the point is reached with, the
sample of the point. -/
theorem rollback_samples (env : Env) (fuel : Nat) (p : CreatePlace) (t0 : SnapshotTaskInfo)
    (w0 : World) (x : PipelineExit) (t1 : SnapshotTaskInfo) (w1 : World)
    (h : p.rollback env fuel t0 w0 = some (Except.ok (x, t1, w1))) :
    t1.cancelSamples = t0.cancelSamples + 1 := by
  cases p with
  | point1 e =>
    simp only [CreatePlace.rollback, Option.some.injEq] at h
    rw [CancelAfterCreateSnapshotOnCurvefs_samples env fuel _ _ x t1 w1 h]
    rfl
  | stage2 e => simp [CreatePlace.rollback] at h
  | point2 indexData segInfos =>
    simp only [CreatePlace.rollback, Option.some.injEq] at h
    rw [CancelAfterCreateChunkIndexData_samples env fuel _ _ x t1 w1 h]
    rfl
  | stage3 indexData segInfos => simp [CreatePlace.rollback] at h
  | point3 indexData fileSnapshotMap =>
    simp only [CreatePlace.rollback, Option.some.injEq] at h
    rw [CancelAfterTransferSnapshotData_samples env fuel _ _ _ _ x t1 w1 h]
    rfl
  | stage5 => simp [CreatePlace.rollback] at h


theorem outcome_stage5 (core : SnapshotCoreImpl) (env : Env) (fuel : Nat)
    (t : SnapshotTaskInfo) (w : World) (x : PipelineExit) (t1 : SnapshotTaskInfo) (w1 : World)
    (hrun : HandleCreateSnapshotTask core env fuel t w = Except.ok (x, t1, w1))
    (t0 : SnapshotTaskInfo) (w0 : World)
    (hreach : CreateReach core env fuel t w CreatePlace.stage5 t0 w0) :
    CreateOutcome core env fuel t w x := by
  by_cases hret : (w0.UpdateSnapshot env (t0.snapshotInfo.SetStatus Status.done)).1 < 0
  · exact Or.inl ⟨_, _, CreateFails.update t0 w0 hreach hret⟩
  · refine Or.inr (Or.inr ⟨t0, w0, hreach, ?_⟩)
    have hrest := CreateReach_rest core env fuel t w _ t0 w0 hreach
    rw [hrun] at hrest
    have hfin : createFinalize env t0 w0
        = (PipelineExit.done,
            (({ t0 with snapshotInfo := t0.snapshotInfo.SetStatus Status.done } :
              SnapshotTaskInfo).SetProgress kProgressComplete).Finish,
            (w0.UpdateSnapshot env (t0.snapshotInfo.SetStatus Status.done)).2) := by
      unfold createFinalize
      simp only []
      rw [if_neg hret]
    have hrest2 : Except.ok (x, t1, w1)
        = (Except.ok (createFinalize env t0 w0) :
            Except Abort (PipelineExit × SnapshotTaskInfo × World)) := hrest
    rw [hfin] at hrest2
    simp only [Except.ok.injEq, Prod.mk.injEq] at hrest2
    exact hrest2.1

theorem outcome_point3 (core : SnapshotCoreImpl) (env : Env) (fuel : Nat)
    (t : SnapshotTaskInfo) (w : World) (x : PipelineExit) (t1 : SnapshotTaskInfo) (w1 : World)
    (hrun : HandleCreateSnapshotTask core env fuel t w = Except.ok (x, t1, w1))
    (indexData : ChunkIndexData) (fileSnapshotMap : FileSnapMap)
    (t0 : SnapshotTaskInfo) (w0 : World)
    (hreach : CreateReach core env fuel t w (CreatePlace.point3 indexData fileSnapshotMap)
      t0 w0) :
    CreateOutcome core env fuel t w x := by
  cases hflag : env.isCanceled t0.cancelSamples with
  | true =>
    exact Or.inr (Or.inl ⟨_, t0, w0, _, hreach, rfl, hflag,
      CreateReach_seen core env fuel t w _ t0 w0 _ hreach rfl hflag⟩)
  | false =>
    exact outcome_stage5 core env fuel t w x t1 w1 hrun _ _
      (CreateReach.unseen3 _ _ t0 w0 hreach (by rw [IsCanceled_fst]; exact hflag))

theorem outcome_stage3 (core : SnapshotCoreImpl) (env : Env) (fuel : Nat)
    (t : SnapshotTaskInfo) (w : World) (x : PipelineExit) (t1 : SnapshotTaskInfo) (w1 : World)
    (hrun : HandleCreateSnapshotTask core env fuel t w = Except.ok (x, t1, w1))
    (indexData : ChunkIndexData) (segInfos : List (Nat × SegmentInfo))
    (t0 : SnapshotTaskInfo) (w0 : World)
    (hreach : CreateReach core env fuel t w (CreatePlace.stage3 indexData segInfos) t0 w0) :
    CreateOutcome core env fuel t w x := by
  cases htr : TransferSnapshotData core env fuel indexData
      (t0.SetProgress kProgressBuildSnapshotMapComplete).snapshotInfo segInfos
      (fun name =>
        (BuildSnapshotMap env t0.fileName_ t0.snapshotInfo.seqNum w0).2.1.IsExistChunk name)
      (t0.SetProgress kProgressBuildSnapshotMapComplete)
      (BuildSnapshotMap env t0.fileName_ t0.snapshotInfo.seqNum w0).2.2 with
  | error e =>
    exfalso
    have hrest := CreateReach_rest core env fuel t w _ t0 w0 hreach
    rw [hrun] at hrest
    have hrest2 : Except.ok (x, t1, w1) = createTransfer core env fuel indexData segInfos t0 w0 :=
      hrest
    unfold createTransfer at hrest2
    simp only [BuildSnapshotMap_ret, ErrCode.isNegative, Bool.false_eq_true, if_false,
      htr] at hrest2
    cases hrest2
  | ok r =>
    obtain ⟨ret, t2, w2⟩ := r
    cases hneg : ret.isNegative with
    | true => exact Or.inl ⟨_, _, CreateFails.transfer _ _ t0 w0 ret t2 w2 hreach rfl htr hneg⟩
    | false =>
      exact outcome_point3 core env fuel t w x t1 w1 hrun _ _ _ _
        (CreateReach.transferred _ _ t0 w0 ret t2 w2 hreach rfl htr hneg)

theorem outcome_point2 (core : SnapshotCoreImpl) (env : Env) (fuel : Nat)
    (t : SnapshotTaskInfo) (w : World) (x : PipelineExit) (t1 : SnapshotTaskInfo) (w1 : World)
    (hrun : HandleCreateSnapshotTask core env fuel t w = Except.ok (x, t1, w1))
    (indexData : ChunkIndexData) (segInfos : List (Nat × SegmentInfo))
    (t0 : SnapshotTaskInfo) (w0 : World)
    (hreach : CreateReach core env fuel t w (CreatePlace.point2 indexData segInfos) t0 w0) :
    CreateOutcome core env fuel t w x := by
  cases hflag : env.isCanceled t0.cancelSamples with
  | true =>
    exact Or.inr (Or.inl ⟨_, t0, w0, _, hreach, rfl, hflag,
      CreateReach_seen core env fuel t w _ t0 w0 _ hreach rfl hflag⟩)
  | false =>
    exact outcome_stage3 core env fuel t w x t1 w1 hrun _ _ _ _
      (CreateReach.unseen2 _ _ t0 w0 hreach (by rw [IsCanceled_fst]; exact hflag))

theorem outcome_stage2 (core : SnapshotCoreImpl) (env : Env) (fuel : Nat)
    (t : SnapshotTaskInfo) (w : World) (x : PipelineExit) (t1 : SnapshotTaskInfo) (w1 : World)
    (hrun : HandleCreateSnapshotTask core env fuel t w = Except.ok (x, t1, w1))
    (existIndexData : Bool) (t0 : SnapshotTaskInfo) (w0 : World)
    (hreach : CreateReach core env fuel t w (CreatePlace.stage2 existIndexData) t0 w0) :
    CreateOutcome core env fuel t w x := by
  have hrest := CreateReach_rest core env fuel t w _ t0 w0 hreach
  rw [hrun] at hrest
  have hrest2 : Except.ok (x, t1, w1) = createIndex core env fuel existIndexData t0 w0 := hrest
  cases existIndexData with
  | true =>
    cases hget : (w0.GetChunkIndexData env ⟨t0.fileName_, t0.snapshotInfo.seqNum⟩).1 with
    | none => exact Or.inl ⟨_, _, CreateFails.load t0 w0 hreach hget⟩
    | some indexData =>
      cases hseg : BuildSegmentInfo env
          (t0.SetProgress kProgressBuildChunkIndexDataComplete).snapshotInfo with
      | error e =>
        exfalso
        unfold createIndex at hrest2
        simp only [if_true, hget, hseg] at hrest2
        cases hrest2
      | ok r =>
        obtain ⟨ret, segInfos⟩ := r
        cases hneg : ret.isNegative with
        | true =>
          exact Or.inl ⟨_, _, CreateFails.segments t0 w0 indexData ret segInfos hreach hget hseg
            hneg⟩
        | false =>
          exact outcome_point2 core env fuel t w x t1 w1 hrun _ _ _ _
            (CreateReach.loaded t0 w0 indexData ret segInfos hreach hget hseg hneg)
  | false =>
    cases hbuild : BuildChunkIndexData env t0.snapshotInfo t0 with
    | error e =>
      exfalso
      unfold createIndex at hrest2
      simp only [Bool.false_eq_true, if_false, hbuild] at hrest2
      cases hrest2
    | ok r =>
      obtain ⟨ret, indexData, segInfos, tb⟩ := r
      cases hneg : ret.isNegative with
      | true =>
        exact Or.inl ⟨_, _, CreateFails.build t0 w0 ret indexData segInfos tb hreach hbuild hneg⟩
      | false =>
        by_cases hput :
          (w0.PutChunkIndexData env ⟨t0.fileName_, t0.snapshotInfo.seqNum⟩ indexData).1 < 0
        · exact Or.inl ⟨_, _,
            CreateFails.put t0 w0 ret indexData segInfos tb hreach hbuild hneg hput⟩
        · exact outcome_point2 core env fuel t w x t1 w1 hrun _ _ _ _
            (CreateReach.built t0 w0 ret indexData segInfos tb hreach hbuild hneg hput)

theorem outcome_point1 (core : SnapshotCoreImpl) (env : Env) (fuel : Nat)
    (t : SnapshotTaskInfo) (w : World) (x : PipelineExit) (t1 : SnapshotTaskInfo) (w1 : World)
    (hrun : HandleCreateSnapshotTask core env fuel t w = Except.ok (x, t1, w1))
    (existIndexData : Bool) (t0 : SnapshotTaskInfo) (w0 : World)
    (hreach : CreateReach core env fuel t w (CreatePlace.point1 existIndexData) t0 w0) :
    CreateOutcome core env fuel t w x := by
  cases hflag : env.isCanceled t0.cancelSamples with
  | true =>
    exact Or.inr (Or.inl ⟨_, t0, w0, _, hreach, rfl, hflag,
      CreateReach_seen core env fuel t w _ t0 w0 _ hreach rfl hflag⟩)
  | false =>
    exact outcome_stage2 core env fuel t w x t1 w1 hrun _ _ _
      (CreateReach.unseen1 _ t0 w0 hreach (by rw [IsCanceled_fst]; exact hflag))

/-- Every returning run of `HandleCreateSnapshotTask` has gone one of the three ways of
`CreateOutcome`. -/
theorem create_run_outcome (core : SnapshotCoreImpl) (env : Env) (fuel : Nat)
    (t : SnapshotTaskInfo) (w : World) (x : PipelineExit) (t1 : SnapshotTaskInfo) (w1 : World)
    (hrun : HandleCreateSnapshotTask core env fuel t w = Except.ok (x, t1, w1)) :
    CreateOutcome core env fuel t w x := by
  by_cases hseq : kUnInitializeSeqNum = t.snapshotInfo.seqNum
  · cases hneg : (CreateSnapshotOnCurvefs env t.fileName_ t w).1.isNegative with
    | true => exact Or.inl ⟨_, _, CreateFails.snapshot hseq hneg⟩
    | false =>
      exact outcome_point1 core env fuel t w x t1 w1 hrun _ _ _ (CreateReach.fresh hseq hneg)
  · exact outcome_point1 core env fuel t w x t1 w1 hrun _ _ _ (CreateReach.resumed hseq)


/-! ## Claims on the create pipeline, stage by stage -/

/-- C13. For every run of `HandleCreateSnapshotTask` in which some stage returns a
negative result (`CreateFails`: one of the eight tests `ret < 0` of the function is
true, the stages before it having returned non-negative results and the cancellation
points before it not having seen the flag): the run leaves through the error handler,
called with the task record and the world of that moment; on return the status of the
snapshot is `error` and `Finish` has been signalled; the error handler has issued one
call, the `UpdateSnapshot` of this snapshot with status `error`, and no delete on the
data store, the metadata store or the volume client (the data store and the running
transfers are as they were when the stage returned); and the records of all other
snapshots are as before the run. -/
theorem C13_create_failure (core : SnapshotCoreImpl) (env : Env) (fuel : Nat)
    (t : SnapshotTaskInfo) (w : World) (tF : SnapshotTaskInfo) (wF : World)
    (hfail : CreateFails core env fuel t w tF wF) :
    HandleCreateSnapshotTask core env fuel t w
      = Except.ok (PipelineExit.error, HandleCreateSnapshotError env tF wF) ∧
    (HandleCreateSnapshotError env tF wF).1.snapshotInfo.status = Status.error ∧
    (HandleCreateSnapshotError env tF wF).1.isFinished_ = true ∧
    (HandleCreateSnapshotError env tF wF).2.calls
      = wF.calls ++
        [Call.metaStore (MetaCall.UpdateSnapshot (tF.snapshotInfo.SetStatus Status.error))
          (env.metaRet wF.clock)] ∧
    (HandleCreateSnapshotError env tF wF).2.dataStore = wF.dataStore ∧
    (HandleCreateSnapshotError env tF wF).2.inflight = wF.inflight ∧
    (HandleCreateSnapshotError env tF wF).2.metaStore
      = wF.metaStore.UpdateSnapshot (tF.snapshotInfo.SetStatus Status.error)
          (env.metaRet wF.clock) ∧
    (HandleCreateSnapshotError env tF wF).2.metaStore.others t.snapshotInfo.uuid t.uuid_
      = w.metaStore.others t.snapshotInfo.uuid t.uuid_ := by
  have hrun := CreateFails_run core env fuel t w tF wF hfail
  have hf := HandleCreateSnapshotTask_facts core env fuel t w PipelineExit.error
    (HandleCreateSnapshotError env tF wF).1 (HandleCreateSnapshotError env tF wF).2 hrun
  exact ⟨hrun, rfl, rfl, rfl, rfl, rfl, rfl, hf.reach.others_eq⟩

/-- Witness of C13: the data store is down. Stage 1 succeeds, cancellation point 1
does not see the flag, `BuildChunkIndexData` succeeds and `PutChunkIndexData` returns
-1: the run leaves through the error handler with status `error`, and no delete has
been issued. -/
theorem C13_create_failure_witness :
    (∃ tF wF, CreateFails pipeCore storeDownEnv 5 (taskOf (pendingInfo "id1"))
        (worldOf [pendingInfo "id1"]) tF wF ∧
      createRun storeDownEnv
        = Except.ok (PipelineExit.error, HandleCreateSnapshotError storeDownEnv tF wF) ∧
      (HandleCreateSnapshotError storeDownEnv tF wF).1.snapshotInfo.status = Status.error ∧
      (HandleCreateSnapshotError storeDownEnv tF wF).1.isFinished_ = true) ∧
    exitOf (createRun storeDownEnv) = some PipelineExit.error ∧
    (taskAfterD (createRun storeDownEnv)).snapshotInfo.status = Status.error ∧
    (worldAfterD (createRun storeDownEnv)).calls.any Call.isRollback = false :=
  have hfail : CreateFails pipeCore storeDownEnv 5 (taskOf (pendingInfo "id1"))
      (worldOf [pendingInfo "id1"]) _ _ :=
    CreateFails.put _ _ _ _ _ _
      (CreateReach.unseen1 false _ _ (CreateReach.fresh rfl rfl) rfl) rfl rfl (by decide)
  have h := C13_create_failure pipeCore storeDownEnv 5 (taskOf (pendingInfo "id1"))
    (worldOf [pendingInfo "id1"]) _ _ hfail
  ⟨⟨_, _, hfail, h.1, h.2.1, h.2.2.1⟩, by decide, by decide, by decide⟩

/-- C17. Cancel after index build: for every run of the create pipeline that comes to
cancellation point 2 (stage 2 has returned a non-negative result and cancellation
point 1 has not seen the flag), in which the sample of the flag at cancellation
point 2 is true and every rollback call succeeds (the data store deletes the chunk
index, the volume client deletes the upstream snapshot, which takes `n` polls with
`n` below the fuel, and the metadata store deletes the record): the run returns from
the end of the rollback chain; the chunk index data is deleted, the upstream snapshot
delete is issued, the record is deleted from the metadata store, `Finish` is signalled,
the last three calls of the run are these deletes in the order index, upstream
snapshot, record, and no chunk-transfer task has been submitted: no other call of the
run is a `PushTask`, and the chunk blobs of the store and the running transfers are as
before the run. -/
theorem C17_cancel_after_index (core : SnapshotCoreImpl) (env : Env) (fuel : Nat)
    (t : SnapshotTaskInfo) (w : World) (indexData : ChunkIndexData)
    (segInfos : List (Nat × SegmentInfo)) (t0 : SnapshotTaskInfo) (w0 : World) (n : Nat)
    (hreach : CreateReach core env fuel t w (CreatePlace.point2 indexData segInfos) t0 w0)
    (hflag : env.isCanceled t0.cancelSamples = true)
    (hindex : ¬ env.dataRet w0.clock < 0)
    (hfuel : n < fuel)
    (hclient : env.deletesSnapshotAt (w0.clock + 1) n)
    (hrecord : ¬ env.metaRet (w0.clock + 1 + 1 + n + 1) < 0) :
    ∃ t1 w1,
      HandleCreateSnapshotTask core env fuel t w
        = Except.ok (PipelineExit.canceled, t1, w1) ∧
      w1.dataStore.ChunkIndexDataExist ⟨t.fileName_, t1.snapshotInfo.seqNum⟩ = false ∧
      w1.metaStore.GetSnapshotInfo t.uuid_ = none ∧
      t1.isFinished_ = true ∧
      (∃ pre r1 r2, ¬ r1 < 0 ∧ ¬ r2 < 0 ∧ (∀ c ∈ pre, c.isPushTask = false) ∧
        w1.calls = w.calls ++ pre ++
          [Call.DeleteChunkIndexData ⟨t.fileName_, t1.snapshotInfo.seqNum⟩ r1,
           Call.ClientDeleteSnapshot t1.snapshotInfo.fileName t1.snapshotInfo.user
            t1.snapshotInfo.seqNum,
           Call.metaStore (MetaCall.DeleteSnapshot t.uuid_) r2]) ∧
      w1.dataStore.chunkData = w.dataStore.chunkData ∧ w1.inflight = w.inflight := by
  obtain ⟨w1, hroll⟩ := CancelAfterCreateChunkIndexData_success env fuel
    (t0.IsCanceled env).2 w0 n hfuel hindex hclient hrecord
  have hrun : HandleCreateSnapshotTask core env fuel t w
      = Except.ok (PipelineExit.canceled, (t0.IsCanceled env).2.Finish, w1) := by
    rw [CreateReach_rest core env fuel t w _ t0 w0 hreach]
    show createAfterIndex core env fuel indexData segInfos t0 w0 = _
    unfold createAfterIndex
    rw [if_pos (by rw [IsCanceled_fst]; exact hflag)]
    exact hroll
  have hpoint : (t0.IsCanceled env).2.Finish.progress_ = kProgressBuildChunkIndexDataComplete := by
    rw [Finish_progress, IsCanceled_progress]
    exact CreateReach_point2_progress core env fuel t w indexData segInfos t0 w0 hreach
  exact ⟨_, w1, hrun, cancel_after_index_facts core env fuel t w _ w1 hrun hpoint⟩

/-- Witness of C17: the flag is set after the eight samples of `BuildChunkIndexData` and
before cancellation point 2; every call succeeds. -/
theorem C17_cancel_after_index_witness :
    ∃ indexData segInfos t0 w0,
      CreateReach pipeCore (cancelAt 9) 5 (taskOf (pendingInfo "id1"))
        (worldOf [pendingInfo "id1"]) (CreatePlace.point2 indexData segInfos) t0 w0 ∧
      t0.cancelSamples = 9 ∧ (cancelAt 9).isCanceled 9 = true ∧
      (cancelAt 9).isCanceled 8 = false ∧
      ∃ t1 w1, createRun (cancelAt 9) = Except.ok (PipelineExit.canceled, t1, w1) ∧
        w1.dataStore.ChunkIndexDataExist ⟨"/a", t1.snapshotInfo.seqNum⟩ = false ∧
        w1.metaStore.GetSnapshotInfo "id1" = none ∧ t1.isFinished_ = true ∧
        w1.dataStore.chunkData = [] :=
  have hreach : CreateReach pipeCore (cancelAt 9) 5 (taskOf (pendingInfo "id1"))
      (worldOf [pendingInfo "id1"]) (CreatePlace.point2 _ _) _ _ :=
    CreateReach.built _ _ _ _ _ _
      (CreateReach.unseen1 false _ _ (CreateReach.fresh rfl rfl) rfl) rfl rfl (by decide)
  have h := C17_cancel_after_index pipeCore (cancelAt 9) 5 (taskOf (pendingInfo "id1"))
    (worldOf [pendingInfo "id1"]) _ _ _ _ 0 hreach rfl (by decide) (by decide)
    ⟨Or.inl rfl, fun k hk => absurd hk (Nat.not_lt_zero k), Or.inl rfl⟩ (by decide)
  ⟨_, _, _, _, hreach, rfl, rfl, rfl,
    h.imp (fun _ h1 => h1.imp (fun _ h2 =>
      ⟨h2.1, h2.2.1, h2.2.2.1, h2.2.2.2.1, h2.2.2.2.2.2.1⟩))⟩


/-- C19, as the code has it. Once canceled, never done: for every run of the create
pipeline that returns, in which the cancel flag is monotone and true at some sample
`k` the run takes (the samples inside `BuildChunkIndexData` and `TransferSnapshotData`
included): the run does not leave through the success path, it does not pass 100 to
`SetProgress`, the status of the task is `error` or the one it had, and no snapshot that
was not `done` is `done` in the metadata store afterwards. Whenever the run comes to a
cancellation point whose sample is the sample `k` or a later one (the next cancellation
point after the sample; the stages in between have returned non-negative results), it
takes the rollback chain of that point: from there on the run is rollback-1 at point 1,
rollback-2 at point 2 and rollback-3 at point 3. And one of the two happens: the run
comes to such a cancellation point and goes on as its rollback chain, or a stage before
it returns a negative result and the run ends in the error handler. When the run
returns from the end of a rollback chain (the error handler has not taken over), the
record of the snapshot is removed, and unless the flag was already set at cancellation
point 1 the chunk index data, a partially built one included, is deleted. -/
theorem C19_once_canceled_never_done (core : SnapshotCoreImpl) (env : Env) (fuel : Nat)
    (t : SnapshotTaskInfo) (w : World) (x : PipelineExit) (t1 : SnapshotTaskInfo) (w1 : World)
    (k : Nat)
    (hrun : HandleCreateSnapshotTask core env fuel t w = Except.ok (x, t1, w1))
    (hmono : ∀ a b, a ≤ b → env.isCanceled a = true → env.isCanceled b = true)
    (hk1 : t.cancelSamples ≤ k) (hk2 : k < t1.cancelSamples)
    (hk3 : env.isCanceled k = true) :
    x ≠ PipelineExit.done ∧
    (∃ new, t1.progressLog = t.progressLog ++ new ∧ kProgressComplete ∉ new) ∧
    (t1.snapshotInfo.status = Status.error ∨
      t1.snapshotInfo.status = t.snapshotInfo.status) ∧
    (t.snapshotInfo.status ≠ Status.done → ∀ u,
      w1.metaStore.statusOf u = some Status.done →
      w.metaStore.statusOf u = some Status.done) ∧
    (∀ p t0 w0 chain, CreateReach core env fuel t w p t0 w0 →
      p.rollback env fuel t0 w0 = some chain → k ≤ t0.cancelSamples →
      HandleCreateSnapshotTask core env fuel t w = chain) ∧
    ((∃ p t0 w0 chain, CreateReach core env fuel t w p t0 w0 ∧
        p.rollback env fuel t0 w0 = some chain ∧ k ≤ t0.cancelSamples ∧
        HandleCreateSnapshotTask core env fuel t w = chain) ∨
      (∃ tF wF, CreateFails core env fuel t w tF wF ∧ x = PipelineExit.error)) ∧
    (x = PipelineExit.canceled →
      w1.metaStore.GetSnapshotInfo t.uuid_ = none ∧
      (env.isCanceled t.cancelSamples = false →
        w1.dataStore.ChunkIndexDataExist ⟨t.fileName_, t1.snapshotInfo.seqNum⟩ = false)) := by
  obtain ⟨h1, h2, h3, h4, h5⟩ :=
    once_canceled_facts core env fuel t w x t1 w1 k hrun hmono hk1 hk2 hk3
  refine ⟨h1, h2, h3, h4, ?_, ?_, h5⟩
  · intro p t0 w0 chain hreach hchain hle
    exact CreateReach_seen core env fuel t w p t0 w0 chain hreach hchain
      (hmono k _ hle hk3)
  · rcases create_run_outcome core env fuel t w x t1 w1 hrun with
      ⟨tF, wF, hfail⟩ | ⟨p, t0, w0, chain, hreach, hchain, _, heq⟩ | ⟨_, _, _, hdone⟩
    · right
      refine ⟨tF, wF, hfail, ?_⟩
      have hr := CreateFails_run core env fuel t w tF wF hfail
      rw [hrun] at hr
      simp only [Except.ok.injEq, Prod.mk.injEq] at hr
      exact hr.1
    · left
      refine ⟨p, t0, w0, chain, hreach, hchain, ?_, heq⟩
      rw [hrun] at heq
      rw [← heq] at hchain
      have hs := rollback_samples env fuel p t0 w0 x t1 w1 hchain
      omega
    · exact absurd hdone h1

/-- Witness of C19: the flag is set while `BuildChunkIndexData` looks at the first
chunk; the function returns early, the partial (empty) index is stored, the run comes
to cancellation point 2, whose sample is sample 2, takes rollback-2 there, and
rollback-2 deletes the index and the record. -/
theorem C19_once_canceled_never_done_witness :
    createRun (cancelAt 1)
      = Except.ok (PipelineExit.canceled, taskAfterD (createRun (cancelAt 1)),
          worldAfterD (createRun (cancelAt 1))) ∧
    (∀ a b, a ≤ b → (cancelAt 1).isCanceled a = true → (cancelAt 1).isCanceled b = true) ∧
    (taskOf (pendingInfo "id1")).cancelSamples ≤ 1 ∧
    1 < (taskAfterD (createRun (cancelAt 1))).cancelSamples ∧
    (cancelAt 1).isCanceled 1 = true ∧
    Call.PutChunkIndexData ⟨"/a", 10⟩ ⟨"/a", []⟩ 0 ∈ (worldAfterD (createRun (cancelAt 1))).calls ∧
    (∃ indexData segInfos t0 w0,
      CreateReach pipeCore (cancelAt 1) 5 (taskOf (pendingInfo "id1"))
        (worldOf [pendingInfo "id1"]) (CreatePlace.point2 indexData segInfos) t0 w0 ∧
      t0.cancelSamples = 2 ∧
      createRun (cancelAt 1)
        = CancelAfterCreateChunkIndexData (cancelAt 1) 5 (t0.IsCanceled (cancelAt 1)).2 w0) ∧
    (worldAfterD (createRun (cancelAt 1))).metaStore.GetSnapshotInfo "id1" = none ∧
    (worldAfterD (createRun (cancelAt 1))).dataStore.ChunkIndexDataExist ⟨"/a", 10⟩ = false :=
  have hmono : ∀ a b, a ≤ b → (cancelAt 1).isCanceled a = true →
      (cancelAt 1).isCanceled b = true := by
    intro a b hab ha
    simp only [cancelAt, decide_eq_true_eq] at ha ⊢
    omega
  have hreach : CreateReach pipeCore (cancelAt 1) 5 (taskOf (pendingInfo "id1"))
      (worldOf [pendingInfo "id1"]) (CreatePlace.point2 _ _) _ _ :=
    CreateReach.built _ _ _ _ _ _
      (CreateReach.unseen1 false _ _ (CreateReach.fresh rfl rfl) rfl) rfl rfl (by decide)
  have h := C19_once_canceled_never_done pipeCore (cancelAt 1) 5 (taskOf (pendingInfo "id1"))
    (worldOf [pendingInfo "id1"]) PipelineExit.canceled (taskAfterD (createRun (cancelAt 1)))
    (worldAfterD (createRun (cancelAt 1))) 1 rfl hmono (by decide) (by decide) (by decide)
  ⟨rfl, hmono, by decide, by decide, by decide, by decide,
    ⟨_, _, _, _, hreach, rfl, h.2.2.2.2.1 _ _ _ _ hreach rfl (by decide)⟩,
    (h.2.2.2.2.2.2 rfl).1, (h.2.2.2.2.2.2 rfl).2 (by decide)⟩

/-- Counterexample to C19 as stated: the flag is set while `BuildChunkIndexData` looks
at the first chunk and stays set, but the data store then refuses the chunk index; the
run ends in the error handler, not in the rollback chain of cancellation point 2: no
rollback call is issued and the record stays, with status `error`. -/
theorem C19_once_canceled_never_done_counterexample :
    (∀ a b, a ≤ b → cancelDownEnv.isCanceled a = true → cancelDownEnv.isCanceled b = true) ∧
    cancelDownEnv.isCanceled 1 = true ∧
    (taskAfterD (createRun cancelDownEnv)).cancelSamples = 2 ∧
    exitOf (createRun cancelDownEnv) = some PipelineExit.error ∧
    (worldAfterD (createRun cancelDownEnv)).calls.any Call.isRollback = false ∧
    (worldAfterD (createRun cancelDownEnv)).metaStore.statusOf "id1" = some Status.error := by
  refine ⟨?_, by decide, by decide, by decide, by decide, by decide⟩
  intro a b hab ha
  simp only [cancelDownEnv, decide_eq_true_eq] at ha ⊢
  omega


/-- C12, as the code has it. For every run of `HandleCreateSnapshotTask` in which every
collaborator call succeeds (the upstream delete ending after fewer polls than the
fuel), the split size is not 0 and divides the chunk size, the cancel flag is never
set, and in addition the segment size and the chunk size are not 0, every chunk
reports at most two sequence numbers, no segment holds more chunks than
`segmentSize / chunkSize`, the chunk indices of an index stored by an earlier run, if
the run resumes from one, name slots of allocated segments, and the snapshot has a
record in the metadata store: the run returns through its success path; on return the
progress of the task is 100, the status is `done` both in the task record and in the
metadata store, whose record of the snapshot is the one of the task, and `Finish` has
been signalled. The sizes are those of `stageInfo`: the ones `GetSnapshot` reports when
the run begins with stage 1, the ones of the record otherwise. -/
theorem C12_create_success (core : SnapshotCoreImpl) (env : Env) (fuel : Nat)
    (t : SnapshotTaskInfo) (w : World)
    (hcalls : env.AllSucceed fuel)
    (hsplit : core.chunkSplitSize_ ≠ 0 ∧
      (stageInfo env t w).chunkSize % core.chunkSplitSize_ = 0)
    (hflag : ∀ k, env.isCanceled k = false)
    (hseg : (stageInfo env t w).segmentSize ≠ 0)
    (hchunk : (stageInfo env t w).chunkSize ≠ 0)
    (htwo : ∀ cidInfo, (env.getChunkInfo cidInfo).2.chunkSn.length ≤ 2)
    (hfit : ∀ i, i < (stageInfo env t w).fileLength / (stageInfo env t w).segmentSize →
      (env.getSnapshotSegmentInfo (i * (stageInfo env t w).segmentSize)).1 = LibcurveRet.OK →
      (env.getSnapshotSegmentInfo (i * (stageInfo env t w).segmentSize)).2.chunkvec.length
        ≤ (stageInfo env t w).segmentSize / (stageInfo env t w).chunkSize)
    (hstored : kUnInitializeSeqNum ≠ t.snapshotInfo.seqNum →
      ∀ indexData,
        w.dataStore.GetChunkIndexData ⟨t.fileName_, t.snapshotInfo.seqNum⟩ 0 = some indexData →
        ∀ ci ∈ indexData.GetAllChunkIndex, ∃ i j,
          i < (stageInfo env t w).fileLength / (stageInfo env t w).segmentSize ∧
          (env.getSnapshotSegmentInfo (i * (stageInfo env t w).segmentSize)).1
            = LibcurveRet.OK ∧
          j < (env.getSnapshotSegmentInfo
            (i * (stageInfo env t w).segmentSize)).2.chunkvec.length ∧
          j < (stageInfo env t w).segmentSize / (stageInfo env t w).chunkSize ∧
          ci = i * ((stageInfo env t w).segmentSize / (stageInfo env t w).chunkSize) + j)
    (hrec : w.metaStore.GetSnapshotInfo t.snapshotInfo.uuid ≠ none) :
    ∃ t1 w1,
      HandleCreateSnapshotTask core env fuel t w = Except.ok (PipelineExit.done, t1, w1) ∧
      t1.progress_ = 100 ∧ t1.snapshotInfo.status = Status.done ∧
      w1.metaStore.GetSnapshotInfo t.snapshotInfo.uuid = some t1.snapshotInfo ∧
      w1.metaStore.statusOf t.snapshotInfo.uuid = some Status.done ∧
      t1.isFinished_ = true := by
  have hcond : ¬ (core.chunkSplitSize_ = 0 ∨
      (stageInfo env t w).chunkSize % core.chunkSplitSize_ ≠ 0) := by
    rintro (h | h)
    · exact hsplit.1 h
    · exact h hsplit.2
  have hdone : ∃ t1 w1, HandleCreateSnapshotTask core env fuel t w
      = Except.ok (PipelineExit.done, t1, w1) := by
    by_cases hseqn : kUnInitializeSeqNum = t.snapshotInfo.seqNum
    · have hs1 := CreateSnapshotOnCurvefs_success env t.fileName_ t w
        (hcalls.createSnapshot _) (hcalls.getSnapshot _) (hcalls.metaRet _)
      have h1 : CreateReach core env fuel t w (CreatePlace.point1 false) _ _ :=
        CreateReach.fresh hseqn (by rw [hs1]; rfl)
      have h2 := CreateReach.unseen1 false _ _ h1 (by rw [IsCanceled_fst]; exact hflag _)
      exact CreateReach_build_done core env fuel t w _ _ h2 hcalls hflag htwo hseg hchunk
        hcond hfit
    · have h1 : CreateReach core env fuel t w
          (CreatePlace.point1
            (w.dataStore.ChunkIndexDataExist ⟨t.fileName_, t.snapshotInfo.seqNum⟩)) t w :=
        CreateReach.resumed hseqn
      have h2 := CreateReach.unseen1 _ _ _ h1 (by rw [IsCanceled_fst]; exact hflag _)
      cases he : w.dataStore.ChunkIndexDataExist ⟨t.fileName_, t.snapshotInfo.seqNum⟩ with
      | false =>
        rw [he] at h2
        exact CreateReach_build_done core env fuel t w _ _ h2 hcalls hflag htwo hseg hchunk
          hcond hfit
      | true =>
        rw [he] at h2
        obtain ⟨indexData, hidx⟩ := exist_GetChunkIndexData _ _ he
        exact CreateReach_load_done core env fuel t w _ _ indexData h2 hidx hcalls hflag
          hseg hchunk hcond (hstored hseqn indexData hidx)
  obtain ⟨t1, w1, hrun⟩ := hdone
  exact ⟨t1, w1, hrun, create_done_facts core env fuel t w t1 w1 hrun hrec⟩

/-- Witness of C12: the create pipeline on a pending snapshot in a quiet environment. -/
theorem C12_create_success_witness :
    (quietEnv 10).AllSucceed 5 ∧
    (∀ k, (quietEnv 10).isCanceled k = false) ∧
    ∃ t1 w1, createRun (quietEnv 10) = Except.ok (PipelineExit.done, t1, w1) ∧
      t1.progress_ = 100 ∧ t1.snapshotInfo.status = Status.done ∧
      w1.metaStore.statusOf "id1" = some Status.done ∧ t1.isFinished_ = true :=
  have hcalls : (quietEnv 10).AllSucceed 5 :=
    ⟨fun _ => Or.inl rfl, fun _ => rfl, fun _ => Or.inl rfl, fun _ => rfl,
      fun _ => ⟨0, by decide, Or.inl rfl, fun k hk => absurd hk (Nat.not_lt_zero k),
        Or.inl rfl⟩,
      fun _ => (by decide : ¬ (0 : Int) < 0), fun _ => (by decide : ¬ (0 : Int) < 0),
      fun _ => (by decide : ¬ (0 : Int) < 0)⟩
  have h := C12_create_success pipeCore (quietEnv 10) 5 (taskOf (pendingInfo "id1"))
    (worldOf [pendingInfo "id1"]) hcalls ⟨by decide, by decide⟩ (fun _ => rfl)
    (by decide) (by decide)
    (fun cidInfo => by
      show (if cidInfo.cid_ = 7 then [3] else []).length ≤ 2
      split <;> decide)
    (fun _ _ _ => Nat.le_refl 4) (fun hne => absurd rfl hne) (by decide)
  ⟨hcalls, fun _ => rfl,
    h.imp (fun _ h1 => h1.imp (fun _ h2 =>
      ⟨h2.1, h2.2.1, h2.2.2.1, h2.2.2.2.2.1, h2.2.2.2.2.2⟩))⟩

/-- Counterexample to C12 as stated, five runs in which every collaborator call
succeeds, the split size 4 divides the chunk size and nobody cancels. In the first
every chunk reports three sequence numbers: `BuildChunkIndexData` returns an internal
error and the run ends in the error handler with status `error` and progress 5. In the
second every segment is answered with five chunks, one more than
`segmentSize / chunkSize`, and the chunk in slot 4 of the last segment has been
written: its chunk index 8 maps to a segment the volume does not have, the validation
of `TransferSnapshotData` returns an internal error and the run ends in the error
handler. In the third `GetSnapshot` reports the segment size 0 and
`BuildChunkIndexData` divides by it: the run does not return, so it never comes to
the state the claim promises. In the fourth the run
resumes from a stored index whose chunk index 99 is beyond the volume: the run ends in
the error handler. In the fifth `GetSnapshot` reports the chunk size 0, which the
split size divides, and `BuildChunkIndexData` divides the segment size by it: the run
does not return. -/
theorem C12_create_success_counterexample :
    (threeSeqEnv.AllSucceed 5 ∧ (∀ k, threeSeqEnv.isCanceled k = false) ∧
      (threeSeqEnv.getSnapshot 1).2.chunksize % pipeCore.chunkSplitSize_ = 0 ∧
      exitOf (createRun threeSeqEnv) = some PipelineExit.error ∧
      (taskAfterD (createRun threeSeqEnv)).progress_ = 5 ∧
      (taskAfterD (createRun threeSeqEnv)).snapshotInfo.status = Status.error ∧
      (worldAfterD (createRun threeSeqEnv)).metaStore.statusOf "id1" = some Status.error) ∧
    (overfullEnv.AllSucceed 5 ∧ (∀ k, overfullEnv.isCanceled k = false) ∧
      (∀ cidInfo, (overfullEnv.getChunkInfo cidInfo).2.chunkSn.length ≤ 2) ∧
      (overfullEnv.getSnapshot 1).2.chunksize % pipeCore.chunkSplitSize_ = 0 ∧
      exitOf (createRun overfullEnv) = some PipelineExit.error ∧
      (taskAfterD (createRun overfullEnv)).snapshotInfo.status = Status.error ∧
      (worldAfterD (createRun overfullEnv)).metaStore.statusOf "id1" = some Status.error) ∧
    (zeroSegmentEnv.AllSucceed 5 ∧ (∀ k, zeroSegmentEnv.isCanceled k = false) ∧
      (zeroSegmentEnv.getSnapshot 1).2.chunksize % pipeCore.chunkSplitSize_ = 0 ∧
      createRun zeroSegmentEnv = Except.error Abort.divisionByZero) ∧
    ((quietEnv 10).AllSucceed 5 ∧ (∀ k, (quietEnv 10).isCanceled k = false) ∧
      (snapOf "id1" 10 Status.pending).chunkSize % pipeCore.chunkSplitSize_ = 0 ∧
      exitOf (HandleCreateSnapshotTask pipeCore (quietEnv 10) 5
        (taskOf (snapOf "id1" 10 Status.pending)) strayIndexWorld)
        = some PipelineExit.error ∧
      (worldAfterD (HandleCreateSnapshotTask pipeCore (quietEnv 10) 5
        (taskOf (snapOf "id1" 10 Status.pending)) strayIndexWorld)).metaStore.statusOf "id1"
        = some Status.error) ∧
    (zeroChunkEnv.AllSucceed 5 ∧ (∀ k, zeroChunkEnv.isCanceled k = false) ∧
      (zeroChunkEnv.getSnapshot 1).2.chunksize % pipeCore.chunkSplitSize_ = 0 ∧
      createRun zeroChunkEnv = Except.error Abort.divisionByZero) := by
  have hdel : ∀ (env : Env), (∀ k, env.deleteSnapshot k = LibcurveRet.OK) →
      (∀ k, (env.checkSnapShotStatus k).1 = LibcurveRet.NOTEXIST) →
      ∀ c, ∃ n, n < 5 ∧ env.deletesSnapshotAt c n :=
    fun env h1 h2 c =>
      ⟨0, by decide, Or.inl (h1 c), fun k hk => absurd hk (Nat.not_lt_zero k),
        Or.inl (h2 _)⟩
  refine ⟨⟨?_, fun _ => rfl, by decide, by decide, by decide, by decide, by decide⟩,
    ⟨?_, fun _ => rfl, ?_, by decide, by decide, by decide, by decide⟩,
    ⟨?_, fun _ => rfl, by decide, rfl⟩,
    ⟨?_, fun _ => rfl, by decide, by decide, by decide⟩,
    ⟨?_, fun _ => rfl, by decide, rfl⟩⟩
  · exact ⟨fun _ => Or.inl rfl, fun _ => rfl, fun _ => Or.inl rfl, fun _ => rfl,
      hdel _ (fun _ => rfl) (fun _ => rfl),
      fun _ => (by decide : ¬ (0 : Int) < 0), fun _ => (by decide : ¬ (0 : Int) < 0),
      fun _ => (by decide : ¬ (0 : Int) < 0)⟩
  · exact ⟨fun _ => Or.inl rfl, fun _ => rfl, fun _ => Or.inl rfl, fun _ => rfl,
      hdel _ (fun _ => rfl) (fun _ => rfl),
      fun _ => (by decide : ¬ (0 : Int) < 0), fun _ => (by decide : ¬ (0 : Int) < 0),
      fun _ => (by decide : ¬ (0 : Int) < 0)⟩
  · intro cidInfo
    show (if cidInfo.cid_ = 8 then [3] else []).length ≤ 2
    split <;> decide
  · exact ⟨fun _ => Or.inl rfl, fun _ => rfl, fun _ => Or.inl rfl, fun _ => rfl,
      hdel _ (fun _ => rfl) (fun _ => rfl),
      fun _ => (by decide : ¬ (0 : Int) < 0), fun _ => (by decide : ¬ (0 : Int) < 0),
      fun _ => (by decide : ¬ (0 : Int) < 0)⟩
  · exact ⟨fun _ => Or.inl rfl, fun _ => rfl, fun _ => Or.inl rfl, fun _ => rfl,
      hdel _ (fun _ => rfl) (fun _ => rfl),
      fun _ => (by decide : ¬ (0 : Int) < 0), fun _ => (by decide : ¬ (0 : Int) < 0),
      fun _ => (by decide : ¬ (0 : Int) < 0)⟩
  · exact ⟨fun _ => Or.inl rfl, fun _ => rfl, fun _ => Or.inl rfl, fun _ => rfl,
      hdel _ (fun _ => rfl) (fun _ => rfl),
      fun _ => (by decide : ¬ (0 : Int) < 0), fun _ => (by decide : ¬ (0 : Int) < 0),
      fun _ => (by decide : ¬ (0 : Int) < 0)⟩


end snapshotcloneserver
end curve
